import Mathlib

/-!
# ffmpeg-platform: command builder and process supervisor

A shallow embedding of `backend/service/ffmpeg.go` (the command builder) and
`backend/pkg/ffmpeg/executor.go` (the process supervisor), with the properties
the design document states about them.

Conventions of the embedding:

* Go `string` is a Lean `String` (the text is taken to be valid UTF-8);
  `strings.*` helpers work on the list of characters.
* Go `int` is `Int`; `len` is a `Nat`.
* Go `float64` is `F64`, IEEE 754 binary64: every operation rounds its exact
  result to the nearest value, ties to even, overflows to an infinity, and
  yields NaN where IEEE does.  Each operation rounds on its own (no fused
  multiply-add: the default amd64 build).  The two zeros are one value: the
  program never prints a zero of its own making with a sign, divides by `+0`
  only, and converts with `int`, which ignores the sign.
* A number that reaches the program as decimal text (a JSON field of the
  request, the duration `ffprobe` prints, a capture of a status line) is
  carried as the rational the text denotes; the function that reads it applies
  `f64Round`, the conversion of the decoder.  The JSON decoder and
  `GetAudioDuration` reject a number beyond the range of `float64`, so such a
  number does not reach the command builder; a capture of a status line is
  kept whatever the error, an infinity included.
* The percentage of a progress event and the wall-clock duration of a run
  stay exact rationals (the quotient before rounding); frame counts, ETA,
  timeline lengths and cross-fade offsets are computed in `F64`.
* `time.Time` and `time.Duration` are integers counting nanoseconds.
* External collaborators (the HTTP fetch of the downloader, `ffprobe`) are
  parameters collected in `Env`.
-/

namespace FFmpegPlatform

/-! ## Go primitives -/

/-- A value of Go `float64` (IEEE 754 binary64): a finite number, an infinity
(`neg` tells the sign) or NaN.  A finite value is carried as the rational it
denotes; the two zeros are one value (see the header). -/
inductive F64 where
  | fin (q : ℚ)
  | inf (neg : Bool)
  | nan
  deriving DecidableEq

/-- Rounding to the nearest integer, a tie going to the even neighbour. -/
def roundHalfEven (q : ℚ) : Int :=
  let f : Int := ⌊q⌋
  let d : ℚ := q - f
  if d < 1 / 2 then f
  else if 1 / 2 < d then f + 1
  else if f % 2 = 0 then f else f + 1

/-- The binary exponent binary64 gives a non-zero number: `⌊log₂ |x|⌋`, and
`-1022` for every number below `2 ^ (-1022)` (the subnormal range). -/
def f64Exponent (x : ℚ) : Int :=
  max (Int.log 2 |x|) (-1022)

/-- The binary64 value nearest to a rational, ties to the even significand
(the rounding of every arithmetic operation, of `float64(n)`, of
`strconv.ParseFloat` and of the JSON decoder): the number is rounded to a
multiple of `2 ^ (e - 52)`, `e` its exponent, and a result of magnitude
`2 ^ 1024` or more is an infinity. -/
def f64Round (x : ℚ) : F64 :=
  if x = 0 then .fin 0
  else
    let ulp : ℚ := 2 ^ (f64Exponent x - 52)
    let r : ℚ := (roundHalfEven (x / ulp) : ℚ) * ulp
    if 2 ^ 1024 ≤ |r| then .inf (decide (x < 0)) else .fin r

/-- The value is one binary64 can hold. -/
def F64.IsFloat : F64 → Prop
  | .fin q => f64Round q = .fin q
  | _ => True

instance : DecidablePred F64.IsFloat := fun x =>
  match x with
  | .fin q => inferInstanceAs (Decidable (f64Round q = .fin q))
  | .inf _ => isTrue trivial
  | .nan => isTrue trivial

/-- Go conversion `float64(n)` of an `int`. -/
def F64.ofInt (n : Int) : F64 :=
  f64Round n

/-- Go `-x`. -/
def F64.neg : F64 → F64
  | .fin q => .fin (-q)
  | .inf s => .inf (!s)
  | .nan => .nan

/-- Go `x + y` on `float64`. -/
def F64.add : F64 → F64 → F64
  | .fin a, .fin b => f64Round (a + b)
  | .fin _, .inf t => .inf t
  | .inf s, .fin _ => .inf s
  | .inf s, .inf t => if s = t then .inf s else .nan
  | .nan, _ => .nan
  | .fin _, .nan => .nan
  | .inf _, .nan => .nan

/-- Go `x - y` on `float64`. -/
def F64.sub (x y : F64) : F64 :=
  F64.add x (F64.neg y)

/-- Go `x * y` on `float64`. -/
def F64.mul : F64 → F64 → F64
  | .fin a, .fin b => f64Round (a * b)
  | .fin a, .inf t => if a = 0 then .nan else .inf (t != decide (a < 0))
  | .inf s, .fin b => if b = 0 then .nan else .inf (s != decide (b < 0))
  | .inf s, .inf t => .inf (s != t)
  | .nan, _ => .nan
  | .fin _, .nan => .nan
  | .inf _, .nan => .nan

/-- Go `x / y` on `float64`.  A zero divisor counts as `+0`, the only zero the
program divides by. -/
def F64.div : F64 → F64 → F64
  | .fin a, .fin b =>
      if b = 0 then (if a = 0 then .nan else .inf (decide (a < 0)))
      else f64Round (a / b)
  | .fin _, .inf _ => .fin 0
  | .inf s, .fin b => .inf (s != decide (b < 0))
  | .inf _, .inf _ => .nan
  | .nan, _ => .nan
  | .fin _, .nan => .nan
  | .inf _, .nan => .nan

instance : Add F64 := ⟨F64.add⟩
instance : Sub F64 := ⟨F64.sub⟩
instance : Mul F64 := ⟨F64.mul⟩
instance : Div F64 := ⟨F64.div⟩

/-- Go `x > 0` on `float64`. -/
def F64.isPos : F64 → Bool
  | .fin q => decide (0 < q)
  | .inf s => !s
  | .nan => false

/-- The value is not negative: a finite number `≥ 0` or the positive infinity. -/
def F64.NonNeg : F64 → Prop
  | .fin q => 0 ≤ q
  | .inf neg => neg = false
  | .nan => False

instance : DecidablePred F64.NonNeg := fun x =>
  match x with
  | .fin q => inferInstanceAs (Decidable (0 ≤ q))
  | .inf neg => inferInstanceAs (Decidable (neg = false))
  | .nan => isFalse not_false

/-- Go conversion `int(x)` of a `float64` on amd64 (`CVTTSD2SQ`): the fraction
is discarded, truncating towards zero; a value that does not fit `int64`, an
infinity or NaN gives the least `int64`.  (The language leaves these cases to
the implementation.) -/
def goInt : F64 → Int
  | .fin q =>
      let t : Int := if 0 ≤ q then ⌊q⌋ else ⌈q⌉
      if -(2 ^ 63) ≤ t ∧ t < 2 ^ 63 then t else -(2 ^ 63)
  | .inf _ => -(2 ^ 63)
  | .nan => -(2 ^ 63)

/-- Rounding to the nearest integer, halves away from zero (`math.Round`). -/
def roundNearest (x : ℚ) : Int :=
  if 0 ≤ x then ⌊x + 1 / 2⌋ else ⌈x - 1 / 2⌉

/-- A number below one hundred as two decimal digits. -/
def twoDigits (n : Nat) : String :=
  (if n < 10 then "0" else "") ++ toString n

/-- The verb `%.2f` on a finite value: two decimals, nearest, ties to even. -/
def fixed2 (q : ℚ) : String :=
  let scaled : ℚ := |q| * 100
  let fl : Nat := ⌊scaled⌋.toNat
  let r : ℚ := scaled - fl
  let n : Nat :=
    if r < 1 / 2 then fl
    else if 1 / 2 < r then fl + 1
    else if fl % 2 = 0 then fl else fl + 1
  (if q < 0 then "-" else "") ++ toString (n / 100) ++ "." ++ twoDigits (n % 100)

/-- The verb `%.2f` of `fmt.Sprintf` on a `float64`. -/
def fmtFixed2 : F64 → String
  | .fin q => fixed2 q
  | .inf neg => if neg then "-Inf" else "+Inf"
  | .nan => "NaN"

/-- The verb `%d` of `fmt.Sprintf` on an `int`. -/
def fmtInt (n : Int) : String := toString n

/-- Go `strings.HasPrefix`. -/
def hasPrefix (s pre : String) : Bool :=
  pre.toList.isPrefixOf s.toList

/-! ## Data model (`model/task.go`) -/

/-- Go struct `model.TaskInputParams`. -/
structure TaskInputParams where
  OutputFormat : String := ""
  VideoCodec : String := ""
  AudioCodec : String := ""
  Width : Int := 0
  Height : Int := 0
  FPS : Int := 0
  VideoBitrate : String := ""
  AudioBitrate : String := ""
  ImagePath : String := ""
  AudioPath : String := ""
  AudioLoop : Bool := false
  ImagePaths : List String := []
  ImageDuration : ℚ := 0
  TransitionType : String := ""
  TransitionDur : ℚ := 0
  BackgroundAudio : String := ""

/-! ## Collaborators -/

/-- The external effects the command builder relies on: the remote part of
`Downloader.DownloadFile` (everything after the `isURL` test: temp directory,
HTTP request with retries; it yields the path of the new temp file or the
error) and the `ffprobe` call of `Parser.GetAudioDuration` (it yields the
number `ffprobe` prints, or the error of the call or of the parse). -/
structure Env where
  fetchRemote : String → Except String String
  getAudioDuration : String → Except String ℚ

/-- Go `Downloader.isURL`. -/
def isURL (path : String) : Bool :=
  hasPrefix path "http://" || hasPrefix path "https://"

/-- Go `Downloader.DownloadFile`: a local reference is returned unchanged,
a remote one is fetched into a temp file. -/
def DownloadFile (env : Env) (urlOrPath : String) : Except String String :=
  if !isURL urlOrPath then
    .ok urlOrPath
  else
    env.fetchRemote urlOrPath

/-! ## Command builder (`service/ffmpeg.go`) -/

/-- Go `getVideoCodec`. -/
def getVideoCodec (codec : String) : String :=
  if codec = "" then "libx264" else codec

/-- Go `getAudioCodec`. -/
def getAudioCodec (codec : String) : String :=
  if codec = "" then "aac" else codec

/-- Go `getVideoBitrate`. -/
def getVideoBitrate (bitrate : String) : String :=
  if bitrate = "" then "1M" else bitrate

/-- Go `getAudioBitrate`. -/
def getAudioBitrate (bitrate : String) : String :=
  if bitrate = "" then "128k" else bitrate

/-- Go `getOutputFormat`. -/
def getOutputFormat (format : String) : String :=
  if format = "" then "mp4" else format

/-- The four values a command builder returns, `(args, totalFrames, tempFiles,
err)`, together with the files it handed to `CleanupFile` on the way. -/
structure BuildResult where
  args : List String
  totalFrames : Int
  tempFiles : List String
  err : Option String
  cleaned : List String
  deriving DecidableEq

/-- The early return `return nil, 0, nil, err` after cleaning `tempFiles`. -/
def BuildResult.fail (msg : String) (tempFiles : List String) : BuildResult :=
  { args := [], totalFrames := 0, tempFiles := [], err := some msg, cleaned := tempFiles }

/-- A stream label of the filter graph: `[v%d]`, `[vt%d]` or the final `[v]`. -/
inductive StreamLabel where
  | v (i : Nat)
  | vt (i : Nat)
  | out
  deriving DecidableEq, Repr

/-- One `fmt.Sprintf` call appended to the filter text by
`buildSlideshowFilter`, with the arguments of the call. -/
inductive FilterPiece where
  /-- The text `[%d:v]scale=%d:%d,setsar=1,fps=%d,settb=AVTB[v%d];`. -/
  | scale (i : Nat) (width height fps : Int)
  /-- The text `[v%d]` in front of `concat`. -/
  | concatInput (i : Nat)
  /-- The text `concat=n=%d:v=1:a=0[v]`. -/
  | concat (n : Nat)
  /-- The text `[a][b]xfade=transition=fade:duration=%.2f:offset=%.2f[c]`,
  followed by `;` unless `[c]` is the final `[v]`. -/
  | xfade (in1 in2 : StreamLabel) (dur offset : F64) (dst : StreamLabel)
  deriving DecidableEq

/-- The text of a stream label. -/
def StreamLabel.render : StreamLabel → String
  | .v i => "[v" ++ toString i ++ "]"
  | .vt i => "[vt" ++ toString i ++ "]"
  | .out => "[v]"

/-- The text of one piece, as `fmt.Sprintf` produces it. -/
def FilterPiece.render : FilterPiece → String
  | .scale i width height fps =>
      "[" ++ toString i ++ ":v]scale=" ++ fmtInt width ++ ":" ++ fmtInt height
        ++ ",setsar=1,fps=" ++ fmtInt fps ++ ",settb=AVTB[v" ++ toString i ++ "];"
  | .concatInput i => "[v" ++ toString i ++ "]"
  | .concat n => "concat=n=" ++ toString n ++ ":v=1:a=0[v]"
  | .xfade in1 in2 dur offset dst =>
      in1.render ++ in2.render ++ "xfade=transition=fade:duration=" ++ fmtFixed2 dur
        ++ ":offset=" ++ fmtFixed2 offset ++ dst.render
        ++ (if dst = .out then "" else ";")

/-- The first loop of both branches: one `scale` chain per image,
`for i := 0; i < numImages; i++`. -/
def scalePieces (numImages : Nat) (width height fps : Int) : List FilterPiece :=
  (List.range numImages).map fun i => .scale i width height fps

/-- The body of the loop `for i := 2; i < numImages; i++` of the fade branch. -/
def fadeLoopBody (numImages : Nat) (duration transitionDur : F64) (i : Nat) : FilterPiece :=
  let cumulativeLength : F64 :=
    F64.ofInt (i : Int) * duration - F64.ofInt ((i : Int) - 1) * transitionDur
  let offset : F64 := cumulativeLength - transitionDur
  if (i : Int) = (numImages : Int) - 1 then
    .xfade (.vt (i - 1)) (.v i) transitionDur offset .out
  else
    .xfade (.vt (i - 1)) (.v i) transitionDur offset (.vt i)

/-- The cross-fade chain of the fade branch (everything after the scale loop). -/
def fadeChain (numImages : Nat) (duration transitionDur : F64) : List FilterPiece :=
  if numImages = 2 then
    let offset : F64 := duration - transitionDur
    [.xfade (.v 0) (.v 1) transitionDur offset .out]
  else
    let offset : F64 := duration - transitionDur
    .xfade (.v 0) (.v 1) transitionDur offset (.vt 1)
      :: ((List.range (numImages - 2)).map fun j =>
            fadeLoopBody numImages duration transitionDur (j + 2))

/-- The pieces `buildSlideshowFilter` appends to `filter`, in order.  The
source recurses once with `"fade"` for any other transition type; the
recursion is kept, with the measure that shows it ends. -/
def slideshowPieces (numImages : Nat) (duration transitionDur : F64)
    (transitionType : String) (width height fps : Int) : List FilterPiece :=
  let width := if width = 0 then 1280 else width
  let height := if height = 0 then 720 else height
  if transitionType = "none" then
    scalePieces numImages width height fps
      ++ (List.range numImages).map (fun i => FilterPiece.concatInput i)
      ++ [.concat numImages]
  else if transitionType = "fade" then
    scalePieces numImages width height fps ++ fadeChain numImages duration transitionDur
  else
    slideshowPieces numImages duration transitionDur "fade" width height fps
termination_by (if transitionType = "fade" then 0 else 1 : Nat)
decreasing_by simp_all

/-- Go `FFmpegService.buildSlideshowFilter`: the filter text. -/
def buildSlideshowFilter (imagePaths : List String) (duration transitionDur : F64)
    (transitionType : String) (width height fps : Int) : String :=
  String.join ((slideshowPieces imagePaths.length duration transitionDur transitionType
    width height fps).map FilterPiece.render)

/-- The cross-fade stages of a graph, in order. -/
def xfadeStages (ps : List FilterPiece) : List FilterPiece :=
  ps.filter fun p => match p with
    | .xfade .. => true
    | _ => false

/-- The `offset` argument of a cross-fade stage. -/
def FilterPiece.offset? : FilterPiece → Option F64
  | .xfade _ _ _ offset _ => some offset
  | _ => none

/-- The download loop of `BuildImageSlideshowCommand`: every image is resolved
in turn; the first failure stops the loop with the failing reference, the
error and the temp files recorded so far (the caller cleans them). -/
def downloadImages (env : Env) :
    List String → List String → List String →
      Except (String × String × List String) (List String × List String)
  | [], localImagePaths, tempFiles => .ok (localImagePaths, tempFiles)
  | imagePath :: rest, localImagePaths, tempFiles =>
      match DownloadFile env imagePath with
      | .error e => .error (imagePath, e, tempFiles)
      | .ok localPath =>
          downloadImages env rest (localImagePaths ++ [localPath])
            (if localPath ≠ imagePath then tempFiles ++ [localPath] else tempFiles)

/-- The timeline length `BuildImageSlideshowCommand` computes from the image
count and the (defaulted) durations, before any audio override. -/
def slideshowTimeline (numImages : Nat) (imageDuration transitionDur : F64)
    (transitionType : String) : F64 :=
  if transitionType = "none" then
    F64.ofInt (numImages : Int) * imageDuration
  else
    F64.ofInt (numImages : Int) * imageDuration
      - F64.ofInt ((numImages : Int) - 1) * transitionDur

/-- The local values of `BuildImageSlideshowCommand` once every input is
resolved: defaults applied, timeline and frame count computed. -/
structure SlideshowPlan where
  fps : Int
  imageDuration : F64
  transitionDur : F64
  transitionType : String
  numImages : Nat
  totalDuration : F64
  totalFrames : Int

/-- Lines 278-316 of `BuildImageSlideshowCommand`: defaulting and the frame
count, from the parameters, the number of resolved images and the probed audio
duration (`0` when there is no background audio).  The two durations of the
request and the probed duration are read as `float64` here. -/
def slideshowPlan (params : TaskInputParams) (numImages : Nat) (audioDuration : ℚ) :
    SlideshowPlan :=
  let fps := if params.FPS = 0 then 25 else params.FPS
  let imageDuration : F64 :=
    if f64Round params.ImageDuration = .fin 0 then .fin 3 else f64Round params.ImageDuration
  let transitionDur : F64 :=
    if f64Round params.TransitionDur = .fin 0 then .fin (1 / 2)
    else f64Round params.TransitionDur
  let transitionType := if params.TransitionType = "" then "fade" else params.TransitionType
  let totalDuration := slideshowTimeline numImages imageDuration transitionDur transitionType
  let totalDuration :=
    if (f64Round audioDuration).isPos then f64Round audioDuration else totalDuration
  { fps := fps, imageDuration := imageDuration, transitionDur := transitionDur,
    transitionType := transitionType, numImages := numImages,
    totalDuration := totalDuration,
    totalFrames := goInt (totalDuration * F64.ofInt fps) }

/-- Lines 318-373 of `BuildImageSlideshowCommand`: the argument vector. -/
def slideshowArgs (params : TaskInputParams) (outputPath : String)
    (localImagePaths : List String) (localAudioPath : String) (plan : SlideshowPlan) :
    List String :=
  let filterComplex := buildSlideshowFilter localImagePaths plan.imageDuration
    plan.transitionDur plan.transitionType params.Width params.Height plan.fps
  ["-loglevel", "info", "-stats"]
    ++ (localImagePaths.map fun imgPath =>
          ["-loop", "1", "-t", fmtFixed2 plan.imageDuration, "-i", imgPath]).flatten
    ++ (if localAudioPath ≠ "" then ["-i", localAudioPath] else [])
    ++ ["-filter_complex", filterComplex, "-map", "[v]"]
    ++ (if localAudioPath ≠ "" then
          ["-map", toString localImagePaths.length ++ ":a"] else [])
    ++ ["-c:v", getVideoCodec params.VideoCodec, "-preset", "ultrafast",
        "-b:v", getVideoBitrate params.VideoBitrate, "-r", fmtInt plan.fps,
        "-pix_fmt", "yuv420p"]
    ++ (if localAudioPath ≠ "" then
          ["-c:a", getAudioCodec params.AudioCodec,
           "-b:a", getAudioBitrate params.AudioBitrate, "-shortest"] else [])
    ++ ["-f", getOutputFormat params.OutputFormat, "-y", outputPath]

/-- Go `FFmpegService.BuildImageSlideshowCommand`. -/
def BuildImageSlideshowCommand (env : Env) (params : TaskInputParams)
    (outputPath : String) : BuildResult :=
  if params.ImagePaths.length = 0 then
    BuildResult.fail "no images provided" []
  else
    match downloadImages env params.ImagePaths [] [] with
    | .error (imagePath, e, tempFiles) =>
        BuildResult.fail ("download image " ++ imagePath ++ " failed: " ++ e) tempFiles
    | .ok (localImagePaths, tempFiles) =>
        let finish (localAudioPath : String) (audioDuration : ℚ)
            (tempFiles : List String) : BuildResult :=
          let plan := slideshowPlan params localImagePaths.length audioDuration
          { args := slideshowArgs params outputPath localImagePaths localAudioPath plan,
            totalFrames := plan.totalFrames, tempFiles := tempFiles, err := none,
            cleaned := [] }
        if params.BackgroundAudio ≠ "" then
          match DownloadFile env params.BackgroundAudio with
          | .error e => BuildResult.fail ("download audio failed: " ++ e) tempFiles
          | .ok localAudioPath =>
              let tempFiles :=
                if localAudioPath ≠ params.BackgroundAudio then tempFiles ++ [localAudioPath]
                else tempFiles
              match env.getAudioDuration localAudioPath with
              | .error e => BuildResult.fail ("get audio duration failed: " ++ e) tempFiles
              | .ok audioDuration => finish localAudioPath audioDuration tempFiles
        else
          finish "" 0 tempFiles

/-- Lines 76-112 of `BuildImageAudioToVideoCommand`: the argument vector. -/
def imageAudioArgs (params : TaskInputParams) (outputPath localImagePath localAudioPath : String)
    (fps : Int) : List String :=
  ["-loglevel", "info", "-stats", "-loop", "1", "-i", localImagePath, "-i", localAudioPath,
   "-c:v", getVideoCodec params.VideoCodec, "-preset", "ultrafast",
   "-c:a", getAudioCodec params.AudioCodec,
   "-b:v", getVideoBitrate params.VideoBitrate,
   "-b:a", getAudioBitrate params.AudioBitrate,
   "-r", fmtInt fps, "-pix_fmt", "yuv420p"]
    ++ (if 0 < params.Width ∧ 0 < params.Height then
          ["-vf", "scale=" ++ fmtInt params.Width ++ ":" ++ fmtInt params.Height] else [])
    ++ (if params.AudioLoop then ["-stream_loop", "-1"] else ["-shortest"])
    ++ ["-f", getOutputFormat params.OutputFormat, "-y", outputPath]

/-- Go `FFmpegService.BuildImageAudioToVideoCommand`. -/
def BuildImageAudioToVideoCommand (env : Env) (params : TaskInputParams)
    (outputPath : String) : BuildResult :=
  match DownloadFile env params.ImagePath with
  | .error e => BuildResult.fail ("download image failed: " ++ e) []
  | .ok localImagePath =>
      let tempFiles : List String :=
        if localImagePath ≠ params.ImagePath then [localImagePath] else []
      match DownloadFile env params.AudioPath with
      | .error e => BuildResult.fail ("download audio failed: " ++ e) tempFiles
      | .ok localAudioPath =>
          let tempFiles :=
            if localAudioPath ≠ params.AudioPath then tempFiles ++ [localAudioPath]
            else tempFiles
          match env.getAudioDuration localAudioPath with
          | .error e => BuildResult.fail ("get audio duration failed: " ++ e) tempFiles
          | .ok audioDuration =>
              let fps := if params.FPS = 0 then 25 else params.FPS
              let totalFrames := goInt (f64Round audioDuration * F64.ofInt fps)
              { args := imageAudioArgs params outputPath localImagePath localAudioPath fps,
                totalFrames := totalFrames, tempFiles := tempFiles, err := none,
                cleaned := [] }

/-! ## Process supervisor (`pkg/ffmpeg/executor.go`): text helpers -/

/-- Go `strings.Contains`. -/
def stringsContains (s sub : List Char) : Bool :=
  decide (sub <:+: s)

/-- Go `unicode.IsSpace`, the test behind `strings.TrimSpace`. -/
def unicodeIsSpace (c : Char) : Bool :=
  let n := c.toNat
  (9 ≤ n && n ≤ 13) || n = 32 || n = 0x85 || n = 0xA0 || n = 0x1680
    || (0x2000 ≤ n && n ≤ 0x200A) || n = 0x2028 || n = 0x2029 || n = 0x202F
    || n = 0x205F || n = 0x3000

/-- Go `strings.TrimSpace`. -/
def trimSpace (s : List Char) : List Char :=
  ((s.dropWhile unicodeIsSpace).reverse.dropWhile unicodeIsSpace).reverse

/-- Go `strings.Split(s, "\n")`. -/
def splitLines (s : List Char) : List (List Char) :=
  List.splitOn '\n' s

/-- Go `strings.Join(xs, "\n")`. -/
def joinLines (xs : List (List Char)) : List Char :=
  List.intercalate ['\n'] xs

/-- The value of a run of decimal digits. -/
def decimalValue (ds : List Char) : Nat :=
  ds.foldl (fun acc c => acc * 10 + (c.toNat - 48)) 0

/-- The first result of Go `strconv.Atoi`, which the caller keeps whatever the
error: `0` on a syntax error, the nearest bound of `int` on a range error. -/
def atoi (s : List Char) : Int :=
  let neg : Bool := s.head? = some '-'
  let ds : List Char :=
    match s with
    | '-' :: r => r
    | '+' :: r => r
    | _ => s
  if ds.isEmpty || !ds.all Char.isDigit then 0
  else
    let n : Int := decimalValue ds
    if neg then (if 2 ^ 63 < n then -(2 ^ 63) else -n)
    else (if 2 ^ 63 - 1 < n then 2 ^ 63 - 1 else n)

/-- A decimal numeral made of digits and at most one dot, with a digit
somewhere: its digits read as one number, and the count of digits after the
dot. -/
def parseDecimal (s : List Char) : Option (Nat × Nat) :=
  let ip := s.takeWhile Char.isDigit
  match s.dropWhile Char.isDigit with
  | [] => if ip.isEmpty then none else some (decimalValue ip, 0)
  | '.' :: fp =>
      if fp.all Char.isDigit && !(ip.isEmpty && fp.isEmpty) then
        some (decimalValue (ip ++ fp), fp.length)
      else none
  | _ => none

/-- The first result of Go `strconv.ParseFloat(s, 64)`, which the caller keeps
whatever the error, on the texts the capture groups `[\d.]+` can hold (digits
and dots): the `float64` nearest to the decimal value (an infinity when the
value is out of range), or `0` on a syntax error such as a second dot. -/
def parseFloat (s : List Char) : F64 :=
  match parseDecimal s with
  | some (m, k) => f64Round ((m : ℚ) / 10 ^ k)
  | none => .fin 0

/-! ### The regular expressions of `parseProgress`

Each pattern of the source is a sequence of single-character items, each with
a quantifier, and one capture group.  `matchHere` is the backtracking matcher
(greedy quantifiers, first success wins), which is the leftmost-first
semantics of Go `regexp`; `findSubmatch` tries every start from the left. -/

/-- How often an item may repeat. -/
inductive Quant where
  | one
  | star
  | plus
  deriving DecidableEq

/-- One item of a pattern: a character class, its quantifier, and whether it
lies inside the capture group. -/
structure Atom where
  pred : Char → Bool
  quant : Quant
  cap : Bool

/-- A literal character outside the group. -/
def Atom.lit (c : Char) : Atom :=
  { pred := fun x => x == c, quant := .one, cap := false }

/-- A literal text outside the group. -/
def litText (s : String) : List Atom :=
  s.toList.map Atom.lit

/-- The class `\s` of Go `regexp`: `[\t\n\f\r ]`. -/
def reSpace (c : Char) : Bool :=
  c == '\t' || c == '\n' || c == '\x0c' || c == '\r' || c == ' '

/-- The class `\d`. -/
def reDigit (c : Char) : Bool := c.isDigit

/-- The class `\w`: `[0-9A-Za-z_]`. -/
def reWord (c : Char) : Bool := c.isAlphanum || c == '_'

/-- The class `[\d.]`. -/
def reDigitDot (c : Char) : Bool := c.isDigit || c == '.'

/-- The class `[\d:\.]`. -/
def reDigitColonDot (c : Char) : Bool := c.isDigit || c == ':' || c == '.'

/-- A greedy repetition: the item takes `n` characters, then fewer down to
`lo`, until the continuation `k` matches what is left. -/
def greedy (k : List Char → Option (List Char)) (cap : Bool) (s : List Char) (lo : Nat) :
    Nat → Option (List Char)
  | 0 => if lo = 0 then k s else none
  | n + 1 =>
      if n + 1 < lo then none
      else
        match k (s.drop (n + 1)) with
        | some r => some ((if cap then s.take (n + 1) else []) ++ r)
        | none => greedy k cap s lo n

/-- One item matched at the start of `s`, followed by the continuation `k`
for the rest of the pattern. -/
def matchAtom (a : Atom) (k : List Char → Option (List Char)) (s : List Char) :
    Option (List Char) :=
  match a.quant with
  | .one =>
      match s with
      | c :: s1 =>
          if a.pred c then (k s1).map fun r => if a.cap then c :: r else r
          else none
      | [] => none
  | .star => greedy k a.cap s 0 (s.takeWhile a.pred).length
  | .plus => greedy k a.cap s 1 (s.takeWhile a.pred).length

/-- A match of the pattern at the very start of the text; the result is the
text of the capture group. -/
def matchHere : List Atom → List Char → Option (List Char)
  | [] => fun _ => some []
  | a :: rest => matchAtom a (matchHere rest)

/-- Go `FindStringSubmatch` for a pattern with one group: `match[1]` of the
leftmost match, or `none` when the pattern matches nowhere. -/
def findSubmatch (re : List Atom) : List Char → Option (List Char)
  | [] => matchHere re []
  | c :: s =>
      match matchHere re (c :: s) with
      | some r => some r
      | none => findSubmatch re s

/-- The pattern `frame=\s*(\d+)`. -/
def frameRe : List Atom :=
  litText "frame=" ++ [⟨reSpace, .star, false⟩, ⟨reDigit, .plus, true⟩]

/-- The pattern `fps=\s*([\d.]+)`. -/
def fpsRe : List Atom :=
  litText "fps=" ++ [⟨reSpace, .star, false⟩, ⟨reDigitDot, .plus, true⟩]

/-- The pattern `bitrate=\s*([\d.]+\s*\w+/s)`. -/
def bitrateRe : List Atom :=
  litText "bitrate=" ++ [⟨reSpace, .star, false⟩, ⟨reDigitDot, .plus, true⟩,
    ⟨reSpace, .star, true⟩, ⟨reWord, .plus, true⟩,
    ⟨fun x => x == '/', .one, true⟩, ⟨fun x => x == 's', .one, true⟩]

/-- The pattern `time=\s*([\d:\.]+)`. -/
def timeRe : List Atom :=
  litText "time=" ++ [⟨reSpace, .star, false⟩, ⟨reDigitColonDot, .plus, true⟩]

/-- The pattern `speed=\s*([\d.]+)x`. -/
def speedRe : List Atom :=
  litText "speed=" ++ [⟨reSpace, .star, false⟩, ⟨reDigitDot, .plus, true⟩, Atom.lit 'x']

/-! ## Process supervisor: progress parsing -/

/-- Go struct `ffmpeg.Progress`. -/
structure Progress where
  Frame : Int := 0
  FPS : F64 := .fin 0
  Bitrate : String := ""
  TotalSize : Int := 0
  Time : String := ""
  Speed : F64 := .fin 0
  Progress : ℚ := 0
  ETA : Int := 0
  Timestamp : Int := 0
  deriving DecidableEq

/-- The fields `parseProgress` reads off the line with its five patterns,
before the percentage and the ETA are computed. -/
def parseFields (now : Int) (line : List Char) : Progress :=
  { Timestamp := now,
    Frame := match findSubmatch frameRe line with
      | some m => atoi m
      | none => 0,
    FPS := match findSubmatch fpsRe line with
      | some m => parseFloat m
      | none => .fin 0,
    Bitrate := match findSubmatch bitrateRe line with
      | some m => String.mk (trimSpace m)
      | none => "",
    Time := match findSubmatch timeRe line with
      | some m => String.mk m
      | none => "",
    Speed := match findSubmatch speedRe line with
      | some m => parseFloat m
      | none => .fin 0 }

/-- Lines 323-336 of `parseProgress`: the percentage and the ETA. -/
def withEstimates (progress : Progress) (totalFrames : Int) : Progress :=
  if 0 < totalFrames ∧ 0 < progress.Frame then
    let pct : ℚ := ((progress.Frame : Int) : ℚ) / ((totalFrames : Int) : ℚ) * 100
    let pct : ℚ := if 100 < pct then 100 else pct
    let progress := { progress with Progress := pct }
    if progress.Speed.isPos then
      let remainingFrames : Int := totalFrames - progress.Frame
      let remainingSeconds : F64 :=
        F64.ofInt remainingFrames / (progress.FPS * progress.Speed)
      { progress with ETA := goInt remainingSeconds }
    else progress
  else progress

/-- Go `Executor.parseProgress`; `now` is the reading of `time.Now()`.  The
result `none` is the `nil` pointer. -/
def parseProgress (now : Int) (line : String) (totalFrames : Int) : Option Progress :=
  if !stringsContains line.toList "frame=".toList then none
  else some (withEstimates (parseFields now line.toList) totalFrames)

/-- Go `Executor.extractFilterGraph`. -/
def extractFilterGraph : List String → String
  | [] => ""
  | arg :: rest =>
      if arg = "-filter_complex" ∨ arg = "-vf" ∨ arg = "-af" then
        match rest with
        | next :: _ => next
        | [] => ""
      else extractFilterGraph rest

/-- The test of `extractError` for one line: one of the four markers occurs. -/
def hasFailureMarker (line : List Char) : Bool :=
  stringsContains line "Error".toList || stringsContains line "error".toList
    || stringsContains line "Invalid".toList || stringsContains line "failed".toList

/-- Go `Executor.extractError`. -/
def extractError (stderrLog : String) : String :=
  let lines := splitLines stderrLog.toList
  let errors := (lines.filter hasFailureMarker).map trimSpace
  if 0 < errors.length then String.mk (joinLines errors)
  else if 5 < lines.length then String.mk (joinLines (lines.drop (lines.length - 5)))
  else stderrLog

/-- Lines 248-253 of `Execute`: the captured log is the text read from stderr,
followed by the stdout text under a separator when there is any. -/
def capturedLog (stderrLog stdoutLog : String) : String :=
  if 0 < stdoutLog.length then stderrLog ++ "\n=== STDOUT ===\n" ++ stdoutLog
  else stderrLog

/-! ## Process supervisor: the read loop and the watchdog -/

/-- One second as a `time.Duration`. -/
def second : Int := 1000000000

/-- One minute as a `time.Duration`. -/
def minute : Int := 60 * second

/-- The startup window of the watchdog, `60*time.Second`. -/
def startupWindow : Int := 60 * second

/-- The stall window of the watchdog, `5*time.Minute`. -/
def stallWindow : Int := 5 * minute

/-- The variables `Execute` shares between the stderr reader and the watchdog,
with the log read so far, the progress values handed to the callback, and
whether the watchdog has killed the process. -/
structure ExecState where
  progressCount : Int
  lastOutputTime : Int
  lastProgressFrame : Int
  lastProgressTime : Int
  stderrLog : String
  reported : List Progress
  killed : Bool
  watchdogDone : Bool
  deriving DecidableEq

/-- The state right after the process has started at time `start`. -/
def ExecState.init (start : Int) : ExecState :=
  { progressCount := 0, lastOutputTime := start, lastProgressFrame := 0,
    lastProgressTime := start, stderrLog := "", reported := [], killed := false,
    watchdogDone := false }

/-- Lines 185-227 of `Execute`: the body of the stderr loop for one line read
at time `now` (the clock readings taken while one line is handled are
identified).  `hasCallback` says whether `callback != nil`. -/
def stderrStep (totalFrames : Int) (hasCallback : Bool) (st : ExecState) (now : Int)
    (line : String) : ExecState :=
  let st := { st with stderrLog := st.stderrLog ++ line ++ "\n", lastOutputTime := now }
  match parseProgress now line totalFrames with
  | none => st
  | some progress =>
      let st := { st with progressCount := st.progressCount + 1 }
      let st :=
        if st.lastProgressFrame < progress.Frame then
          { st with lastProgressFrame := progress.Frame, lastProgressTime := now }
        else st
      if hasCallback then { st with reported := st.reported ++ [progress] } else st

/-- Lines 152-173 of `Execute`: the decision of one watchdog tick at time
`now`, `true` when the tick calls `cmd.Process.Kill()`. -/
def watchdogKills (st : ExecState) (now : Int) : Bool :=
  let elapsedSinceOutput := now - st.lastOutputTime
  let elapsedSinceProgress := now - st.lastProgressTime
  let currentProgressCount := st.progressCount
  if currentProgressCount = 0 then
    decide (startupWindow < elapsedSinceOutput)
  else
    decide (stallWindow < elapsedSinceProgress)

/-- What happens while the process runs: a line arrives on stderr, or the
ticker of the watchdog fires. -/
inductive ExecEvent where
  | stderrLine (now : Int) (line : String)
  | tick (now : Int)
  deriving DecidableEq

/-- One step of a run of `Execute`.  A watchdog that has killed the process
has returned and ticks no more. -/
def execStep (totalFrames : Int) (hasCallback : Bool) (st : ExecState) :
    ExecEvent → ExecState
  | .stderrLine now line => stderrStep totalFrames hasCallback st now line
  | .tick now =>
      if st.watchdogDone then st
      else if watchdogKills st now then { st with killed := true, watchdogDone := true }
      else st

/-- A run of `Execute` from the start of the process. -/
def execRun (totalFrames : Int) (hasCallback : Bool) (start : Int)
    (events : List ExecEvent) : ExecState :=
  events.foldl (execStep totalFrames hasCallback) (ExecState.init start)

/-- The progress values parsed from the stderr lines of a run, in order. -/
def parsedEvents (totalFrames : Int) : List ExecEvent → List Progress
  | [] => []
  | .stderrLine now line :: rest =>
      match parseProgress now line totalFrames with
      | some p => p :: parsedEvents totalFrames rest
      | none => parsedEvents totalFrames rest
  | .tick _ :: rest => parsedEvents totalFrames rest

/-! ## Process supervisor: the result of `Execute` -/

/-- Go struct `ffmpeg.ExecuteResult`. -/
structure ExecuteResult where
  Command : String := ""
  FilterGraph : String := ""
  StderrLog : String := ""
  Success : Bool := false
  ErrorMessage : String := ""
  Duration : ℚ := 0
  deriving DecidableEq

/-- The three places where `Execute` can fail before the process runs. -/
inductive StartFailure where
  | stderrPipe (e : String)
  | stdoutPipe (e : String)
  | start (e : String)
  deriving DecidableEq

/-- What the engine process does during one call of `Execute`: whether it
starts, when, the stderr lines and watchdog ticks in the order they are
handled, the text it writes to stdout, whether it ends with a failure status
of its own (a non-zero exit, or the kill that follows a cancelled context),
and when `Execute` is done. -/
structure EngineRun where
  startFailure : Option StartFailure := none
  start : Int := 0
  events : List ExecEvent := []
  stdoutLog : String := ""
  exitFailed : Bool := false
  finish : Int := 0

/-- Go `strings.Join(args, " ")`. -/
def joinArgs (args : List String) : String :=
  " ".intercalate args

/-- Go `Executor.Execute`: the result, paired with the progress values handed
to the callback.  A process the watchdog has killed ends on the kill signal, so
`cmd.Wait()` reports an error for it as it does for a failure status. -/
def Execute (binaryPath : String) (args : List String) (totalFrames : Int)
    (hasCallback : Bool) (run : EngineRun) : ExecuteResult × List Progress :=
  let command := binaryPath ++ " " ++ joinArgs args
  let filterGraph := extractFilterGraph args
  match run.startFailure with
  | some (.stderrPipe e) =>
      ({ Command := command, FilterGraph := filterGraph,
         ErrorMessage := "failed to get stderr pipe: " ++ e }, [])
  | some (.stdoutPipe e) =>
      ({ Command := command, FilterGraph := filterGraph,
         ErrorMessage := "failed to get stdout pipe: " ++ e }, [])
  | some (.start e) =>
      ({ Command := command, FilterGraph := filterGraph,
         ErrorMessage := "failed to start ffmpeg: " ++ e }, [])
  | none =>
      let st := execRun totalFrames hasCallback run.start run.events
      let stderrLog := capturedLog st.stderrLog run.stdoutLog
      let waitFailed := st.killed || run.exitFailed
      ({ Command := command, FilterGraph := filterGraph, StderrLog := stderrLog,
         Duration := ((run.finish - run.start : Int) : ℚ) / 1000000000,
         Success := !waitFailed,
         ErrorMessage := if waitFailed then extractError stderrLog else "" },
       st.reported)


/-! ## Task orchestrator (`worker/worker.go`, `service/task.go`) -/

/-- Go `type TaskStatus string`. -/
abbrev TaskStatus := String

/-- Go `model.TaskStatusPending`. -/
def TaskStatusPending : TaskStatus := "pending"

/-- Go `model.TaskStatusProcessing`. -/
def TaskStatusProcessing : TaskStatus := "processing"

/-- Go `model.TaskStatusCompleted`. -/
def TaskStatusCompleted : TaskStatus := "completed"

/-- Go `model.TaskStatusFailed`. -/
def TaskStatusFailed : TaskStatus := "failed"

/-- A status is terminal when it is `completed` or `failed`. -/
def isTerminal (s : TaskStatus) : Bool :=
  s == TaskStatusCompleted || s == TaskStatusFailed

/-- Go struct `model.TaskProgress`. -/
structure TaskProgress where
  TaskID : String := ""
  Status : TaskStatus := ""
  Progress : ℚ := 0
  CurrentFrame : Int := 0
  TotalFrames : Int := 0
  ETA : Int := 0
  Message : String := ""
  Timestamp : Int := 0
  deriving DecidableEq

/-- Go struct `service.TaskResult`. -/
structure TaskResult where
  FFmpegCommand : String := ""
  FilterGraph : String := ""
  StderrLog : String := ""
  OutputFile : String := ""
  OutputURL : String := ""
  TotalFrames : Int := 0
  deriving DecidableEq

/-- Go struct `model.Task` (the time stamps are left out; the field `Type` is
`TaskType` here). -/
structure Task where
  ID : String := ""
  TaskType : String := ""
  Status : TaskStatus := ""
  Progress : ℚ := 0
  CurrentFrame : Int := 0
  TotalFrames : Int := 0
  Eta : Int := 0
  InputParams : TaskInputParams := {}
  FfmpegCommand : String := ""
  FilterGraph : String := ""
  StderrLog : String := ""
  ErrorMessage : String := ""
  OutputFile : String := ""
  OutputUrl : String := ""

/-- A call the orchestrator makes to one of its collaborators: the three
writes of `TaskService`, a publish to the hub, the supervisor, the storage
backend, and the removal of one temp file by `Downloader.CleanupFile`. -/
inductive Effect where
  | updateTaskProgress (taskID : String) (progress : TaskProgress)
  | completeTask (taskID : String) (result : TaskResult)
  | failTask (taskID ffmpegCommand filterGraph stderrLog errorMessage : String)
  | broadcastProgress (taskID : String) (progress : TaskProgress)
  | executeWithProgress (args : List String) (totalFrames : Int)
  | uploadFile (localPath key : String)
  | deleteLocalFile (path : String)
  | cleanupFile (path : String)
  deriving DecidableEq

/-- The status a write to persistence stores, `none` for other calls. -/
def Effect.status? : Effect → Option TaskStatus
  | .updateTaskProgress _ progress => some progress.Status
  | .completeTask _ _ => some TaskStatusCompleted
  | .failTask _ _ _ _ _ => some TaskStatusFailed
  | _ => none

/-- The status values a trace writes to persistence, in order. -/
def statusWrites (trace : List Effect) : List TaskStatus :=
  trace.filterMap Effect.status?

/-- The event a publish carries, `none` for other calls. -/
def Effect.published? : Effect → Option TaskProgress
  | .broadcastProgress _ progress => some progress
  | _ => none

/-- The events a trace publishes, in order. -/
def publishedEvents (trace : List Effect) : List TaskProgress :=
  trace.filterMap Effect.published?

/-- The row of a task after one call: `UpdateTaskProgress`, `CompleteTask` and
`FailTask` each overwrite the columns of their `updates` map; other calls, and
writes for another task id, leave the row alone. -/
def applyWrite (t : Task) : Effect → Task
  | .updateTaskProgress taskID progress =>
      if taskID = t.ID then
        { t with Status := progress.Status, Progress := progress.Progress,
                 CurrentFrame := progress.CurrentFrame, TotalFrames := progress.TotalFrames,
                 Eta := progress.ETA }
      else t
  | .completeTask taskID result =>
      if taskID = t.ID then
        { t with Status := TaskStatusCompleted, Progress := 100,
                 CurrentFrame := result.TotalFrames, TotalFrames := result.TotalFrames,
                 FfmpegCommand := result.FFmpegCommand, FilterGraph := result.FilterGraph,
                 StderrLog := result.StderrLog, OutputFile := result.OutputFile,
                 OutputUrl := result.OutputURL }
      else t
  | .failTask taskID ffmpegCommand filterGraph stderrLog errorMessage =>
      if taskID = t.ID then
        { t with Status := TaskStatusFailed, FfmpegCommand := ffmpegCommand,
                 FilterGraph := filterGraph, StderrLog := stderrLog,
                 ErrorMessage := errorMessage }
      else t
  | _ => t

/-- The row of a task after a whole trace. -/
def persisted (t : Task) (trace : List Effect) : Task :=
  trace.foldl applyWrite t

/-- The verb `%.1f` of `fmt.Sprintf`: one decimal, nearest, ties to even. -/
def fmtFixed1 (q : ℚ) : String :=
  let scaled : ℚ := |q| * 10
  let fl : Nat := ⌊scaled⌋.toNat
  let r : ℚ := scaled - fl
  let n : Nat :=
    if r < 1 / 2 then fl
    else if 1 / 2 < r then fl + 1
    else if fl % 2 = 0 then fl else fl + 1
  (if q < 0 then "-" else "") ++ toString (n / 10) ++ "." ++ toString (n % 10)

/-- The parts of `config.Config` and of the worker the orchestrator reads:
the engine binary, `filepath.Join(Storage.OutputDir, ·)`, the storage type and
the Qiniu switch. -/
structure WorkerConfig where
  binaryPath : String
  outputPathOf : String → String
  storageType : String
  qiniuEnabled : Bool

/-- Go `FFmpegService.GenerateOutputName`. -/
def GenerateOutputName (taskID format : String) : String :=
  taskID ++ "." ++ (if format = "" then "mp4" else format)

/-- Go `FFmpegService.GenerateOutputPath`. -/
def GenerateOutputPath (cfg : WorkerConfig) (taskID format : String) : String :=
  cfg.outputPathOf (GenerateOutputName taskID format)

/-- What the collaborators do during one run of a per-task body: the engine
process, and the answer of `Storage.UploadFile`. -/
structure BodyRun where
  engine : EngineRun := {}
  upload : Except String String := .error "upload not configured"

/-- One call of a per-task body, with the goroutine that makes it: the calls of
the progress callback are made by the stderr reader that `Execute` starts, all
others by the body itself. -/
structure Step where
  effect : Effect
  onReader : Bool := false

/-- The two calls of `progressCallback` for one progress value. -/
def callbackSteps (slideshow : Bool) (taskID : String) (totalFrames : Int)
    (progress : Progress) : List Step :=
  [ { onReader := true,
      effect := .broadcastProgress taskID
        { TaskID := taskID, Status := TaskStatusProcessing, Progress := progress.Progress,
          CurrentFrame := progress.Frame, TotalFrames := totalFrames, ETA := progress.ETA,
          Message := (if slideshow then "Processing slideshow: " else "Processing: ")
            ++ fmtFixed1 progress.Progress ++ "% (Frame " ++ fmtInt progress.Frame ++ "/"
            ++ fmtInt totalFrames ++ ", Speed: " ++ fmtFixed2 progress.Speed ++ "x)" } },
    { onReader := true,
      effect := .updateTaskProgress taskID
        { TaskID := taskID, Status := TaskStatusProcessing, Progress := progress.Progress,
          CurrentFrame := progress.Frame, TotalFrames := totalFrames, ETA := progress.ETA } } ]

/-- The branch `if result.Success` of a per-task body. -/
def successSteps (slideshow : Bool) (cfg : WorkerConfig) (task : Task) (outputPath : String)
    (totalFrames : Int) (result : ExecuteResult) (upload : Except String String) :
    List Step :=
  let outputFilename := GenerateOutputName task.ID task.InputParams.OutputFormat
  let localURL := "/api/outputs/" ++ outputFilename
  let useCloud : Bool := cfg.storageType = "qiniu" && cfg.qiniuEnabled
  let outputURL :=
    if useCloud then
      match upload with
      | .ok cloudURL => cloudURL
      | .error _ => localURL
    else localURL
  let storageSteps : List Step :=
    if useCloud then
      match upload with
      | .ok _ => [ { effect := .uploadFile outputPath ("outputs/" ++ outputFilename) },
                   { effect := .deleteLocalFile outputPath } ]
      | .error _ => [ { effect := .uploadFile outputPath ("outputs/" ++ outputFilename) } ]
    else []
  [ { effect := .broadcastProgress task.ID
        { TaskID := task.ID, Status := TaskStatusProcessing, Progress := 100,
          CurrentFrame := totalFrames, TotalFrames := totalFrames, ETA := 0,
          Message := "Processing completed, finalizing..." } },
    { effect := .updateTaskProgress task.ID
        { TaskID := task.ID, Status := TaskStatusProcessing, Progress := 100,
          CurrentFrame := totalFrames, TotalFrames := totalFrames, ETA := 0 } } ]
  ++ storageSteps ++
  [ { effect := .completeTask task.ID
        { FFmpegCommand := result.Command, FilterGraph := result.FilterGraph,
          StderrLog := result.StderrLog, OutputFile := outputPath, OutputURL := outputURL,
          TotalFrames := totalFrames } },
    { effect := .broadcastProgress task.ID
        { TaskID := task.ID, Status := TaskStatusCompleted, Progress := 100,
          CurrentFrame := totalFrames, TotalFrames := totalFrames,
          Message := if slideshow then "Slideshow video completed successfully"
            else "Task completed successfully" } } ]

/-- The branch `else` of a per-task body: the supervisor reported a failure. -/
def failureSteps (task : Task) (result : ExecuteResult) : List Step :=
  [ { effect := .failTask task.ID result.Command result.FilterGraph result.StderrLog
        result.ErrorMessage },
    { effect := .broadcastProgress task.ID
        { TaskID := task.ID, Status := TaskStatusFailed, Message := result.ErrorMessage } } ]

/-- A per-task body when nothing panics: whether the command was built (which
is when the deferred temp-file cleanup is registered), the calls of the body in
order, the temp files of the builder, the supervisor's result when it was
invoked, and the error returned. -/
structure BodyPlan where
  built : Bool
  main : List Step
  tempFiles : List String
  result : Option ExecuteResult
  err : Option String

/-- The builder a per-task body calls: `BuildImageSlideshowCommand` for the
slideshow body, `BuildImageAudioToVideoCommand` for the other. -/
def buildCommand (slideshow : Bool) (cfg : WorkerConfig) (env : Env) (task : Task) :
    BuildResult :=
  let outputPath := GenerateOutputPath cfg task.ID task.InputParams.OutputFormat
  if slideshow then BuildImageSlideshowCommand env task.InputParams outputPath
  else BuildImageAudioToVideoCommand env task.InputParams outputPath

/-- The text of `processImageAudioToVideo` (`slideshow = false`) and of
`processImageSlideshow` (`slideshow = true`), which differ in the builder and
in two messages. -/
def bodyPlan (slideshow : Bool) (cfg : WorkerConfig) (env : Env) (task : Task)
    (run : BodyRun) : BodyPlan :=
  let outputPath := GenerateOutputPath cfg task.ID task.InputParams.OutputFormat
  let b := buildCommand slideshow cfg env task
  match b.err with
  | some e =>
      let errMsg := "Failed to build ffmpeg command: " ++ e
      { built := false,
        main := (b.cleaned.map fun f => ({ effect := .cleanupFile f } : Step)) ++
          [ { effect := .failTask task.ID "" "" "" errMsg },
            { effect := .broadcastProgress task.ID
                { TaskID := task.ID, Status := TaskStatusFailed, Message := errMsg } } ],
        tempFiles := [], result := none, err := some errMsg }
  | none =>
      let executed := Execute cfg.binaryPath b.args b.totalFrames true run.engine
      let result := executed.1
      { built := true,
        main := [ { effect := .executeWithProgress b.args b.totalFrames } ]
          ++ (executed.2.map (callbackSteps slideshow task.ID b.totalFrames)).flatten
          ++ (if result.Success then
                successSteps slideshow cfg task outputPath b.totalFrames result run.upload
              else failureSteps task result),
        tempFiles := b.tempFiles, result := some result,
        err := if result.Success then none
          else some ("ffmpeg execution failed: " ++ result.ErrorMessage) }

/-- The deferred function of a per-task body: `CleanupTempFiles(tempFiles)`
when the list is not empty. -/
def deferredCleanup (plan : BodyPlan) : List Effect :=
  if plan.built then plan.tempFiles.map Effect.cleanupFile else []

/-- Where a panic is raised in a per-task body: inside the command builder, or
in place of the `k`-th call of the body. -/
inductive FaultSite where
  | inBuild
  | atStep (k : Nat)
  deriving DecidableEq

/-- A panic: where it is raised and the text `%v` prints for its value. -/
structure Fault where
  site : FaultSite
  text : String

/-- How a run ends: the calls made, the error returned, and whether a panic
escaped every `recover` (which ends the whole worker process). -/
structure Outcome where
  trace : List Effect
  err : Option String
  crashed : Bool := false

/-- The deferred `recover` handler of a per-task body. -/
def recoverEffects (taskID text : String) : List Effect :=
  [ .failTask taskID "" "" "" ("Task panic: " ++ text),
    .broadcastProgress taskID
      { TaskID := taskID, Status := TaskStatusFailed, Message := "Task panic: " ++ text } ]

/-- A per-task body with an optional panic.  A panic raised by a call of the
body's own goroutine runs the deferred functions, last registered first: the
temp-file cleanup when it is registered, then the `recover` handler, which
sets the returned error.  A panic raised by a call of the progress callback is
raised on the stderr reader that `Execute` starts, where no `recover` is
deferred. -/
def runPlan (taskID : String) (plan : BodyPlan) : Option Fault → Outcome
  | none =>
      { trace := plan.main.map Step.effect ++ deferredCleanup plan, err := plan.err }
  | some ⟨.inBuild, text⟩ =>
      { trace := recoverEffects taskID text, err := some ("Task panic: " ++ text) }
  | some ⟨.atStep k, text⟩ =>
      match plan.main.get? k with
      | none =>
          { trace := plan.main.map Step.effect ++ deferredCleanup plan, err := plan.err }
      | some step =>
          if step.onReader then
            { trace := (plan.main.take k).map Step.effect, err := none, crashed := true }
          else
            { trace := (plan.main.take k).map Step.effect ++ deferredCleanup plan
                ++ recoverEffects taskID text,
              err := some ("Task panic: " ++ text) }

/-- A per-task body of either type, with an optional panic. -/
def perTaskBody (slideshow : Bool) (cfg : WorkerConfig) (env : Env) (task : Task)
    (run : BodyRun) (fault : Option Fault) : Outcome :=
  runPlan task.ID (bodyPlan slideshow cfg env task run) fault

/-- Go `Worker.processImageAudioToVideo`. -/
def processImageAudioToVideo (cfg : WorkerConfig) (env : Env) (task : Task) (run : BodyRun)
    (fault : Option Fault) : Outcome :=
  perTaskBody false cfg env task run fault

/-- Go `Worker.processImageSlideshow`. -/
def processImageSlideshow (cfg : WorkerConfig) (env : Env) (task : Task) (run : BodyRun)
    (fault : Option Fault) : Outcome :=
  perTaskBody true cfg env task run fault

/-- The hard deadline of `ProcessTask`, `30*time.Minute`. -/
def taskTimeout : Int := 30 * minute

/-- The error text of the deadline branch. -/
def timeoutMessage : String := "Task timeout: exceeded 30 minutes"

/-- The deadline branch of `ProcessTask`. -/
def timeoutEffects (taskID : String) : List Effect :=
  [ .failTask taskID "" "" "" timeoutMessage,
    .broadcastProgress taskID
      { TaskID := taskID, Status := TaskStatusFailed, Message := timeoutMessage } ]

/-- The deadline firing while the body still runs: how many calls the body has
made by then, and the order in which the calls of the deadline branch (`true`)
and the remaining calls of the body (`false`), made by two goroutines, reach
the collaborators. -/
structure Deadline where
  after : Nat
  schedule : List Bool

/-- The calls of two goroutines merged in the order a schedule gives; when the
schedule runs out the first goroutine goes first. -/
def interleave {α : Type} : List Bool → List α → List α → List α
  | _, [], ys => ys
  | _, xs, [] => xs
  | [], xs, ys => xs ++ ys
  | true :: s, x :: xs, ys => x :: interleave s xs ys
  | false :: s, xs, y :: ys => y :: interleave s xs ys

/-- The `switch task.Type` inside the goroutine of `ProcessTask`. -/
def dispatchBody (cfg : WorkerConfig) (env : Env) (task : Task) (run : BodyRun)
    (fault : Option Fault) : Outcome :=
  if task.TaskType = "image_audio_to_video" then processImageAudioToVideo cfg env task run fault
  else if task.TaskType = "image_slideshow" then processImageSlideshow cfg env task run fault
  else { trace := [], err := some ("unknown task type: " ++ task.TaskType) }

/-- Go `Worker.ProcessTask`.  `payload` is the outcome of decoding the task id,
`getTask` the lookup of `TaskService.GetTask`; `deadline` says whether, and
when, `ctx.Done()` fires before the body has made all its calls. -/
def ProcessTask (cfg : WorkerConfig) (env : Env) (payload : Except String String)
    (getTask : String → Except String Task) (run : BodyRun) (fault : Option Fault)
    (deadline : Option Deadline) : Outcome :=
  match payload with
  | .error e => { trace := [], err := some ("unmarshal payload failed: " ++ e) }
  | .ok taskID =>
      match getTask taskID with
      | .error e => { trace := [], err := some ("get task failed: " ++ e) }
      | .ok task =>
          let started : List Effect :=
            [ .updateTaskProgress taskID { TaskID := taskID, Status := TaskStatusProcessing },
              .broadcastProgress taskID
                { TaskID := taskID, Status := TaskStatusProcessing, Progress := 0,
                  Message := "Task started processing" } ]
          let body := dispatchBody cfg env task run fault
          match deadline with
          | none => { trace := started ++ body.trace, err := body.err, crashed := body.crashed }
          | some d =>
              if d.after < body.trace.length then
                { trace := started ++ body.trace.take d.after
                    ++ interleave d.schedule (timeoutEffects taskID) (body.trace.drop d.after),
                  err := some timeoutMessage, crashed := body.crashed }
              else { trace := started ++ body.trace, err := body.err, crashed := body.crashed }


/-! ## Progress hub (`worker/worker.go`) -/

/-- A Go channel of `model.TaskProgress` with a buffer: the values waiting in
it, its capacity, whether it has been closed, and (for the statements below)
every value ever placed in it. -/
structure Chan where
  buf : List TaskProgress := []
  cap : Nat := 256
  closed : Bool := false
  sent : List TaskProgress := []
  deriving DecidableEq

/-- Go struct `ProgressHub`, seen from its `Run` loop: the keys of the map
`clients` (a client is named by a number, and no key occurs twice), the `Send`
channel of every client, and whether the loop has panicked (a send on, or a
close of, a closed channel), after which it handles nothing more. -/
structure HubState where
  clients : List Nat
  nodup : clients.Nodup
  chans : Nat → Chan
  panicked : Bool := false

/-- Go `NewProgressHub`, with the channels of the clients that exist. -/
def NewProgressHub (chans : Nat → Chan) : HubState :=
  { clients := [], nodup := List.nodup_nil, chans := chans }

/-- The state with the channel of one client replaced. -/
def HubState.setChan (h : HubState) (c : Nat) (ch : Chan) : HubState :=
  { h with chans := Function.update h.chans c ch }

/-- Go `delete(h.clients, client)`. -/
def HubState.remove (h : HubState) (c : Nat) : HubState :=
  { h with clients := h.clients.erase c, nodup := h.nodup.erase c }

/-- Go `close(client.Send)`: closing a closed channel panics. -/
def HubState.closeSend (h : HubState) (c : Nat) : HubState :=
  if (h.chans c).closed then { h with panicked := true }
  else h.setChan c { h.chans c with closed := true }

/-- The case `client := <-h.Register` of `Run`. -/
def hubRegister (h : HubState) (c : Nat) : HubState :=
  if hc : c ∈ h.clients then h
  else { h with clients := c :: h.clients, nodup := List.nodup_cons.mpr ⟨hc, h.nodup⟩ }

/-- The case `client := <-h.UnRegister` of `Run`. -/
def hubUnregister (h : HubState) (c : Nat) : HubState :=
  if c ∈ h.clients then (h.remove c).closeSend c else h

/-- The inner `select` of the broadcast case for one client: the value goes
into the channel when there is room (a send on a closed channel panics);
otherwise the channel is closed and the client deleted. -/
def trySend (h : HubState) (c : Nat) (progress : TaskProgress) : HubState :=
  if (h.chans c).closed then { h with panicked := true }
  else if (h.chans c).buf.length < (h.chans c).cap then
    h.setChan c { h.chans c with buf := (h.chans c).buf ++ [progress],
                                 sent := (h.chans c).sent ++ [progress] }
  else (h.closeSend c).remove c

/-- The loop `for client := range h.clients` over the given keys; a loop that
has panicked does nothing more. -/
def broadcastLoop (progress : TaskProgress) : HubState → List Nat → HubState
  | h, [] => h
  | h, c :: rest =>
      if h.panicked then h else broadcastLoop progress (trySend h c progress) rest

/-- The case `progress := <-h.broadcast` of `Run`. -/
def hubBroadcast (h : HubState) (progress : TaskProgress) : HubState :=
  broadcastLoop progress h h.clients

/-- What reaches a hub and its channels: the three cases of `Run`, and a
consumer taking the next value out of its `Send` channel. -/
inductive HubOp where
  | register (c : Nat)
  | unregister (c : Nat)
  | broadcast (progress : TaskProgress)
  | receive (c : Nat)
  deriving DecidableEq

/-- One step: an iteration of `Run` (nothing once it has panicked), or a
receive on a client's channel. -/
def hubStep (h : HubState) : HubOp → HubState
  | .register c => if h.panicked then h else hubRegister h c
  | .unregister c => if h.panicked then h else hubUnregister h c
  | .broadcast progress => if h.panicked then h else hubBroadcast h progress
  | .receive c => h.setChan c { h.chans c with buf := (h.chans c).buf.tail }

/-- A run of the hub over the steps that reach it, in order. -/
def hubRun (h : HubState) (ops : List HubOp) : HubState :=
  ops.foldl hubStep h

/-- The events published in a sequence of steps, in order. -/
def publishedOps : List HubOp → List TaskProgress
  | [] => []
  | .broadcast progress :: rest => progress :: publishedOps rest
  | _ :: rest => publishedOps rest

/-- A hub in working order: `Run` has not panicked and every client in the set
has an open channel. -/
def HubState.WellFormed (h : HubState) : Prop :=
  h.panicked = false ∧ ∀ c ∈ h.clients, (h.chans c).closed = false

/-- Every client is registered with an open channel, as `WatchProgress` does
when it registers the client it has just made. -/
def registersOpen : HubState → List HubOp → Prop
  | _, [] => True
  | h, .register c :: rest =>
      (h.chans c).closed = false ∧ registersOpen (hubStep h (.register c)) rest
  | h, op :: rest => registersOpen (hubStep h op) rest


/-- The references of a list that resolve before the first failure, each with
the path `DownloadFile` returned for it. -/
def resolvedPrefix (env : Env) : List String → List (String × String)
  | [] => []
  | ref :: rest =>
      match DownloadFile env ref with
      | .ok localPath => (ref, localPath) :: resolvedPrefix env rest
      | .error _ => []

/-- The temp files among resolved references: the resolved paths that differ
from their reference. -/
def materialized (pairs : List (String × String)) : List String :=
  (pairs.filter fun p => p.2 ≠ p.1).map Prod.snd

/-- The references `BuildImageSlideshowCommand` resolves, in order: the images,
then the background audio when there is one. -/
def slideshowRefs (params : TaskInputParams) : List String :=
  params.ImagePaths ++ (if params.BackgroundAudio ≠ "" then [params.BackgroundAudio] else [])


/-! ## Downloader (`pkg/downloader/downloader.go`): paths and cleanup -/

/-- One path element in the scan of Go `filepath.Clean` (Unix): an empty
element and `.` are dropped; `..` removes the element before it when there is
one that is not itself `..`, is dropped at the root, and is kept otherwise.
The elements kept so far are held last first. -/
def cleanStep (rooted : Bool) (kept : List (List Char)) (elem : List Char) :
    List (List Char) :=
  if elem = [] ∨ elem = ['.'] then kept
  else if elem = ['.', '.'] then
    match kept with
    | top :: rest => if top = ['.', '.'] then elem :: kept else rest
    | [] => if rooted then [] else [elem]
  else elem :: kept

/-- Go `filepath.Clean` on a Unix path: the shortest path name equivalent to
`path` by purely lexical processing; `.` for the empty result. -/
def filepathClean (path : String) : String :=
  let cs := path.toList
  if cs = [] then "."
  else
    let rooted : Bool := cs.head? = some '/'
    let kept := (List.splitOn '/' cs).foldl (cleanStep rooted) []
    let out := (if rooted then ['/'] else []) ++ List.intercalate ['/'] kept.reverse
    if out = [] then "." else String.mk out

/-- Go `filepath.Join` (Unix): the elements from the first non-empty one on,
joined by `/` and cleaned; the empty string when every element is empty. -/
def filepathJoin (elem : List String) : String :=
  match elem.dropWhile (fun e => e = "") with
  | [] => ""
  | rest => filepathClean (String.intercalate "/" rest)

/-- The loop of Go `filepath.Ext`, from the last character backwards: the
suffix that begins at the last dot of the last path element, empty when that
element has no dot.  `seen` holds the characters passed so far. -/
def extScan : List Char → List Char → List Char
  | [], _ => []
  | c :: before, seen =>
      if c = '/' then []
      else if c = '.' then '.' :: seen
      else extScan before (c :: seen)

/-- Go `filepath.Ext`. -/
def filepathExt (path : List Char) : List Char :=
  extScan path.reverse []

/-- Go `Downloader.getFileExtension`: the query part is cut off, then the
extension is taken. -/
def getFileExtension (urlOrPath : String) : String :=
  String.mk (filepathExt (urlOrPath.toList.takeWhile fun c => c ≠ '?'))

/-- Go struct `Downloader`: the fields the code reads. -/
structure Downloader where
  tempDir : String
  maxRetries : Nat
  deriving DecidableEq

/-- Go `NewDownloader`. -/
def NewDownloader (tempDir : String) : Downloader :=
  { tempDir := tempDir, maxRetries := 3 }

/-- What the outside world does during the remote part of one `DownloadFile`
call: the text of the fresh UUID, the outcome of `os.MkdirAll`, and the outcome
of each call of `downloadToFile` (attempt 0, 1, 2). -/
structure RemoteRun where
  newUUID : String
  mkdirAll : Except String Unit := .ok ()
  attempt : Nat → Except String Unit := fun _ => .ok ()

/-- The retry loop of `DownloadFile`: attempt `i`, with `remaining` attempts
left and the last error so far. -/
def retryLoop (d : Downloader) (run : RemoteRun) (localPath : String) :
    Nat → Nat → String → Except String String
  | _, 0, lastErr =>
      .error ("failed to download after " ++ toString d.maxRetries ++ " retries: " ++ lastErr)
  | i, remaining + 1, _ =>
      match run.attempt i with
      | .ok _ => .ok localPath
      | .error e => retryLoop d run localPath (i + 1) remaining e

/-- The part of Go `Downloader.DownloadFile` after the `isURL` test. -/
def Downloader.fetchRemote (d : Downloader) (run : RemoteRun) (urlOrPath : String) :
    Except String String :=
  let ext := getFileExtension urlOrPath
  let filename := run.newUUID ++ ext
  let localPath := filepathJoin [d.tempDir, filename]
  match run.mkdirAll with
  | .error e => .error ("failed to create temp directory: " ++ e)
  | .ok _ => retryLoop d run localPath 0 d.maxRetries ""

/-- Go `Downloader.DownloadFile`. -/
def Downloader.DownloadFile (d : Downloader) (run : RemoteRun) (urlOrPath : String) :
    Except String String :=
  if !isURL urlOrPath then .ok urlOrPath else d.fetchRemote run urlOrPath

/-- Go `Downloader.CleanupFile`: the path handed to `os.Remove`, or `none` when
the guard `!strings.HasPrefix(path, d.tempDir)` returns early. -/
def Downloader.CleanupFile (d : Downloader) (path : String) : Option String :=
  if !hasPrefix path d.tempDir then none else some path

/-- Go `FFmpegService.CleanupTempFiles`: the paths handed to `os.Remove`. -/
def CleanupTempFiles (d : Downloader) (tempFiles : List String) : List String :=
  tempFiles.filterMap d.CleanupFile

/-- The collaborators of the command builder when the downloader is the real
one: `runOf` gives the outside world for each reference, `probe` the answer of
`GetAudioDuration`. -/
def downloaderEnv (d : Downloader) (runOf : String → RemoteRun)
    (probe : String → Except String ℚ) : Env :=
  { fetchRemote := fun ref => d.fetchRemote (runOf ref) ref, getAudioDuration := probe }

/-! ## Validation and task creation (`service/ffmpeg.go`, `service/task.go`) -/

/-- Go `Parser.ValidateFile`; `probe` is the outcome of running `ffprobe -v
error` on the path. -/
def ValidateFile (probe : String → Except String Unit) (filePath : String) :
    Except String Unit :=
  match probe filePath with
  | .error e => .error ("invalid media file: " ++ e)
  | .ok _ => .ok ()

/-- The loop `for i, imagePath := range params.ImagePaths` of `ValidateInputs`,
from index `i` on. -/
def validateImagePaths (probe : String → Except String Unit) :
    Nat → List String → Except String Unit
  | _, [] => .ok ()
  | i, imagePath :: rest =>
      if imagePath = "" then validateImagePaths probe (i + 1) rest
      else
        match ValidateFile probe imagePath with
        | .error e => .error ("invalid image file at index " ++ toString i ++ ": " ++ e)
        | .ok _ => validateImagePaths probe (i + 1) rest

/-- The image half of `ValidateInputs`. -/
def validateImages (probe : String → Except String Unit) (params : TaskInputParams) :
    Except String Unit :=
  if 0 < params.ImagePaths.length then
    validateImagePaths probe 0 params.ImagePaths
  else if params.ImagePath ≠ "" then
    match ValidateFile probe params.ImagePath with
    | .error e => .error ("invalid image file: " ++ e)
    | .ok _ => .ok ()
  else .ok ()

/-- The audio half of `ValidateInputs`. -/
def validateAudio (probe : String → Except String Unit) (params : TaskInputParams) :
    Except String Unit :=
  if params.AudioPath ≠ "" then
    match ValidateFile probe params.AudioPath with
    | .error e => .error ("invalid audio file: " ++ e)
    | .ok _ => .ok ()
  else if params.BackgroundAudio ≠ "" then
    match ValidateFile probe params.BackgroundAudio with
    | .error e => .error ("invalid background audio file: " ++ e)
    | .ok _ => .ok ()
  else .ok ()

/-- Go `FFmpegService.ValidateInputs`. -/
def ValidateInputs (probe : String → Except String Unit) (params : TaskInputParams) :
    Except String Unit :=
  match validateImages probe params with
  | .error e => .error e
  | .ok _ => validateAudio probe params

/-- A call `CreateTask` makes to the database or to the job queue. -/
inductive StoreCall where
  | dbCreate (task : Task)
  | enqueue (taskID : String)

/-- The collaborators of `CreateTask`: the probe, the fresh id, and the
outcomes of `db.Create` and of `asynqClient.Enqueue`. -/
structure CreateEnv where
  probe : String → Except String Unit
  newID : String
  dbCreate : Task → Except String Unit := fun _ => .ok ()
  enqueue : String → Except String Unit := fun _ => .ok ()

/-- Go `TaskService.CreateTask`: the task returned, or the error, and the calls
made to the database and to the queue, in order. -/
def CreateTask (env : CreateEnv) (taskType : String) (params : TaskInputParams) :
    Except String Task × List StoreCall :=
  match ValidateInputs env.probe params with
  | .error e => (.error ("validation failed: " ++ e), [])
  | .ok _ =>
      let task : Task :=
        { ID := env.newID, TaskType := taskType, Status := TaskStatusPending,
          InputParams := params }
      match env.dbCreate task with
      | .error e => (.error ("create task failed: " ++ e), [.dbCreate task])
      | .ok _ =>
          match env.enqueue task.ID with
          | .error e =>
              (.error ("enqueue task failed: " ++ e), [.dbCreate task, .enqueue task.ID])
          | .ok _ => (.ok task, [.dbCreate task, .enqueue task.ID])

/-! ## Progress stream (`api/handler/task.go`) -/

/-- What the outside world does during one call of `WatchProgress`: the answer
of `GetTask`, whether the upgrade to a WebSocket works, the clock reading at
each write, whether each `conn.WriteJSON` works (write 0 is the one of the
current state), and the `Send` channel of the client as the hub leaves it: the
values placed in it, and whether it is closed after them. -/
structure WatchRun where
  getTask : Except String Task
  upgradeOk : Bool := true
  clock : Nat → Int := fun _ => 0
  writeOk : Nat → Bool := fun _ => true
  send : Chan := {}

/-- What one call of `WatchProgress` does: whether it answers 404, whether it
registers a client, the events written to the connection, in order, and
whether the handler returns, which ends the stream; it does not while it waits
in `for progress := range client.Send` on an open channel. -/
structure WatchOutcome where
  notFound : Bool := false
  registered : Bool := false
  written : List TaskProgress := []
  returned : Bool := true
  deriving DecidableEq

/-- The loop `for progress := range client.Send` from write `k` on, over the
values still to come: each value is stamped and written, a failed write breaks
the loop; when the values run out the loop ends if the channel is closed and
waits otherwise. -/
def forwardLoop (run : WatchRun) : Nat → List TaskProgress → List TaskProgress × Bool
  | _, [] => ([], run.send.closed)
  | k, progress :: rest =>
      if run.writeOk k then
        ({ progress with Timestamp := run.clock k } :: (forwardLoop run (k + 1) rest).1,
          (forwardLoop run (k + 1) rest).2)
      else ([], true)

/-- The event `WatchProgress` writes first: the stored state of the task. -/
def currentProgress (task : Task) (now : Int) : TaskProgress :=
  { TaskID := task.ID, Status := task.Status, Progress := task.Progress,
    CurrentFrame := task.CurrentFrame, TotalFrames := task.TotalFrames, ETA := task.Eta,
    Message := "Connected to progress stream", Timestamp := now }

/-- Go `TaskHandler.WatchProgress`. -/
def WatchProgress (run : WatchRun) : WatchOutcome :=
  match run.getTask with
  | .error _ => { notFound := true }
  | .ok task =>
      if !run.upgradeOk then {}
      else if !run.writeOk 0 then { registered := true }
      else
        { registered := true,
          written := currentProgress task (run.clock 0)
            :: (forwardLoop run 1 run.send.sent).1,
          returned := (forwardLoop run 1 run.send.sent).2 }

/-! ## Filter graph: what a stage reads and produces -/

/-- The stream labels the text of a piece reads: the labels in front of the
filter name (`[v%d]` in front of `concat`, the two labels in front of
`xfade`).  A `scale` chain reads an input of the command, `[%d:v]`, not a
label. -/
def FilterPiece.reads : FilterPiece → List StreamLabel
  | .scale .. => []
  | .concatInput i => [.v i]
  | .concat _ => []
  | .xfade in1 in2 _ _ _ => [in1, in2]

/-- The stream label the text of a piece produces: the label after the filter. -/
def FilterPiece.produces? : FilterPiece → Option StreamLabel
  | .scale i .. => some (.v i)
  | .concatInput _ => none
  | .concat _ => some .out
  | .xfade _ _ _ _ dst => some dst

/-- The input of the command a piece reads, `[%d:v]`. -/
def FilterPiece.input? : FilterPiece → Option Nat
  | .scale i .. => some i
  | _ => none

/-- Every label a piece reads is among `produced` or is produced by a piece
before it in the list. -/
def readsResolved : List StreamLabel → List FilterPiece → Bool
  | _, [] => true
  | produced, p :: rest =>
      p.reads.all (fun l => decide (l ∈ produced))
        && readsResolved (produced ++ p.produces?.toList) rest

/-- A graph that the command `-map [v]` over `numInputs` image inputs can use:
every input read exists, every label read is produced earlier, and exactly one
piece, the last, produces `[v]`. -/
def wellFormedGraph (numInputs : Nat) (ps : List FilterPiece) : Bool :=
  (ps.filterMap FilterPiece.input?).all (fun i => decide (i < numInputs))
    && readsResolved [] ps
    && decide ((ps.filterMap FilterPiece.produces?).count .out = 1)
    && decide (ps.getLast?.bind FilterPiece.produces? = some .out)

/-! ## Process supervisor: the captured log, line by line -/

/-- The text a log buffer of `Execute` holds after `WriteString(line + "\n")`
for each of the given lines (lines 114 and 188 of `Execute`). -/
def logOfLines (lines : List String) : String :=
  String.join (lines.map fun l => l ++ "\n")

/-- The lines read from stderr in a run, in order. -/
def stderrLines : List ExecEvent → List String
  | [] => []
  | .stderrLine _ line :: rest => line :: stderrLines rest
  | .tick _ :: rest => stderrLines rest

/-- The lines of the log `Execute` returns (lines 248-253): the stderr lines,
followed by an empty line, the separator and the stdout lines when stdout
wrote any. -/
def capturedLines (errLines outLines : List String) : List String :=
  if outLines = [] then errLines
  else errLines ++ ["", "=== STDOUT ==="] ++ outLines

/-! ## Process supervisor: the advances of the frame counter -/

/-- The times at which the frame counter advances in a run: the stderr lines
whose parsed frame count strictly exceeds `best`, the largest count seen
before (which becomes the new `best`). -/
def advanceTimes (totalFrames : Int) (best : Int) : List ExecEvent → List Int
  | [] => []
  | .stderrLine now line :: rest =>
      match parseProgress now line totalFrames with
      | some p =>
          if best < p.Frame then now :: advanceTimes totalFrames p.Frame rest
          else advanceTimes totalFrames best rest
      | none => advanceTimes totalFrames best rest
  | .tick _ :: rest => advanceTimes totalFrames best rest

/-- The time the frame counter last advanced in a run (it starts at 0), or the
start of the process when it never did. -/
def lastAdvanceAt (totalFrames start : Int) (events : List ExecEvent) : Int :=
  ((advanceTimes totalFrames 0 events).getLast?).getD start

/-! ## Fixtures: concrete inputs used by the examples below -/

/-- A collaborator set for local inputs: nothing can be fetched, and every
audio file probes to the duration `d`. -/
def probeEnv (d : ℚ) : Env :=
  { fetchRemote := fun _ => .error "offline", getAudioDuration := fun _ => .ok d }

/-- Three local images shown 3 s each with 0.5 s cross-fades at 25 fps. -/
def threeImages : TaskInputParams :=
  { ImagePaths := ["a.jpg", "b.jpg", "c.jpg"], ImageDuration := 3, TransitionDur := 1 / 2,
    FPS := 25 }

/-- One local image over one local audio track at 25 fps. -/
def imageAndAudio : TaskInputParams :=
  { ImagePath := "cat.jpg", AudioPath := "song.mp3", FPS := 25 }

/-- A status line reporting frame 100 at 25 fps and speed 1.0x. -/
def statusLine100 : String :=
  "frame=  100 fps=25 q=28.0 size=     256kB time=00:00:04.00 bitrate= 524.3kbits/s speed=1.0x"

/-- A status line reporting frame 50 at 25 fps and speed 1.0x. -/
def statusLine50 : String :=
  "frame=   50 fps=25 q=28.0 size=     128kB time=00:00:02.00 bitrate= 524.3kbits/s speed=1.0x"

/-- A status line reporting frame 300 at 25 fps and speed 1.0x. -/
def statusLine300 : String :=
  "frame=  300 fps=25 q=28.0 size=     768kB time=00:00:12.00 bitrate= 524.3kbits/s speed=1.0x"

/-- A status line reporting frame 0 at 25 fps and speed 1.0x. -/
def statusLine0 : String :=
  "frame=    0 fps=25 q=28.0 size=       0kB time=00:00:00.00 bitrate=   0.0kbits/s speed=1.0x"

/-- A status line of the first moments of an encode: fps is still `0.0`. -/
def statusLineFpsZero : String :=
  "frame=    1 fps=0.0 q=0.0 size=       0kB time=00:00:00.04 bitrate=   0.0kbits/s speed=0.5x"

/-- The marker test as the design document words it: a line holds "error",
"invalid" or "failed" in any mix of upper and lower case. -/
def hasFailureMarkerFold (line : List Char) : Bool :=
  let lower := line.map Char.toLower
  stringsContains lower "error".toList || stringsContains lower "invalid".toList
    || stringsContains lower "failed".toList

/-- The time of the last line read from stderr in a run, or the start of the
process when there was none. -/
def lastOutputAt (start : Int) : List ExecEvent → Int
  | [] => start
  | .stderrLine now _ :: rest => lastOutputAt now rest
  | .tick _ :: rest => lastOutputAt start rest

/-- A line that carries a frame count and nothing else of the status shape. -/
def frameOnlyLine : String := "frame=10"

/-- A log whose only failure text is in upper case. -/
def upperCaseLog : String := "Opening input\nINVALID data found\n"

/-- A log whose failure line is indented and padded. -/
def paddedLog : String := "  Error opening input  \nStream mapping:\n"

/-- A collaborator set in which every remote reference is fetched into
`/tmp/dl/` except one on the host `down.example`, which fails, and in which the
probe fails. -/
def flakyEnv : Env :=
  { fetchRemote := fun ref =>
      if ref = "http://down.example/b.jpg" then .error "http status 503"
      else .ok ("/tmp/dl/" ++ ref.drop 7),
    getAudioDuration := fun _ => .error "ffprobe failed" }

/-- A slideshow whose second image cannot be fetched. -/
def brokenSlideshow : TaskInputParams :=
  { ImagePaths := ["http://ok.example/a.jpg", "http://down.example/b.jpg", "c.jpg"] }


/-- A worker that stores its outputs locally. -/
def localConfig : WorkerConfig :=
  { binaryPath := "ffmpeg", outputPathOf := fun name => "storage/outputs/" ++ name,
    storageType := "local", qiniuEnabled := false }

/-- A worker that uploads its outputs to the cloud. -/
def cloudConfig : WorkerConfig :=
  { binaryPath := "ffmpeg", outputPathOf := fun name => "storage/outputs/" ++ name,
    storageType := "qiniu", qiniuEnabled := true }

/-- A task of the first type: one local image over one local audio track. -/
def catTask : Task :=
  { ID := "t1", TaskType := "image_audio_to_video", InputParams := imageAndAudio }

/-- The lookup of `GetTask` in a store that holds `catTask`. -/
def catStore : String → Except String Task :=
  fun taskID => if taskID = "t1" then .ok catTask else .error "record not found"

/-- An engine that writes nothing at all: the watchdog ticks every ten seconds
and kills it at the seventh tick. -/
def silentEngine : EngineRun :=
  { start := 0,
    events := [.tick (10 * second), .tick (20 * second), .tick (30 * second),
      .tick (40 * second), .tick (50 * second), .tick (60 * second), .tick (70 * second)],
    finish := 70 * second }

/-- An engine that ends well without a status line. -/
def quickEngine : EngineRun :=
  { start := 0, events := [.stderrLine second "video:12kB audio:156kB"], finish := 2 * second }

/-- An engine whose one status line is read as the cancelled context kills it. -/
def cancelledEngine : EngineRun :=
  { start := 1795 * second, events := [.stderrLine (1800 * second) statusLine100],
    exitFailed := true, finish := 1800 * second }

/-- An engine that ends well, without a status line, one second before the
deadline of a task started at time 0. -/
def lateEngine : EngineRun :=
  { start := 1790 * second, events := [.stderrLine (1795 * second) "video:12kB audio:156kB"],
    finish := 1799 * second }

/-- A task of the second type whose second image cannot be fetched. -/
def brokenTask : Task :=
  { ID := "t2", TaskType := "image_slideshow", InputParams := brokenSlideshow }

/-- An engine that writes one status line and ends well. -/
def progressEngine : EngineRun :=
  { start := 0, events := [.stderrLine second statusLine100], finish := 2 * second }

/-- The first event of task `t1`. -/
def startedEvent : TaskProgress :=
  { TaskID := "t1", Status := TaskStatusProcessing, Progress := 0,
    Message := "Task started processing" }

/-- A progress event of task `t1`. -/
def halfwayEvent : TaskProgress :=
  { TaskID := "t1", Status := TaskStatusProcessing, Progress := 50, CurrentFrame := 125,
    TotalFrames := 250 }

/-- The last event of task `t1`. -/
def completedEvent : TaskProgress :=
  { TaskID := "t1", Status := TaskStatusCompleted, Progress := 100, CurrentFrame := 250,
    TotalFrames := 250, Message := "Task completed successfully" }

/-- A hub with two clients: the queue of client 1 holds one event and is full,
the queue of client 2 is empty and has room. -/
def twoClients : HubState :=
  { clients := [1, 2], nodup := by decide,
    chans := fun c =>
      if c = 1 then { buf := [startedEvent], cap := 1, sent := [startedEvent] } else {} }

/-- A hub without clients, all channels open and empty. -/
def emptyHub : HubState := NewProgressHub (fun _ => {})

/-- A task whose type tag is none of the two the worker knows. -/
def unknownTask : Task :=
  { ID := "t3", TaskType := "video_concat", Status := TaskStatusPending }

/-- The lookup of `GetTask` in a store that holds `unknownTask`. -/
def unknownStore : String → Except String Task :=
  fun taskID => if taskID = "t3" then .ok unknownTask else .error "record not found"

/-- The temp directory of the default configuration, `getEnv("TEMP_DIR",
"./storage/temp")`. -/
def defaultTempDir : String := "./storage/temp"

/-- An outside world in which every download works at the first attempt and
the fresh UUID is the one given. -/
def smoothRun : String → RemoteRun :=
  fun _ => { newUUID := "7c9e6679-7425-40de-944b-e07fc1f90ae7" }

/-- One remote image over one local audio track. -/
def remoteImageAndAudio : TaskInputParams :=
  { ImagePath := "http://ok.example/a.jpg", AudioPath := "song.mp3", FPS := 25 }

/-- A probe that rejects the file "broken.jpg" and accepts every other. -/
def pickyProbe : String → Except String Unit :=
  fun filePath => if filePath = "broken.jpg" then .error "exit status 1" else .ok ()

/-- Parameters that carry both an image list and a single image: the single
image, which the image-plus-audio builder reads, is not a media file. -/
def mixedParams : TaskInputParams :=
  { ImagePaths := ["a.jpg"], ImagePath := "broken.jpg", AudioPath := "song.mp3" }

/-- The task `CreateTask` makes of `mixedParams` for the image-plus-audio type
with the fresh id "t4". -/
def mixedTask : Task :=
  { ID := "t4", TaskType := "image_audio_to_video", Status := TaskStatusPending,
    InputParams := mixedParams }

/-- The task `catTask` after it has completed. -/
def completedTask : Task :=
  { catTask with Status := TaskStatusCompleted, Progress := 100, CurrentFrame := 250,
                 TotalFrames := 250 }

/-- A slideshow of one local image with every other field unset. -/
def oneImage : TaskInputParams :=
  { ImagePaths := ["a.jpg"] }

/-- Three local images shown 3.3 s each with 0.3 s cross-fades at 30 fps. -/
def slides33 : TaskInputParams :=
  { ImagePaths := ["a.jpg", "b.jpg", "c.jpg"], ImageDuration := 33 / 10,
    TransitionDur := 3 / 10, FPS := 30 }

/-- A status line of a slow start: frame 1 at 0.1 fps and speed 3x. -/
def statusLineSlow : String :=
  "frame=    1 fps=0.1 q=0.0 size=       0kB time=00:00:00.04 bitrate=   0.0kbits/s speed=3x"

/-- A failed run whose process wrote five lines to stderr, none a failure
line, and nothing to stdout. -/
def fiveLineRun : EngineRun :=
  { events := [.stderrLine 1 "l1", .stderrLine 2 "l2", .stderrLine 3 "l3",
      .stderrLine 4 "l4", .stderrLine 5 "l5"],
    exitFailed := true, finish := 6 }

/-- A failed run whose process wrote six lines to stderr, none a failure
line, and two lines to stdout. -/
def sixLineRun : EngineRun :=
  { events := [.stderrLine 1 "l1", .stderrLine 2 "l2", .stderrLine 3 "l3",
      .stderrLine 4 "l4", .stderrLine 5 "l5", .stderrLine 6 "l6"],
    stdoutLog := "o1\no2\n", exitFailed := true, finish := 7 }

/-! ## Properties -/

/-! ### binary64 rounding -/

theorem roundHalfEven_eq (q : ℚ) (n : Int) (h1 : (n : ℚ) - 1 / 2 < q) (h2 : q < n + 1 / 2) :
    roundHalfEven q = n := by
  have hf : ⌊q⌋ = n ∨ ⌊q⌋ = n - 1 := by
    have a1 : n - 1 ≤ ⌊q⌋ := by
      rw [Int.le_floor]
      push_cast
      linarith
    have a2 : ⌊q⌋ < n + 1 := by
      rw [Int.floor_lt]
      push_cast
      linarith
    omega
  have hfl := Int.floor_le q
  have hlt := Int.lt_floor_add_one q
  rcases hf with hf | hf
  · have hd : q - ((⌊q⌋ : Int) : ℚ) < 1 / 2 := by rw [hf]; linarith
    simp only [roundHalfEven, hd, if_true]
    exact hf
  · have hd : (1 : ℚ) / 2 < q - ((⌊q⌋ : Int) : ℚ) := by
      rw [hf]; push_cast; linarith
    have hd2 : ¬ (q - ((⌊q⌋ : Int) : ℚ) < 1 / 2) := not_lt.mpr hd.le
    simp only [roundHalfEven, hd, hd2, if_true, if_false]
    omega

theorem roundHalfEven_intCast (n : Int) : roundHalfEven (n : ℚ) = n :=
  roundHalfEven_eq _ _ (by linarith) (by linarith)

theorem roundHalfEven_cases (q : ℚ) :
    roundHalfEven q = ⌊q⌋ ∨ roundHalfEven q = ⌊q⌋ + 1 := by
  simp only [roundHalfEven]
  split_ifs <;> simp

theorem abs_roundHalfEven_sub_le (q : ℚ) : |((roundHalfEven q : Int) : ℚ) - q| ≤ 1 / 2 := by
  have hfl := Int.floor_le q
  have hlt := Int.lt_floor_add_one q
  rw [abs_le]
  simp only [roundHalfEven]
  split_ifs with h1 h2 h3
  · constructor <;> linarith
  · push_cast; constructor <;> linarith
  · have : q - ((⌊q⌋ : Int) : ℚ) = 1 / 2 := le_antisymm (not_lt.mp h2) (not_lt.mp h1)
    constructor <;> linarith
  · have : q - ((⌊q⌋ : Int) : ℚ) = 1 / 2 := le_antisymm (not_lt.mp h2) (not_lt.mp h1)
    push_cast; constructor <;> linarith

theorem roundHalfEven_nonneg (q : ℚ) (h : 0 ≤ q) : 0 ≤ roundHalfEven q := by
  have hf : 0 ≤ ⌊q⌋ := Int.floor_nonneg.mpr h
  rcases roundHalfEven_cases q with h1 | h1 <;> omega

theorem roundHalfEven_mono (p q : ℚ) (h : p ≤ q) : roundHalfEven p ≤ roundHalfEven q := by
  by_cases hfl : ⌊p⌋ = ⌊q⌋
  · have hp1 := Int.floor_le p
    have hq1 := Int.floor_le q
    simp only [roundHalfEven, hfl]
    have hd : p - ((⌊q⌋ : Int) : ℚ) ≤ q - ((⌊q⌋ : Int) : ℚ) := by linarith
    split_ifs <;> first | omega | (exfalso; linarith)
  · have hlt : ⌊p⌋ < ⌊q⌋ := lt_of_le_of_ne (Int.floor_mono h) hfl
    have hp := roundHalfEven_cases p
    have hq : ⌊q⌋ ≤ roundHalfEven q := by
      rcases roundHalfEven_cases q with h1 | h1 <;> omega
    rcases hp with h1 | h1 <;> omega

theorem f64Exponent_eq (x : ℚ) (e : Int) (he : -1022 ≤ e) (h1 : (2 : ℚ) ^ e ≤ |x|)
    (h2 : |x| < (2 : ℚ) ^ (e + 1)) : f64Exponent x = e := by
  have hpos : (0 : ℚ) < |x| := lt_of_lt_of_le (by positivity) h1
  have a1 : e ≤ Int.log 2 |x| := by
    rw [← Int.zpow_le_iff_le_log (by norm_num) hpos]
    exact_mod_cast h1
  have a2 : Int.log 2 |x| < e + 1 := by
    rw [← Int.lt_zpow_iff_log_lt (by norm_num) hpos]
    exact_mod_cast h2
  rw [f64Exponent]
  omega

theorem f64Exponent_subnormal (x : ℚ) (hx : x ≠ 0) (h : |x| < (2 : ℚ) ^ (-1022 : Int)) :
    f64Exponent x = -1022 := by
  have hpos : (0 : ℚ) < |x| := abs_pos.mpr hx
  have a2 : Int.log 2 |x| < -1022 := by
    rw [← Int.lt_zpow_iff_log_lt (by norm_num) hpos]
    exact_mod_cast h
  rw [f64Exponent]
  omega

theorem f64Exponent_ge (x : ℚ) : -1022 ≤ f64Exponent x := le_max_right _ _

theorem abs_lt_zpow_f64Exponent (x : ℚ) : |x| < (2 : ℚ) ^ (f64Exponent x + 1) := by
  have h := Int.lt_zpow_succ_log_self (b := 2) (by norm_num) |x|
  have hmono : (2 : ℚ) ^ (Int.log 2 |x| + 1) ≤ (2 : ℚ) ^ (f64Exponent x + 1) := by
    apply zpow_le_zpow_right₀ (by norm_num)
    have := le_max_left (Int.log 2 |x|) (-1022)
    rw [f64Exponent]
    omega
  exact lt_of_lt_of_le (by exact_mod_cast h) hmono

/-- Evaluation of `f64Round`: with the exponent `e` of `x` and the rounded
significand `n` in hand. -/
theorem f64Round_eval (x : ℚ) (e n : Int) (he : -1022 ≤ e) (h1 : (2 : ℚ) ^ e ≤ |x|)
    (h2 : |x| < (2 : ℚ) ^ (e + 1)) (hn : roundHalfEven (x / (2 : ℚ) ^ (e - 52)) = n)
    (hfin : |(n : ℚ) * (2 : ℚ) ^ (e - 52)| < 2 ^ 1024) :
    f64Round x = .fin ((n : ℚ) * (2 : ℚ) ^ (e - 52)) := by
  have hx : x ≠ 0 := by
    intro h0
    rw [h0, abs_zero] at h1
    exact absurd h1 (not_le.mpr (by positivity))
  rw [f64Round, if_neg hx]
  simp only [f64Exponent_eq x e he h1 h2, hn]
  rw [if_neg (not_le.mpr hfin)]

theorem f64Round_zero : f64Round 0 = .fin 0 := by
  simp [f64Round]

/-- A number binary64 can hold is its own rounding: a multiple of
`2 ^ (e - 52)` between `2 ^ e` and `2 ^ (e + 1)`, `-1022 ≤ e ≤ 1023`. -/
theorem f64Round_of_repr (x : ℚ) (e m : Int) (he : -1022 ≤ e) (he2 : e ≤ 1023)
    (h1 : (2 : ℚ) ^ e ≤ |x|) (h2 : |x| < (2 : ℚ) ^ (e + 1))
    (hx : x = (m : ℚ) * (2 : ℚ) ^ (e - 52)) : f64Round x = .fin x := by
  have hpos : (0 : ℚ) < (2 : ℚ) ^ (e - 52) := by positivity
  have hn : roundHalfEven (x / (2 : ℚ) ^ (e - 52)) = m := by
    rw [hx, mul_div_assoc, div_self hpos.ne', mul_one]
    exact roundHalfEven_intCast m
  have hlt : |x| < (2 : ℚ) ^ (1024 : Nat) := by
    have hle : (2 : ℚ) ^ (e + 1) ≤ (2 : ℚ) ^ (1024 : Int) :=
      zpow_le_zpow_right₀ (by norm_num) (by omega)
    have : (2 : ℚ) ^ (1024 : Int) = (2 : ℚ) ^ (1024 : Nat) := by
      rw [← zpow_natCast]; rfl
    rw [← this]
    exact lt_of_lt_of_le h2 hle
  have h := f64Round_eval x e m he h1 h2 hn (by rw [← hx]; exact hlt)
  rw [h, ← hx]

theorem F64.ofInt_zero : F64.ofInt 0 = .fin 0 := by
  simp [F64.ofInt, f64Round]

theorem F64.ofInt_one : F64.ofInt 1 = .fin 1 := by
  rw [F64.ofInt]
  have h := f64Round_of_repr 1 0 (2 ^ 52) (by norm_num) (by norm_num) (by norm_num)
    (by norm_num) (by norm_num)
  exact_mod_cast h

theorem F64.one_mul_float (x : F64) (hx : x.IsFloat) : F64.fin 1 * x = x := by
  show F64.mul _ _ = _
  cases x with
  | fin q =>
    simp only [F64.mul, one_mul]
    exact hx
  | inf s =>
    have h10 : decide ((1 : ℚ) < 0) = false := by norm_num
    simp [F64.mul, h10]
  | nan => rfl

theorem F64.zero_mul_fin (t : ℚ) : F64.fin 0 * F64.fin t = .fin 0 := by
  show F64.mul _ _ = _
  simp [F64.mul, f64Round]

theorem F64.sub_zero_float (x : F64) (hx : x.IsFloat) : x - F64.fin 0 = x := by
  show F64.add _ (F64.neg _) = _
  cases x with
  | fin q =>
    simp only [F64.neg, F64.add, neg_zero, add_zero]
    exact hx
  | inf s => rfl
  | nan => rfl

theorem f64Round_of_int_mul (r : ℚ) (m e : Int) (he : f64Exponent r = e)
    (hm : r = (m : ℚ) * (2 : ℚ) ^ (e - 52)) (hfin : |r| < 2 ^ 1024) :
    f64Round r = .fin r := by
  by_cases h0 : r = 0
  · rw [h0]; exact f64Round_zero
  · have hpos : (0 : ℚ) < (2 : ℚ) ^ (e - 52) := by positivity
    have hq : r / (2 : ℚ) ^ (e - 52) = m := by
      rw [hm, mul_div_assoc, div_self hpos.ne', mul_one]
    have hn : roundHalfEven (r / (2 : ℚ) ^ (e - 52)) = m := by
      rw [hq]
      exact roundHalfEven_intCast m
    rw [f64Round, if_neg h0]
    simp only [he, hn]
    rw [← hm, if_neg (not_le.mpr hfin)]

theorem f64Exponent_le_of_abs_lt (r : ℚ) (e : Int) (he : -1022 ≤ e) (hr : r ≠ 0)
    (h : |r| < (2 : ℚ) ^ (e + 1)) : f64Exponent r ≤ e := by
  have hpos : (0 : ℚ) < |r| := abs_pos.mpr hr
  have a2 : Int.log 2 |r| < e + 1 := by
    rw [← Int.lt_zpow_iff_log_lt (by norm_num) hpos]
    exact_mod_cast h
  rw [f64Exponent]
  omega

theorem abs_roundHalfEven_le (q : ℚ) (b : Int) (h : |q| ≤ b) : |roundHalfEven q| ≤ b := by
  have h1 := abs_le.mp h
  rw [abs_le]
  constructor
  · have := roundHalfEven_mono (((-b : Int)) : ℚ) q (by push_cast; exact h1.1)
    rwa [roundHalfEven_intCast] at this
  · have := roundHalfEven_mono q ((b : Int) : ℚ) h1.2
    rwa [roundHalfEven_intCast] at this

/-- Rounding yields a value of binary64: rounding it again changes nothing. -/
theorem f64Round_isFloat (x : ℚ) : (f64Round x).IsFloat := by
  by_cases hx : x = 0
  · rw [hx, f64Round_zero]
    exact f64Round_zero
  rw [f64Round, if_neg hx]
  simp only
  split_ifs with hover
  · trivial
  · show f64Round _ = _
    generalize hn : roundHalfEven (x / (2 : ℚ) ^ (f64Exponent x - 52)) = n
    rw [hn] at hover
    have hfin : |(n : ℚ) * (2 : ℚ) ^ (f64Exponent x - 52)| < 2 ^ 1024 := not_le.mp hover
    have hu : (0 : ℚ) < (2 : ℚ) ^ (f64Exponent x - 52) := by positivity
    have he := f64Exponent_ge x
    -- the significand is at most 2 ^ 53
    have hq : |x / (2 : ℚ) ^ (f64Exponent x - 52)| ≤ ((2 ^ 53 : Int) : ℚ) := by
      rw [abs_div, abs_of_pos hu, div_le_iff₀ hu]
      have h1 := abs_lt_zpow_f64Exponent x
      have h2 : ((2 ^ 53 : Int) : ℚ) * (2 : ℚ) ^ (f64Exponent x - 52)
          = (2 : ℚ) ^ (f64Exponent x + 1) := by
        have : ((2 ^ 53 : Int) : ℚ) = (2 : ℚ) ^ (53 : Int) := by norm_num
        rw [this, ← zpow_add₀ (by norm_num : (2 : ℚ) ≠ 0)]
        congr 1
        omega
      rw [h2]
      exact h1.le
    have hnb : |n| ≤ 2 ^ 53 := by
      rw [← hn]
      exact abs_roundHalfEven_le _ _ hq
    by_cases hn0 : n = 0
    · rw [hn0]
      simp [f64Round_zero]
    have hr0 : (n : ℚ) * (2 : ℚ) ^ (f64Exponent x - 52) ≠ 0 :=
      mul_ne_zero (by exact_mod_cast hn0) hu.ne'
    by_cases hbig : |n| = 2 ^ 53
    · -- the rounding reached the next power of two
      have habs : |(n : ℚ) * (2 : ℚ) ^ (f64Exponent x - 52)|
          = (2 : ℚ) ^ (f64Exponent x + 1) := by
        rw [abs_mul, abs_of_pos hu]
        have : |(n : ℚ)| = (2 : ℚ) ^ (53 : Int) := by
          have : |(n : ℚ)| = ((|n| : Int) : ℚ) := by simp
          rw [this, hbig]
          norm_num
        rw [this, ← zpow_add₀ (by norm_num : (2 : ℚ) ≠ 0)]
        congr 1
        omega
      have hlt1024 : f64Exponent x + 1 < 1024 := by
        rw [habs] at hfin
        have h2 : (2 : ℚ) ^ (1024 : Nat) = (2 : ℚ) ^ (1024 : Int) := by
          rw [← zpow_natCast]; rfl
        rw [h2] at hfin
        exact (zpow_lt_zpow_iff_right₀ (by norm_num : (1 : ℚ) < 2)).mp hfin
      refine f64Round_of_repr _ (f64Exponent x + 1) (n / 2) (by omega) (by omega)
        (by rw [habs]) ?_ ?_
      · rw [habs]
        exact zpow_lt_zpow_right₀ (by norm_num) (by omega)
      · have hdiv : (2 : Int) ∣ n := by
          rcases abs_eq (by norm_num : (0 : Int) ≤ 2 ^ 53) |>.mp hbig with h | h
          · rw [h]; norm_num
          · rw [h]; norm_num
        obtain ⟨c, hc⟩ := hdiv
        have hc2 : n / 2 = c := by omega
        rw [hc2, hc]
        push_cast
        have : (2 : ℚ) ^ (f64Exponent x - 52)
            = (2 : ℚ) ^ (-1 : Int) * (2 : ℚ) ^ (f64Exponent x + 1 - 52) := by
          rw [← zpow_add₀ (by norm_num : (2 : ℚ) ≠ 0)]
          congr 1
          omega
        rw [this]
        norm_num
        ring
    · have hlt : |n| < 2 ^ 53 := lt_of_le_of_ne hnb hbig
      have habs : |(n : ℚ) * (2 : ℚ) ^ (f64Exponent x - 52)|
          < (2 : ℚ) ^ (f64Exponent x + 1) := by
        rw [abs_mul, abs_of_pos hu]
        have h1 : |(n : ℚ)| < (2 : ℚ) ^ (53 : Int) := by
          have : |(n : ℚ)| = ((|n| : Int) : ℚ) := by simp
          rw [this]
          have : ((|n| : Int) : ℚ) < ((2 ^ 53 : Int) : ℚ) := by exact_mod_cast hlt
          calc ((|n| : Int) : ℚ) < ((2 ^ 53 : Int) : ℚ) := this
            _ = (2 : ℚ) ^ (53 : Int) := by norm_num
        have h2 : (2 : ℚ) ^ (53 : Int) * (2 : ℚ) ^ (f64Exponent x - 52)
            = (2 : ℚ) ^ (f64Exponent x + 1) := by
          rw [← zpow_add₀ (by norm_num : (2 : ℚ) ≠ 0)]
          congr 1
          omega
        rw [← h2]
        exact mul_lt_mul_of_pos_right h1 hu
      have hle := f64Exponent_le_of_abs_lt _ (f64Exponent x) he hr0 habs
      generalize hr : (n : ℚ) * (2 : ℚ) ^ (f64Exponent x - 52) = r at hfin hr0 habs hle ⊢
      generalize her : f64Exponent r = er at hle
      obtain ⟨k, hk⟩ : ∃ k : Nat, f64Exponent x - er = (k : Int) :=
        ⟨(f64Exponent x - er).toNat, by omega⟩
      refine f64Round_of_int_mul r (n * 2 ^ k) er her ?_ hfin
      have hpw : (2 : ℚ) ^ (f64Exponent x - 52)
          = (2 : ℚ) ^ (k : Int) * (2 : ℚ) ^ (er - 52) := by
        rw [← zpow_add₀ (by norm_num : (2 : ℚ) ≠ 0)]
        congr 1
        omega
      calc r = (n : ℚ) * (2 : ℚ) ^ (f64Exponent x - 52) := hr.symm
        _ = (n : ℚ) * ((2 : ℚ) ^ (k : Int) * (2 : ℚ) ^ (er - 52)) := by rw [hpw]
        _ = ((n * 2 ^ k : Int) : ℚ) * (2 : ℚ) ^ (er - 52) := by
          rw [zpow_natCast]
          push_cast
          ring

theorem F64.ofInt_isFloat (n : Int) : (F64.ofInt n).IsFloat :=
  f64Round_isFloat _

theorem F64.mul_isFloat (x y : F64) : (x * y).IsFloat := by
  show (F64.mul x y).IsFloat
  cases x <;> cases y <;> simp only [F64.mul] <;>
    first | exact f64Round_isFloat _ | trivial | (split_ifs <;> trivial)

theorem F64.add_isFloat (x y : F64) : (x + y).IsFloat := by
  show (F64.add x y).IsFloat
  cases x <;> cases y <;> simp only [F64.add] <;>
    first | exact f64Round_isFloat _ | trivial | (split_ifs <;> trivial)

theorem F64.sub_isFloat (x y : F64) : (x - y).IsFloat := by
  show (F64.add x (F64.neg y)).IsFloat
  exact F64.add_isFloat x (F64.neg y)

theorem F64.div_isFloat (x y : F64) : (x / y).IsFloat := by
  show (F64.div x y).IsFloat
  cases x with
  | fin a =>
    cases y with
    | fin b =>
      simp only [F64.div]
      split_ifs
      · trivial
      · trivial
      · exact f64Round_isFloat _
    | inf t => exact f64Round_zero
    | nan => trivial
  | inf s => cases y <;> trivial
  | nan => trivial
theorem F64.mul_fin (a b : ℚ) : F64.fin a * F64.fin b = f64Round (a * b) := rfl

theorem F64.add_fin (a b : ℚ) : F64.fin a + F64.fin b = f64Round (a + b) := rfl

theorem F64.sub_fin (a b : ℚ) : F64.fin a - F64.fin b = f64Round (a - b) := by
  show f64Round (a + -b) = _
  rw [sub_eq_add_neg]

theorem F64.div_fin (a b : ℚ) (hb : b ≠ 0) : F64.fin a / F64.fin b = f64Round (a / b) := by
  show F64.div _ _ = _
  simp only [F64.div, if_neg hb]

theorem f64Round_small_values :
    f64Round 3 = .fin 3 ∧ f64Round (1 / 2) = .fin (1 / 2) ∧ f64Round (5 / 2) = .fin (5 / 2)
      ∧ f64Round 6 = .fin 6 ∧ f64Round (11 / 2) = .fin (11 / 2) ∧ f64Round 5 = .fin 5
      ∧ f64Round 2 = .fin 2 ∧ f64Round 8 = .fin 8 ∧ f64Round 9 = .fin 9
      ∧ f64Round 25 = .fin 25 ∧ f64Round 200 = .fin 200 := by
  refine ⟨?_, ?_, ?_, ?_, ?_, ?_, ?_, ?_, ?_, ?_, ?_⟩
  · exact f64Round_of_repr 3 1 (3 * 2 ^ 51) (by norm_num) (by norm_num)
      (by norm_num [abs_of_pos]) (by norm_num [abs_of_pos]) (by norm_num)
  · exact f64Round_of_repr (1 / 2) (-1) (2 ^ 52) (by norm_num) (by norm_num)
      (by norm_num [abs_of_pos]) (by norm_num [abs_of_pos]) (by norm_num)
  · exact f64Round_of_repr (5 / 2) 1 (5 * 2 ^ 50) (by norm_num) (by norm_num)
      (by norm_num [abs_of_pos]) (by norm_num [abs_of_pos]) (by norm_num)
  · exact f64Round_of_repr 6 2 (3 * 2 ^ 51) (by norm_num) (by norm_num)
      (by norm_num [abs_of_pos]) (by norm_num [abs_of_pos]) (by norm_num)
  · exact f64Round_of_repr (11 / 2) 2 (11 * 2 ^ 49) (by norm_num) (by norm_num)
      (by norm_num [abs_of_pos]) (by norm_num [abs_of_pos]) (by norm_num)
  · exact f64Round_of_repr 5 2 (5 * 2 ^ 50) (by norm_num) (by norm_num)
      (by norm_num [abs_of_pos]) (by norm_num [abs_of_pos]) (by norm_num)
  · exact f64Round_of_repr 2 1 (2 ^ 52) (by norm_num) (by norm_num)
      (by norm_num [abs_of_pos]) (by norm_num [abs_of_pos]) (by norm_num)
  · exact f64Round_of_repr 8 3 (2 ^ 52) (by norm_num) (by norm_num)
      (by norm_num [abs_of_pos]) (by norm_num [abs_of_pos]) (by norm_num)
  · exact f64Round_of_repr 9 3 (9 * 2 ^ 49) (by norm_num) (by norm_num)
      (by norm_num [abs_of_pos]) (by norm_num [abs_of_pos]) (by norm_num)
  · exact f64Round_of_repr 25 4 (25 * 2 ^ 48) (by norm_num) (by norm_num)
      (by norm_num [abs_of_pos]) (by norm_num [abs_of_pos]) (by norm_num)
  · exact f64Round_of_repr 200 7 (25 * 2 ^ 48) (by norm_num) (by norm_num)
      (by norm_num [abs_of_pos]) (by norm_num [abs_of_pos]) (by norm_num)

/-- Evaluation of `%.2f` on a value that is not negative and not on a tie. -/
theorem fixed2_eval (q : ℚ) (n : Nat) (h0 : 0 ≤ q) (h1 : (n : ℚ) - 1 / 2 < q * 100)
    (h2 : q * 100 < n + 1 / 2) :
    fixed2 q = toString (n / 100) ++ "." ++ twoDigits (n % 100) := by
  have hs : |q| * 100 = q * 100 := by rw [abs_of_nonneg h0]
  have hnn : (0 : ℚ) ≤ q * 100 := by positivity
  have hfl0 : 0 ≤ ⌊q * 100⌋ := Int.floor_nonneg.mpr hnn
  have hf : ⌊q * 100⌋ = (n : Int) ∨ ⌊q * 100⌋ = (n : Int) - 1 := by
    have a1 : (n : Int) - 1 ≤ ⌊q * 100⌋ := by
      rw [Int.le_floor]
      push_cast
      linarith
    have a2 : ⌊q * 100⌋ < (n : Int) + 1 := by
      rw [Int.floor_lt]
      push_cast
      linarith
    omega
  have hfl := Int.floor_le (q * 100)
  have hq : ¬ q < 0 := not_lt.mpr h0
  simp only [fixed2, hs, hq, if_false]
  rcases hf with hf | hf
  · have hn : ⌊q * 100⌋.toNat = n := by rw [hf]; simp
    have hd : q * 100 - (n : ℚ) < 1 / 2 := by linarith
    rw [hn]
    simp only [hd, if_true, String.empty_append]
  · have hn1 : 1 ≤ n := by omega
    have hnat : ⌊q * 100⌋.toNat = n - 1 := by rw [hf]; omega
    have ht : ((n - 1 : Nat) : ℚ) = (n : ℚ) - 1 := by
      rw [Nat.cast_sub hn1]; simp
    have hd : (1 : ℚ) / 2 < q * 100 - ((n - 1 : Nat) : ℚ) := by rw [ht]; linarith
    have hd2 : ¬ (q * 100 - ((n - 1 : Nat) : ℚ) < 1 / 2) := not_lt.mpr hd.le
    have hn : n - 1 + 1 = n := by omega
    rw [hnat]
    simp only [hd, hd2, if_true, if_false, hn, String.empty_append]

theorem fixed2_examples : fixed2 (1 / 2) = "0.50" ∧ fixed2 (5 / 2) = "2.50" ∧ fixed2 5 = "5.00"
    ∧ fixed2 3 = "3.00" := by
  refine ⟨?_, ?_, ?_, ?_⟩
  · rw [fixed2_eval (1 / 2) 50 (by norm_num) (by norm_num) (by norm_num)]
    decide
  · rw [fixed2_eval (5 / 2) 250 (by norm_num) (by norm_num) (by norm_num)]
    decide
  · rw [fixed2_eval 5 500 (by norm_num) (by norm_num) (by norm_num)]
    decide
  · rw [fixed2_eval 3 300 (by norm_num) (by norm_num) (by norm_num)]
    decide

/-- The error of one rounding: at most `2 ^ (-53)` of the exact value, or
`2 ^ (-1075)` in the subnormal range. -/
theorem f64Round_error (x r : ℚ) (h : f64Round x = .fin r) :
    |r - x| ≤ (2 : ℚ) ^ (-53 : Int) * |x| + (2 : ℚ) ^ (-1075 : Int) := by
  by_cases hx : x = 0
  · rw [hx, f64Round_zero] at h
    cases h
    rw [hx]
    simp
    positivity
  rw [f64Round, if_neg hx] at h
  simp only at h
  split_ifs at h with hover
  simp only [F64.fin.injEq] at h
  have hu : (0 : ℚ) < (2 : ℚ) ^ (f64Exponent x - 52) := by positivity
  have hhalf := abs_roundHalfEven_sub_le (x / (2 : ℚ) ^ (f64Exponent x - 52))
  have hdiff : |r - x| ≤ (2 : ℚ) ^ (f64Exponent x - 53) := by
    have e1 : r - x = ((roundHalfEven (x / (2 : ℚ) ^ (f64Exponent x - 52)) : ℚ)
        - x / (2 : ℚ) ^ (f64Exponent x - 52)) * (2 : ℚ) ^ (f64Exponent x - 52) := by
      rw [← h]
      field_simp
    rw [e1, abs_mul, abs_of_pos hu]
    have e2 : (2 : ℚ) ^ (f64Exponent x - 53)
        = 1 / 2 * (2 : ℚ) ^ (f64Exponent x - 52) := by
      have : f64Exponent x - 53 = (-1 : Int) + (f64Exponent x - 52) := by omega
      rw [this, zpow_add₀ (by norm_num : (2 : ℚ) ≠ 0)]
      norm_num
    rw [e2]
    exact mul_le_mul_of_nonneg_right hhalf hu.le
  have hpos : (0 : ℚ) < |x| := abs_pos.mpr hx
  have h53 : (0 : ℚ) ≤ (2 : ℚ) ^ (-53 : Int) * |x| := by positivity
  have h1075 : (0 : ℚ) ≤ (2 : ℚ) ^ (-1075 : Int) := by positivity
  by_cases hlog : -1022 ≤ Int.log 2 |x|
  · have he : f64Exponent x = Int.log 2 |x| := by
      rw [f64Exponent]; omega
    have hle := Int.zpow_log_le_self (b := 2) (by norm_num) hpos
    have e3 : (2 : ℚ) ^ (f64Exponent x - 53)
        = (2 : ℚ) ^ (-53 : Int) * (2 : ℚ) ^ (Int.log 2 |x|) := by
      rw [he, ← zpow_add₀ (by norm_num : (2 : ℚ) ≠ 0)]
      congr 1
      omega
    have hle2 : (2 : ℚ) ^ (Int.log 2 |x|) ≤ |x| := by exact_mod_cast hle
    have : (2 : ℚ) ^ (f64Exponent x - 53) ≤ (2 : ℚ) ^ (-53 : Int) * |x| := by
      rw [e3]
      exact mul_le_mul_of_nonneg_left hle2 (by positivity)
    linarith
  · have he : f64Exponent x = -1022 := by
      rw [f64Exponent]; omega
    rw [he] at hdiff
    have : (-1022 : Int) - 53 = -1075 := by norm_num
    rw [this] at hdiff
    linarith

/-- An integer below `2 ^ 53` in magnitude converts to `float64` exactly. -/
theorem F64.ofInt_small (n : Int) (h : |n| < 2 ^ 53) : F64.ofInt n = .fin n := by
  rw [F64.ofInt]
  by_cases h0 : n = 0
  · rw [h0]; exact_mod_cast f64Round_zero
  have hq0 : (n : ℚ) ≠ 0 := by exact_mod_cast h0
  have habs : |(n : ℚ)| < (2 : ℚ) ^ ((52 : Int) + 1) := by
    have : |(n : ℚ)| = ((|n| : Int) : ℚ) := by simp
    rw [this]
    have : ((|n| : Int) : ℚ) < ((2 ^ 53 : Int) : ℚ) := by exact_mod_cast h
    calc ((|n| : Int) : ℚ) < ((2 ^ 53 : Int) : ℚ) := this
      _ = (2 : ℚ) ^ ((52 : Int) + 1) := by norm_num
  have hle := f64Exponent_le_of_abs_lt (n : ℚ) 52 (by norm_num) hq0 habs
  have hge : 0 ≤ f64Exponent (n : ℚ) := by
    have h1 : (1 : ℚ) ≤ |(n : ℚ)| := by
      have : |(n : ℚ)| = ((|n| : Int) : ℚ) := by simp
      rw [this]
      have : 1 ≤ |n| := Int.one_le_abs h0
      exact_mod_cast this
    have hpos : (0 : ℚ) < |(n : ℚ)| := abs_pos.mpr hq0
    have : (0 : Int) ≤ Int.log 2 |(n : ℚ)| := by
      rw [← Int.zpow_le_iff_le_log (by norm_num) hpos]
      simpa using h1
    rw [f64Exponent]
    omega
  generalize he : f64Exponent (n : ℚ) = e at hle hge
  obtain ⟨k, hk⟩ : ∃ k : Nat, 52 - e = (k : Int) := ⟨(52 - e).toNat, by omega⟩
  refine f64Round_of_int_mul (n : ℚ) (n * 2 ^ k) e he ?_ ?_
  · push_cast
    rw [mul_assoc, ← zpow_natCast, ← hk, ← zpow_add₀ (by norm_num : (2 : ℚ) ≠ 0)]
    have : 52 - e + (e - 52) = 0 := by omega
    rw [this, zpow_zero, mul_one]
  · have : (2 : ℚ) ^ ((52 : Int) + 1) ≤ 2 ^ 1024 := by norm_num
    exact lt_of_lt_of_le habs this

theorem F64.sub_eq_fin (x y : F64) (L : ℚ) (h : x - y = .fin L) :
    ∃ a b, x = .fin a ∧ y = .fin b ∧ f64Round (a - b) = .fin L := by
  cases x with
  | fin a =>
    cases y with
    | fin b => exact ⟨a, b, rfl, rfl, by rw [← F64.sub_fin]; exact h⟩
    | inf t => exact absurd h (by intro h; cases h)
    | nan => exact absurd h (by intro h; cases h)
  | inf s =>
    cases y with
    | fin b => exact absurd h (by intro h; cases h)
    | inf t =>
      have h2 : (if s = !t then F64.inf s else F64.nan) = F64.fin L := h
      split_ifs at h2
    | nan => exact absurd h (by intro h; cases h)
  | nan => exact absurd h (by intro h; cases h)

theorem F64.mul_eq_fin (x y : F64) (L : ℚ) (h : x * y = .fin L) :
    ∃ a b, x = .fin a ∧ y = .fin b ∧ f64Round (a * b) = .fin L := by
  cases x with
  | fin a =>
    cases y with
    | fin b => exact ⟨a, b, rfl, rfl, h⟩
    | inf t =>
      have h2 : (if a = 0 then F64.nan else F64.inf (t != decide (a < 0))) = F64.fin L := h
      split_ifs at h2
    | nan => exact absurd h (by intro h; cases h)
  | inf s =>
    cases y with
    | fin b =>
      have h2 : (if b = 0 then F64.nan else F64.inf (s != decide (b < 0))) = F64.fin L := h
      split_ifs at h2
    | inf t => exact absurd h (by intro h; cases h)
    | nan => exact absurd h (by intro h; cases h)
  | nan => exact absurd h (by intro h; cases h)

/-- Three roundings in a row, as in `x1 - x2` with both terms rounded first:
the accumulated error. -/
theorem three_roundings (u η x1 x2 a b L : ℚ) (hu0 : 0 ≤ u) (hu1 : u ≤ 1) (hη : 0 ≤ η)
    (ea : |a - x1| ≤ u * |x1| + η) (eb : |b - x2| ≤ u * |x2| + η)
    (eL : |L - (a - b)| ≤ u * |a - b| + η) :
    |L - (x1 - x2)| ≤ 3 * u * (|x1| + |x2|) + 5 * η := by
  have hA := abs_nonneg x1
  have hB := abs_nonneg x2
  have t1 : |L - (x1 - x2)| ≤ |L - (a - b)| + (|a - x1| + |b - x2|) := by
    have e : L - (x1 - x2) = (L - (a - b)) + ((a - x1) - (b - x2)) := by ring
    rw [e]
    exact (abs_add _ _).trans (add_le_add le_rfl (abs_sub _ _))
  have t2 : |a - b| ≤ (|a - x1| + |b - x2|) + (|x1| + |x2|) := by
    have e : a - b = ((a - x1) - (b - x2)) + (x1 - x2) := by ring
    rw [e]
    exact (abs_add _ _).trans (add_le_add (abs_sub _ _) (abs_sub _ _))
  have t3 : u * |a - b| ≤ u * ((u * |x1| + η + (u * |x2| + η)) + (|x1| + |x2|)) :=
    mul_le_mul_of_nonneg_left (by linarith) hu0
  have t4 : u * (u * |x1|) ≤ u * |x1| := by
    have := mul_le_mul_of_nonneg_right hu1 (mul_nonneg hu0 hA)
    linarith
  have t5 : u * (u * |x2|) ≤ u * |x2| := by
    have := mul_le_mul_of_nonneg_right hu1 (mul_nonneg hu0 hB)
    linarith
  have t6 : u * η ≤ η := by
    have := mul_le_mul_of_nonneg_right hu1 hη
    linarith
  nlinarith [t1, t2, t3, t4, t5, t6]

theorem roundHalfEven_tie (q : ℚ) (f : Int) (h : q = f + 1 / 2) :
    roundHalfEven q = if f % 2 = 0 then f else f + 1 := by
  have hf : ⌊q⌋ = f := by
    rw [Int.floor_eq_iff, h]
    constructor <;> linarith
  have hd : q - ((f : Int) : ℚ) = 1 / 2 := by rw [h]; ring
  simp only [roundHalfEven, hf, hd, lt_self_iff_false, if_false]

theorem f64Round_nonNeg (x : ℚ) (hx : 0 ≤ x) : (f64Round x).NonNeg := by
  by_cases h0 : x = 0
  · rw [h0, f64Round_zero]
    exact le_refl _
  rw [f64Round, if_neg h0]
  simp only
  split_ifs with hover
  · show decide (x < 0) = false
    simpa using hx
  · show (0 : ℚ) ≤ _
    have hu : (0 : ℚ) < (2 : ℚ) ^ (f64Exponent x - 52) := by positivity
    have hq : (0 : ℚ) ≤ x / (2 : ℚ) ^ (f64Exponent x - 52) := div_nonneg hx hu.le
    have hn := roundHalfEven_nonneg _ hq
    have : (0 : ℚ) ≤ (roundHalfEven (x / (2 : ℚ) ^ (f64Exponent x - 52)) : ℚ) := by
      exact_mod_cast hn
    positivity

/-- A number of at least `2 ^ (-1074)`, the least positive value of binary64,
does not round to zero. -/
theorem f64Round_ne_zero (x : ℚ) (hx : (2 : ℚ) ^ (-1074 : Int) ≤ x) : f64Round x ≠ .fin 0 := by
  have hpos : (0 : ℚ) < x := lt_of_lt_of_le (by positivity) hx
  rw [f64Round, if_neg hpos.ne']
  simp only
  split_ifs with hover
  · intro h; cases h
  · intro h
    simp only [F64.fin.injEq] at h
    have hu : (0 : ℚ) < (2 : ℚ) ^ (f64Exponent x - 52) := by positivity
    have hq : (1 : ℚ) ≤ x / (2 : ℚ) ^ (f64Exponent x - 52) := by
      rw [le_div_iff₀ hu, one_mul]
      by_cases hlog : -1022 ≤ Int.log 2 |x|
      · have he : f64Exponent x = Int.log 2 |x| := by
          rw [f64Exponent]; omega
        have hle := Int.zpow_log_le_self (b := 2) (by norm_num) (abs_pos.mpr hpos.ne')
        have hle2 : (2 : ℚ) ^ (Int.log 2 |x|) ≤ x := by
          have : (2 : ℚ) ^ (Int.log 2 |x|) ≤ |x| := by exact_mod_cast hle
          exact this.trans (abs_of_pos hpos).le
        have hmono : (2 : ℚ) ^ (f64Exponent x - 52) ≤ (2 : ℚ) ^ (Int.log 2 |x|) :=
          zpow_le_zpow_right₀ (by norm_num) (by omega)
        exact hmono.trans hle2
      · have he : f64Exponent x = -1022 := by
          rw [f64Exponent]; omega
        rw [he]
        exact hx
    have hn := roundHalfEven_mono _ _ hq
    have h1 : roundHalfEven (1 : ℚ) = 1 := by
      have := roundHalfEven_intCast 1
      simpa using this
    rw [h1] at hn
    have hnq : (1 : ℚ) ≤ (roundHalfEven (x / (2 : ℚ) ^ (f64Exponent x - 52)) : ℚ) := by
      exact_mod_cast hn
    have : (0 : ℚ) < (roundHalfEven (x / (2 : ℚ) ^ (f64Exponent x - 52)) : ℚ)
        * (2 : ℚ) ^ (f64Exponent x - 52) := by positivity
    linarith

theorem F64.mul_nonNeg (x y : F64) (hx : x.NonNeg) (hy : y.isPos = true) :
    (x * y).NonNeg ∨ x * y = .nan := by
  show (F64.mul x y).NonNeg ∨ F64.mul x y = .nan
  cases x with
  | fin a =>
    have ha : (0 : ℚ) ≤ a := hx
    cases y with
    | fin b =>
      have hb : (0 : ℚ) < b := by simpa [F64.isPos] using hy
      exact Or.inl (f64Round_nonNeg _ (mul_nonneg ha hb.le))
    | inf t =>
      have ht : t = false := by simpa [F64.isPos] using hy
      subst ht
      simp only [F64.mul]
      split_ifs with h0
      · exact Or.inr rfl
      · left
        show (false != decide (a < 0)) = false
        simpa using ha
    | nan => simp [F64.isPos] at hy
  | inf s =>
    have hs : s = false := hx
    subst hs
    cases y with
    | fin b =>
      have hb : (0 : ℚ) < b := by simpa [F64.isPos] using hy
      simp only [F64.mul, if_neg hb.ne']
      left
      show (false != decide (b < 0)) = false
      simpa using hb.le
    | inf t =>
      have ht : t = false := by simpa [F64.isPos] using hy
      subst ht
      exact Or.inl rfl
    | nan => simp [F64.isPos] at hy
  | nan => exact hx.elim

/-- A finite quotient of a value that is not negative by one that is not
negative is not negative. -/
theorem F64.div_nonneg_of_fin (a p : F64) (x : ℚ) (ha : a.NonNeg) (hp : p.NonNeg ∨ p = .nan)
    (h : a / p = .fin x) : 0 ≤ x := by
  have h2 : F64.div a p = .fin x := h
  rcases hp with hp | hp
  · cases a with
    | fin q =>
      have hq : (0 : ℚ) ≤ q := ha
      cases p with
      | fin r =>
        have hr : (0 : ℚ) ≤ r := hp
        simp only [F64.div] at h2
        split_ifs at h2 with h0 h1
        have hn := f64Round_nonNeg (q / r) (div_nonneg hq hr)
        rw [h2] at hn
        exact hn
      | inf t =>
        simp only [F64.div, F64.fin.injEq] at h2
        exact h2.le
      | nan => exact hp.elim
    | inf s => cases p <;> simp [F64.div] at h2
    | nan => exact ha.elim
  · subst hp
    cases a <;> simp [F64.div] at h2

theorem slideshowPieces_fade (n : Nat) (D T : F64) (w h fps : Int) :
    slideshowPieces n D T "fade" w h fps =
      scalePieces n (if w = 0 then 1280 else w) (if h = 0 then 720 else h) fps
        ++ fadeChain n D T := by
  rw [slideshowPieces]
  simp

theorem xfadeStages_append (ps qs : List FilterPiece) :
    xfadeStages (ps ++ qs) = xfadeStages ps ++ xfadeStages qs := by
  simp [xfadeStages]

theorem xfadeStages_scalePieces (n : Nat) (w h fps : Int) :
    xfadeStages (scalePieces n w h fps) = [] := by
  simp [xfadeStages, scalePieces]

theorem xfadeStages_fadeChain (n : Nat) (D T : F64) :
    xfadeStages (fadeChain n D T) = fadeChain n D T := by
  unfold xfadeStages
  rw [List.filter_eq_self]
  intro p hp
  unfold fadeChain at hp
  split at hp
  · simp at hp
    subst hp
    rfl
  · rw [List.mem_cons, List.mem_map] at hp
    rcases hp with rfl | ⟨j, _, rfl⟩
    · rfl
    · simp only [fadeLoopBody]
      split_ifs <;> rfl

/-- For the first stage the source writes `duration - transitionDur`; that is
the value of `(k * D - (k - 1) * T) - T` at `k = 1`. -/
theorem claimedOffset_one (D T : F64) (hD : D.IsFloat) (t : ℚ) (hT : T = .fin t) :
    (F64.ofInt ((1 : Nat) : Int) * D - F64.ofInt (((1 : Nat) : Int) - 1) * T) - T = D - T := by
  subst hT
  simp only [Nat.cast_one, sub_self, F64.ofInt_zero, F64.ofInt_one,
    F64.zero_mul_fin, F64.one_mul_float D hD, F64.sub_zero_float D hD]

/-- The cross-fade chain of `n ≥ 2` images, stage by stage. -/
theorem fadeChain_stages (n : Nat) (D T : F64) (hn : 2 ≤ n) (hD : D.IsFloat) (t : ℚ)
    (hT : T = .fin t) :
    fadeChain n D T =
      (List.range (n - 1)).map fun (j : Nat) =>
        FilterPiece.xfade (if j = 0 then .v 0 else .vt j) (.v (j + 1)) T
          ((F64.ofInt ((j + 1 : Nat) : Int) * D - F64.ofInt (((j + 1 : Nat) : Int) - 1) * T) - T)
          (if j + 2 = n then .out else .vt (j + 1)) := by
  obtain ⟨m, rfl⟩ : ∃ m, n = m + 2 := ⟨n - 2, by omega⟩
  have h1 := claimedOffset_one D T hD t hT
  unfold fadeChain
  by_cases hm : m = 0
  · subst hm
    simp only [List.range_succ, List.range_zero, List.nil_append, List.map_cons, List.map_nil,
      if_true, Nat.zero_add]
    rw [h1]
  · have h2 : ¬ (m + 2 = 2) := by omega
    rw [if_neg h2]
    have : m + 2 - 1 = m + 1 := by omega
    rw [this, List.range_succ_eq_map]
    simp only [List.map_cons, List.map_map, Nat.add_sub_cancel]
    congr 1
    · have h3 : ¬ (0 + 2 = m + 2) := by omega
      simp only [if_true, Nat.zero_add, if_neg h3]
      rw [h1]
    · apply List.map_congr_left
      intro j _
      simp only [Function.comp, fadeLoopBody]
      have e2 : j + 1 + 1 = j + 2 := rfl
      have e3 : j + 2 - 1 = j + 1 := rfl
      have e4 : ¬ (j + 1 = 0) := by omega
      rw [e2, e3, if_neg e4]
      by_cases hl : j + 1 + 2 = m + 2
      · have hl2 : ((j + 2 : Nat) : Int) = ((m + 2 : Nat) : Int) - 1 := by
          push_cast; omega
        rw [if_pos hl, if_pos hl2]
      · have hl2 : ¬ ((j + 2 : Nat) : Int) = ((m + 2 : Nat) : Int) - 1 := by
          push_cast; omega
        rw [if_neg hl, if_neg hl2]

theorem String_join_append (xs ys : List String) :
    String.join (xs ++ ys) = String.join xs ++ String.join ys := by
  apply String.ext
  simp [String.join_eq, String.data_append]

theorem scale_render_text (i : Nat) (w h fps : Int) :
    (FilterPiece.scale i w h fps).render
      = "[" ++ toString i ++ ":v]scale=" ++ fmtInt w ++ ":" ++ fmtInt h ++ ",setsar=1,fps="
          ++ fmtInt fps ++ ",settb=AVTB[v" ++ toString i ++ "];" := rfl

theorem xfade_render_text (j n : Nat) (T off : F64) :
    (FilterPiece.xfade (if j = 0 then .v 0 else .vt j) (.v (j + 1)) T off
        (if j + 2 = n then .out else .vt (j + 1))).render
      = (if j = 0 then "[v0]" else "[vt" ++ toString j ++ "]")
          ++ ("[v" ++ toString (j + 1) ++ "]")
          ++ "xfade=transition=fade:duration=" ++ fmtFixed2 T ++ ":offset=" ++ fmtFixed2 off
          ++ (if j + 2 = n then "[v]" else "[vt" ++ toString (j + 1) ++ "]")
          ++ (if j + 2 = n then "" else ";") := by
  have l3 : StreamLabel.render (.v 0) = "[v0]" := by decide
  by_cases h0 : j = 0
  · subst h0
    by_cases hn : 0 + 2 = n
    · simp only [hn, if_true, FilterPiece.render, l3]
      rfl
    · simp only [hn, if_true, if_false, FilterPiece.render, l3]
      rfl
  · by_cases hn : j + 2 = n
    · simp only [h0, hn, if_true, if_false, FilterPiece.render]
      rfl
    · simp only [h0, hn, if_false, FilterPiece.render]
      rfl

/-- Claim C1.  With transition type "fade", `N ≥ 2` images, a per-image
duration `D` and a finite transition duration `T`, the text
`buildSlideshowFilter` returns is the `N` scale chains followed by exactly
`N - 1` cross-fade stages, and the stage `k` (`1 ≤ k ≤ N - 1`) carries, under
`offset=`, the `%.2f` rendering of `(k * D - (k - 1) * T) - T` computed in
`float64`; these are the cross-fade stages of the graph, in order. -/
theorem buildSlideshowFilter_fade_offsets (imagePaths : List String) (D T : F64) (t : ℚ)
    (width height fps : Int) (hN : 2 ≤ imagePaths.length) (hD : D.IsFloat)
    (hT : T = .fin t) :
    buildSlideshowFilter imagePaths D T "fade" width height fps
        = String.join ((List.range imagePaths.length).map fun (i : Nat) =>
              "[" ++ toString i ++ ":v]scale=" ++ fmtInt (if width = 0 then 1280 else width)
                ++ ":" ++ fmtInt (if height = 0 then 720 else height) ++ ",setsar=1,fps="
                ++ fmtInt fps ++ ",settb=AVTB[v" ++ toString i ++ "];")
          ++ String.join ((List.range (imagePaths.length - 1)).map fun (j : Nat) =>
              (if j = 0 then "[v0]" else "[vt" ++ toString j ++ "]")
                ++ ("[v" ++ toString (j + 1) ++ "]")
                ++ "xfade=transition=fade:duration=" ++ fmtFixed2 T ++ ":offset="
                ++ fmtFixed2 ((F64.ofInt ((j + 1 : Nat) : Int) * D
                    - F64.ofInt (((j + 1 : Nat) : Int) - 1) * T) - T)
                ++ (if j + 2 = imagePaths.length then "[v]"
                    else "[vt" ++ toString (j + 1) ++ "]")
                ++ (if j + 2 = imagePaths.length then "" else ";"))
      ∧ (xfadeStages (slideshowPieces imagePaths.length D T "fade" width height fps)).length
          = imagePaths.length - 1
      ∧ ∀ k : Nat, 1 ≤ k → k ≤ imagePaths.length - 1 →
          ((xfadeStages (slideshowPieces imagePaths.length D T "fade" width height fps)).get?
              (k - 1)).bind FilterPiece.offset?
            = some ((F64.ofInt (k : Int) * D - F64.ofInt ((k : Int) - 1) * T) - T) := by
  have hst := fadeChain_stages imagePaths.length D T hN hD t hT
  refine ⟨?_, ?_, ?_⟩
  · unfold buildSlideshowFilter
    rw [slideshowPieces_fade, List.map_append, String_join_append, hst]
    congr 1
    · simp only [scalePieces, List.map_map]
      rfl
    · simp only [List.map_map]
      congr 1
      apply List.map_congr_left
      intro j _
      exact xfade_render_text j imagePaths.length T _
  · rw [slideshowPieces_fade, xfadeStages_append, xfadeStages_scalePieces, List.nil_append,
      xfadeStages_fadeChain, hst]
    simp
  · intro k hk1 hk2
    rw [slideshowPieces_fade, xfadeStages_append, xfadeStages_scalePieces, List.nil_append,
      xfadeStages_fadeChain, hst, List.get?_eq_getElem?, List.getElem?_map]
    have hr : (List.range (imagePaths.length - 1))[k - 1]? = some (k - 1) := by
      rw [List.getElem?_range]
      omega
    rw [hr]
    have hk : k - 1 + 1 = k := by omega
    simp only [Option.map_some', Option.some_bind, FilterPiece.offset?, hk]
set_option maxRecDepth 100000 in
/-- Claim C1 at three images of 3 s with 0.5 s transitions: the text has two
cross-fade stages, with the offsets 2.50 and 5.00. -/
theorem buildSlideshowFilter_fade_offsets_witness :
    buildSlideshowFilter ["a.jpg", "b.jpg", "c.jpg"] (.fin 3) (.fin (1 / 2)) "fade" 0 0 25
        = "[0:v]scale=1280:720,setsar=1,fps=25,settb=AVTB[v0];"
          ++ "[1:v]scale=1280:720,setsar=1,fps=25,settb=AVTB[v1];"
          ++ "[2:v]scale=1280:720,setsar=1,fps=25,settb=AVTB[v2];"
          ++ "[v0][v1]xfade=transition=fade:duration=0.50:offset=2.50[vt1];"
          ++ "[vt1][v2]xfade=transition=fade:duration=0.50:offset=5.00[v]"
      ∧ (xfadeStages (slideshowPieces 3 (.fin 3) (.fin (1 / 2)) "fade" 0 0 25)).length = 2
      ∧ ((xfadeStages (slideshowPieces 3 (.fin 3) (.fin (1 / 2)) "fade" 0 0 25)).get? 0).bind
          FilterPiece.offset? = some (.fin (5 / 2))
      ∧ ((xfadeStages (slideshowPieces 3 (.fin 3) (.fin (1 / 2)) "fade" 0 0 25)).get? 1).bind
          FilterPiece.offset? = some (.fin 5) := by
  obtain ⟨r3, r12, r52, r6, r112, r5, r2, _, _, _, _⟩ := f64Round_small_values
  obtain ⟨x12, x52, x5, _⟩ := fixed2_examples
  have h := buildSlideshowFilter_fade_offsets ["a.jpg", "b.jpg", "c.jpg"] (.fin 3)
    (.fin (1 / 2)) (1 / 2) 0 0 25 (by decide) r3 rfl
  have o1 : (F64.ofInt ((1 : Nat) : Int) * F64.fin 3
      - F64.ofInt (((1 : Nat) : Int) - 1) * F64.fin (1 / 2)) - F64.fin (1 / 2)
        = .fin (5 / 2) := by
    simp only [Nat.cast_one, sub_self, F64.ofInt_zero, F64.ofInt_one, F64.mul_fin, F64.sub_fin]
    norm_num [r3, r52, f64Round_zero, F64.sub_fin]
  have o2 : (F64.ofInt ((2 : Nat) : Int) * F64.fin 3
      - F64.ofInt (((2 : Nat) : Int) - 1) * F64.fin (1 / 2)) - F64.fin (1 / 2)
        = .fin 5 := by
    have e2 : F64.ofInt ((2 : Nat) : Int) = .fin 2 := by
      rw [F64.ofInt]; exact_mod_cast r2
    have e1 : F64.ofInt (((2 : Nat) : Int) - 1) = .fin 1 := F64.ofInt_one
    rw [e2, e1]
    simp only [F64.mul_fin, F64.sub_fin]
    norm_num [r6, r12, r112, r5, F64.sub_fin]
  refine ⟨?_, h.2.1, ?_, ?_⟩
  · rw [h.1]
    have hr3 : List.range ["a.jpg", "b.jpg", "c.jpg"].length = [0, 1, 2] := by decide
    have hr2 : List.range (["a.jpg", "b.jpg", "c.jpg"].length - 1) = [0, 1] := by decide
    rw [hr3, hr2]
    simp only [List.map_cons, List.map_nil]
    have o1' : (F64.ofInt ((0 + 1 : Nat) : Int) * F64.fin 3
        - F64.ofInt (((0 + 1 : Nat) : Int) - 1) * F64.fin (1 / 2)) - F64.fin (1 / 2)
          = .fin (5 / 2) := o1
    have o2' : (F64.ofInt ((1 + 1 : Nat) : Int) * F64.fin 3
        - F64.ofInt (((1 + 1 : Nat) : Int) - 1) * F64.fin (1 / 2)) - F64.fin (1 / 2)
          = .fin 5 := o2
    rw [o1', o2']
    simp only [fmtFixed2, x12, x52, x5]
    decide
  · have := h.2.2 1 (by decide) (by decide)
    rw [o1] at this
    exact this
  · have := h.2.2 2 (by decide) (by decide)
    rw [o2] at this
    exact this

theorem downloadImages_length (env : Env) (ps acc tfs ls tf : List String)
    (h : downloadImages env ps acc tfs = .ok (ls, tf)) :
    ls.length = acc.length + ps.length := by
  induction ps generalizing acc tfs with
  | nil =>
    simp only [downloadImages, Except.ok.injEq, Prod.mk.injEq] at h
    simp [h.1]
  | cons p rest ih =>
    simp only [downloadImages] at h
    cases hd : DownloadFile env p with
    | error e => rw [hd] at h; simp at h
    | ok l =>
      rw [hd] at h
      have := ih _ _ h
      simp only [List.length_append, List.length_cons, List.length_nil] at this
      simp only [List.length_cons]
      omega

theorem downloadImages_ok (env : Env) (ps acc tfs : List String)
    (h : ∀ p ∈ ps, ∃ l, DownloadFile env p = .ok l) :
    ∃ ls tf, downloadImages env ps acc tfs = .ok (ls, tf) := by
  induction ps generalizing acc tfs with
  | nil => exact ⟨acc, tfs, rfl⟩
  | cons p rest ih =>
    obtain ⟨l, hl⟩ := h p (List.mem_cons_self _ _)
    simp only [downloadImages, hl]
    exact ih _ _ (fun q hq => h q (List.mem_cons_of_mem _ hq))

/-- The frame count of a successful slideshow build is the one of the plan for
the resolved images and the probed audio duration. -/
theorem slideshow_success (env : Env) (params : TaskInputParams) (outputPath : String)
    (h : (BuildImageSlideshowCommand env params outputPath).err = none) :
    (params.BackgroundAudio = "" ∧
        (BuildImageSlideshowCommand env params outputPath).totalFrames
          = (slideshowPlan params params.ImagePaths.length 0).totalFrames)
      ∨ (params.BackgroundAudio ≠ "" ∧ ∃ localAudioPath audioDuration,
          DownloadFile env params.BackgroundAudio = .ok localAudioPath
            ∧ env.getAudioDuration localAudioPath = .ok audioDuration
            ∧ (BuildImageSlideshowCommand env params outputPath).totalFrames
                = (slideshowPlan params params.ImagePaths.length audioDuration).totalFrames) := by
  unfold BuildImageSlideshowCommand at h ⊢
  by_cases h0 : params.ImagePaths.length = 0
  · simp [h0, BuildResult.fail] at h
  · simp only [h0, if_false] at h ⊢
    cases hd : downloadImages env params.ImagePaths [] [] with
    | error e =>
      obtain ⟨a, b, c⟩ := e
      rw [hd] at h; simp [BuildResult.fail] at h
    | ok r =>
      obtain ⟨ls, tf⟩ := r
      have hlen := downloadImages_length env _ _ _ _ _ hd
      simp only [List.length_nil, Nat.zero_add] at hlen
      rw [hd] at h
      simp only at h ⊢
      by_cases ha : params.BackgroundAudio = ""
      · left
        simp [ha, hlen]
      · right
        refine ⟨ha, ?_⟩
        simp only [ne_eq, ha, not_false_eq_true, if_true] at h ⊢
        cases hdl : DownloadFile env params.BackgroundAudio with
        | error e => rw [hdl] at h; simp [BuildResult.fail] at h
        | ok la =>
          rw [hdl] at h
          simp only at h ⊢
          cases hg : env.getAudioDuration la with
          | error e => rw [hg] at h; simp [BuildResult.fail] at h
          | ok d =>
            exact ⟨la, d, rfl, hg, by simp [hg, hlen]⟩

theorem slideshow_no_audio_ok (env : Env) (params : TaskInputParams) (outputPath : String)
    (hImgs : 1 ≤ params.ImagePaths.length) (hAudio : params.BackgroundAudio = "")
    (hres : ∀ p ∈ params.ImagePaths, ∃ l, DownloadFile env p = .ok l) :
    (BuildImageSlideshowCommand env params outputPath).err = none := by
  unfold BuildImageSlideshowCommand
  have h0 : ¬ params.ImagePaths.length = 0 := by omega
  obtain ⟨ls, tf, hd⟩ := downloadImages_ok env params.ImagePaths [] [] hres
  simp [h0, hd, hAudio]

theorem DownloadFile_local (env : Env) (p : String) (h : isURL p = false) :
    DownloadFile env p = .ok p := by
  simp [DownloadFile, h]

/-- Claim C2.  Without background audio and with a transition type other than
"none", when every image of a non-empty list resolves: `D` and `T` are the
requested durations read as `float64`, defaulted to 3 and 0.5 when they read
as 0; the timeline length `BuildImageSlideshowCommand` counts frames from is
`N * D - (N - 1) * T` evaluated in `float64`; the build succeeds and its
`totalFrames` is `int` of that length times the (defaulted) fps; and a finite
length differs from the exact `N * D - (N - 1) * T` by no more than the three
roundings allow. -/
theorem slideshow_timeline_length (env : Env) (params : TaskInputParams) (outputPath : String)
    (hImgs : 1 ≤ params.ImagePaths.length) (hAudio : params.BackgroundAudio = "")
    (hType : params.TransitionType ≠ "none")
    (hres : ∀ p ∈ params.ImagePaths, ∃ l, DownloadFile env p = .ok l) :
    (slideshowPlan params params.ImagePaths.length 0).imageDuration
        = (if f64Round params.ImageDuration = .fin 0 then .fin 3
            else f64Round params.ImageDuration)
      ∧ (slideshowPlan params params.ImagePaths.length 0).transitionDur
        = (if f64Round params.TransitionDur = .fin 0 then .fin (1 / 2)
            else f64Round params.TransitionDur)
      ∧ (slideshowPlan params params.ImagePaths.length 0).totalDuration
        = F64.ofInt (params.ImagePaths.length : Int)
              * (slideshowPlan params params.ImagePaths.length 0).imageDuration
            - F64.ofInt ((params.ImagePaths.length : Int) - 1)
              * (slideshowPlan params params.ImagePaths.length 0).transitionDur
      ∧ (BuildImageSlideshowCommand env params outputPath).err = none
      ∧ (BuildImageSlideshowCommand env params outputPath).totalFrames
          = goInt ((slideshowPlan params params.ImagePaths.length 0).totalDuration
              * F64.ofInt (if params.FPS = 0 then 25 else params.FPS))
      ∧ (params.ImagePaths.length < 2 ^ 53 → ∀ d t L : ℚ,
          (slideshowPlan params params.ImagePaths.length 0).imageDuration = .fin d →
          (slideshowPlan params params.ImagePaths.length 0).transitionDur = .fin t →
          (slideshowPlan params params.ImagePaths.length 0).totalDuration = .fin L →
          |L - ((params.ImagePaths.length : ℚ) * d - ((params.ImagePaths.length : ℚ) - 1) * t)|
            ≤ (2 : ℚ) ^ (-51 : Int)
                * ((params.ImagePaths.length : ℚ) * |d|
                  + ((params.ImagePaths.length : ℚ) - 1) * |t|)
              + (2 : ℚ) ^ (-1072 : Int)) := by
  have hok := slideshow_no_audio_ok env params outputPath hImgs hAudio hres
  have hT : ¬ ((if params.TransitionType = "" then "fade" else params.TransitionType) = "none") := by
    split_ifs
    · decide
    · exact hType
  have h0 : (f64Round 0).isPos = false := by
    rw [f64Round_zero]
    simp [F64.isPos]
  have hdur : (slideshowPlan params params.ImagePaths.length 0).totalDuration
        = F64.ofInt (params.ImagePaths.length : Int)
              * (slideshowPlan params params.ImagePaths.length 0).imageDuration
            - F64.ofInt ((params.ImagePaths.length : Int) - 1)
              * (slideshowPlan params params.ImagePaths.length 0).transitionDur := by
    simp only [slideshowPlan, slideshowTimeline, hT, if_false, h0]
    rfl
  refine ⟨rfl, rfl, hdur, hok, ?_, ?_⟩
  · rcases slideshow_success env params outputPath hok with ⟨_, h⟩ | ⟨hne, _⟩
    · rw [h]
      rfl
    · exact absurd hAudio hne
  · intro hN d t L hd ht hL
    rw [hdur, hd, ht] at hL
    have hn1 : F64.ofInt (params.ImagePaths.length : Int)
        = .fin ((params.ImagePaths.length : Int) : ℚ) := by
      apply F64.ofInt_small
      rw [abs_of_nonneg (by positivity)]
      exact_mod_cast hN
    have hn2 : F64.ofInt ((params.ImagePaths.length : Int) - 1)
        = .fin (((params.ImagePaths.length : Int) - 1 : Int) : ℚ) := by
      apply F64.ofInt_small
      rw [abs_of_nonneg (by omega)]
      have : (params.ImagePaths.length : Int) < 2 ^ 53 := by exact_mod_cast hN
      omega
    rw [hn1, hn2, F64.mul_fin, F64.mul_fin] at hL
    obtain ⟨a, b, ha, hb, hab⟩ := F64.sub_eq_fin _ _ _ hL
    have ea := f64Round_error _ _ ha
    have eb := f64Round_error _ _ hb
    have eL := f64Round_error _ _ hab
    have hNq : (0 : ℚ) ≤ (params.ImagePaths.length : ℚ) := by positivity
    have hN1q : (0 : ℚ) ≤ (params.ImagePaths.length : ℚ) - 1 := by
      have : (1 : ℚ) ≤ (params.ImagePaths.length : ℚ) := by exact_mod_cast hImgs
      linarith
    have c1 : (((params.ImagePaths.length : Int)) : ℚ) = (params.ImagePaths.length : ℚ) := by
      push_cast; rfl
    have c2 : ((((params.ImagePaths.length : Int) - 1 : Int)) : ℚ)
        = (params.ImagePaths.length : ℚ) - 1 := by
      push_cast; rfl
    rw [c1] at ea
    rw [c2] at eb
    have hu0 : (0 : ℚ) ≤ (2 : ℚ) ^ (-53 : Int) := by positivity
    have hu1 : (2 : ℚ) ^ (-53 : Int) ≤ 1 := by norm_num
    have hη : (0 : ℚ) ≤ (2 : ℚ) ^ (-1075 : Int) := by positivity
    have key := three_roundings _ _ _ _ a b L hu0 hu1 hη ea eb eL
    have hx1 : |(params.ImagePaths.length : ℚ) * d| = (params.ImagePaths.length : ℚ) * |d| := by
      rw [abs_mul, abs_of_nonneg hNq]
    have hx2 : |((params.ImagePaths.length : ℚ) - 1) * t|
        = ((params.ImagePaths.length : ℚ) - 1) * |t| := by
      rw [abs_mul, abs_of_nonneg hN1q]
    rw [hx1, hx2] at key
    have k1 : 3 * (2 : ℚ) ^ (-53 : Int) ≤ (2 : ℚ) ^ (-51 : Int) := by norm_num
    have k2 : 5 * (2 : ℚ) ^ (-1075 : Int) ≤ (2 : ℚ) ^ (-1072 : Int) := by
      have : (2 : ℚ) ^ (-1072 : Int) = 8 * (2 : ℚ) ^ (-1075 : Int) := by
        have : (-1072 : Int) = 3 + (-1075) := by norm_num
        rw [this, zpow_add₀ (by norm_num : (2 : ℚ) ≠ 0)]
        norm_num
      rw [this]
      linarith
    have hs : (0 : ℚ) ≤ (params.ImagePaths.length : ℚ) * |d|
        + ((params.ImagePaths.length : ℚ) - 1) * |t| := by positivity
    have k3 := mul_le_mul_of_nonneg_right k1 hs
    linarith

theorem threeLocalImages_resolve (env : Env) :
    ∀ p ∈ ["a.jpg", "b.jpg", "c.jpg"], ∃ l, DownloadFile env p = .ok l := by
  intro p hp
  have hp2 : p = "a.jpg" ∨ p = "b.jpg" ∨ p = "c.jpg" := by simpa using hp
  rcases hp2 with rfl | rfl | rfl <;> exact ⟨_, DownloadFile_local _ _ (by decide)⟩

theorem goInt_fin_nonneg (q : ℚ) (n : Int) (h0 : 0 ≤ n) (h63 : n < 2 ^ 63) (h1 : (n : ℚ) ≤ q)
    (h2 : q < n + 1) : goInt (.fin q) = n := by
  have hq : (0 : ℚ) ≤ q := le_trans (by exact_mod_cast h0) h1
  have hf : ⌊q⌋ = n := by
    rw [Int.floor_eq_iff]
    exact ⟨h1, h2⟩
  simp only [goInt, if_pos hq, hf]
  rw [if_pos ⟨by omega, h63⟩]

/-- Claim C2 at the scenario of the design document (three images, 3 s each,
0.5 s transitions, 25 fps: length 8 and 200 frames) and at three images of
3.3 s with 0.3 s transitions at 30 fps, where the roundings of `float64` give
278 frames. -/
theorem slideshow_timeline_length_witness :
    (slideshowPlan threeImages 3 0).totalDuration = .fin 8
      ∧ (BuildImageSlideshowCommand (probeEnv 0) threeImages "out.mp4").err = none
      ∧ (BuildImageSlideshowCommand (probeEnv 0) threeImages "out.mp4").totalFrames = 200
      ∧ (BuildImageSlideshowCommand (probeEnv 0) slides33 "out.mp4").err = none
      ∧ (BuildImageSlideshowCommand (probeEnv 0) slides33 "out.mp4").totalFrames = 278 := by
  obtain ⟨r3, r12, _, _, _, _, r2, r8, r9, r25, r200⟩ := f64Round_small_values
  have h := slideshow_timeline_length (probeEnv 0) threeImages "out.mp4" (by decide) rfl
    (by decide) (threeLocalImages_resolve _)
  have g := slideshow_timeline_length (probeEnv 0) slides33 "out.mp4" (by decide) rfl
    (by decide) (threeLocalImages_resolve _)
  have o3 : F64.ofInt ((3 : Nat) : Int) = .fin 3 := by
    rw [F64.ofInt]; exact_mod_cast r3
  have o2 : F64.ofInt (((3 : Nat) : Int) - 1) = .fin 2 := by
    rw [F64.ofInt]; exact_mod_cast r2
  have o25 : F64.ofInt 25 = .fin 25 := by
    rw [F64.ofInt]; exact_mod_cast r25
  have hlen : threeImages.ImagePaths.length = 3 := rfl
  have glen : slides33.ImagePaths.length = 3 := rfl
  -- the scenario of the design document
  have hD : (slideshowPlan threeImages 3 0).imageDuration = .fin 3 := by
    have := h.1
    rw [hlen] at this
    rw [this]
    show (if f64Round 3 = .fin 0 then _ else f64Round 3) = _
    rw [r3]
    norm_num
  have hT : (slideshowPlan threeImages 3 0).transitionDur = .fin (1 / 2) := by
    have := h.2.1
    rw [hlen] at this
    rw [this]
    show (if f64Round (1 / 2) = .fin 0 then _ else f64Round (1 / 2)) = _
    rw [r12]
    norm_num
  have hL : (slideshowPlan threeImages 3 0).totalDuration = .fin 8 := by
    have := h.2.2.1
    rw [hlen] at this
    rw [this, hD, hT, o3, o2, F64.mul_fin, F64.mul_fin]
    have e1 : f64Round (3 * 3) = .fin 9 := by norm_num [r9]
    have e2 : f64Round (2 * (1 / 2)) = .fin 1 := by
      have : (2 : ℚ) * (1 / 2) = ((1 : Int) : ℚ) := by norm_num
      rw [this]
      exact F64.ofInt_one
    rw [e1, e2, F64.sub_fin]
    norm_num [r8]
  have hF : (BuildImageSlideshowCommand (probeEnv 0) threeImages "out.mp4").totalFrames
      = 200 := by
    have := h.2.2.2.2.1
    rw [hlen] at this
    rw [this, hL]
    show goInt (F64.fin 8 * F64.ofInt 25) = 200
    rw [o25, F64.mul_fin]
    norm_num [r200]
    exact goInt_fin_nonneg 200 200 (by norm_num) (by norm_num) (by norm_num) (by norm_num)
  -- 3.3 s and 0.3 s at 30 fps
  have rD : f64Round (33 / 10)
      = .fin (3715469692580659 / 1125899906842624) := by
    rw [f64Round_eval (33 / 10) 1
      7430939385161318 (by norm_num) (by norm_num [abs_of_pos])
      (by norm_num [abs_of_pos]) (roundHalfEven_eq _ _ (by norm_num) (by norm_num))
      (by norm_num [abs_of_pos])]
    norm_num
  have rT : f64Round (3 / 10)
      = .fin (5404319552844595 / 18014398509481984) := by
    rw [f64Round_eval (3 / 10) (-2)
      5404319552844595 (by norm_num) (by norm_num [abs_of_pos])
      (by norm_num [abs_of_pos]) (roundHalfEven_eq _ _ (by norm_num) (by norm_num))
      (by norm_num [abs_of_pos])]
    norm_num
  have ra : f64Round (11146409077741977 / 1125899906842624)
      = .fin (1393301134717747 / 140737488355328) := by
    rw [f64Round_eval (11146409077741977 / 1125899906842624) 3
      5573204538870988 (by norm_num) (by norm_num [abs_of_pos])
      (by norm_num [abs_of_pos]) (by rw [roundHalfEven_tie _ 5573204538870988 (by norm_num)]; norm_num)
      (by norm_num [abs_of_pos])]
    norm_num
  have rb : f64Round (5404319552844595 / 9007199254740992)
      = .fin (5404319552844595 / 9007199254740992) := by
    rw [f64Round_eval (5404319552844595 / 9007199254740992) (-1)
      5404319552844595 (by norm_num) (by norm_num [abs_of_pos])
      (by norm_num [abs_of_pos]) (roundHalfEven_eq _ _ (by norm_num) (by norm_num))
      (by norm_num [abs_of_pos])]
    norm_num
  have rL : f64Round (83766953069091213 / 9007199254740992)
      = .fin (5235434566818201 / 562949953421312) := by
    rw [f64Round_eval (83766953069091213 / 9007199254740992) 3
      5235434566818201 (by norm_num) (by norm_num [abs_of_pos])
      (by norm_num [abs_of_pos]) (roundHalfEven_eq _ _ (by norm_num) (by norm_num))
      (by norm_num [abs_of_pos])]
    norm_num
  have rP : f64Round (78531518502273015 / 281474976710656)
      = .fin (4908219906392063 / 17592186044416) := by
    rw [f64Round_eval (78531518502273015 / 281474976710656) 8
      4908219906392063 (by norm_num) (by norm_num [abs_of_pos])
      (by norm_num [abs_of_pos]) (roundHalfEven_eq _ _ (by norm_num) (by norm_num))
      (by norm_num [abs_of_pos])]
    norm_num
  have r30 : f64Round (30)
      = .fin (30) := by
    rw [f64Round_eval (30) 4
      8444249301319680 (by norm_num) (by norm_num [abs_of_pos])
      (by norm_num [abs_of_pos]) (roundHalfEven_eq _ _ (by norm_num) (by norm_num))
      (by norm_num [abs_of_pos])]
    norm_num
  have gD : (slideshowPlan slides33 3 0).imageDuration = .fin (3715469692580659 / 1125899906842624) := by
    have := g.1
    rw [glen] at this
    rw [this]
    show (if f64Round (33 / 10) = .fin 0 then _ else f64Round (33 / 10)) = _
    rw [rD]
    norm_num
  have gT : (slideshowPlan slides33 3 0).transitionDur = .fin (5404319552844595 / 18014398509481984) := by
    have := g.2.1
    rw [glen] at this
    rw [this]
    show (if f64Round (3 / 10) = .fin 0 then _ else f64Round (3 / 10)) = _
    rw [rT]
    norm_num
  have gL : (slideshowPlan slides33 3 0).totalDuration = .fin (5235434566818201 / 562949953421312) := by
    have := g.2.2.1
    rw [glen] at this
    rw [this, gD, gT, o3, o2, F64.mul_fin, F64.mul_fin]
    have e1 : (3 : ℚ) * (3715469692580659 / 1125899906842624) = 11146409077741977 / 1125899906842624 := by norm_num
    have e2 : (2 : ℚ) * (5404319552844595 / 18014398509481984) = 5404319552844595 / 9007199254740992 := by norm_num
    rw [e1, e2, ra, rb, F64.sub_fin]
    have e3 : (1393301134717747 / 140737488355328 : ℚ) - 5404319552844595 / 9007199254740992 = 83766953069091213 / 9007199254740992 := by norm_num
    rw [e3, rL]
  have gF : (BuildImageSlideshowCommand (probeEnv 0) slides33 "out.mp4").totalFrames
      = 278 := by
    have := g.2.2.2.2.1
    rw [glen] at this
    rw [this, gL]
    show goInt (F64.fin _ * F64.ofInt 30) = 278
    have o30 : F64.ofInt 30 = .fin 30 := by
      rw [F64.ofInt]; exact_mod_cast r30
    rw [o30, F64.mul_fin]
    have e4 : (5235434566818201 / 562949953421312 : ℚ) * 30 = 78531518502273015 / 281474976710656 := by norm_num
    rw [e4, rP]
    exact goInt_fin_nonneg _ 278 (by norm_num) (by norm_num) (by norm_num) (by norm_num)
  exact ⟨hL, h.2.2.2.1, hF, g.2.2.2.1, gF⟩

theorem imageAudio_success (env : Env) (params : TaskInputParams) (outputPath : String)
    (h : (BuildImageAudioToVideoCommand env params outputPath).err = none) :
    ∃ localAudioPath audioDuration,
      DownloadFile env params.AudioPath = .ok localAudioPath
        ∧ env.getAudioDuration localAudioPath = .ok audioDuration
        ∧ (BuildImageAudioToVideoCommand env params outputPath).totalFrames
            = goInt (f64Round audioDuration
                * F64.ofInt (if params.FPS = 0 then 25 else params.FPS)) := by
  unfold BuildImageAudioToVideoCommand at h ⊢
  cases hi : DownloadFile env params.ImagePath with
  | error e => rw [hi] at h; simp [BuildResult.fail] at h
  | ok li =>
    rw [hi] at h
    simp only at h ⊢
    cases ha : DownloadFile env params.AudioPath with
    | error e => rw [ha] at h; simp [BuildResult.fail] at h
    | ok la =>
      rw [ha] at h
      simp only at h ⊢
      cases hg : env.getAudioDuration la with
      | error e => rw [hg] at h; simp [BuildResult.fail] at h
      | ok d => exact ⟨la, d, rfl, hg, by simp [hg]⟩

theorem imageAudio_local_frames (env : Env) (params : TaskInputParams) (outputPath : String)
    (d : ℚ) (hi : isURL params.ImagePath = false) (ha : isURL params.AudioPath = false)
    (hd : env.getAudioDuration params.AudioPath = .ok d) :
    (BuildImageAudioToVideoCommand env params outputPath).err = none
      ∧ (BuildImageAudioToVideoCommand env params outputPath).totalFrames
          = goInt (f64Round d * F64.ofInt (if params.FPS = 0 then 25 else params.FPS)) := by
  unfold BuildImageAudioToVideoCommand
  rw [DownloadFile_local _ _ hi]
  simp only
  rw [DownloadFile_local _ _ ha]
  simp only [hd, and_self]

theorem F64.ofInt_25 : F64.ofInt 25 = .fin 25 := by
  rw [F64.ofInt]
  exact_mod_cast f64Round_small_values.2.2.2.2.2.2.2.2.2.1

/-- The frame count of the image-plus-audio builder for local inputs at
25 fps, from the rounded product. -/
theorem imageAndAudio_frames (outputPath : String) (d p : ℚ) (n : Int)
    (hp : f64Round d * F64.fin 25 = .fin p)
    (h0 : 0 ≤ n) (h63 : n < 2 ^ 63) (h1 : (n : ℚ) ≤ p) (h2 : p < n + 1) :
    (BuildImageAudioToVideoCommand (probeEnv d) imageAndAudio outputPath).err = none
      ∧ (BuildImageAudioToVideoCommand (probeEnv d) imageAndAudio outputPath).totalFrames
          = n := by
  have h := imageAudio_local_frames (probeEnv d) imageAndAudio outputPath d
    (by decide) (by decide) rfl
  refine ⟨h.1, ?_⟩
  rw [h.2]
  show goInt (f64Round d * F64.ofInt 25) = n
  rw [F64.ofInt_25, hp]
  exact goInt_fin_nonneg p n h0 h63 h1 h2

/-- Ten seconds at 25 fps: the product is 250 exactly. -/
theorem f64_ten_seconds : f64Round 10 * F64.fin 25 = .fin 250 := by
  have r10 : f64Round (10)
      = .fin (10) := by
    rw [f64Round_eval (10) 3
      5629499534213120 (by norm_num) (by norm_num [abs_of_pos])
      (by norm_num [abs_of_pos]) (roundHalfEven_eq _ _ (by norm_num) (by norm_num))
      (by norm_num [abs_of_pos])]
    norm_num
  have r250 : f64Round (250)
      = .fin (250) := by
    rw [f64Round_eval (250) 7
      8796093022208000 (by norm_num) (by norm_num [abs_of_pos])
      (by norm_num [abs_of_pos]) (roundHalfEven_eq _ _ (by norm_num) (by norm_num))
      (by norm_num [abs_of_pos])]
    norm_num
  rw [r10, F64.mul_fin]
  norm_num [r250]

/-- Claim C3 fails as stated: with a probed audio duration of 1.75 s at
25 fps the builder returns 43 frames (the fraction of 43.75 is cut off), while
rounding gives 44. -/
theorem totalFrames_not_rounded :
    (BuildImageAudioToVideoCommand (probeEnv (7 / 4)) imageAndAudio "out.mp4").err = none
      ∧ (BuildImageAudioToVideoCommand (probeEnv (7 / 4)) imageAndAudio "out.mp4").totalFrames = 43
      ∧ f64Round (7 / 4) * F64.ofInt 25 = .fin (175 / 4)
      ∧ roundNearest (175 / 4) = 44
      ∧ (BuildImageAudioToVideoCommand (probeEnv (7 / 4)) imageAndAudio "out.mp4").totalFrames
          ≠ roundNearest (175 / 4) := by
  have r74 : f64Round (7 / 4)
      = .fin (7 / 4) := by
    rw [f64Round_eval (7 / 4) 0
      7881299347898368 (by norm_num) (by norm_num [abs_of_pos])
      (by norm_num [abs_of_pos]) (roundHalfEven_eq _ _ (by norm_num) (by norm_num))
      (by norm_num [abs_of_pos])]
    norm_num
  have r1754 : f64Round (175 / 4)
      = .fin (175 / 4) := by
    rw [f64Round_eval (175 / 4) 5
      6157265115545600 (by norm_num) (by norm_num [abs_of_pos])
      (by norm_num [abs_of_pos]) (roundHalfEven_eq _ _ (by norm_num) (by norm_num))
      (by norm_num [abs_of_pos])]
    norm_num
  have hp : f64Round (7 / 4) * F64.fin 25 = .fin (175 / 4) := by
    rw [r74, F64.mul_fin]
    norm_num [r1754]
  have h := imageAndAudio_frames "out.mp4" (7 / 4) (175 / 4) 43 hp (by norm_num) (by norm_num)
    (by norm_num) (by norm_num)
  have e2 : roundNearest (175 / 4) = 44 := by
    have h0 : (0 : ℚ) ≤ 175 / 4 := by norm_num
    rw [roundNearest, if_pos h0, Int.floor_eq_iff]
    norm_num
  refine ⟨h.1, h.2, ?_, e2, ?_⟩
  · rw [F64.ofInt_25]
    exact hp
  · rw [h.2, e2]
    decide

/-- Claim C3, amended.  A successful build returns
`totalFrames = int(duration * fps)`, the `float64` product truncated towards
zero: for the image-plus-audio builder `duration` is the probed audio
duration; for the slideshow builder it is the probed duration of the
background audio when that is positive and the computed timeline length
otherwise; `fps` is the requested value, or 25 when that is 0.  The conversion
`int` drops the fraction of a product within the `int64` range. -/
theorem totalFrames_truncates (env : Env) (params : TaskInputParams) (outputPath : String) :
    ((BuildImageAudioToVideoCommand env params outputPath).err = none →
        ∃ localAudioPath audioDuration,
          DownloadFile env params.AudioPath = .ok localAudioPath
            ∧ env.getAudioDuration localAudioPath = .ok audioDuration
            ∧ (BuildImageAudioToVideoCommand env params outputPath).totalFrames
                = goInt (f64Round audioDuration
                    * F64.ofInt (if params.FPS = 0 then 25 else params.FPS)))
      ∧ ((BuildImageSlideshowCommand env params outputPath).err = none →
          ∃ audioDuration : ℚ,
            ((params.BackgroundAudio = "" ∧ audioDuration = 0)
              ∨ (params.BackgroundAudio ≠ "" ∧ ∃ localAudioPath,
                  DownloadFile env params.BackgroundAudio = .ok localAudioPath
                    ∧ env.getAudioDuration localAudioPath = .ok audioDuration))
            ∧ (BuildImageSlideshowCommand env params outputPath).totalFrames
                = goInt ((if (f64Round audioDuration).isPos then f64Round audioDuration
                      else slideshowTimeline params.ImagePaths.length
                        (if f64Round params.ImageDuration = .fin 0 then .fin 3
                          else f64Round params.ImageDuration)
                        (if f64Round params.TransitionDur = .fin 0 then .fin (1 / 2)
                          else f64Round params.TransitionDur)
                        (if params.TransitionType = "" then "fade" else params.TransitionType))
                    * F64.ofInt (if params.FPS = 0 then 25 else params.FPS)))
      ∧ (∀ q : ℚ, -(2 ^ 63) ≤ q → q < 2 ^ 63 →
          goInt (.fin q) = (if 0 ≤ q then ⌊q⌋ else ⌈q⌉)
            ∧ |(goInt (.fin q) : ℚ)| ≤ |q| ∧ |q - (goInt (.fin q) : ℚ)| < 1) := by
  refine ⟨imageAudio_success env params outputPath, ?_, ?_⟩
  · intro h
    rcases slideshow_success env params outputPath h with ⟨h0, hf⟩ | ⟨hne, la, d, hd, hg, hf⟩
    · exact ⟨0, Or.inl ⟨h0, rfl⟩, by rw [hf]; rfl⟩
    · exact ⟨d, Or.inr ⟨hne, la, hd, hg⟩, by rw [hf]; rfl⟩
  · intro q hlo hhi
    have hfl := Int.floor_le q
    have hfl2 := Int.lt_floor_add_one q
    have hce := Int.le_ceil q
    have hce2 := Int.ceil_lt_add_one q
    by_cases hq : 0 ≤ q
    · have hf0 : 0 ≤ ⌊q⌋ := Int.floor_nonneg.mpr hq
      have hf63 : ⌊q⌋ < 2 ^ 63 := by
        rw [Int.floor_lt]
        exact_mod_cast hhi
      have hg : goInt (.fin q) = ⌊q⌋ := by
        simp only [goInt, if_pos hq]
        rw [if_pos ⟨by omega, hf63⟩]
      rw [hg, if_pos hq]
      have hfq : (0 : ℚ) ≤ (⌊q⌋ : ℚ) := by exact_mod_cast hf0
      refine ⟨rfl, ?_, ?_⟩
      · rw [abs_of_nonneg hfq, abs_of_nonneg hq]
        exact hfl
      · rw [abs_lt]
        constructor <;> linarith
    · have hq' : q < 0 := not_le.mp hq
      have hc0 : ⌈q⌉ ≤ 0 := by
        rw [Int.ceil_le]
        exact_mod_cast hq'.le
      have hclo : -(2 ^ 63) ≤ ⌈q⌉ := by
        have : ((-(2 ^ 63) : Int) : ℚ) ≤ q := by exact_mod_cast hlo
        have := Int.ceil_mono this
        rwa [Int.ceil_intCast] at this
      have hg : goInt (.fin q) = ⌈q⌉ := by
        simp only [goInt, if_neg hq]
        rw [if_pos ⟨hclo, by omega⟩]
      rw [hg, if_neg hq]
      have hcq : (⌈q⌉ : ℚ) ≤ 0 := by exact_mod_cast hc0
      refine ⟨rfl, ?_, ?_⟩
      · rw [abs_of_nonpos hcq, abs_of_neg hq']
        linarith
      · rw [abs_lt]
        constructor <;> linarith

/-- Claim C3 (amended) at both scenarios of the design document (10 s of
audio at 25 fps give 250 frames, the three-image slideshow gives 200) and at
4.6 s of audio at 25 fps, where the `float64` product lies just below 115 and
the count is 114. -/
theorem totalFrames_truncates_witness :
    (BuildImageAudioToVideoCommand (probeEnv 10) imageAndAudio "out.mp4").totalFrames = 250
      ∧ (BuildImageSlideshowCommand (probeEnv 0) threeImages "out.mp4").totalFrames = 200
      ∧ (BuildImageAudioToVideoCommand (probeEnv (46 / 10)) imageAndAudio "out.mp4").totalFrames
          = 114 := by
  have r10 : f64Round (10)
      = .fin (10) := by
    rw [f64Round_eval (10) 3
      5629499534213120 (by norm_num) (by norm_num [abs_of_pos])
      (by norm_num [abs_of_pos]) (roundHalfEven_eq _ _ (by norm_num) (by norm_num))
      (by norm_num [abs_of_pos])]
    norm_num
  have r250 : f64Round (250)
      = .fin (250) := by
    rw [f64Round_eval (250) 7
      8796093022208000 (by norm_num) (by norm_num [abs_of_pos])
      (by norm_num [abs_of_pos]) (roundHalfEven_eq _ _ (by norm_num) (by norm_num))
      (by norm_num [abs_of_pos])]
    norm_num
  have r46 : f64Round (46 / 10)
      = .fin (2589569785738035 / 562949953421312) := by
    rw [f64Round_eval (46 / 10) 2
      5179139571476070 (by norm_num) (by norm_num [abs_of_pos])
      (by norm_num [abs_of_pos]) (roundHalfEven_eq _ _ (by norm_num) (by norm_num))
      (by norm_num [abs_of_pos])]
    norm_num
  have rp46 : f64Round (64739244643450875 / 562949953421312)
      = .fin (8092405580431359 / 70368744177664) := by
    rw [f64Round_eval (64739244643450875 / 562949953421312) 6
      8092405580431359 (by norm_num) (by norm_num [abs_of_pos])
      (by norm_num [abs_of_pos]) (roundHalfEven_eq _ _ (by norm_num) (by norm_num))
      (by norm_num [abs_of_pos])]
    norm_num
  obtain ⟨r3, r12, _, _, _, _, r2, r8, r9, r25, r200⟩ := f64Round_small_values
  have hok1 := (imageAndAudio_frames "out.mp4" 10 250 250 f64_ten_seconds
    (by norm_num) (by norm_num) (by norm_num) (by norm_num)).1
  have hok2 : (BuildImageSlideshowCommand (probeEnv 0) threeImages "out.mp4").err = none :=
    slideshow_no_audio_ok (probeEnv 0) threeImages "out.mp4" (by decide) rfl
      (threeLocalImages_resolve _)
  have hok3 := (imageAndAudio_frames "out.mp4" (46 / 10) (8092405580431359 / 70368744177664) 114
    (by rw [r46, F64.mul_fin]; norm_num [rp46])
    (by norm_num) (by norm_num) (by norm_num) (by norm_num)).1
  refine ⟨?_, ?_, ?_⟩
  · obtain ⟨la, d, _, hg, hf⟩ :=
      (totalFrames_truncates (probeEnv 10) imageAndAudio "out.mp4").1 hok1
    have hd : d = 10 := by
      simp only [probeEnv, Except.ok.injEq] at hg
      exact hg.symm
    rw [hf, hd]
    show goInt (f64Round 10 * F64.ofInt 25) = 250
    rw [F64.ofInt_25, r10, F64.mul_fin]
    norm_num [r250]
    exact goInt_fin_nonneg 250 250 (by norm_num) (by norm_num) (by norm_num) (by norm_num)
  · obtain ⟨ad, hcase, hf⟩ :=
      (totalFrames_truncates (probeEnv 0) threeImages "out.mp4").2.1 hok2
    have had : ad = 0 := by
      rcases hcase with ⟨_, h0⟩ | ⟨hne, _⟩
      · exact h0
      · exact absurd rfl hne
    rw [hf, had]
    have e0 : (f64Round 0).isPos = false := by
      rw [f64Round_zero]; simp [F64.isPos]
    have e3 : f64Round threeImages.ImageDuration = .fin 3 := r3
    have e12 : f64Round threeImages.TransitionDur = .fin (1 / 2) := r12
    have o3 : F64.ofInt ((threeImages.ImagePaths.length : Nat) : Int) = .fin 3 := by
      rw [F64.ofInt]; exact_mod_cast r3
    have o2 : F64.ofInt (((threeImages.ImagePaths.length : Nat) : Int) - 1) = .fin 2 := by
      rw [F64.ofInt]; exact_mod_cast r2
    have hty : (if threeImages.TransitionType = "" then "fade"
        else threeImages.TransitionType) = "fade" := rfl
    have hfps : (if threeImages.FPS = 0 then (25 : Int) else threeImages.FPS) = 25 := rfl
    have hne : ¬ ("fade" = "none") := by decide
    rw [e0, e3, e12, hty, hfps]
    simp only [slideshowTimeline, hne, if_false, Bool.false_eq_true]
    rw [o3, o2, F64.ofInt_25]
    have n3 : ¬ (F64.fin 3 = F64.fin 0) := by norm_num
    have n12 : ¬ (F64.fin (1 / 2) = F64.fin 0) := by norm_num
    rw [if_neg n3, if_neg n12, F64.mul_fin, F64.mul_fin]
    have e1 : f64Round (3 * 3) = .fin 9 := by norm_num [r9]
    have e2 : f64Round (2 * (1 / 2)) = .fin 1 := by
      have : (2 : ℚ) * (1 / 2) = ((1 : Int) : ℚ) := by norm_num
      rw [this]
      exact F64.ofInt_one
    rw [e1, e2, F64.sub_fin]
    norm_num [r8, F64.mul_fin, r200]
    exact goInt_fin_nonneg 200 200 (by norm_num) (by norm_num) (by norm_num) (by norm_num)
  · obtain ⟨la, d, _, hg, hf⟩ :=
      (totalFrames_truncates (probeEnv (46 / 10)) imageAndAudio "out.mp4").1 hok3
    have hd : d = 46 / 10 := by
      simp only [probeEnv, Except.ok.injEq] at hg
      exact hg.symm
    rw [hf, hd]
    show goInt (f64Round (46 / 10) * F64.ofInt 25) = 114
    rw [F64.ofInt_25, r46, F64.mul_fin]
    have e4 : (2589569785738035 / 562949953421312 : ℚ) * 25 = 64739244643450875 / 562949953421312 := by norm_num
    rw [e4, rp46]
    exact goInt_fin_nonneg _ 114 (by norm_num) (by norm_num) (by norm_num) (by norm_num)

/-! ### The matcher: what a capture can hold -/

theorem mem_take_of_le_takeWhile (p : Char → Bool) (s : List Char) (j : Nat)
    (hj : j ≤ (s.takeWhile p).length) : ∀ c ∈ s.take j, p c = true := by
  induction s generalizing j with
  | nil => simp
  | cons x xs ih =>
    cases j with
    | zero => simp
    | succ j =>
      by_cases hx : p x = true
      · simp only [List.takeWhile_cons, hx, if_true, List.length_cons] at hj
        intro c hc
        simp only [List.take_succ_cons, List.mem_cons] at hc
        rcases hc with rfl | hc
        · exact hx
        · exact ih j (by omega) c hc
      · simp [List.takeWhile_cons, hx] at hj

theorem greedy_some (k : List Char → Option (List Char)) (cap : Bool) (s : List Char)
    (lo n : Nat) (r : List Char) (h : greedy k cap s lo n = some r) :
    ∃ j r1, j ≤ n ∧ k (s.drop j) = some r1 ∧ r = (if cap then s.take j else []) ++ r1 := by
  induction n with
  | zero =>
    simp only [greedy] at h
    split_ifs at h
    exact ⟨0, r, le_refl _, by simpa using h, by simp⟩
  | succ n ih =>
    rw [greedy] at h
    by_cases hlt : n + 1 < lo
    · simp [hlt] at h
    rw [if_neg hlt] at h
    cases hk : k (s.drop (n + 1)) with
    | some r1 =>
      rw [hk] at h
      simp only [Option.some.injEq] at h
      exact ⟨n + 1, r1, le_refl _, hk, h.symm⟩
    | none =>
      rw [hk] at h
      obtain ⟨j, r1, hj, h1, h2⟩ := ih h
      exact ⟨j, r1, by omega, h1, h2⟩

theorem matchAtom_capture (a : Atom) (k : List Char → Option (List Char)) (s r : List Char)
    (h : matchAtom a k s = some r) :
    ∃ r0 r1 t, r = r0 ++ r1 ∧ k t = some r1 ∧ ∀ c ∈ r0, a.cap = true ∧ a.pred c = true := by
  have rep : ∀ lo, greedy k a.cap s lo (s.takeWhile a.pred).length = some r →
      ∃ r0 r1 t, r = r0 ++ r1 ∧ k t = some r1 ∧ ∀ c ∈ r0, a.cap = true ∧ a.pred c = true := by
    intro lo hg
    obtain ⟨j, r1, hj, h1, h2⟩ := greedy_some _ _ _ _ _ _ hg
    refine ⟨_, r1, _, h2, h1, ?_⟩
    intro c hc
    by_cases hcap : a.cap = true
    · simp only [hcap, if_true] at hc
      exact ⟨hcap, mem_take_of_le_takeWhile _ _ _ hj c hc⟩
    · simp [hcap] at hc
  unfold matchAtom at h
  cases hq : a.quant with
  | one =>
    rw [hq] at h
    simp only at h
    cases s with
    | nil => simp at h
    | cons x s1 =>
      simp only at h
      by_cases hx : a.pred x = true
      · simp only [hx, if_true, Option.map_eq_some'] at h
        obtain ⟨r1, h1, h2⟩ := h
        by_cases hcap : a.cap = true
        · simp only [hcap, if_true] at h2
          refine ⟨[x], r1, s1, h2.symm, h1, ?_⟩
          intro c hc
          rw [List.mem_singleton] at hc
          subst hc
          exact ⟨hcap, hx⟩
        · simp only [hcap] at h2
          exact ⟨[], r1, s1, by simpa using h2.symm, h1, by simp⟩
      · simp [hx] at h
  | star =>
    rw [hq] at h
    exact rep 0 h
  | plus =>
    rw [hq] at h
    exact rep 1 h

theorem matchHere_capture (re : List Atom) (s r : List Char) (h : matchHere re s = some r) :
    ∀ c ∈ r, ∃ a ∈ re, a.cap = true ∧ a.pred c = true := by
  induction re generalizing s r with
  | nil =>
    simp only [matchHere, Option.some.injEq] at h
    subst h
    simp
  | cons a rest ih =>
    rw [matchHere] at h
    obtain ⟨r0, r1, t, hr, hk, h0⟩ := matchAtom_capture a _ s r h
    subst hr
    intro c hc
    rcases List.mem_append.mp hc with hc | hc
    · exact ⟨a, List.mem_cons_self _ _, h0 c hc⟩
    · obtain ⟨b, hb, hb2⟩ := ih t r1 hk c hc
      exact ⟨b, List.mem_cons_of_mem _ hb, hb2⟩

theorem findSubmatch_some (re : List Atom) (s r : List Char) (h : findSubmatch re s = some r) :
    ∃ t, matchHere re t = some r := by
  induction s with
  | nil => exact ⟨[], h⟩
  | cons c s ih =>
    simp only [findSubmatch] at h
    cases hm : matchHere re (c :: s) with
    | some r1 =>
      rw [hm] at h
      simp only [Option.some.injEq] at h
      subst h
      exact ⟨_, hm⟩
    | none =>
      rw [hm] at h
      exact ih h

theorem frameRe_capture (s r : List Char) (h : findSubmatch frameRe s = some r) :
    ∀ c ∈ r, c.isDigit = true := by
  obtain ⟨t, ht⟩ := findSubmatch_some _ _ _ h
  intro c hc
  obtain ⟨a, ha, hcap, hp⟩ := matchHere_capture _ _ _ ht c hc
  simp only [frameRe, litText, List.mem_append, List.mem_map, List.mem_cons,
    List.mem_singleton, List.not_mem_nil, or_false] at ha
  rcases ha with ⟨x, _, rfl⟩ | rfl | rfl
  · simp [Atom.lit] at hcap
  · simp at hcap
  · exact hp

theorem atoi_nonneg (m : List Char) (h : ∀ c ∈ m, c.isDigit = true) : 0 ≤ atoi m := by
  have hneg : (m.head? = some '-') = False := by
    apply eq_false
    intro hh
    cases m with
    | nil => simp at hh
    | cons x xs =>
      simp only [List.head?_cons, Option.some.injEq] at hh
      have := h x (List.mem_cons_self _ _)
      rw [hh] at this
      exact absurd this (by decide)
  unfold atoi
  simp only [hneg]
  split_ifs
  all_goals first
    | exact le_refl _
    | exact Int.ofNat_nonneg _
    | contradiction

theorem parseFields_Frame_nonneg (now : Int) (line : List Char) :
    0 ≤ (parseFields now line).Frame := by
  simp only [parseFields]
  cases h : findSubmatch frameRe line with
  | none => exact le_refl _
  | some m => exact atoi_nonneg m (frameRe_capture _ _ h)

theorem withEstimates_Frame (p : Progress) (totalFrames : Int) :
    (withEstimates p totalFrames).Frame = p.Frame := by
  simp only [withEstimates]
  split_ifs <;> rfl

theorem withEstimates_Progress (p : Progress) (totalFrames : Int) :
    (withEstimates p totalFrames).Progress =
      if 0 < totalFrames ∧ 0 < p.Frame then
        min 100 (((p.Frame : Int) : ℚ) / ((totalFrames : Int) : ℚ) * 100)
      else p.Progress := by
  simp only [withEstimates]
  by_cases hg : 0 < totalFrames ∧ 0 < p.Frame
  · simp only [hg, and_self, if_true]
    have hmin : ∀ x : ℚ, (if 100 < x then (100 : ℚ) else x) = min 100 x := by
      intro x
      rw [min_def]
      split_ifs with h1 h2 h2
      · rfl
      · exact absurd (le_of_lt h1) h2
      · exact le_antisymm (not_lt.mp h1) h2
      · rfl
    rw [← hmin]
    split_ifs <;> rfl
  · simp only [hg, if_false]

theorem parseProgress_some (now : Int) (line : String) (totalFrames : Int) (p : Progress)
    (h : parseProgress now line totalFrames = some p) :
    p = withEstimates (parseFields now line.toList) totalFrames := by
  unfold parseProgress at h
  split_ifs at h
  simp only [Option.some.injEq] at h
  exact h.symm

/-- Claim C4.  Whenever `parseProgress` yields an event, with parsed frame
count `f`, its percentage is `min(100, f / totalFrames * 100)` when
`totalFrames > 0` and `0` when `totalFrames ≤ 0`; it always lies in
`[0, 100]`. -/
theorem parseProgress_percentage (now : Int) (line : String) (totalFrames : Int)
    (p : Progress) (h : parseProgress now line totalFrames = some p) :
    (0 < totalFrames →
        p.Progress = min 100 (((p.Frame : Int) : ℚ) / ((totalFrames : Int) : ℚ) * 100))
      ∧ (totalFrames ≤ 0 → p.Progress = 0)
      ∧ 0 ≤ p.Progress ∧ p.Progress ≤ 100 := by
  have hp := parseProgress_some now line totalFrames p h
  have hF : p.Frame = (parseFields now line.toList).Frame := by
    rw [hp, withEstimates_Frame]
  have hF0 : 0 ≤ p.Frame := by
    rw [hF]; exact parseFields_Frame_nonneg _ _
  have hP : p.Progress = if 0 < totalFrames ∧ 0 < p.Frame then
        min 100 (((p.Frame : Int) : ℚ) / ((totalFrames : Int) : ℚ) * 100) else 0 := by
    rw [hF, hp, withEstimates_Progress]
    rfl
  have hpos : 0 < totalFrames → 0 ≤ ((p.Frame : Int) : ℚ) / ((totalFrames : Int) : ℚ) * 100 := by
    intro ht
    have h1 : (0 : ℚ) ≤ ((p.Frame : Int) : ℚ) := by exact_mod_cast hF0
    have h2 : (0 : ℚ) < ((totalFrames : Int) : ℚ) := by exact_mod_cast ht
    positivity
  refine ⟨?_, ?_, ?_, ?_⟩
  · intro ht
    rw [hP]
    by_cases hf : 0 < p.Frame
    · simp [ht, hf]
    · have : p.Frame = 0 := le_antisymm (not_lt.mp hf) hF0
      simp [this]
  · intro ht
    rw [hP]
    simp [not_lt.mpr ht]
  · rw [hP]
    split_ifs with hg
    · exact le_min (by norm_num) (hpos hg.1)
    · exact le_refl _
  · rw [hP]
    split_ifs
    · exact min_le_left _ _
    · norm_num

theorem parseProgress_of_contains (now : Int) (line : String) (totalFrames : Int)
    (h : stringsContains line.toList "frame=".toList = true) :
    parseProgress now line totalFrames
      = some (withEstimates (parseFields now line.toList) totalFrames) := by
  unfold parseProgress
  rw [h]
  rfl

theorem parseProgress_Progress_eq (now : Int) (line : String) (totalFrames : Int)
    (p : Progress) (h : parseProgress now line totalFrames = some p) :
    p.Progress = if 0 < totalFrames ∧ 0 < p.Frame then
        min 100 (((p.Frame : Int) : ℚ) / ((totalFrames : Int) : ℚ) * 100) else 0 := by
  have hp := parseProgress_some now line totalFrames p h
  have hF : p.Frame = (parseFields now line.toList).Frame := by
    rw [hp, withEstimates_Frame]
  rw [hF, hp, withEstimates_Progress]
  rfl

theorem percentage_mono (totalFrames : Int) (n1 n2 : Int) (l1 l2 : String) (p1 p2 : Progress)
    (h1 : parseProgress n1 l1 totalFrames = some p1)
    (h2 : parseProgress n2 l2 totalFrames = some p2) (hle : p1.Frame ≤ p2.Frame) :
    p1.Progress ≤ p2.Progress := by
  rw [parseProgress_Progress_eq _ _ _ _ h1, parseProgress_Progress_eq _ _ _ _ h2]
  by_cases ht : 0 < totalFrames
  · have htq : (0 : ℚ) < ((totalFrames : Int) : ℚ) := by exact_mod_cast ht
    by_cases hf1 : 0 < p1.Frame
    · have hf2 : 0 < p2.Frame := lt_of_lt_of_le hf1 hle
      simp only [ht, hf1, hf2, and_self, if_true]
      apply min_le_min (le_refl _)
      have : ((p1.Frame : Int) : ℚ) ≤ ((p2.Frame : Int) : ℚ) := by exact_mod_cast hle
      gcongr
    · simp only [hf1, and_false, if_false]
      split_ifs with hg
      · apply le_min (by norm_num)
        have : (0 : ℚ) < ((p2.Frame : Int) : ℚ) := by exact_mod_cast hg.2
        positivity
      · exact le_refl _
  · simp [ht]

theorem mem_parsedEvents (totalFrames : Int) (events : List ExecEvent) (p : Progress)
    (h : p ∈ parsedEvents totalFrames events) :
    ∃ now line, parseProgress now line totalFrames = some p := by
  induction events with
  | nil => simp [parsedEvents] at h
  | cons e rest ih =>
    cases e with
    | tick t => exact ih (by simpa [parsedEvents] using h)
    | stderrLine now line =>
      simp only [parsedEvents] at h
      cases hp : parseProgress now line totalFrames with
      | none => rw [hp] at h; exact ih h
      | some q =>
        rw [hp] at h
        rcases List.mem_cons.mp h with rfl | h
        · exact ⟨now, line, hp⟩
        · exact ih h

theorem foldl_execStep_reported (totalFrames : Int) (events : List ExecEvent) (st : ExecState) :
    (events.foldl (execStep totalFrames true) st).reported
      = st.reported ++ parsedEvents totalFrames events := by
  induction events generalizing st with
  | nil => simp [parsedEvents]
  | cons e rest ih =>
    rw [List.foldl_cons, ih]
    cases e with
    | tick t =>
      simp only [execStep, parsedEvents]
      split_ifs <;> rfl
    | stderrLine now line =>
      simp only [execStep, stderrStep, parsedEvents]
      cases hp : parseProgress now line totalFrames with
      | none => rfl
      | some q =>
        simp only [if_true]
        split_ifs <;> simp

theorem execRun_reported (totalFrames start : Int) (events : List ExecEvent) :
    (execRun totalFrames true start events).reported = parsedEvents totalFrames events := by
  rw [execRun, foldl_execStep_reported]
  rfl

/-- Claim C5, amended.  In one execution, if the frame counts of the
successive progress events handed to the callback never decrease, then
neither do their percentages.  (The supervisor computes each percentage from
the frame count of its own line alone.) -/
theorem percentages_monotone_of_frames (totalFrames start : Int) (events : List ExecEvent)
    (h : (((execRun totalFrames true start events).reported).map Progress.Frame).Pairwise
      (fun a b => a ≤ b)) :
    (((execRun totalFrames true start events).reported).map Progress.Progress).Pairwise
      (fun a b => a ≤ b) := by
  rw [execRun_reported] at h ⊢
  rw [List.pairwise_map] at h ⊢
  apply List.Pairwise.imp_of_mem _ h
  intro a b ha hb hab
  obtain ⟨n1, l1, h1⟩ := mem_parsedEvents _ _ _ ha
  obtain ⟨n2, l2, h2⟩ := mem_parsedEvents _ _ _ hb
  exact percentage_mono totalFrames n1 n2 l1 l2 a b h1 h2 hab

theorem statusLine100_parse (now totalFrames : Int) :
    parseProgress now statusLine100 totalFrames
      = some (withEstimates (parseFields now statusLine100.toList) totalFrames) :=
  parseProgress_of_contains _ _ _ (by decide)

theorem statusLine50_parse (now totalFrames : Int) :
    parseProgress now statusLine50 totalFrames
      = some (withEstimates (parseFields now statusLine50.toList) totalFrames) :=
  parseProgress_of_contains _ _ _ (by decide)

theorem statusLine100_Frame (now : Int) : (parseFields now statusLine100.toList).Frame = 100 :=
  (by decide : (parseFields 0 statusLine100.toList).Frame = 100)

theorem statusLine50_Frame (now : Int) : (parseFields now statusLine50.toList).Frame = 50 :=
  (by decide : (parseFields 0 statusLine50.toList).Frame = 50)

/-- Claim C5 fails as stated: with `totalFrames = 200`, a status line for
frame 100 followed by one for frame 50 hands the callback the percentages 50
and then 25. -/
theorem percentages_can_decrease :
    ((execRun 200 true 0
        [.stderrLine 1 statusLine100, .stderrLine 2 statusLine50]).reported.map
          Progress.Progress) = [50, 25]
      ∧ ¬ ((execRun 200 true 0
        [.stderrLine 1 statusLine100, .stderrLine 2 statusLine50]).reported.map
          Progress.Progress).Pairwise (fun a b => a ≤ b) := by
  have e : ((execRun 200 true 0
        [.stderrLine 1 statusLine100, .stderrLine 2 statusLine50]).reported.map
          Progress.Progress) = [50, 25] := by
    rw [execRun_reported]
    simp only [parsedEvents, statusLine100_parse, statusLine50_parse, List.map_cons,
      List.map_nil, withEstimates_Progress, statusLine100_Frame, statusLine50_Frame]
    norm_num
  refine ⟨e, ?_⟩
  rw [e]
  norm_num

/-- Claim C5 (amended) at the lines for frame 50 and then frame 100. -/
theorem percentages_monotone_of_frames_witness :
    ((execRun 200 true 0
        [.stderrLine 1 statusLine50, .stderrLine 2 statusLine100]).reported.map
          Progress.Progress).Pairwise (fun a b => a ≤ b) := by
  apply percentages_monotone_of_frames
  rw [execRun_reported]
  simp only [parsedEvents, statusLine100_parse, statusLine50_parse, List.map_cons,
    List.map_nil, withEstimates_Frame, statusLine100_Frame, statusLine50_Frame]
  norm_num

/-- Claim C4 at the line for frame 100 with `totalFrames = 200`: the
percentage is 50. -/
theorem parseProgress_percentage_witness :
    ∃ p, parseProgress 0 statusLine100 200 = some p ∧ p.Progress = 50
      ∧ 0 ≤ p.Progress ∧ p.Progress ≤ 100 := by
  have h := parseProgress_percentage 0 statusLine100 200 _ (statusLine100_parse 0 200)
  refine ⟨_, statusLine100_parse 0 200, ?_, h.2.2.1, h.2.2.2⟩
  rw [h.1 (by decide), withEstimates_Frame, statusLine100_Frame]
  norm_num

theorem withEstimates_Speed (p : Progress) (totalFrames : Int) :
    (withEstimates p totalFrames).Speed = p.Speed := by
  simp only [withEstimates]
  split_ifs <;> rfl

theorem withEstimates_FPS (p : Progress) (totalFrames : Int) :
    (withEstimates p totalFrames).FPS = p.FPS := by
  simp only [withEstimates]
  split_ifs <;> rfl

theorem withEstimates_ETA (p : Progress) (totalFrames : Int) :
    (withEstimates p totalFrames).ETA =
      if 0 < totalFrames ∧ 0 < p.Frame then
        if p.Speed.isPos then
          goInt (F64.ofInt (totalFrames - p.Frame) / (p.FPS * p.Speed))
        else p.ETA
      else p.ETA := by
  simp only [withEstimates]
  split_ifs <;> rfl

theorem parseFloat_nonNeg (s : List Char) : (parseFloat s).NonNeg := by
  rw [parseFloat]
  cases parseDecimal s with
  | none => exact le_refl _
  | some mk =>
    obtain ⟨m, k⟩ := mk
    exact f64Round_nonNeg _ (by positivity)

theorem parseFields_FPS_nonNeg (now : Int) (line : List Char) :
    (parseFields now line).FPS.NonNeg := by
  simp only [parseFields]
  cases findSubmatch fpsRe line with
  | none => exact le_refl _
  | some m => exact parseFloat_nonNeg m

theorem goInt_nonneg (x : ℚ) (h : 0 ≤ x) (h63 : x < 2 ^ 63) :
    0 ≤ goInt (.fin x) ∧ ((goInt (.fin x) : Int) : ℚ) ≤ x ∧ x < (goInt (.fin x) : ℚ) + 1 := by
  have hf0 : 0 ≤ ⌊x⌋ := Int.floor_nonneg.mpr h
  have hf63 : ⌊x⌋ < 2 ^ 63 := by
    rw [Int.floor_lt]
    exact_mod_cast h63
  have hg : goInt (.fin x) = ⌊x⌋ := by
    simp only [goInt, if_pos h]
    rw [if_pos ⟨by omega, hf63⟩]
  rw [hg]
  exact ⟨hf0, Int.floor_le x, Int.lt_floor_add_one x⟩

/-- Claim C6, amended.  For an event of `parseProgress`: the ETA is left at 0
when the parsed speed is not positive, when `totalFrames ≤ 0`, or when the
parsed frame count is 0; otherwise it is
`int(float64(totalFrames - frame) / (fps * speed))`, evaluated in `float64`.
In that case the divisor is not zero when the exact product of fps and speed
is at least `2 ^ (-1074)`, the least positive `float64`; and when the quotient
is finite, `frame ≤ totalFrames` and the quotient is below `2 ^ 63`, the ETA
is the whole part of the quotient and is not negative. -/
theorem parseProgress_eta (now : Int) (line : String) (totalFrames : Int) (p : Progress)
    (h : parseProgress now line totalFrames = some p) :
    (p.Speed.isPos = false → p.ETA = 0)
      ∧ (totalFrames ≤ 0 → p.ETA = 0)
      ∧ (p.Frame = 0 → p.ETA = 0)
      ∧ (0 < totalFrames → 0 < p.Frame → p.Speed.isPos = true →
          p.ETA = goInt (F64.ofInt (totalFrames - p.Frame) / (p.FPS * p.Speed))
            ∧ (∀ f s : ℚ, p.FPS = .fin f → p.Speed = .fin s → (2 : ℚ) ^ (-1074 : Int) ≤ f * s →
                p.FPS * p.Speed ≠ .fin 0)
            ∧ (∀ x : ℚ, F64.ofInt (totalFrames - p.Frame) / (p.FPS * p.Speed) = .fin x →
                p.Frame ≤ totalFrames → x < 2 ^ 63 →
                  0 ≤ p.ETA ∧ (p.ETA : ℚ) ≤ x ∧ x < (p.ETA : ℚ) + 1)) := by
  have hp := parseProgress_some now line totalFrames p h
  have hF : p.Frame = (parseFields now line.toList).Frame := by
    rw [hp, withEstimates_Frame]
  have hS : p.Speed = (parseFields now line.toList).Speed := by
    rw [hp, withEstimates_Speed]
  have hR : p.FPS = (parseFields now line.toList).FPS := by
    rw [hp, withEstimates_FPS]
  have hE : p.ETA = if 0 < totalFrames ∧ 0 < p.Frame then
        if p.Speed.isPos then
          goInt (F64.ofInt (totalFrames - p.Frame) / (p.FPS * p.Speed))
        else 0
      else 0 := by
    rw [hF, hS, hR, hp, withEstimates_ETA]
    rfl
  refine ⟨?_, ?_, ?_, ?_⟩
  · intro hs
    rw [hE]
    simp [hs]
  · intro ht
    rw [hE]
    simp [not_lt.mpr ht]
  · intro hf
    rw [hE]
    simp [hf]
  · intro ht hf hs
    have hEq : p.ETA = goInt (F64.ofInt (totalFrames - p.Frame) / (p.FPS * p.Speed)) := by
      rw [hE]
      simp only [ht, hf, hs, and_self, if_true]
    refine ⟨hEq, ?_, ?_⟩
    · intro f s hf1 hs1 hfs
      rw [hf1, hs1, F64.mul_fin]
      exact f64Round_ne_zero _ hfs
    · intro x hx hle h63
      have hrem : (F64.ofInt (totalFrames - p.Frame)).NonNeg := by
        apply f64Round_nonNeg
        have : 0 ≤ totalFrames - p.Frame := by omega
        exact_mod_cast this
      have hfps : p.FPS.NonNeg := by
        rw [hR]
        exact parseFields_FPS_nonNeg _ _
      have hx0 := F64.div_nonneg_of_fin _ _ x hrem (F64.mul_nonNeg _ _ hfps hs) hx
      rw [hEq, hx]
      exact goInt_nonneg x hx0 h63

theorem statusLine300_parse (now totalFrames : Int) :
    parseProgress now statusLine300 totalFrames
      = some (withEstimates (parseFields now statusLine300.toList) totalFrames) :=
  parseProgress_of_contains _ _ _ (by decide)

theorem statusLine0_parse (now totalFrames : Int) :
    parseProgress now statusLine0 totalFrames
      = some (withEstimates (parseFields now statusLine0.toList) totalFrames) :=
  parseProgress_of_contains _ _ _ (by decide)

theorem statusLineFpsZero_parse (now totalFrames : Int) :
    parseProgress now statusLineFpsZero totalFrames
      = some (withEstimates (parseFields now statusLineFpsZero.toList) totalFrames) :=
  parseProgress_of_contains _ _ _ (by decide)

theorem statusLineSlow_parse (now totalFrames : Int) :
    parseProgress now statusLineSlow totalFrames
      = some (withEstimates (parseFields now statusLineSlow.toList) totalFrames) :=
  parseProgress_of_contains _ _ _ (by decide)

theorem parseFields_FPS_eval (now : Int) (line m : List Char) (k j : Nat)
    (h1 : findSubmatch fpsRe line = some m) (h2 : parseDecimal m = some (k, j)) :
    (parseFields now line).FPS = f64Round ((k : ℚ) / 10 ^ j) := by
  simp only [parseFields, h1, parseFloat, h2]

theorem parseFields_Speed_eval (now : Int) (line m : List Char) (k j : Nat)
    (h1 : findSubmatch speedRe line = some m) (h2 : parseDecimal m = some (k, j)) :
    (parseFields now line).Speed = f64Round ((k : ℚ) / 10 ^ j) := by
  simp only [parseFields, h1, parseFloat, h2]

theorem f64Round_one : f64Round 1 = .fin 1 := by
  have := F64.ofInt_one
  rw [F64.ofInt] at this
  exact_mod_cast this

theorem statusLine300_fields (now : Int) :
    (parseFields now statusLine300.toList).Frame = 300
      ∧ (parseFields now statusLine300.toList).FPS = .fin 25
      ∧ (parseFields now statusLine300.toList).Speed = .fin 1 := by
  refine ⟨(by decide : (parseFields 0 statusLine300.toList).Frame = 300), ?_, ?_⟩
  · rw [parseFields_FPS_eval now _ "25".toList 25 0 (by decide) (by decide)]
    norm_num [f64Round_small_values.2.2.2.2.2.2.2.2.2.1]
  · rw [parseFields_Speed_eval now _ "1.0".toList 10 1 (by decide) (by decide)]
    norm_num [f64Round_one]

theorem statusLine100_fields (now : Int) :
    (parseFields now statusLine100.toList).FPS = .fin 25
      ∧ (parseFields now statusLine100.toList).Speed = .fin 1 := by
  refine ⟨?_, ?_⟩
  · rw [parseFields_FPS_eval now _ "25".toList 25 0 (by decide) (by decide)]
    norm_num [f64Round_small_values.2.2.2.2.2.2.2.2.2.1]
  · rw [parseFields_Speed_eval now _ "1.0".toList 10 1 (by decide) (by decide)]
    norm_num [f64Round_one]

theorem statusLine0_fields (now : Int) :
    (parseFields now statusLine0.toList).Frame = 0
      ∧ (parseFields now statusLine0.toList).FPS = .fin 25
      ∧ (parseFields now statusLine0.toList).Speed = .fin 1 := by
  refine ⟨(by decide : (parseFields 0 statusLine0.toList).Frame = 0), ?_, ?_⟩
  · rw [parseFields_FPS_eval now _ "25".toList 25 0 (by decide) (by decide)]
    norm_num [f64Round_small_values.2.2.2.2.2.2.2.2.2.1]
  · rw [parseFields_Speed_eval now _ "1.0".toList 10 1 (by decide) (by decide)]
    norm_num [f64Round_one]

theorem statusLineFpsZero_fields (now : Int) :
    (parseFields now statusLineFpsZero.toList).Frame = 1
      ∧ (parseFields now statusLineFpsZero.toList).FPS = .fin 0
      ∧ (parseFields now statusLineFpsZero.toList).Speed = .fin (1 / 2) := by
  refine ⟨(by decide : (parseFields 0 statusLineFpsZero.toList).Frame = 1), ?_, ?_⟩
  · rw [parseFields_FPS_eval now _ "0.0".toList 0 1 (by decide) (by decide)]
    norm_num [f64Round_zero]
  · rw [parseFields_Speed_eval now _ "0.5".toList 5 1 (by decide) (by decide)]
    norm_num [f64Round_small_values.2.1]

theorem statusLineSlow_fields (now : Int) :
    (parseFields now statusLineSlow.toList).Frame = 1
      ∧ (parseFields now statusLineSlow.toList).FPS
          = .fin (3602879701896397 / 36028797018963968)
      ∧ (parseFields now statusLineSlow.toList).Speed = .fin 3 := by
  have r01 : f64Round (1 / 10)
      = .fin (3602879701896397 / 36028797018963968) := by
    rw [f64Round_eval (1 / 10) (-4)
      7205759403792794 (by norm_num) (by norm_num [abs_of_pos])
      (by norm_num [abs_of_pos]) (roundHalfEven_eq _ _ (by norm_num) (by norm_num))
      (by norm_num [abs_of_pos])]
    norm_num
  refine ⟨(by decide : (parseFields 0 statusLineSlow.toList).Frame = 1), ?_, ?_⟩
  · rw [parseFields_FPS_eval now _ "0.1".toList 1 1 (by decide) (by decide)]
    norm_num [r01]
  · rw [parseFields_Speed_eval now _ "3".toList 3 0 (by decide) (by decide)]
    norm_num [f64Round_small_values.1]

theorem goInt_fin_neg (q : ℚ) (n : Int) (h0 : n ≤ 0) (h63 : -(2 ^ 63) ≤ n) (hq : q < 0)
    (h1 : (n : ℚ) - 1 < q) (h2 : q ≤ n) : goInt (.fin q) = n := by
  have hc : ⌈q⌉ = n := by
    rw [Int.ceil_eq_iff]
    exact ⟨h1, h2⟩
  simp only [goInt, if_neg (not_le.mpr hq), hc]
  rw [if_pos ⟨h63, by omega⟩]

/-- Claim C6 fails as stated, in three ways: a line for frame 300 with
`totalFrames = 240` gets the ETA `-2`; a line with `fps=0.0` and a positive
speed reaches the division with the divisor 0, and its ETA is the least
`int64`; a line for frame 0 with speed 1.0 keeps the ETA 0 although the
formula gives 4. -/
theorem eta_counterexamples :
    (∃ p, parseProgress 0 statusLine300 240 = some p ∧ p.Speed.isPos = true ∧ p.ETA = -2)
      ∧ (∃ p, parseProgress 0 statusLineFpsZero 240 = some p ∧ p.Speed.isPos = true
            ∧ 0 < p.Frame ∧ p.FPS * p.Speed = .fin 0 ∧ p.ETA = -(2 ^ 63))
      ∧ (∃ p, parseProgress 0 statusLine0 100 = some p ∧ p.Speed.isPos = true ∧ p.ETA = 0
            ∧ goInt (F64.ofInt (100 - p.Frame) / (p.FPS * p.Speed)) = 4) := by
  obtain ⟨a1, a2, a3⟩ := statusLine300_fields 0
  obtain ⟨b1, b2, b3⟩ := statusLineFpsZero_fields 0
  obtain ⟨c1, c2, c3⟩ := statusLine0_fields 0
  obtain ⟨r3, r12, r52, r6, r112, r5, r2, r8, r9, r25, r200⟩ := f64Round_small_values
  refine ⟨⟨_, statusLine300_parse 0 240, ?_, ?_⟩,
    ⟨_, statusLineFpsZero_parse 0 240, ?_, ?_, ?_, ?_⟩,
    ⟨_, statusLine0_parse 0 100, ?_, ?_, ?_⟩⟩
  · rw [withEstimates_Speed, a3]
    simp [F64.isPos]
  · rw [withEstimates_ETA, a1, a2, a3]
    have hpos : (F64.fin 1).isPos = true := by simp [F64.isPos]
    have hrem : F64.ofInt (240 - 300) = .fin (-60) := by
      have := F64.ofInt_small (-60) (by norm_num)
      simpa using this
    have hprod : F64.fin 25 * F64.fin 1 = .fin 25 := by
      rw [F64.mul_fin]
      norm_num [r25]
    have rm : f64Round (-12 / 5)
        = .fin (-5404319552844595 / 2251799813685248) := by
      rw [f64Round_eval (-12 / 5) 1
        (-5404319552844595) (by norm_num) (by norm_num [abs_of_neg])
        (by norm_num [abs_of_neg]) (roundHalfEven_eq _ _ (by norm_num) (by norm_num))
        (by norm_num [abs_of_neg])]
      norm_num
    have hdiv : F64.fin (-60) / F64.fin 25 = .fin (-5404319552844595 / 2251799813685248) := by
      rw [F64.div_fin _ _ (by norm_num)]
      have : (-60 : ℚ) / 25 = -12 / 5 := by norm_num
      rw [this, rm]
    simp only [hpos, if_true]
    rw [hrem, hprod, hdiv]
    have hg := goInt_fin_neg (-5404319552844595 / 2251799813685248) (-2) (by norm_num) (by norm_num) (by norm_num)
      (by norm_num) (by norm_num)
    simpa using hg
  · rw [withEstimates_Speed, b3]
    simp [F64.isPos]
  · rw [withEstimates_Frame, b1]; norm_num
  · rw [withEstimates_FPS, withEstimates_Speed, b2, b3, F64.mul_fin]
    norm_num [f64Round_zero]
  · rw [withEstimates_ETA, b1, b2, b3]
    have hpos : (F64.fin (1 / 2)).isPos = true := by simp [F64.isPos]
    have hrem : F64.ofInt (240 - 1) = .fin 239 := by
      have := F64.ofInt_small 239 (by norm_num)
      simpa using this
    have hprod : F64.fin 0 * F64.fin (1 / 2) = .fin 0 := F64.zero_mul_fin _
    have hdiv : F64.fin 239 / F64.fin 0 = .inf false := by
      show F64.div _ _ = _
      simp [F64.div]
    simp only [hpos, if_true]
    rw [hrem, hprod, hdiv]
    simp [goInt]
  · rw [withEstimates_Speed, c3]
    simp [F64.isPos]
  · rw [withEstimates_ETA, c1]
    simp
    rfl
  · rw [withEstimates_Frame, withEstimates_FPS, withEstimates_Speed, c1, c2, c3]
    have hrem : F64.ofInt (100 - 0) = .fin 100 := by
      have := F64.ofInt_small 100 (by norm_num)
      simpa using this
    have hprod : F64.fin 25 * F64.fin 1 = .fin 25 := by
      rw [F64.mul_fin]
      norm_num [r25]
    have r4 : f64Round (4)
        = .fin (4) := by
      rw [f64Round_eval (4) 2
        4503599627370496 (by norm_num) (by norm_num [abs_of_pos])
        (by norm_num [abs_of_pos]) (roundHalfEven_eq _ _ (by norm_num) (by norm_num))
        (by norm_num [abs_of_pos])]
      norm_num
    have hdiv : F64.fin 100 / F64.fin 25 = .fin 4 := by
      rw [F64.div_fin _ _ (by norm_num)]
      norm_num [r4]
    rw [hrem, hprod, hdiv]
    exact goInt_fin_nonneg 4 4 (by norm_num) (by norm_num) (by norm_num) (by norm_num)

/-- Claim C6 (amended) at the line for frame 100 with `totalFrames = 200`
(ETA 4), and at a line for frame 1 at 0.1 fps and speed 3x with
`totalFrames = 4`, where the `float64` quotient lies just below 10 and the ETA
is 9. -/
theorem parseProgress_eta_witness :
    (∃ p, parseProgress 0 statusLine100 200 = some p ∧ p.FPS * p.Speed ≠ .fin 0
        ∧ p.ETA = goInt (F64.ofInt (200 - p.Frame) / (p.FPS * p.Speed)) ∧ p.ETA = 4)
      ∧ (∃ p, parseProgress 0 statusLineSlow 4 = some p
        ∧ p.ETA = goInt (F64.ofInt (4 - p.Frame) / (p.FPS * p.Speed)) ∧ p.ETA = 9) := by
  obtain ⟨r3, r12, r52, r6, r112, r5, r2, r8, r9, r25, r200⟩ := f64Round_small_values
  obtain ⟨hf, hs⟩ := statusLine100_fields 0
  obtain ⟨s1, s2, s3⟩ := statusLineSlow_fields 0
  have rp03 : f64Round (10808639105689191 / 36028797018963968)
      = .fin (1351079888211149 / 4503599627370496) := by
    rw [f64Round_eval (10808639105689191 / 36028797018963968) (-2)
      5404319552844596 (by norm_num) (by norm_num [abs_of_pos])
      (by norm_num [abs_of_pos]) (by rw [roundHalfEven_tie _ 5404319552844595 (by norm_num)]; norm_num)
      (by norm_num [abs_of_pos])]
    norm_num
  have rq : f64Round (13510798882111488 / 1351079888211149)
      = .fin (5629499534213119 / 562949953421312) := by
    rw [f64Round_eval (13510798882111488 / 1351079888211149) 3
      5629499534213119 (by norm_num) (by norm_num [abs_of_pos])
      (by norm_num [abs_of_pos]) (roundHalfEven_eq _ _ (by norm_num) (by norm_num))
      (by norm_num [abs_of_pos])]
    norm_num
  have r4 : f64Round (4)
      = .fin (4) := by
    rw [f64Round_eval (4) 2
      4503599627370496 (by norm_num) (by norm_num [abs_of_pos])
      (by norm_num [abs_of_pos]) (roundHalfEven_eq _ _ (by norm_num) (by norm_num))
      (by norm_num [abs_of_pos])]
    norm_num
  have h := (parseProgress_eta 0 statusLine100 200 _ (statusLine100_parse 0 200)).2.2.2
    (by decide)
    (by rw [withEstimates_Frame, statusLine100_Frame]; decide)
    (by rw [withEstimates_Speed, hs]; simp [F64.isPos])
  have g := (parseProgress_eta 0 statusLineSlow 4 _ (statusLineSlow_parse 0 4)).2.2.2
    (by decide)
    (by rw [withEstimates_Frame, s1]; decide)
    (by rw [withEstimates_Speed, s3]; simp [F64.isPos])
  refine ⟨⟨_, statusLine100_parse 0 200, ?_, h.1, ?_⟩, ⟨_, statusLineSlow_parse 0 4, g.1, ?_⟩⟩
  · refine h.2.1 25 1 ?_ ?_ ?_
    · rw [withEstimates_FPS, hf]
    · rw [withEstimates_Speed, hs]
    · have : (2 : ℚ) ^ (-1074 : Int) ≤ 1 := zpow_le_one_of_nonpos₀ (by norm_num) (by norm_num)
      linarith
  · rw [h.1, withEstimates_Frame, withEstimates_FPS, withEstimates_Speed, statusLine100_Frame,
      hf, hs]
    have hrem : F64.ofInt (200 - 100) = .fin 100 := by
      have := F64.ofInt_small 100 (by norm_num)
      simpa using this
    have hprod : F64.fin 25 * F64.fin 1 = .fin 25 := by
      rw [F64.mul_fin]
      norm_num [r25]
    have hdiv : F64.fin 100 / F64.fin 25 = .fin 4 := by
      rw [F64.div_fin _ _ (by norm_num)]
      norm_num [r4]
    rw [hrem, hprod, hdiv]
    exact goInt_fin_nonneg 4 4 (by norm_num) (by norm_num) (by norm_num) (by norm_num)
  · rw [g.1, withEstimates_Frame, withEstimates_FPS, withEstimates_Speed, s1, s2, s3]
    have hrem : F64.ofInt (4 - 1) = .fin 3 := by
      have := F64.ofInt_small 3 (by norm_num)
      simpa using this
    have hprod : F64.fin (3602879701896397 / 36028797018963968) * F64.fin 3
        = .fin (1351079888211149 / 4503599627370496) := by
      rw [F64.mul_fin]
      have : (3602879701896397 / 36028797018963968 : ℚ) * 3 = 10808639105689191 / 36028797018963968 := by norm_num
      rw [this, rp03]
    have hdiv : F64.fin 3 / F64.fin (1351079888211149 / 4503599627370496)
        = .fin (5629499534213119 / 562949953421312) := by
      rw [F64.div_fin _ _ (by norm_num)]
      have : (3 : ℚ) / (1351079888211149 / 4503599627370496) = 13510798882111488 / 1351079888211149 := by norm_num
      rw [this, rq]
    rw [hrem, hprod, hdiv]
    exact goInt_fin_nonneg _ 9 (by norm_num) (by norm_num) (by norm_num) (by norm_num)

theorem parseProgress_none_iff (now : Int) (line : String) (totalFrames : Int) :
    parseProgress now line totalFrames = none
      ↔ stringsContains line.toList "frame=".toList = false := by
  unfold parseProgress
  cases h : stringsContains line.toList "frame=".toList <;> simp

/-- Claim C7, amended.  For a line that does not contain the text `frame=`,
`parseProgress` returns no event, the callback is not invoked and the
progress counters (count, last frame, last advance time) keep their values.
(The test the code applies is the presence of `frame=`, not the full status
shape.) -/
theorem line_without_frame_ignored (totalFrames : Int) (hasCallback : Bool) (st : ExecState)
    (now : Int) (line : String)
    (h : stringsContains line.toList "frame=".toList = false) :
    parseProgress now line totalFrames = none
      ∧ (stderrStep totalFrames hasCallback st now line).reported = st.reported
      ∧ (stderrStep totalFrames hasCallback st now line).progressCount = st.progressCount
      ∧ (stderrStep totalFrames hasCallback st now line).lastProgressFrame
          = st.lastProgressFrame
      ∧ (stderrStep totalFrames hasCallback st now line).lastProgressTime
          = st.lastProgressTime := by
  have hp := (parseProgress_none_iff now line totalFrames).mpr h
  refine ⟨hp, ?_, ?_, ?_, ?_⟩ <;> simp only [stderrStep, hp]

/-- Claim C7 (amended) at an ordinary log line. -/
theorem line_without_frame_ignored_witness :
    parseProgress 1 "Press [q] to stop, [?] for help" 200 = none
      ∧ (stderrStep 200 true (ExecState.init 0) 1 "Press [q] to stop, [?] for help").reported = []
      ∧ (stderrStep 200 true (ExecState.init 0) 1
          "Press [q] to stop, [?] for help").progressCount = 0 := by
  have h := line_without_frame_ignored 200 true (ExecState.init 0) 1
    "Press [q] to stop, [?] for help" (by decide)
  exact ⟨h.1, h.2.1, h.2.2.1⟩

/-- Claim C7 fails as stated: the line `frame=10` has no fps, bitrate, time or
speed field, yet `parseProgress` yields an event for it, the progress count
goes to 1, the last frame to 10, and the callback receives one value. -/
theorem frame_only_line_reports :
    findSubmatch fpsRe frameOnlyLine.toList = none
      ∧ findSubmatch bitrateRe frameOnlyLine.toList = none
      ∧ findSubmatch timeRe frameOnlyLine.toList = none
      ∧ findSubmatch speedRe frameOnlyLine.toList = none
      ∧ (parseProgress 1 frameOnlyLine 200).isSome = true
      ∧ (stderrStep 200 true (ExecState.init 0) 1 frameOnlyLine).progressCount = 1
      ∧ (stderrStep 200 true (ExecState.init 0) 1 frameOnlyLine).lastProgressFrame = 10
      ∧ (stderrStep 200 true (ExecState.init 0) 1 frameOnlyLine).reported.length = 1 := by
  have hp : parseProgress 1 frameOnlyLine 200
      = some (withEstimates (parseFields 1 frameOnlyLine.toList) 200) :=
    parseProgress_of_contains _ _ _ (by decide)
  have hf : (parseFields 1 frameOnlyLine.toList).Frame = 10 := by decide
  refine ⟨by decide, by decide, by decide, by decide, ?_, ?_, ?_, ?_⟩
  · rw [hp]; rfl
  · simp only [stderrStep, hp, ExecState.init, withEstimates_Frame, hf]
    norm_num
  · simp only [stderrStep, hp, ExecState.init, withEstimates_Frame, hf]
    norm_num
  · simp only [stderrStep, hp, ExecState.init, withEstimates_Frame, hf]
    norm_num

/-- Claim C8, amended.  When at least one line of the log contains one of the
four markers `Error`, `error`, `Invalid`, `failed` (matched as written),
`extractError` returns the lines containing one, each with surrounding white
space trimmed, in log order, joined by newlines. -/
theorem extractError_marker_lines (stderrLog : String)
    (h : ∃ l ∈ splitLines stderrLog.toList, hasFailureMarker l = true) :
    extractError stderrLog
      = String.mk (joinLines
          (((splitLines stderrLog.toList).filter hasFailureMarker).map trimSpace)) := by
  obtain ⟨l, hl, hm⟩ := h
  have hmem : l ∈ (splitLines stderrLog.toList).filter hasFailureMarker :=
    List.mem_filter.mpr ⟨hl, hm⟩
  have hpos : 0 < (((splitLines stderrLog.toList).filter hasFailureMarker).map trimSpace).length := by
    rw [List.length_map]
    exact List.length_pos_of_mem hmem
  simp only [extractError, hpos, if_true]

/-- Claim C8 (amended) at a log with one padded failure line. -/
theorem extractError_marker_lines_witness :
    extractError paddedLog = "Error opening input" := by
  rw [extractError_marker_lines paddedLog ⟨"  Error opening input  ".toList, by decide, by decide⟩]
  decide

/-- Claim C8 fails as stated: a log whose only marker is the upper-case
`INVALID` comes back whole instead of that line, and a padded `Error` line
comes back trimmed instead of exactly as logged. -/
theorem extractError_case_and_padding :
    (∃ l ∈ splitLines upperCaseLog.toList, hasFailureMarkerFold l = true)
      ∧ extractError upperCaseLog = upperCaseLog
      ∧ extractError upperCaseLog
          ≠ String.mk (joinLines ((splitLines upperCaseLog.toList).filter hasFailureMarkerFold))
      ∧ (∃ l ∈ splitLines paddedLog.toList, hasFailureMarkerFold l = true)
      ∧ extractError paddedLog = "Error opening input"
      ∧ extractError paddedLog
          ≠ String.mk (joinLines ((splitLines paddedLog.toList).filter hasFailureMarkerFold)) := by
  refine ⟨⟨"INVALID data found".toList, by decide, by decide⟩, by decide, by decide,
    ⟨"  Error opening input  ".toList, by decide, by decide⟩, by decide, by decide⟩

theorem joinLines_splitLines (s : List Char) : joinLines (splitLines s) = s := by
  simp only [joinLines, splitLines]
  exact List.intercalate_splitOn s '\n'

/-- With none of the four markers of the code in any piece, `extractError`
falls back to the tail of the log. -/
theorem extractError_fallback (stderrLog : String)
    (h : ∀ l ∈ splitLines stderrLog.toList, hasFailureMarker l = false) :
    extractError stderrLog
      = String.mk (joinLines ((splitLines stderrLog.toList).drop
          ((splitLines stderrLog.toList).length - 5))) := by
  have hnil : (splitLines stderrLog.toList).filter hasFailureMarker = [] := by
    rw [List.filter_eq_nil_iff]
    intro l hl
    simp [h l hl]
  simp only [extractError, hnil, List.map_nil, List.length_nil, lt_self_iff_false, if_false]
  split_ifs with h5
  · rfl
  · have h0 : (splitLines stderrLog.toList).length - 5 = 0 := by omega
    rw [h0, List.drop_zero, joinLines_splitLines]
    rfl

/-- The characters of a log written line by line. -/
theorem logOfLines_toList (lines : List String) :
    (logOfLines lines).toList = ((lines.map String.toList).map (· ++ ['\n'])).flatten := by
  induction lines with
  | nil => rfl
  | cons l rest ih =>
    have h : logOfLines (l :: rest) = (l ++ "\n") ++ logOfLines rest := by
      apply String.ext
      simp [logOfLines, String.join_eq, String.data_append]
    rw [h]
    show (l ++ "\n" ++ logOfLines rest).data = _
    rw [String.data_append, String.data_append]
    show l.data ++ ['\n'] ++ (logOfLines rest).toList = _
    rw [ih]
    simp [String.toList]

theorem logOfLines_append (xs ys : List String) :
    logOfLines (xs ++ ys) = logOfLines xs ++ logOfLines ys := by
  simp only [logOfLines, List.map_append]
  apply String.ext
  simp [String.join_eq, String.data_append]

/-- Lines each followed by a newline are the same text as the lines and one
empty piece, joined by newlines. -/
theorem flatten_terminated (xs : List (List Char)) :
    (xs.map (· ++ ['\n'])).flatten = List.intercalate ['\n'] (xs ++ [[]]) := by
  induction xs with
  | nil => rfl
  | cons x rest ih =>
    cases rest with
    | nil => simp [List.intercalate, List.intersperse]
    | cons y rest2 =>
      have h2 : List.intercalate ['\n'] (x :: (y :: rest2 ++ [[]]))
          = x ++ ['\n'] ++ List.intercalate ['\n'] (y :: rest2 ++ [[]]) := by
        simp [List.intercalate, List.intersperse]
      rw [List.map_cons, List.flatten_cons, ih]
      exact h2.symm

/-- What `strings.Split` makes of a log written line by line: the lines, and
one empty piece after the last newline. -/
theorem splitLines_logOfLines (lines : List String) (hnl : ∀ l ∈ lines, '\n' ∉ l.toList) :
    splitLines (logOfLines lines).toList = lines.map String.toList ++ [[]] := by
  rw [logOfLines_toList, flatten_terminated, splitLines]
  apply List.splitOn_intercalate
  · intro l hl
    rcases List.mem_append.mp hl with hl | hl
    · obtain ⟨s, hs, rfl⟩ := List.mem_map.mp hl
      exact hnl s hs
    · simp only [List.mem_singleton] at hl
      subst hl
      simp
  · simp

/-- On a log written line by line with no marker in any line, `extractError`
returns the last four lines, each with its newline. -/
theorem extractError_logOfLines (lines : List String) (hnl : ∀ l ∈ lines, '\n' ∉ l.toList)
    (hm : ∀ l ∈ lines, hasFailureMarker l.toList = false) :
    extractError (logOfLines lines) = logOfLines (lines.drop (lines.length - 4)) := by
  have hsplit := splitLines_logOfLines lines hnl
  have hmark : ∀ l ∈ splitLines (logOfLines lines).toList, hasFailureMarker l = false := by
    intro l hl
    rw [hsplit] at hl
    rcases List.mem_append.mp hl with hl | hl
    · obtain ⟨s, hs, rfl⟩ := List.mem_map.mp hl
      exact hm s hs
    · simp only [List.mem_singleton] at hl
      subst hl
      decide
  rw [extractError_fallback _ hmark, hsplit]
  apply String.ext
  show joinLines _ = (logOfLines _).toList
  rw [logOfLines_toList, flatten_terminated, joinLines]
  congr 1
  simp only [List.length_append, List.length_map, List.length_singleton, List.map_drop]
  have h1 : lines.length + 1 - 5 = lines.length - 4 := by omega
  rw [h1, List.drop_append_of_le_length (by simp)]

theorem foldl_execStep_stderrLog (totalFrames : Int) (hasCallback : Bool)
    (events : List ExecEvent) (st : ExecState) :
    (events.foldl (execStep totalFrames hasCallback) st).stderrLog
      = st.stderrLog ++ logOfLines (stderrLines events) := by
  induction events generalizing st with
  | nil =>
    apply String.ext
    simp [stderrLines, logOfLines, String.join_eq, String.data_append]
  | cons e rest ih =>
    rw [List.foldl_cons, ih]
    cases e with
    | tick t =>
      have : (execStep totalFrames hasCallback st (.tick t)).stderrLog = st.stderrLog := by
        simp only [execStep]
        split_ifs <;> rfl
      rw [this]
      rfl
    | stderrLine now line =>
      have : (execStep totalFrames hasCallback st (.stderrLine now line)).stderrLog
          = st.stderrLog ++ line ++ "\n" := by
        simp only [execStep, stderrStep]
        cases parseProgress now line totalFrames with
        | none => rfl
        | some p => simp only; split_ifs <;> rfl
      rw [this]
      have h2 : logOfLines (stderrLines (.stderrLine now line :: rest))
          = (line ++ "\n") ++ logOfLines (stderrLines rest) :=
        logOfLines_append [line] (stderrLines rest)
      rw [h2]
      simp only [String.append_assoc]

theorem capturedLog_lines (errLines outLines : List String) :
    capturedLog (logOfLines errLines) (logOfLines outLines)
      = logOfLines (capturedLines errLines outLines) := by
  cases outLines with
  | nil => rfl
  | cons o rest =>
    have hlen : 0 < (logOfLines (o :: rest)).length := by
      have h : logOfLines (o :: rest) = (o ++ "\n") ++ logOfLines rest :=
        logOfLines_append [o] rest
      rw [h, String.length_append, String.length_append]
      have : ("\n" : String).length = 1 := by decide
      omega
    simp only [capturedLog, hlen, if_true, capturedLines, List.cons_ne_nil, if_false]
    rw [logOfLines_append, logOfLines_append]
    have hs : logOfLines ["", "=== STDOUT ==="] = "\n=== STDOUT ===\n" := by decide
    rw [hs]

theorem capturedLines_clean (errLines outLines : List String) (P : String → Prop)
    (h0 : P "") (h1 : P "=== STDOUT ===") (h : ∀ l ∈ errLines ++ outLines, P l) :
    ∀ l ∈ capturedLines errLines outLines, P l := by
  intro l hl
  unfold capturedLines at hl
  split_ifs at hl with ho
  · exact h l (List.mem_append_left _ hl)
  · simp only [List.mem_append, List.mem_cons, List.mem_singleton, List.not_mem_nil,
      or_false] at hl
    rcases hl with (hl | hl | hl) | hl
    · exact h l (List.mem_append_left _ hl)
    · rw [hl]; exact h0
    · rw [hl]; exact h1
    · exact h l (List.mem_append_right _ hl)

set_option maxRecDepth 100000 in
/-- Claim C9 fails as stated on a log as `Execute` captures it: a failed run
that wrote the five lines `l1` to `l5` to stderr, none with a marker, has the
log `l1\nl2\nl3\nl4\nl5\n`, and its error text is `l2\nl3\nl4\nl5\n`: the
line `l1` is lost, and the text is not the five lines joined by newlines. -/
theorem five_line_log_loses_first :
    (Execute "ffmpeg" [] 0 false fiveLineRun).1.Success = false
      ∧ (Execute "ffmpeg" [] 0 false fiveLineRun).1.StderrLog = "l1\nl2\nl3\nl4\nl5\n"
      ∧ (∀ l ∈ ["l1", "l2", "l3", "l4", "l5"], hasFailureMarker l.toList = false)
      ∧ (Execute "ffmpeg" [] 0 false fiveLineRun).1.ErrorMessage = "l2\nl3\nl4\nl5\n"
      ∧ (Execute "ffmpeg" [] 0 false fiveLineRun).1.ErrorMessage
          ≠ "\n".intercalate ["l1", "l2", "l3", "l4", "l5"] := by
  refine ⟨by decide, by decide, by decide, by decide, by decide⟩

/-- Claim C9, amended.  A log written line by line ends in a newline, so
`strings.Split` cuts it into its lines and one empty piece.  When no line
holds one of the four markers, `extractError` therefore returns the last four
lines of the log, each followed by its newline (the whole log when it has at
most four lines).  For a failed run of `Execute` the log is made of the stderr
lines and, when stdout wrote any, an empty line, the separator line and the
stdout lines; the error text of the result is the last four of these. -/
theorem extractError_last_four (binaryPath : String) (args : List String) (totalFrames : Int)
    (hasCallback : Bool) (run : EngineRun) (outLines : List String)
    (hstart : run.startFailure = none) (hout : run.stdoutLog = logOfLines outLines)
    (hfail : (Execute binaryPath args totalFrames hasCallback run).1.Success = false)
    (hnl : ∀ l ∈ stderrLines run.events ++ outLines, '\n' ∉ l.toList)
    (hm : ∀ l ∈ stderrLines run.events ++ outLines, hasFailureMarker l.toList = false) :
    (∀ lines : List String, (∀ l ∈ lines, '\n' ∉ l.toList) →
        (∀ l ∈ lines, hasFailureMarker l.toList = false) →
        splitLines (logOfLines lines).toList = lines.map String.toList ++ [[]]
          ∧ extractError (logOfLines lines) = logOfLines (lines.drop (lines.length - 4))
          ∧ (lines.length ≤ 4 → extractError (logOfLines lines) = logOfLines lines))
      ∧ (Execute binaryPath args totalFrames hasCallback run).1.StderrLog
          = logOfLines (capturedLines (stderrLines run.events) outLines)
      ∧ (Execute binaryPath args totalFrames hasCallback run).1.ErrorMessage
          = logOfLines ((capturedLines (stderrLines run.events) outLines).drop
              ((capturedLines (stderrLines run.events) outLines).length - 4)) := by
  have hgen : ∀ lines : List String, (∀ l ∈ lines, '\n' ∉ l.toList) →
        (∀ l ∈ lines, hasFailureMarker l.toList = false) →
        splitLines (logOfLines lines).toList = lines.map String.toList ++ [[]]
          ∧ extractError (logOfLines lines) = logOfLines (lines.drop (lines.length - 4))
          ∧ (lines.length ≤ 4 → extractError (logOfLines lines) = logOfLines lines) := by
    intro lines h1 h2
    refine ⟨splitLines_logOfLines lines h1, extractError_logOfLines lines h1 h2, ?_⟩
    intro h4
    rw [extractError_logOfLines lines h1 h2]
    have : lines.length - 4 = 0 := by omega
    rw [this, List.drop_zero]
  have hlog : capturedLog
      (execRun totalFrames hasCallback run.start run.events).stderrLog run.stdoutLog
        = logOfLines (capturedLines (stderrLines run.events) outLines) := by
    rw [execRun, foldl_execStep_stderrLog, hout]
    have : (ExecState.init run.start).stderrLog ++ logOfLines (stderrLines run.events)
        = logOfLines (stderrLines run.events) := by
      show "" ++ _ = _
      exact String.empty_append _
    rw [this, capturedLog_lines]
  have hnl2 := capturedLines_clean (stderrLines run.events) outLines
    (fun l => '\n' ∉ l.toList) (by decide) (by decide) hnl
  have hm2 := capturedLines_clean (stderrLines run.events) outLines
    (fun l => hasFailureMarker l.toList = false) (by decide) (by decide) hm
  simp only [Execute, hstart] at hfail ⊢
  simp only [Bool.not_eq_false'] at hfail
  refine ⟨hgen, hlog, ?_⟩
  rw [if_pos hfail, hlog]
  exact extractError_logOfLines _ hnl2 hm2

set_option maxRecDepth 100000 in
/-- Claim C9 (amended) at a failed run with six stderr lines and two stdout
lines: the error text is the last four lines of the captured log, which are
the empty line, the separator and the two stdout lines. -/
theorem extractError_last_four_witness :
    (Execute "ffmpeg" [] 0 false sixLineRun).1.StderrLog
        = "l1\nl2\nl3\nl4\nl5\nl6\n\n=== STDOUT ===\no1\no2\n"
      ∧ (Execute "ffmpeg" [] 0 false sixLineRun).1.ErrorMessage
        = "\n=== STDOUT ===\no1\no2\n"
      ∧ extractError (logOfLines ["l1", "l2", "l3", "l4", "l5", "l6"]) = "l3\nl4\nl5\nl6\n" := by
  have h := extractError_last_four "ffmpeg" [] 0 false sixLineRun ["o1", "o2"] rfl
    (by decide) (by decide) (by decide) (by decide)
  refine ⟨?_, ?_, ?_⟩
  · rw [h.2.1]
    decide
  · rw [h.2.2]
    decide
  · rw [(h.1 ["l1", "l2", "l3", "l4", "l5", "l6"] (by decide) (by decide)).2.1]
    decide

theorem stderrStep_lastOutputTime (totalFrames : Int) (hasCallback : Bool) (st : ExecState)
    (now : Int) (line : String) :
    (stderrStep totalFrames hasCallback st now line).lastOutputTime = now := by
  simp only [stderrStep]
  cases parseProgress now line totalFrames with
  | none => rfl
  | some p => simp only; split_ifs <;> rfl

theorem stderrStep_flags (totalFrames : Int) (hasCallback : Bool) (st : ExecState)
    (now : Int) (line : String) :
    (stderrStep totalFrames hasCallback st now line).killed = st.killed
      ∧ (stderrStep totalFrames hasCallback st now line).watchdogDone = st.watchdogDone := by
  simp only [stderrStep]
  cases parseProgress now line totalFrames with
  | none => exact ⟨rfl, rfl⟩
  | some p => simp only; split_ifs <;> exact ⟨rfl, rfl⟩

theorem stderrStep_progressCount (totalFrames : Int) (hasCallback : Bool) (st : ExecState)
    (now : Int) (line : String) :
    (stderrStep totalFrames hasCallback st now line).progressCount
      = st.progressCount + (match parseProgress now line totalFrames with
          | some _ => 1
          | none => 0) := by
  simp only [stderrStep]
  cases parseProgress now line totalFrames with
  | none => simp
  | some p => simp only; split_ifs <;> rfl

theorem stderrStep_lastProgressFrame (totalFrames : Int) (hasCallback : Bool) (st : ExecState)
    (now : Int) (line : String) :
    (stderrStep totalFrames hasCallback st now line).lastProgressFrame
      = match parseProgress now line totalFrames with
        | some p => if st.lastProgressFrame < p.Frame then p.Frame else st.lastProgressFrame
        | none => st.lastProgressFrame := by
  simp only [stderrStep]
  cases parseProgress now line totalFrames with
  | none => rfl
  | some p => simp only; split_ifs <;> rfl

theorem stderrStep_lastProgressTime (totalFrames : Int) (hasCallback : Bool) (st : ExecState)
    (now : Int) (line : String) :
    (stderrStep totalFrames hasCallback st now line).lastProgressTime
      = match parseProgress now line totalFrames with
        | some p => if st.lastProgressFrame < p.Frame then now else st.lastProgressTime
        | none => st.lastProgressTime := by
  simp only [stderrStep]
  cases parseProgress now line totalFrames with
  | none => rfl
  | some p => simp only; split_ifs <;> rfl

theorem tick_fields (totalFrames : Int) (hasCallback : Bool) (st : ExecState) (now : Int) :
    (execStep totalFrames hasCallback st (.tick now)).progressCount = st.progressCount
      ∧ (execStep totalFrames hasCallback st (.tick now)).lastOutputTime = st.lastOutputTime
      ∧ (execStep totalFrames hasCallback st (.tick now)).lastProgressFrame
          = st.lastProgressFrame
      ∧ (execStep totalFrames hasCallback st (.tick now)).lastProgressTime
          = st.lastProgressTime := by
  simp only [execStep]
  split_ifs <;> exact ⟨rfl, rfl, rfl, rfl⟩

/-- What a run from any state leaves in the shared variables. -/
theorem foldl_execStep_invariant (totalFrames : Int) (hasCallback : Bool)
    (events : List ExecEvent) (st : ExecState) (hk : st.killed = st.watchdogDone) :
    (events.foldl (execStep totalFrames hasCallback) st).progressCount
        = st.progressCount + ((parsedEvents totalFrames events).length : Int)
      ∧ (events.foldl (execStep totalFrames hasCallback) st).lastOutputTime
        = lastOutputAt st.lastOutputTime events
      ∧ st.lastProgressFrame
        ≤ (events.foldl (execStep totalFrames hasCallback) st).lastProgressFrame
      ∧ (∀ q ∈ parsedEvents totalFrames events,
          q.Frame ≤ (events.foldl (execStep totalFrames hasCallback) st).lastProgressFrame)
      ∧ (events.foldl (execStep totalFrames hasCallback) st).killed
        = (events.foldl (execStep totalFrames hasCallback) st).watchdogDone := by
  induction events generalizing st with
  | nil => simp [parsedEvents, lastOutputAt, hk]
  | cons e rest ih =>
    rw [List.foldl_cons]
    cases e with
    | tick t =>
      obtain ⟨t1, t2, t3, t4⟩ := tick_fields totalFrames hasCallback st t
      have hk2 : (execStep totalFrames hasCallback st (.tick t)).killed
          = (execStep totalFrames hasCallback st (.tick t)).watchdogDone := by
        simp only [execStep]
        split_ifs
        · exact hk
        · rfl
        · exact hk
      obtain ⟨i1, i2, i3, i4, i5⟩ := ih _ hk2
      simp only [parsedEvents, lastOutputAt]
      rw [t1] at i1
      rw [t2] at i2
      rw [t3] at i3
      exact ⟨i1, i2, i3, i4, i5⟩
    | stderrLine now line =>
      have hk2 : (execStep totalFrames hasCallback st (.stderrLine now line)).killed
          = (execStep totalFrames hasCallback st (.stderrLine now line)).watchdogDone := by
        simp only [execStep]
        rw [(stderrStep_flags _ _ _ _ _).1, (stderrStep_flags _ _ _ _ _).2]
        exact hk
      obtain ⟨i1, i2, i3, i4, i5⟩ := ih _ hk2
      simp only [execStep] at i1 i2 i3 i4 i5 ⊢
      rw [stderrStep_progressCount] at i1
      rw [stderrStep_lastOutputTime] at i2
      rw [stderrStep_lastProgressFrame] at i3
      simp only [parsedEvents, lastOutputAt]
      cases hp : parseProgress now line totalFrames with
      | none =>
        rw [hp] at i1 i3
        simp only at i1 i3 ⊢
        exact ⟨by simpa using i1, i2, i3, i4, i5⟩
      | some p =>
        rw [hp] at i1 i3
        simp only at i1 i3 ⊢
        refine ⟨?_, i2, ?_, ?_, i5⟩
        · rw [i1, List.length_cons]
          push_cast
          ring
        · split_ifs at i3 <;> omega
        · intro q hq
          rcases List.mem_cons.mp hq with rfl | hq
          · split_ifs at i3 <;> omega
          · exact i4 q hq

/-- The advance time and the largest frame count a run leaves in the shared
variables, from any state. -/
theorem foldl_execStep_advance (totalFrames : Int) (hasCallback : Bool)
    (events : List ExecEvent) (st : ExecState) :
    (events.foldl (execStep totalFrames hasCallback) st).lastProgressTime
        = ((advanceTimes totalFrames st.lastProgressFrame events).getLast?).getD
            st.lastProgressTime
      ∧ ((events.foldl (execStep totalFrames hasCallback) st).lastProgressFrame
            = st.lastProgressFrame
          ∨ ∃ q ∈ parsedEvents totalFrames events,
              q.Frame = (events.foldl (execStep totalFrames hasCallback) st).lastProgressFrame)
      ∧ ∀ rest : List ExecEvent,
          advanceTimes totalFrames st.lastProgressFrame (events ++ rest)
            = advanceTimes totalFrames st.lastProgressFrame events
              ++ advanceTimes totalFrames
                  (events.foldl (execStep totalFrames hasCallback) st).lastProgressFrame
                  rest := by
  induction events generalizing st with
  | nil => simp [advanceTimes]
  | cons e rest ih =>
    rw [List.foldl_cons]
    cases e with
    | tick t =>
      obtain ⟨_, _, t3, t4⟩ := tick_fields totalFrames hasCallback st t
      obtain ⟨i1, i2, i3⟩ := ih (execStep totalFrames hasCallback st (.tick t))
      rw [t3, t4] at i1
      rw [t3] at i2 i3
      simp only [advanceTimes, parsedEvents, List.cons_append]
      exact ⟨i1, i2, i3⟩
    | stderrLine now line =>
      obtain ⟨i1, i2, i3⟩ := ih (execStep totalFrames hasCallback st (.stderrLine now line))
      simp only [execStep] at i1 i2 i3 ⊢
      rw [stderrStep_lastProgressFrame, stderrStep_lastProgressTime] at i1
      rw [stderrStep_lastProgressFrame] at i2 i3
      simp only [advanceTimes, parsedEvents, List.cons_append]
      cases hp : parseProgress now line totalFrames with
      | none =>
        rw [hp] at i1 i2 i3
        exact ⟨i1, i2, i3⟩
      | some p =>
        rw [hp] at i1 i2 i3
        simp only at i1 i2 i3 ⊢
        by_cases hlt : st.lastProgressFrame < p.Frame
        · simp only [if_pos hlt] at i1 i2 i3
          simp only [if_pos hlt]
          refine ⟨?_, ?_, ?_⟩
          · rw [i1]
            cases hx : advanceTimes totalFrames p.Frame rest with
            | nil => simp
            | cons a as =>
              cases hl : (a :: as).getLast? with
              | none => simp at hl
              | some v =>
                rw [List.getLast?_cons_cons, hl]
                rfl
          · right
            rcases i2 with h | ⟨q, hq, h⟩
            · exact ⟨p, List.mem_cons_self _ _, h.symm⟩
            · exact ⟨q, List.mem_cons_of_mem _ hq, h⟩
          · intro r
            have := i3 r
            show now :: advanceTimes totalFrames p.Frame (rest ++ r) = _
            rw [this, List.cons_append]
        · simp only [if_neg hlt] at i1 i2 i3
          simp only [if_neg hlt]
          refine ⟨i1, ?_, i3⟩
          rcases i2 with h | ⟨q, hq, h⟩
          · exact Or.inl h
          · exact Or.inr ⟨q, List.mem_cons_of_mem _ hq, h⟩

theorem parsedEvents_append (totalFrames : Int) (xs ys : List ExecEvent) :
    parsedEvents totalFrames (xs ++ ys)
      = parsedEvents totalFrames xs ++ parsedEvents totalFrames ys := by
  induction xs with
  | nil => rfl
  | cons e rest ih =>
    cases e with
    | tick t => simpa [parsedEvents] using ih
    | stderrLine now line =>
      simp only [List.cons_append, parsedEvents]
      cases parseProgress now line totalFrames with
      | none => exact ih
      | some p => simp [ih]

/-- Claim C10.  After any run of stderr lines and ticks, the tick at time
`now` decides to kill exactly when either no progress event has been parsed
and more than the startup window (60 s) has passed since the last stderr line
(or the start), or some progress event has been parsed and more than the stall
window (5 min) has passed since the frame counter last advanced (or the
start); on a process not yet killed the tick kills exactly on that decision;
the startup window is shorter than the stall window; and the time of the last
advance is the start before any event, is left alone by a tick, and after one
more stderr line is the time of that line when the line parses to a frame
count that strictly exceeds 0 and every frame count parsed before, and is
unchanged otherwise. -/
theorem watchdog_policy (totalFrames : Int) (hasCallback : Bool) (start : Int)
    (events : List ExecEvent) (now : Int) :
    (watchdogKills (execRun totalFrames hasCallback start events) now = true ↔
        (parsedEvents totalFrames events = []
            ∧ startupWindow < now - lastOutputAt start events)
          ∨ (parsedEvents totalFrames events ≠ []
            ∧ stallWindow < now - lastAdvanceAt totalFrames start events))
      ∧ ((execRun totalFrames hasCallback start events).killed = false →
          (execStep totalFrames hasCallback (execRun totalFrames hasCallback start events)
              (.tick now)).killed
            = watchdogKills (execRun totalFrames hasCallback start events) now)
      ∧ startupWindow = 60 * second ∧ stallWindow = 300 * second
      ∧ startupWindow < stallWindow
      ∧ lastAdvanceAt totalFrames start [] = start
      ∧ (∀ t : Int, lastAdvanceAt totalFrames start (events ++ [.tick t])
          = lastAdvanceAt totalFrames start events)
      ∧ (∀ (t : Int) (line : String),
          parseProgress t line totalFrames = none →
          lastAdvanceAt totalFrames start (events ++ [.stderrLine t line])
            = lastAdvanceAt totalFrames start events)
      ∧ (∀ (t : Int) (line : String) (p : Progress),
          parseProgress t line totalFrames = some p →
          lastAdvanceAt totalFrames start (events ++ [.stderrLine t line])
            = if 0 < p.Frame ∧ ∀ q ∈ parsedEvents totalFrames events, q.Frame < p.Frame
              then t else lastAdvanceAt totalFrames start events) := by
  obtain ⟨i1, i2, _, i4, i5⟩ :=
    foldl_execStep_invariant totalFrames hasCallback events (ExecState.init start) rfl
  obtain ⟨a1, a2, a3⟩ :=
    foldl_execStep_advance totalFrames hasCallback events (ExecState.init start)
  have e1 : (execRun totalFrames hasCallback start events).progressCount
      = ((parsedEvents totalFrames events).length : Int) := by
    rw [execRun, i1]
    simp [ExecState.init]
  have e2 : (execRun totalFrames hasCallback start events).lastOutputTime
      = lastOutputAt start events := by
    rw [execRun, i2]
    rfl
  have e3 : (execRun totalFrames hasCallback start events).lastProgressTime
      = lastAdvanceAt totalFrames start events := by
    rw [execRun, a1]
    rfl
  have happ : ∀ rest : List ExecEvent,
      lastAdvanceAt totalFrames start (events ++ rest)
        = ((advanceTimes totalFrames
              (execRun totalFrames hasCallback start events).lastProgressFrame
              rest).getLast?).getD (lastAdvanceAt totalFrames start events) := by
    intro rest
    have h := a3 rest
    have h0 : (ExecState.init start).lastProgressFrame = 0 := rfl
    rw [h0] at h
    rw [lastAdvanceAt, h, execRun]
    cases hx : advanceTimes totalFrames
        (List.foldl (execStep totalFrames hasCallback) (ExecState.init start)
          events).lastProgressFrame rest with
    | nil => simp [lastAdvanceAt]
    | cons a as =>
      rw [List.getLast?_append_of_ne_nil _ (List.cons_ne_nil a as)]
      cases hl : (a :: as).getLast? with
      | none => simp at hl
      | some v => rfl
  refine ⟨?_, ?_, rfl, ?_, ?_, rfl, ?_, ?_, ?_⟩
  · simp only [watchdogKills, e1, e2, e3]
    by_cases hnil : parsedEvents totalFrames events = []
    · simp [hnil]
    · have hlen : ¬ (((parsedEvents totalFrames events).length : Int) = 0) := by
        intro h0
        exact hnil (List.length_eq_zero.mp (by exact_mod_cast h0))
      simp [hnil, hlen]
  · intro hkill
    have hdone : (execRun totalFrames hasCallback start events).watchdogDone = false := by
      rw [execRun] at hkill ⊢
      rw [← i5]
      exact hkill
    simp only [execStep, hdone]
    cases hw : watchdogKills (execRun totalFrames hasCallback start events) now with
    | false => simpa using hkill
    | true => simp
  · simp [stallWindow, minute]
    ring
  · decide
  · intro t
    rw [happ]
    rfl
  · intro t line hp
    rw [happ]
    simp only [advanceTimes, hp]
    rfl
  · intro t line p hp
    rw [happ]
    simp only [advanceTimes, hp]
    have hbest0 : 0 ≤ (execRun totalFrames hasCallback start events).lastProgressFrame := by
      obtain ⟨_, _, j3, _, _⟩ :=
        foldl_execStep_invariant totalFrames hasCallback events (ExecState.init start) rfl
      exact j3
    by_cases hlt : (execRun totalFrames hasCallback start events).lastProgressFrame < p.Frame
    · have hcond : 0 < p.Frame ∧ ∀ q ∈ parsedEvents totalFrames events, q.Frame < p.Frame := by
        refine ⟨by omega, ?_⟩
        intro q hq
        have := i4 q hq
        rw [execRun] at hlt
        omega
      rw [if_pos hlt, if_pos hcond]
      rfl
    · have hcond : ¬ (0 < p.Frame
          ∧ ∀ q ∈ parsedEvents totalFrames events, q.Frame < p.Frame) := by
        rintro ⟨h0, hall⟩
        apply hlt
        rcases a2 with h | ⟨q, hq, h⟩
        · rw [execRun, h]
          exact h0
        · rw [execRun, ← h]
          exact hall q hq
      rw [if_neg hlt, if_neg hcond]
      rfl

theorem stallRun_facts :
    parsedEvents 200 [.stderrLine (10 * second) statusLine50,
        .stderrLine (200 * second) statusLine50] ≠ []
      ∧ lastAdvanceAt 200 0 [.stderrLine (10 * second) statusLine50,
        .stderrLine (200 * second) statusLine50] = 10 * second
      ∧ parsedEvents 200 [.stderrLine (10 * second) statusLine50,
        .stderrLine (200 * second) statusLine100] ≠ []
      ∧ lastAdvanceAt 200 0 [.stderrLine (10 * second) statusLine50,
        .stderrLine (200 * second) statusLine100] = 200 * second := by
  refine ⟨?_, ?_, ?_, ?_⟩
  · simp only [parsedEvents, statusLine50_parse]
    exact List.cons_ne_nil _ _
  · simp only [lastAdvanceAt, advanceTimes, statusLine50_parse, withEstimates_Frame,
      statusLine50_Frame]
    decide
  · simp only [parsedEvents, statusLine50_parse]
    exact List.cons_ne_nil _ _
  · simp only [lastAdvanceAt, advanceTimes, statusLine50_parse, statusLine100_parse,
      withEstimates_Frame, statusLine50_Frame, statusLine100_Frame]
    decide

theorem execRun_alive (totalFrames : Int) (hasCallback : Bool) (start : Int)
    (events : List ExecEvent) (h : ∀ e ∈ events, ∃ t line, e = .stderrLine t line) :
    (execRun totalFrames hasCallback start events).killed = false := by
  have key : ∀ (evs : List ExecEvent) (st : ExecState),
      (∀ e ∈ evs, ∃ t line, e = .stderrLine t line) →
      (evs.foldl (execStep totalFrames hasCallback) st).killed = st.killed := by
    intro evs
    induction evs with
    | nil => intro st _; rfl
    | cons e rest ih =>
      intro st hall
      obtain ⟨t, line, rfl⟩ := hall e (List.mem_cons_self _ _)
      rw [List.foldl_cons, ih _ (fun x hx => hall x (List.mem_cons_of_mem _ hx))]
      exact (stderrStep_flags _ _ _ _ _).1
  rw [execRun, key events _ h]
  rfl

/-- Claim C10 at three runs.  With one banner line at 5 s and no progress, the
tick at 70 s kills and the tick at 60 s does not.  With a progress line for
frame 50 at 10 s and another for frame 50 at 200 s, the counter last advanced
at 10 s: the tick at 311 s kills although output is recent, the tick at 310 s
does not.  When the second line reports frame 100, the counter last advanced
at 200 s and the tick at 311 s does not kill. -/
theorem watchdog_policy_witness :
    (execRun 200 true 0 [.stderrLine (5 * second) "ffmpeg version 6.0"]).killed = false
      ∧ (execStep 200 true (execRun 200 true 0 [.stderrLine (5 * second) "ffmpeg version 6.0"])
          (.tick (70 * second))).killed = true
      ∧ (execStep 200 true (execRun 200 true 0 [.stderrLine (5 * second) "ffmpeg version 6.0"])
          (.tick (60 * second))).killed = false
      ∧ lastAdvanceAt 200 0 [.stderrLine (10 * second) statusLine50,
          .stderrLine (200 * second) statusLine50] = 10 * second
      ∧ (execStep 200 true (execRun 200 true 0 [.stderrLine (10 * second) statusLine50,
          .stderrLine (200 * second) statusLine50]) (.tick (311 * second))).killed = true
      ∧ (execStep 200 true (execRun 200 true 0 [.stderrLine (10 * second) statusLine50,
          .stderrLine (200 * second) statusLine50]) (.tick (310 * second))).killed = false
      ∧ lastAdvanceAt 200 0 [.stderrLine (10 * second) statusLine50,
          .stderrLine (200 * second) statusLine100] = 200 * second
      ∧ (execStep 200 true (execRun 200 true 0 [.stderrLine (10 * second) statusLine50,
          .stderrLine (200 * second) statusLine100]) (.tick (311 * second))).killed
          = false := by
  have hp : parseProgress (5 * second) "ffmpeg version 6.0" 200 = none :=
    (parseProgress_none_iff _ _ _).mpr (by decide)
  have hpe : parsedEvents 200 [.stderrLine (5 * second) "ffmpeg version 6.0"] = [] := by
    simp only [parsedEvents, hp]
  obtain ⟨s1, s2, s3, s4⟩ := stallRun_facts
  have hk := execRun_alive 200 true 0 [.stderrLine (5 * second) "ffmpeg version 6.0"]
    (by intro e he; simp only [List.mem_singleton] at he; exact ⟨_, _, he⟩)
  have hk2 := execRun_alive 200 true 0 [.stderrLine (10 * second) statusLine50,
    .stderrLine (200 * second) statusLine50]
    (by
      intro e he
      simp only [List.mem_cons, List.mem_singleton, List.not_mem_nil, or_false] at he
      rcases he with rfl | rfl <;> exact ⟨_, _, rfl⟩)
  have hk3 := execRun_alive 200 true 0 [.stderrLine (10 * second) statusLine50,
    .stderrLine (200 * second) statusLine100]
    (by
      intro e he
      simp only [List.mem_cons, List.mem_singleton, List.not_mem_nil, or_false] at he
      rcases he with rfl | rfl <;> exact ⟨_, _, rfl⟩)
  have h70 := watchdog_policy 200 true 0 [.stderrLine (5 * second) "ffmpeg version 6.0"]
    (70 * second)
  have h60 := watchdog_policy 200 true 0 [.stderrLine (5 * second) "ffmpeg version 6.0"]
    (60 * second)
  have a311 := watchdog_policy 200 true 0 [.stderrLine (10 * second) statusLine50,
    .stderrLine (200 * second) statusLine50] (311 * second)
  have a310 := watchdog_policy 200 true 0 [.stderrLine (10 * second) statusLine50,
    .stderrLine (200 * second) statusLine50] (310 * second)
  have b311 := watchdog_policy 200 true 0 [.stderrLine (10 * second) statusLine50,
    .stderrLine (200 * second) statusLine100] (311 * second)
  refine ⟨hk, ?_, ?_, s2, ?_, ?_, s4, ?_⟩
  · rw [h70.2.1 hk, h70.1]
    left
    exact ⟨hpe, by decide⟩
  · rw [h60.2.1 hk]
    cases hw : watchdogKills
        (execRun 200 true 0 [.stderrLine (5 * second) "ffmpeg version 6.0"]) (60 * second) with
    | false => rfl
    | true =>
      rcases h60.1.mp hw with ⟨_, hlt⟩ | ⟨hne, _⟩
      · exact absurd hlt (by decide)
      · exact absurd hpe hne
  · rw [a311.2.1 hk2, a311.1]
    right
    refine ⟨s1, ?_⟩
    rw [s2]
    decide
  · rw [a310.2.1 hk2]
    cases hw : watchdogKills (execRun 200 true 0 [.stderrLine (10 * second) statusLine50,
        .stderrLine (200 * second) statusLine50]) (310 * second) with
    | false => rfl
    | true =>
      rcases a310.1.mp hw with ⟨hnil, _⟩ | ⟨_, hlt⟩
      · exact absurd hnil s1
      · rw [s2] at hlt
        exact absurd hlt (by decide)
  · rw [b311.2.1 hk3]
    cases hw : watchdogKills (execRun 200 true 0 [.stderrLine (10 * second) statusLine50,
        .stderrLine (200 * second) statusLine100]) (311 * second) with
    | false => rfl
    | true =>
      rcases b311.1.mp hw with ⟨hnil, _⟩ | ⟨_, hlt⟩
      · exact absurd hnil s3
      · rw [s4] at hlt
        exact absurd hlt (by decide)

theorem materialized_append (xs ys : List (String × String)) :
    materialized (xs ++ ys) = materialized xs ++ materialized ys := by
  simp [materialized]

theorem resolvedPrefix_append (env : Env) (ps qs : List String) :
    resolvedPrefix env (ps ++ qs) =
      if (resolvedPrefix env ps).length = ps.length then
        resolvedPrefix env ps ++ resolvedPrefix env qs
      else resolvedPrefix env ps := by
  induction ps with
  | nil => simp [resolvedPrefix]
  | cons p rest ih =>
    simp only [List.cons_append, resolvedPrefix]
    cases hd : DownloadFile env p with
    | error e => simp
    | ok l =>
      have ih2 : resolvedPrefix env (rest.append qs) =
          if (resolvedPrefix env rest).length = rest.length then
            resolvedPrefix env rest ++ resolvedPrefix env qs
          else resolvedPrefix env rest := ih
      simp only [List.length_cons, add_left_inj, ih2]
      split_ifs <;> simp

theorem downloadImages_error (env : Env) (ps acc tfs : List String) (p e : String)
    (tf : List String) (h : downloadImages env ps acc tfs = .error (p, e, tf)) :
    tf = tfs ++ materialized (resolvedPrefix env ps)
      ∧ (resolvedPrefix env ps).length < ps.length := by
  induction ps generalizing acc tfs with
  | nil => simp [downloadImages] at h
  | cons q rest ih =>
    simp only [downloadImages] at h
    cases hd : DownloadFile env q with
    | error e1 =>
      rw [hd] at h
      simp only [Except.error.injEq, Prod.mk.injEq] at h
      simp [resolvedPrefix, hd, materialized, h.2.2]
    | ok l =>
      rw [hd] at h
      obtain ⟨h1, h2⟩ := ih _ _ h
      simp only [resolvedPrefix, hd, List.length_cons]
      refine ⟨?_, by omega⟩
      rw [h1]
      by_cases hl : l = q
      · simp [materialized, hl]
      · simp [materialized, hl]

theorem downloadImages_ok_temp (env : Env) (ps acc tfs ls tf : List String)
    (h : downloadImages env ps acc tfs = .ok (ls, tf)) :
    tf = tfs ++ materialized (resolvedPrefix env ps)
      ∧ (resolvedPrefix env ps).length = ps.length := by
  induction ps generalizing acc tfs with
  | nil =>
    simp only [downloadImages, Except.ok.injEq, Prod.mk.injEq] at h
    simp [resolvedPrefix, materialized, h.2]
  | cons q rest ih =>
    simp only [downloadImages] at h
    cases hd : DownloadFile env q with
    | error e1 => rw [hd] at h; simp at h
    | ok l =>
      rw [hd] at h
      obtain ⟨h1, h2⟩ := ih _ _ h
      simp only [resolvedPrefix, hd, List.length_cons]
      refine ⟨?_, by omega⟩
      rw [h1]
      by_cases hl : l = q
      · simp [materialized, hl]
      · simp [materialized, hl]

theorem imageAudio_failure (env : Env) (params : TaskInputParams) (outputPath : String)
    (h : (BuildImageAudioToVideoCommand env params outputPath).err ≠ none) :
    (BuildImageAudioToVideoCommand env params outputPath).args = []
      ∧ (BuildImageAudioToVideoCommand env params outputPath).totalFrames = 0
      ∧ (BuildImageAudioToVideoCommand env params outputPath).tempFiles = []
      ∧ (BuildImageAudioToVideoCommand env params outputPath).cleaned
          = materialized (resolvedPrefix env [params.ImagePath, params.AudioPath]) := by
  unfold BuildImageAudioToVideoCommand at h ⊢
  cases hi : DownloadFile env params.ImagePath with
  | error e => simp [BuildResult.fail, resolvedPrefix, hi, materialized]
  | ok li =>
    rw [hi] at h
    simp only at h ⊢
    cases ha : DownloadFile env params.AudioPath with
    | error e =>
      by_cases hl : li = params.ImagePath <;>
        simp [BuildResult.fail, resolvedPrefix, hi, ha, materialized, hl]
    | ok la =>
      rw [ha] at h
      simp only at h ⊢
      cases hg : env.getAudioDuration la with
      | error e =>
        by_cases hl : li = params.ImagePath <;> by_cases hl2 : la = params.AudioPath <;>
          simp [BuildResult.fail, resolvedPrefix, hi, ha, materialized, hl, hl2]
      | ok d => rw [hg] at h; simp at h

theorem slideshow_failure (env : Env) (params : TaskInputParams) (outputPath : String)
    (hne : params.ImagePaths ≠ [])
    (h : (BuildImageSlideshowCommand env params outputPath).err ≠ none) :
    (BuildImageSlideshowCommand env params outputPath).args = []
      ∧ (BuildImageSlideshowCommand env params outputPath).totalFrames = 0
      ∧ (BuildImageSlideshowCommand env params outputPath).tempFiles = []
      ∧ (BuildImageSlideshowCommand env params outputPath).cleaned
          = materialized (resolvedPrefix env (slideshowRefs params)) := by
  have h0 : ¬ params.ImagePaths.length = 0 := by
    intro hl
    exact hne (List.length_eq_zero.mp hl)
  unfold BuildImageSlideshowCommand at h ⊢
  simp only [h0, if_false] at h ⊢
  rw [slideshowRefs, resolvedPrefix_append]
  cases hd : downloadImages env params.ImagePaths [] [] with
  | error e =>
    obtain ⟨p, e1, tf⟩ := e
    obtain ⟨h1, h2⟩ := downloadImages_error _ _ _ _ _ _ _ hd
    have hlen : ¬ (resolvedPrefix env params.ImagePaths).length = params.ImagePaths.length := by
      omega
    simp [BuildResult.fail, hlen, h1]
  | ok r =>
    obtain ⟨ls, tf⟩ := r
    obtain ⟨h1, h2⟩ := downloadImages_ok_temp _ _ _ _ _ _ hd
    rw [hd] at h
    simp only [h2, if_true] at h ⊢
    by_cases hb : params.BackgroundAudio = ""
    · simp [hb] at h
    · simp only [ne_eq, hb, not_false_eq_true, if_true] at h ⊢
      cases hdl : DownloadFile env params.BackgroundAudio with
      | error e => simp [BuildResult.fail, resolvedPrefix, hdl, materialized_append, h1, materialized]
      | ok la =>
        rw [hdl] at h
        simp only at h ⊢
        cases hg : env.getAudioDuration la with
        | error e =>
          by_cases hl : la = params.BackgroundAudio <;>
            simp [BuildResult.fail, resolvedPrefix, hdl, materialized_append, h1, materialized, hl]
        | ok d => rw [hg] at h; simp at h

theorem imageAudio_fails_of_unresolved (env : Env) (params : TaskInputParams)
    (outputPath : String)
    (h : (∃ e, DownloadFile env params.ImagePath = .error e)
      ∨ (∃ e, DownloadFile env params.AudioPath = .error e)
      ∨ (∃ la e, DownloadFile env params.AudioPath = .ok la
          ∧ env.getAudioDuration la = .error e)) :
    (BuildImageAudioToVideoCommand env params outputPath).err ≠ none := by
  unfold BuildImageAudioToVideoCommand
  cases hi : DownloadFile env params.ImagePath with
  | error e => simp [BuildResult.fail]
  | ok li =>
    simp only
    cases ha : DownloadFile env params.AudioPath with
    | error e => simp [BuildResult.fail]
    | ok la =>
      simp only
      cases hg : env.getAudioDuration la with
      | error e => simp [BuildResult.fail]
      | ok d =>
        rcases h with ⟨e, he⟩ | ⟨e, he⟩ | ⟨la2, e, h1, h2⟩
        · rw [hi] at he; simp at he
        · rw [ha] at he; simp at he
        · rw [ha] at h1
          simp only [Except.ok.injEq] at h1
          subst h1
          rw [hg] at h2
          simp at h2

theorem downloadImages_fails_of_unresolved (env : Env) (ps acc tfs : List String)
    (h : ∃ p ∈ ps, ∃ e, DownloadFile env p = .error e) :
    ∃ x, downloadImages env ps acc tfs = .error x := by
  induction ps generalizing acc tfs with
  | nil => simp at h
  | cons q rest ih =>
    simp only [downloadImages]
    cases hd : DownloadFile env q with
    | error e => exact ⟨_, rfl⟩
    | ok l =>
      obtain ⟨p, hp, e, he⟩ := h
      rcases List.mem_cons.mp hp with rfl | hp
      · rw [hd] at he; simp at he
      · exact ih _ _ ⟨p, hp, e, he⟩

theorem slideshow_fails_of_unresolved (env : Env) (params : TaskInputParams)
    (outputPath : String)
    (h : (∃ p ∈ params.ImagePaths, ∃ e, DownloadFile env p = .error e)
      ∨ (params.BackgroundAudio ≠ "" ∧ ∃ e, DownloadFile env params.BackgroundAudio = .error e)
      ∨ (params.BackgroundAudio ≠ "" ∧ ∃ la e,
          DownloadFile env params.BackgroundAudio = .ok la
            ∧ env.getAudioDuration la = .error e)) :
    (BuildImageSlideshowCommand env params outputPath).err ≠ none := by
  unfold BuildImageSlideshowCommand
  by_cases h0 : params.ImagePaths.length = 0
  · simp [h0, BuildResult.fail]
  simp only [h0, if_false]
  cases hd : downloadImages env params.ImagePaths [] [] with
  | error x =>
    obtain ⟨a, b, c⟩ := x
    simp [BuildResult.fail]
  | ok r =>
    obtain ⟨ls, tf⟩ := r
    simp only
    rcases h with hi | ⟨hb, e, he⟩ | ⟨hb, la, e, h1, h2⟩
    · obtain ⟨x, hx⟩ := downloadImages_fails_of_unresolved env _ [] [] hi
      rw [hd] at hx
      simp at hx
    · simp [hb, he, BuildResult.fail]
    · simp [hb, h1, h2, BuildResult.fail]

/-- Claim C20.  For both command builders: when resolving a reference fails, or
the probe of the audio duration fails, the builder returns an error; and
whenever it returns an error, the argument vector and the temp-file list are
nil, `totalFrames` is 0, and the files it has handed to `CleanupFile` are
exactly the paths, among the references resolved before the failure, that
differ from their reference. -/
theorem builders_fail_clean (env : Env) (params : TaskInputParams) (outputPath : String) :
    (((∃ e, DownloadFile env params.ImagePath = .error e)
        ∨ (∃ e, DownloadFile env params.AudioPath = .error e)
        ∨ (∃ la e, DownloadFile env params.AudioPath = .ok la
            ∧ env.getAudioDuration la = .error e)) →
        (BuildImageAudioToVideoCommand env params outputPath).err ≠ none)
      ∧ ((BuildImageAudioToVideoCommand env params outputPath).err ≠ none →
        (BuildImageAudioToVideoCommand env params outputPath).args = []
          ∧ (BuildImageAudioToVideoCommand env params outputPath).totalFrames = 0
          ∧ (BuildImageAudioToVideoCommand env params outputPath).tempFiles = []
          ∧ (BuildImageAudioToVideoCommand env params outputPath).cleaned
              = materialized (resolvedPrefix env [params.ImagePath, params.AudioPath]))
      ∧ (((∃ p ∈ params.ImagePaths, ∃ e, DownloadFile env p = .error e)
          ∨ (params.BackgroundAudio ≠ ""
              ∧ ∃ e, DownloadFile env params.BackgroundAudio = .error e)
          ∨ (params.BackgroundAudio ≠ "" ∧ ∃ la e,
              DownloadFile env params.BackgroundAudio = .ok la
                ∧ env.getAudioDuration la = .error e)) →
        (BuildImageSlideshowCommand env params outputPath).err ≠ none)
      ∧ (params.ImagePaths ≠ [] →
        (BuildImageSlideshowCommand env params outputPath).err ≠ none →
        (BuildImageSlideshowCommand env params outputPath).args = []
          ∧ (BuildImageSlideshowCommand env params outputPath).totalFrames = 0
          ∧ (BuildImageSlideshowCommand env params outputPath).tempFiles = []
          ∧ (BuildImageSlideshowCommand env params outputPath).cleaned
              = materialized (resolvedPrefix env (slideshowRefs params))) :=
  ⟨imageAudio_fails_of_unresolved env params outputPath,
   imageAudio_failure env params outputPath,
   slideshow_fails_of_unresolved env params outputPath,
   slideshow_failure env params outputPath⟩

/-- Claim C20 at a slideshow whose second image cannot be fetched: the build
fails with nothing returned, and the one temp file made so far, the download
of the first image, has been handed to cleanup. -/
theorem builders_fail_clean_witness :
    (BuildImageSlideshowCommand flakyEnv brokenSlideshow "out.mp4").err ≠ none
      ∧ (BuildImageSlideshowCommand flakyEnv brokenSlideshow "out.mp4").args = []
      ∧ (BuildImageSlideshowCommand flakyEnv brokenSlideshow "out.mp4").totalFrames = 0
      ∧ (BuildImageSlideshowCommand flakyEnv brokenSlideshow "out.mp4").tempFiles = []
      ∧ (BuildImageSlideshowCommand flakyEnv brokenSlideshow "out.mp4").cleaned
          = ["/tmp/dl/ok.example/a.jpg"] := by
  have h := builders_fail_clean flakyEnv brokenSlideshow "out.mp4"
  have herr := h.2.2.1 (Or.inl ⟨"http://down.example/b.jpg", by decide, "http status 503",
    by rfl⟩)
  obtain ⟨h1, h2, h3, h4⟩ := h.2.2.2 (by decide) herr
  refine ⟨herr, h1, h2, h3, ?_⟩
  rw [h4]
  decide

theorem Execute_Command (binaryPath : String) (args : List String) (totalFrames : Int)
    (hasCallback : Bool) (run : EngineRun) :
    (Execute binaryPath args totalFrames hasCallback run).1.Command
      = binaryPath ++ " " ++ joinArgs args := by
  unfold Execute
  cases h : run.startFailure with
  | none => rfl
  | some f => cases f <;> rfl

theorem Execute_started (binaryPath : String) (args : List String) (totalFrames : Int)
    (hasCallback : Bool) (run : EngineRun) (h : run.startFailure = none) :
    (Execute binaryPath args totalFrames hasCallback run).1.Success
        = !((execRun totalFrames hasCallback run.start run.events).killed || run.exitFailed)
      ∧ (Execute binaryPath args totalFrames hasCallback run).1.StderrLog
        = capturedLog (execRun totalFrames hasCallback run.start run.events).stderrLog
            run.stdoutLog
      ∧ (Execute binaryPath args totalFrames hasCallback run).1.ErrorMessage
        = (if ((execRun totalFrames hasCallback run.start run.events).killed
              || run.exitFailed) = true
            then extractError
              (capturedLog (execRun totalFrames hasCallback run.start run.events).stderrLog
                run.stdoutLog)
            else "")
      ∧ (Execute binaryPath args totalFrames hasCallback run).2
        = (execRun totalFrames hasCallback run.start run.events).reported := by
  unfold Execute
  rw [h]
  exact ⟨rfl, rfl, rfl, rfl⟩

theorem foldl_execStep_ticks (totalFrames : Int) (hasCallback : Bool)
    (events : List ExecEvent) (st : ExecState)
    (h : ∀ e ∈ events, ∃ now, e = .tick now) :
    (events.foldl (execStep totalFrames hasCallback) st).stderrLog = st.stderrLog
      ∧ (events.foldl (execStep totalFrames hasCallback) st).reported = st.reported := by
  induction events generalizing st with
  | nil => exact ⟨rfl, rfl⟩
  | cons e rest ih =>
    obtain ⟨now, rfl⟩ := h e (List.mem_cons_self _ _)
    rw [List.foldl_cons]
    obtain ⟨h1, h2⟩ := ih (execStep totalFrames hasCallback st (.tick now))
      (fun x hx => h x (List.mem_cons_of_mem _ hx))
    rw [h1, h2]
    simp only [execStep]
    split_ifs <;> exact ⟨rfl, rfl⟩

/-- With no line on stderr, nothing on stdout and a kill by the watchdog,
`Execute` reports a failure whose error text is empty. -/
theorem Execute_silent_kill (binaryPath : String) (args : List String) (totalFrames : Int)
    (hasCallback : Bool) (run : EngineRun) (hs : run.startFailure = none)
    (hticks : ∀ e ∈ run.events, ∃ now, e = .tick now) (hout : run.stdoutLog = "")
    (hk : (execRun totalFrames hasCallback run.start run.events).killed = true) :
    (Execute binaryPath args totalFrames hasCallback run).1.Success = false
      ∧ (Execute binaryPath args totalFrames hasCallback run).1.ErrorMessage = ""
      ∧ (Execute binaryPath args totalFrames hasCallback run).2 = []
      ∧ (Execute binaryPath args totalFrames hasCallback run).1.StderrLog = "" := by
  obtain ⟨e1, e2, e3, e4⟩ := Execute_started binaryPath args totalFrames hasCallback run hs
  have hlog : (execRun totalFrames hasCallback run.start run.events).stderrLog = "" :=
    (foldl_execStep_ticks totalFrames hasCallback run.events _ hticks).1
  have hrep : (execRun totalFrames hasCallback run.start run.events).reported = [] :=
    (foldl_execStep_ticks totalFrames hasCallback run.events _ hticks).2
  refine ⟨?_, ?_, ?_, ?_⟩
  · rw [e1, hk]; rfl
  · rw [e3, hk, hlog, hout]
    simp only [Bool.true_or, if_true]
    decide
  · rw [e4, hrep]
  · rw [e2, hlog, hout]
    rfl

theorem bodyPlan_of_build_error (slideshow : Bool) (cfg : WorkerConfig) (env : Env)
    (task : Task) (run : BodyRun) (e : String)
    (hb : (buildCommand slideshow cfg env task).err = some e) :
    bodyPlan slideshow cfg env task run =
      { built := false,
        main := ((buildCommand slideshow cfg env task).cleaned.map
            fun f => ({ effect := .cleanupFile f } : Step)) ++
          [ { effect := .failTask task.ID "" "" "" ("Failed to build ffmpeg command: " ++ e) },
            { effect := .broadcastProgress task.ID
                { TaskID := task.ID, Status := TaskStatusFailed,
                  Message := "Failed to build ffmpeg command: " ++ e } } ],
        tempFiles := [], result := none,
        err := some ("Failed to build ffmpeg command: " ++ e) } := by
  simp only [bodyPlan, hb]

theorem bodyPlan_of_built (slideshow : Bool) (cfg : WorkerConfig) (env : Env)
    (task : Task) (run : BodyRun) (b : BuildResult) (result : ExecuteResult)
    (reported : List Progress)
    (hb : buildCommand slideshow cfg env task = b) (herr : b.err = none)
    (hx : Execute cfg.binaryPath b.args b.totalFrames true run.engine = (result, reported)) :
    bodyPlan slideshow cfg env task run =
      { built := true,
        main := [ ({ effect := .executeWithProgress b.args b.totalFrames } : Step) ]
          ++ (reported.map (callbackSteps slideshow task.ID b.totalFrames)).flatten
          ++ (if result.Success then
                successSteps slideshow cfg task
                  (GenerateOutputPath cfg task.ID task.InputParams.OutputFormat)
                  b.totalFrames result run.upload
              else failureSteps task result),
        tempFiles := b.tempFiles,
        result := some result,
        err := if result.Success then none
          else some ("ffmpeg execution failed: " ++ result.ErrorMessage) } := by
  subst hb
  simp only [bodyPlan, herr, hx]

theorem callback_effects_status (slideshow : Bool) (taskID : String) (totalFrames : Int)
    (ps : List Progress) :
    ∀ e ∈ ((ps.map (callbackSteps slideshow taskID totalFrames)).flatten.map Step.effect),
      (e.status? = none ∨ e.status? = some TaskStatusProcessing)
        ∧ (∀ t r, e ≠ .completeTask t r) ∧ (∀ t a b c d, e ≠ .failTask t a b c d)
        ∧ (∀ a t, e ≠ .executeWithProgress a t) := by
  intro e he
  simp only [List.mem_map, List.mem_flatten, callbackSteps] at he
  obtain ⟨s, ⟨l, ⟨p, _, rfl⟩, hs⟩, rfl⟩ := he
  simp only [List.mem_cons, List.mem_singleton, List.not_mem_nil, or_false] at hs
  rcases hs with rfl | rfl
  · refine ⟨Or.inl rfl, ?_, ?_, ?_⟩ <;> simp
  · refine ⟨Or.inr rfl, ?_, ?_, ?_⟩ <;> simp

theorem callback_steps_onReader (slideshow : Bool) (taskID : String) (totalFrames : Int)
    (ps : List Progress) :
    ∀ s ∈ (ps.map (callbackSteps slideshow taskID totalFrames)).flatten, s.onReader = true := by
  intro s hs
  simp only [List.mem_flatten, List.mem_map, callbackSteps] at hs
  obtain ⟨l, ⟨p, _, rfl⟩, hs⟩ := hs
  simp only [List.mem_cons, List.mem_singleton, List.not_mem_nil, or_false] at hs
  rcases hs with rfl | rfl <;> rfl

theorem persisted_append (t : Task) (xs ys : List Effect) :
    persisted t (xs ++ ys) = persisted (persisted t xs) ys := by
  simp [persisted, List.foldl_append]

theorem applyWrite_ID (t : Task) (e : Effect) : (applyWrite t e).ID = t.ID := by
  cases e <;> simp only [applyWrite] <;> split_ifs <;> rfl

theorem persisted_ID (t : Task) (xs : List Effect) : (persisted t xs).ID = t.ID := by
  induction xs generalizing t with
  | nil => rfl
  | cons e rest ih =>
    simp only [persisted, List.foldl_cons] at ih ⊢
    rw [ih, applyWrite_ID]

theorem persisted_of_no_write (t : Task) (xs : List Effect)
    (h : ∀ e ∈ xs, e.status? = none) : persisted t xs = t := by
  induction xs generalizing t with
  | nil => rfl
  | cons e rest ih =>
    simp only [persisted, List.foldl_cons] at ih ⊢
    have he := h e (List.mem_cons_self _ _)
    have : applyWrite t e = t := by
      cases e <;> simp [Effect.status?] at he <;> rfl
    rw [this]
    exact ih t (fun x hx => h x (List.mem_cons_of_mem _ hx))

theorem catTask_built :
    (buildCommand false localConfig (probeEnv 10) catTask).err = none
      ∧ (buildCommand false localConfig (probeEnv 10) catTask).totalFrames = 250
      ∧ (buildCommand false localConfig (probeEnv 10) catTask).tempFiles = [] := by
  have h := imageAndAudio_frames
    (GenerateOutputPath localConfig catTask.ID catTask.InputParams.OutputFormat) 10 250 250
    f64_ten_seconds (by norm_num) (by norm_num) (by norm_num) (by norm_num)
  refine ⟨h.1, h.2, ?_⟩
  · show (BuildImageAudioToVideoCommand (probeEnv 10) imageAndAudio _).tempFiles = []
    unfold BuildImageAudioToVideoCommand
    rw [DownloadFile_local _ _ (by decide : isURL imageAndAudio.ImagePath = false)]
    simp only
    rw [DownloadFile_local _ _ (by decide : isURL imageAndAudio.AudioPath = false)]
    simp [probeEnv]

theorem persisted_failTask_last (t : Task) (xs ys : List Effect) (a b c e : String)
    (hys : ∀ y ∈ ys, y.status? = none) :
    (persisted t (xs ++ [Effect.failTask t.ID a b c e] ++ ys)).Status = TaskStatusFailed
      ∧ (persisted t (xs ++ [Effect.failTask t.ID a b c e] ++ ys)).ErrorMessage = e
      ∧ (persisted t (xs ++ [Effect.failTask t.ID a b c e] ++ ys)).FfmpegCommand = a
      ∧ (persisted t (xs ++ [Effect.failTask t.ID a b c e] ++ ys)).StderrLog = c := by
  rw [persisted_append, persisted_of_no_write _ ys hys, persisted_append]
  have hid : t.ID = (List.foldl applyWrite t xs).ID := (persisted_ID t xs).symm
  simp only [persisted, List.foldl_cons, List.foldl_nil, applyWrite, if_pos hid, and_self]

theorem persisted_completeTask_last (t : Task) (xs ys : List Effect) (r : TaskResult)
    (hys : ∀ y ∈ ys, y.status? = none) :
    (persisted t (xs ++ [Effect.completeTask t.ID r] ++ ys)).Status = TaskStatusCompleted
      ∧ (persisted t (xs ++ [Effect.completeTask t.ID r] ++ ys)).OutputUrl = r.OutputURL := by
  rw [persisted_append, persisted_of_no_write _ ys hys, persisted_append]
  have hid : t.ID = (List.foldl applyWrite t xs).ID := (persisted_ID t xs).symm
  simp only [persisted, List.foldl_cons, List.foldl_nil, applyWrite, if_pos hid, and_self]

theorem cleanup_no_write (fs : List String) :
    ∀ y ∈ fs.map Effect.cleanupFile, y.status? = none := by
  intro y hy
  obtain ⟨f, _, rfl⟩ := List.mem_map.mp hy
  rfl

theorem silentEngine_killed (totalFrames : Int) :
    (execRun totalFrames true silentEngine.start silentEngine.events).killed = true := by
  rfl

/-- The trace of a per-task body in which nothing panics, the command is built
and the supervisor reports a failure. -/
theorem body_trace_of_failure (slideshow : Bool) (cfg : WorkerConfig) (env : Env)
    (task : Task) (run : BodyRun) (b : BuildResult) (result : ExecuteResult)
    (reported : List Progress)
    (hb : buildCommand slideshow cfg env task = b) (herr : b.err = none)
    (hx : Execute cfg.binaryPath b.args b.totalFrames true run.engine = (result, reported))
    (hs : result.Success = false) :
    (perTaskBody slideshow cfg env task run none).trace
      = [Effect.executeWithProgress b.args b.totalFrames]
        ++ ((reported.map (callbackSteps slideshow task.ID b.totalFrames)).flatten.map
            Step.effect)
        ++ [Effect.failTask task.ID result.Command result.FilterGraph result.StderrLog
              result.ErrorMessage,
            Effect.broadcastProgress task.ID
              { TaskID := task.ID, Status := TaskStatusFailed,
                Message := result.ErrorMessage }]
        ++ b.tempFiles.map Effect.cleanupFile := by
  rw [perTaskBody, bodyPlan_of_built slideshow cfg env task run b result reported hb herr hx]
  simp [runPlan, deferredCleanup, hs, failureSteps]

/-- Claim C11, checked on the code.  An engine that writes nothing is killed by
the watchdog at the tick after 60 s; `Execute` then reports a failure whose
error text is the empty string (the text extracted from the empty log), and the
per-task body persists the task as failed with the empty string as its error
summary and publishes a `failed` event with an empty message. -/
theorem silent_engine_error_is_empty :
    (execRun 250 true silentEngine.start silentEngine.events).killed = true
      ∧ ∃ args result,
          (bodyPlan false localConfig (probeEnv 10) catTask { engine := silentEngine }).result
              = some result
            ∧ result.Success = false ∧ result.ErrorMessage = "" ∧ result.StderrLog = ""
            ∧ (processImageAudioToVideo localConfig (probeEnv 10) catTask
                { engine := silentEngine } none).trace
              = [Effect.executeWithProgress args 250,
                 Effect.failTask "t1" result.Command result.FilterGraph "" "",
                 Effect.broadcastProgress "t1"
                   { TaskID := "t1", Status := TaskStatusFailed, Message := "" }]
            ∧ (persisted catTask (processImageAudioToVideo localConfig (probeEnv 10) catTask
                { engine := silentEngine } none).trace).Status = TaskStatusFailed
            ∧ (persisted catTask (processImageAudioToVideo localConfig (probeEnv 10) catTask
                { engine := silentEngine } none).trace).ErrorMessage = "" := by
  obtain ⟨hb, htf, htmp⟩ := catTask_built
  have hticks : ∀ e ∈ silentEngine.events, ∃ now, e = ExecEvent.tick now := by
    intro e he
    simp only [silentEngine, List.mem_cons, List.mem_singleton, List.not_mem_nil,
      or_false] at he
    rcases he with rfl | rfl | rfl | rfl | rfl | rfl | rfl <;> exact ⟨_, rfl⟩
  obtain ⟨x1, x2, x3, hlog⟩ := Execute_silent_kill localConfig.binaryPath
    (buildCommand false localConfig (probeEnv 10) catTask).args
    (buildCommand false localConfig (probeEnv 10) catTask).totalFrames true silentEngine rfl
    hticks rfl (silentEngine_killed _)
  have hplan := bodyPlan_of_built false localConfig (probeEnv 10) catTask
    { engine := silentEngine } _ _ _ rfl hb (Prod.mk.eta).symm
  have htrace := body_trace_of_failure false localConfig (probeEnv 10) catTask
    { engine := silentEngine } _ _ _ rfl hb (Prod.mk.eta).symm x1
  rw [x3, x2, hlog, htmp, htf] at htrace
  simp only [List.map_nil, List.flatten_nil, List.append_nil, List.nil_append,
    List.singleton_append] at htrace
  refine ⟨silentEngine_killed 250, _, _, ?_, x1, x2, hlog, htrace, ?_⟩
  · rw [hplan]
  · have hnw : ∀ y ∈ [Effect.broadcastProgress "t1"
        { TaskID := "t1", Status := TaskStatusFailed, Message := "" }], y.status? = none := by
      intro y hy
      rw [List.mem_singleton] at hy
      subst hy
      rfl
    have htrace2 : (processImageAudioToVideo localConfig (probeEnv 10) catTask
        { engine := silentEngine } none).trace = _ := htrace
    rw [htrace2]
    exact ⟨(persisted_failTask_last catTask [Effect.executeWithProgress _ 250] _ _ _ "" ""
        hnw).1,
      (persisted_failTask_last catTask [Effect.executeWithProgress _ 250] _ _ _ "" ""
        hnw).2.1⟩

/-- The trace of a per-task body in which nothing panics, the command is built
and the supervisor reports success. -/
theorem body_trace_of_success (slideshow : Bool) (cfg : WorkerConfig) (env : Env)
    (task : Task) (run : BodyRun) (b : BuildResult) (result : ExecuteResult)
    (reported : List Progress)
    (hb : buildCommand slideshow cfg env task = b) (herr : b.err = none)
    (hx : Execute cfg.binaryPath b.args b.totalFrames true run.engine = (result, reported))
    (hs : result.Success = true) :
    (perTaskBody slideshow cfg env task run none).trace
      = [Effect.executeWithProgress b.args b.totalFrames]
        ++ ((reported.map (callbackSteps slideshow task.ID b.totalFrames)).flatten.map
            Step.effect)
        ++ ((successSteps slideshow cfg task
              (GenerateOutputPath cfg task.ID task.InputParams.OutputFormat)
              b.totalFrames result run.upload).map Step.effect)
        ++ b.tempFiles.map Effect.cleanupFile := by
  rw [perTaskBody, bodyPlan_of_built slideshow cfg env task run b result reported hb herr hx]
  simp [runPlan, deferredCleanup, hs]

theorem successSteps_effects (slideshow : Bool) (cfg : WorkerConfig) (task : Task)
    (outputPath : String) (totalFrames : Int) (result : ExecuteResult)
    (upload : Except String String) :
    ∃ storage outputURL,
      (successSteps slideshow cfg task outputPath totalFrames result upload).map Step.effect
        = [Effect.broadcastProgress task.ID
             { TaskID := task.ID, Status := TaskStatusProcessing, Progress := 100,
               CurrentFrame := totalFrames, TotalFrames := totalFrames, ETA := 0,
               Message := "Processing completed, finalizing..." },
           Effect.updateTaskProgress task.ID
             { TaskID := task.ID, Status := TaskStatusProcessing, Progress := 100,
               CurrentFrame := totalFrames, TotalFrames := totalFrames, ETA := 0 }]
          ++ storage
          ++ [Effect.completeTask task.ID
                { FFmpegCommand := result.Command, FilterGraph := result.FilterGraph,
                  StderrLog := result.StderrLog, OutputFile := outputPath,
                  OutputURL := outputURL, TotalFrames := totalFrames },
              Effect.broadcastProgress task.ID
                { TaskID := task.ID, Status := TaskStatusCompleted, Progress := 100,
                  CurrentFrame := totalFrames, TotalFrames := totalFrames,
                  Message := if slideshow then "Slideshow video completed successfully"
                    else "Task completed successfully" }]
      ∧ (∀ e ∈ storage, e.published? = none ∧ e.status? = none) := by
  unfold successSteps
  by_cases hc : (decide (cfg.storageType = "qiniu") && cfg.qiniuEnabled) = true
  · cases upload with
    | ok url =>
      refine ⟨[.uploadFile outputPath
          ("outputs/" ++ GenerateOutputName task.ID task.InputParams.OutputFormat),
        .deleteLocalFile outputPath], url, ?_, ?_⟩
      · simp [hc]
      · intro e he
        simp only [List.mem_cons, List.mem_singleton, List.not_mem_nil, or_false] at he
        rcases he with rfl | rfl <;> exact ⟨rfl, rfl⟩
    | error err =>
      refine ⟨[.uploadFile outputPath
          ("outputs/" ++ GenerateOutputName task.ID task.InputParams.OutputFormat)],
        "/api/outputs/" ++ GenerateOutputName task.ID task.InputParams.OutputFormat, ?_, ?_⟩
      · simp [hc]
      · intro e he
        simp only [List.mem_singleton] at he
        subst he
        exact ⟨rfl, rfl⟩
  · refine ⟨[], "/api/outputs/" ++ GenerateOutputName task.ID task.InputParams.OutputFormat,
      ?_, ?_⟩
    · simp [hc]
    · simp

theorem mem_take_effects_of_mem (plan : BodyPlan) (k : Nat) (e : Effect)
    (h : e ∈ (plan.main.take k).map Step.effect) : e ∈ plan.main.map Step.effect := by
  obtain ⟨s, hs, rfl⟩ := List.mem_map.mp h
  exact List.mem_map.mpr ⟨s, List.mem_of_mem_take hs, rfl⟩

/-- Every effect of a run, with or without a panic, is an effect of the body
itself, a deferred cleanup, or a call of the `recover` handler. -/
theorem runPlan_trace_mem (taskID : String) (plan : BodyPlan) (fault : Option Fault)
    (e : Effect) (h : e ∈ (runPlan taskID plan fault).trace) :
    e ∈ plan.main.map Step.effect ∨ e ∈ deferredCleanup plan
      ∨ ∃ text, e ∈ recoverEffects taskID text := by
  cases fault with
  | none =>
    simp only [runPlan, List.mem_append] at h
    rcases h with h | h
    · exact Or.inl h
    · exact Or.inr (Or.inl h)
  | some f =>
    obtain ⟨site, text⟩ := f
    cases site with
    | inBuild =>
      simp only [runPlan] at h
      exact Or.inr (Or.inr ⟨text, h⟩)
    | atStep k =>
      simp only [runPlan] at h
      cases hk : plan.main.get? k with
      | none =>
        rw [hk] at h
        simp only [List.mem_append] at h
        rcases h with h | h
        · exact Or.inl h
        · exact Or.inr (Or.inl h)
      | some s =>
        rw [hk] at h
        simp only at h
        by_cases hr : s.onReader = true
        · simp only [hr, if_true] at h
          exact Or.inl (mem_take_effects_of_mem plan k e h)
        · rw [if_neg hr] at h
          simp only [List.mem_append] at h
          rcases h with (h | h) | h
          · exact Or.inl (mem_take_effects_of_mem plan k e h)
          · exact Or.inr (Or.inl h)
          · exact Or.inr (Or.inr ⟨text, h⟩)

theorem completeTask_mem_main (slideshow : Bool) (cfg : WorkerConfig) (env : Env)
    (task : Task) (run : BodyRun) (t : String) (r : TaskResult)
    (h : Effect.completeTask t r ∈ (bodyPlan slideshow cfg env task run).main.map Step.effect) :
    ∃ result, (bodyPlan slideshow cfg env task run).result = some result
      ∧ result.Success = true := by
  cases hb : (buildCommand slideshow cfg env task).err with
  | some e =>
    rw [bodyPlan_of_build_error slideshow cfg env task run e hb] at h
    simp at h
  | none =>
    have hp := bodyPlan_of_built slideshow cfg env task run _ _ _ rfl hb (Prod.mk.eta).symm
    rw [hp] at h ⊢
    refine ⟨_, rfl, ?_⟩
    by_contra hs
    simp only [hs, List.map_append, List.mem_append, List.map_cons, List.map_nil,
      List.mem_singleton, failureSteps] at h
    rcases h with (h | h) | h
    · simp at h
    · exact (callback_effects_status slideshow task.ID _ _ _ h).2.1 t r rfl
    · simp at h

/-- Claim C16.  For a per-task body of either type: `CompleteTask` is called
only when the supervisor was invoked and its result has `Success = true`,
whatever panics; and when it has (and nothing panics), the calls after the
supervisor has returned are a publish of a `processing` event with progress
100 and `current_frame = totalFrames`, a progress write, the storage calls
(which publish nothing), `CompleteTask`, and last a publish of a `completed`
event with progress 100 and `current_frame = total_frames = totalFrames`,
followed only by the temp-file cleanup. -/
theorem completion_events (slideshow : Bool) (cfg : WorkerConfig) (env : Env) (task : Task)
    (run : BodyRun) :
    (∀ fault t r, Effect.completeTask t r ∈ (perTaskBody slideshow cfg env task run fault).trace →
        ∃ result, (bodyPlan slideshow cfg env task run).result = some result
          ∧ result.Success = true)
      ∧ (∀ result, (bodyPlan slideshow cfg env task run).result = some result →
          result.Success = true →
          ∃ args callbacks storage taskResult,
            (perTaskBody slideshow cfg env task run none).trace
                = [Effect.executeWithProgress args (buildCommand slideshow cfg env task).totalFrames]
                  ++ callbacks
                  ++ [Effect.broadcastProgress task.ID
                        { TaskID := task.ID, Status := TaskStatusProcessing, Progress := 100,
                          CurrentFrame := (buildCommand slideshow cfg env task).totalFrames,
                          TotalFrames := (buildCommand slideshow cfg env task).totalFrames,
                          ETA := 0, Message := "Processing completed, finalizing..." },
                      Effect.updateTaskProgress task.ID
                        { TaskID := task.ID, Status := TaskStatusProcessing, Progress := 100,
                          CurrentFrame := (buildCommand slideshow cfg env task).totalFrames,
                          TotalFrames := (buildCommand slideshow cfg env task).totalFrames,
                          ETA := 0 }]
                  ++ storage
                  ++ [Effect.completeTask task.ID taskResult,
                      Effect.broadcastProgress task.ID
                        { TaskID := task.ID, Status := TaskStatusCompleted, Progress := 100,
                          CurrentFrame := (buildCommand slideshow cfg env task).totalFrames,
                          TotalFrames := (buildCommand slideshow cfg env task).totalFrames,
                          Message := if slideshow then "Slideshow video completed successfully"
                            else "Task completed successfully" }]
                  ++ (buildCommand slideshow cfg env task).tempFiles.map Effect.cleanupFile
              ∧ callbacks = (((Execute cfg.binaryPath (buildCommand slideshow cfg env task).args
                    (buildCommand slideshow cfg env task).totalFrames true run.engine).2.map
                  (callbackSteps slideshow task.ID
                    (buildCommand slideshow cfg env task).totalFrames)).flatten.map Step.effect)
              ∧ (∀ e ∈ storage, e.published? = none ∧ e.status? = none)
              ∧ taskResult.TotalFrames = (buildCommand slideshow cfg env task).totalFrames) := by
  constructor
  · intro fault t r h
    rcases runPlan_trace_mem _ _ _ _ h with h | h | ⟨text, h⟩
    · exact completeTask_mem_main slideshow cfg env task run t r h
    · simp only [deferredCleanup] at h
      split_ifs at h
      · simp at h
      · simp at h
    · simp [recoverEffects] at h
  · intro result hres hs
    cases hb : (buildCommand slideshow cfg env task).err with
    | some e =>
      rw [bodyPlan_of_build_error slideshow cfg env task run e hb] at hres
      simp at hres
    | none =>
      have hp := bodyPlan_of_built slideshow cfg env task run _ _ _ rfl hb (Prod.mk.eta).symm
      rw [hp] at hres
      simp only [Option.some.injEq] at hres
      rw [← hres] at hs
      have ht := body_trace_of_success slideshow cfg env task run _ _ _ rfl hb
        (Prod.mk.eta).symm hs
      obtain ⟨storage, outputURL, hst, hpub⟩ := successSteps_effects slideshow cfg task
        (GenerateOutputPath cfg task.ID task.InputParams.OutputFormat)
        (buildCommand slideshow cfg env task).totalFrames
        (Execute cfg.binaryPath (buildCommand slideshow cfg env task).args
          (buildCommand slideshow cfg env task).totalFrames true run.engine).1 run.upload
      rw [hst] at ht
      refine ⟨(buildCommand slideshow cfg env task).args, _, storage,
        { FFmpegCommand := (Execute cfg.binaryPath (buildCommand slideshow cfg env task).args
            (buildCommand slideshow cfg env task).totalFrames true run.engine).1.Command,
          FilterGraph := (Execute cfg.binaryPath (buildCommand slideshow cfg env task).args
            (buildCommand slideshow cfg env task).totalFrames true run.engine).1.FilterGraph,
          StderrLog := (Execute cfg.binaryPath (buildCommand slideshow cfg env task).args
            (buildCommand slideshow cfg env task).totalFrames true run.engine).1.StderrLog,
          OutputFile := GenerateOutputPath cfg task.ID task.InputParams.OutputFormat,
          OutputURL := outputURL,
          TotalFrames := (buildCommand slideshow cfg env task).totalFrames },
        ?_, rfl, hpub, rfl⟩
      rw [ht]
      simp only [List.append_assoc]

theorem foldl_execStep_lines (totalFrames : Int) (hasCallback : Bool)
    (events : List ExecEvent) (st : ExecState)
    (h : ∀ e ∈ events, ∃ now line, e = .stderrLine now line) :
    (events.foldl (execStep totalFrames hasCallback) st).killed = st.killed := by
  induction events generalizing st with
  | nil => rfl
  | cons e rest ih =>
    obtain ⟨now, line, rfl⟩ := h e (List.mem_cons_self _ _)
    rw [List.foldl_cons, ih _ (fun x hx => h x (List.mem_cons_of_mem _ hx))]
    simp only [execStep]
    exact (stderrStep_flags _ _ _ _ _).1

theorem quickEngine_result (binaryPath : String) (args : List String) (totalFrames : Int) :
    (Execute binaryPath args totalFrames true quickEngine).1.Success = true
      ∧ (Execute binaryPath args totalFrames true quickEngine).2 = [] := by
  obtain ⟨e1, _, _, e4⟩ := Execute_started binaryPath args totalFrames true quickEngine rfl
  have hk : (execRun totalFrames true quickEngine.start quickEngine.events).killed = false :=
    foldl_execStep_lines totalFrames true quickEngine.events _ (by
      intro e he
      simp only [quickEngine, List.mem_singleton] at he
      exact ⟨_, _, he⟩)
  refine ⟨?_, ?_⟩
  · rw [e1, hk]
    rfl
  · rw [e4, execRun_reported]
    have hp : parseProgress second "video:12kB audio:156kB" totalFrames = none :=
      (parseProgress_none_iff _ _ _).mpr (by decide)
    simp only [quickEngine, parsedEvents, hp]

/-- Claim C16 at the scenario of the design document: one image over audio of
10 s at 25 fps gives `totalFrames = 250`; after a successful run the body
publishes the 100 % event, writes the progress, calls `CompleteTask`, and its
final event is `completed` with `current_frame = 250` and progress 100. -/
theorem completion_events_witness :
    ∃ args taskResult,
      (processImageAudioToVideo localConfig (probeEnv 10) catTask { engine := quickEngine }
          none).trace
        = [Effect.executeWithProgress args 250,
           Effect.broadcastProgress "t1"
             { TaskID := "t1", Status := TaskStatusProcessing, Progress := 100,
               CurrentFrame := 250, TotalFrames := 250, ETA := 0,
               Message := "Processing completed, finalizing..." },
           Effect.updateTaskProgress "t1"
             { TaskID := "t1", Status := TaskStatusProcessing, Progress := 100,
               CurrentFrame := 250, TotalFrames := 250, ETA := 0 },
           Effect.completeTask "t1" taskResult,
           Effect.broadcastProgress "t1"
             { TaskID := "t1", Status := TaskStatusCompleted, Progress := 100,
               CurrentFrame := 250, TotalFrames := 250,
               Message := "Task completed successfully" }]
      ∧ taskResult.TotalFrames = 250 := by
  obtain ⟨hb, htf, htmp⟩ := catTask_built
  obtain ⟨q1, q2⟩ := quickEngine_result localConfig.binaryPath
    (buildCommand false localConfig (probeEnv 10) catTask).args
    (buildCommand false localConfig (probeEnv 10) catTask).totalFrames
  have hp := bodyPlan_of_built false localConfig (probeEnv 10) catTask
    { engine := quickEngine } _ _ _ rfl hb (Prod.mk.eta).symm
  obtain ⟨args, callbacks, storage, taskResult, htr, hcb, _, hres⟩ :=
    (completion_events false localConfig (probeEnv 10) catTask { engine := quickEngine }).2 _
      (by rw [hp]) q1
  have hstorage : storage = [] := by
    have h2 := body_trace_of_success false localConfig (probeEnv 10) catTask
      { engine := quickEngine } _ _ _ rfl hb (Prod.mk.eta).symm q1
    rw [h2, q2, hcb, q2, htmp] at htr
    have hlen := congrArg List.length htr
    simp [successSteps, localConfig] at hlen
    exact hlen
  refine ⟨args, taskResult, ?_, ?_⟩
  · show (perTaskBody false localConfig (probeEnv 10) catTask { engine := quickEngine }
      none).trace = _
    rw [htr, hcb, q2, hstorage, htmp, htf]
    rfl
  · rw [hres, htf]

theorem interleave_sublist_left {α : Type} (s : List Bool) (xs ys : List α) :
    List.Sublist xs (interleave s xs ys) := by
  induction s generalizing xs ys with
  | nil =>
    cases xs with
    | nil => exact List.nil_sublist _
    | cons x xs =>
      cases ys with
      | nil => simp [interleave]
      | cons y ys =>
        simp only [interleave]
        exact List.sublist_append_left _ _
  | cons b s ih =>
    cases xs with
    | nil => exact List.nil_sublist _
    | cons x xs =>
      cases ys with
      | nil => simp [interleave]
      | cons y ys =>
        cases b with
        | true =>
          simp only [interleave]
          exact (ih xs (y :: ys)).cons₂ x
        | false =>
          simp only [interleave]
          exact (ih (x :: xs) ys).cons y

theorem interleave_sublist_right {α : Type} (s : List Bool) (xs ys : List α) :
    List.Sublist ys (interleave s xs ys) := by
  induction s generalizing xs ys with
  | nil =>
    cases xs with
    | nil => simp [interleave]
    | cons x xs =>
      cases ys with
      | nil => exact List.nil_sublist _
      | cons y ys =>
        simp only [interleave]
        exact List.sublist_append_right _ _
  | cons b s ih =>
    cases xs with
    | nil => simp [interleave]
    | cons x xs =>
      cases ys with
      | nil => exact List.nil_sublist _
      | cons y ys =>
        cases b with
        | true =>
          simp only [interleave]
          exact (ih xs (y :: ys)).cons x
        | false =>
          simp only [interleave]
          exact (ih (x :: xs) ys).cons₂ y

/-- A panic raised by a call of the body's own goroutine is recovered. -/
theorem fault_on_body_recovered (taskID : String) (plan : BodyPlan) (k : Nat) (text : String)
    (s : Step) (hk : plan.main.get? k = some s) (hr : s.onReader = false) :
    (runPlan taskID plan (some ⟨.atStep k, text⟩)).trace
        = (plan.main.take k).map Step.effect ++ deferredCleanup plan
          ++ recoverEffects taskID text
      ∧ (runPlan taskID plan (some ⟨.atStep k, text⟩)).err = some ("Task panic: " ++ text)
      ∧ (runPlan taskID plan (some ⟨.atStep k, text⟩)).crashed = false := by
  simp only [runPlan, hk, hr]
  simp

/-- A panic raised by a call of the progress callback is not recovered. -/
theorem fault_on_reader_crashes (taskID : String) (plan : BodyPlan) (k : Nat) (text : String)
    (s : Step) (hk : plan.main.get? k = some s) (hr : s.onReader = true) :
    (runPlan taskID plan (some ⟨.atStep k, text⟩)).trace = (plan.main.take k).map Step.effect
      ∧ (runPlan taskID plan (some ⟨.atStep k, text⟩)).err = none
      ∧ (runPlan taskID plan (some ⟨.atStep k, text⟩)).crashed = true := by
  simp only [runPlan, hk, hr]
  simp

theorem ProcessTask_deadline (cfg : WorkerConfig) (env : Env) (taskID : String)
    (getTask : String → Except String Task) (task : Task) (run : BodyRun)
    (fault : Option Fault) (d : Deadline) (hg : getTask taskID = .ok task)
    (hlt : d.after < (dispatchBody cfg env task run fault).trace.length) :
    (ProcessTask cfg env (.ok taskID) getTask run fault (some d)).trace
        = [Effect.updateTaskProgress taskID
              { TaskID := taskID, Status := TaskStatusProcessing },
            Effect.broadcastProgress taskID
              { TaskID := taskID, Status := TaskStatusProcessing, Progress := 0,
                Message := "Task started processing" }]
          ++ (dispatchBody cfg env task run fault).trace.take d.after
          ++ interleave d.schedule (timeoutEffects taskID)
              ((dispatchBody cfg env task run fault).trace.drop d.after)
      ∧ (ProcessTask cfg env (.ok taskID) getTask run fault (some d)).err
        = some timeoutMessage := by
  simp only [ProcessTask, hg, hlt, if_true, and_self]

/-- Claim C17, amended.  For a per-task body of either type and for
`ProcessTask`: (1) when the command cannot be built, `FailTask` is called with
empty command, filter graph and log and the text "Failed to build ffmpeg
command: ..." , then a `failed` event with that text is published, and the
supervisor is never invoked; (2) when the supervisor reports a failure,
`FailTask` is called with the command, filter graph, log and error text of its
result, then a `failed` event with that error text is published; (3) when a
panic is recovered, `FailTask` is called with empty command, filter graph and
log and the text "Task panic: ..." , then a `failed` event with that text is
published; (4) when the deadline fires, `FailTask` is called with empty
command, filter graph and log and the timeout text, and a `failed` event with
that text is published after it. -/
theorem fail_paths (slideshow : Bool) (cfg : WorkerConfig) (env : Env) (task : Task)
    (run : BodyRun) :
    (∀ e, (buildCommand slideshow cfg env task).err = some e →
        (perTaskBody slideshow cfg env task run none).trace
            = (buildCommand slideshow cfg env task).cleaned.map Effect.cleanupFile
              ++ [Effect.failTask task.ID "" "" "" ("Failed to build ffmpeg command: " ++ e),
                  Effect.broadcastProgress task.ID
                    { TaskID := task.ID, Status := TaskStatusFailed,
                      Message := "Failed to build ffmpeg command: " ++ e }]
          ∧ ∀ fault a t, Effect.executeWithProgress a t
              ∉ (perTaskBody slideshow cfg env task run fault).trace)
      ∧ (∀ result, (bodyPlan slideshow cfg env task run).result = some result →
          result.Success = false →
          ∃ before,
            (perTaskBody slideshow cfg env task run none).trace
              = before
                ++ [Effect.failTask task.ID result.Command result.FilterGraph result.StderrLog
                      result.ErrorMessage,
                    Effect.broadcastProgress task.ID
                      { TaskID := task.ID, Status := TaskStatusFailed,
                        Message := result.ErrorMessage }]
                ++ (buildCommand slideshow cfg env task).tempFiles.map Effect.cleanupFile)
      ∧ (∀ text, (perTaskBody slideshow cfg env task run (some ⟨.inBuild, text⟩)).trace
            = [Effect.failTask task.ID "" "" "" ("Task panic: " ++ text),
               Effect.broadcastProgress task.ID
                 { TaskID := task.ID, Status := TaskStatusFailed,
                   Message := "Task panic: " ++ text }])
      ∧ (∀ k text s, (bodyPlan slideshow cfg env task run).main.get? k = some s →
          s.onReader = false →
          ∃ before,
            (perTaskBody slideshow cfg env task run (some ⟨.atStep k, text⟩)).trace
              = before
                ++ [Effect.failTask task.ID "" "" "" ("Task panic: " ++ text),
                    Effect.broadcastProgress task.ID
                      { TaskID := task.ID, Status := TaskStatusFailed,
                        Message := "Task panic: " ++ text }])
      ∧ (∀ taskID getTask fault d, getTask taskID = .ok task →
          d.after < (dispatchBody cfg env task run fault).trace.length →
          List.Sublist
            [Effect.failTask taskID "" "" "" timeoutMessage,
             Effect.broadcastProgress taskID
               { TaskID := taskID, Status := TaskStatusFailed, Message := timeoutMessage }]
            (ProcessTask cfg env (.ok taskID) getTask run fault (some d)).trace) := by
  refine ⟨?_, ?_, ?_, ?_, ?_⟩
  · intro e he
    have hp := bodyPlan_of_build_error slideshow cfg env task run e he
    constructor
    · rw [perTaskBody, hp]
      simp [runPlan, deferredCleanup]
    · intro fault a t hmem
      rcases runPlan_trace_mem _ _ _ _ hmem with h | h | ⟨text, h⟩
      · rw [hp] at h
        simp at h
      · rw [hp] at h
        simp [deferredCleanup] at h
      · simp [recoverEffects] at h
  · intro result hres hs
    cases hb : (buildCommand slideshow cfg env task).err with
    | some e =>
      rw [bodyPlan_of_build_error slideshow cfg env task run e hb] at hres
      simp at hres
    | none =>
      have hp := bodyPlan_of_built slideshow cfg env task run _ _ _ rfl hb (Prod.mk.eta).symm
      rw [hp] at hres
      simp only [Option.some.injEq] at hres
      rw [← hres] at hs
      have ht := body_trace_of_failure slideshow cfg env task run _ _ _ rfl hb
        (Prod.mk.eta).symm hs
      rw [hres] at ht
      exact ⟨_, ht⟩
  · intro text
    rfl
  · intro k text s hk hr
    obtain ⟨h1, _, _⟩ := fault_on_body_recovered task.ID _ k text s hk hr
    refine ⟨List.map Step.effect (List.take k (bodyPlan slideshow cfg env task run).main)
      ++ deferredCleanup (bodyPlan slideshow cfg env task run), ?_⟩
    rw [perTaskBody, h1]
    rfl
  · intro taskID getTask fault d hg hlt
    rw [(ProcessTask_deadline cfg env taskID getTask task run fault d hg hlt).1]
    exact List.Sublist.trans (interleave_sublist_left d.schedule _ _)
      (List.sublist_append_right _ _)

theorem stderrStep_stderrLog (totalFrames : Int) (hasCallback : Bool) (st : ExecState)
    (now : Int) (line : String) :
    (stderrStep totalFrames hasCallback st now line).stderrLog
      = st.stderrLog ++ line ++ "\n" := by
  simp only [stderrStep]
  cases parseProgress now line totalFrames with
  | none => rfl
  | some p => simp only; split_ifs <;> rfl

/-- A run of `Execute` in which exactly one line arrives on stderr. -/
theorem Execute_one_line (binaryPath : String) (args : List String) (totalFrames : Int)
    (run : EngineRun) (now : Int) (line : String) (hs : run.startFailure = none)
    (hev : run.events = [.stderrLine now line]) (hout : run.stdoutLog = "") :
    (Execute binaryPath args totalFrames true run).1.Success = !run.exitFailed
      ∧ (Execute binaryPath args totalFrames true run).1.StderrLog = "" ++ line ++ "\n"
      ∧ (Execute binaryPath args totalFrames true run).1.ErrorMessage
          = (if run.exitFailed = true then extractError ("" ++ line ++ "\n") else "")
      ∧ (Execute binaryPath args totalFrames true run).2
          = parsedEvents totalFrames [.stderrLine now line] := by
  obtain ⟨e1, e2, e3, e4⟩ := Execute_started binaryPath args totalFrames true run hs
  have hk : (execRun totalFrames true run.start run.events).killed = false :=
    foldl_execStep_lines totalFrames true run.events _ (by
      intro e he
      rw [hev, List.mem_singleton] at he
      exact ⟨_, _, he⟩)
  have hlog : (execRun totalFrames true run.start run.events).stderrLog
      = "" ++ line ++ "\n" := by
    rw [hev]
    exact stderrStep_stderrLog totalFrames true (ExecState.init run.start) now line
  have hcap : capturedLog ("" ++ line ++ "\n") "" = "" ++ line ++ "\n" := by
    simp [capturedLog]
  refine ⟨?_, ?_, ?_, ?_⟩
  · rw [e1, hk]
    rfl
  · rw [e2, hlog, hout, hcap]
  · rw [e3, hk, hlog, hout, hcap]
    rfl
  · rw [e4, execRun_reported, hev]

theorem dispatchBody_catTask (cfg : WorkerConfig) (env : Env) (run : BodyRun)
    (fault : Option Fault) :
    dispatchBody cfg env catTask run fault = perTaskBody false cfg env catTask run fault := by
  rfl

theorem catStore_t1 : catStore "t1" = .ok catTask := by
  rfl

theorem Execute_FilterGraph (binaryPath : String) (args : List String) (totalFrames : Int)
    (hasCallback : Bool) (run : EngineRun) :
    (Execute binaryPath args totalFrames hasCallback run).1.FilterGraph
      = extractFilterGraph args := by
  unfold Execute
  cases h : run.startFailure with
  | none => rfl
  | some f => cases f <;> rfl

theorem parsedEvents_quiet (totalFrames now : Int) :
    parsedEvents totalFrames [.stderrLine now "video:12kB audio:156kB"] = [] := by
  have hp : parseProgress now "video:12kB audio:156kB" totalFrames = none :=
    (parseProgress_none_iff _ _ _).mpr (by decide)
  simp only [parsedEvents, hp]

theorem command_ne_empty (binaryPath : String) (args : List String) (totalFrames : Int)
    (hasCallback : Bool) (run : EngineRun) (h : binaryPath ≠ "") :
    (Execute binaryPath args totalFrames hasCallback run).1.Command ≠ "" := by
  rw [Execute_Command]
  intro hc
  have hl := congrArg String.length hc
  simp only [String.length_append] at hl
  have h0 : binaryPath.length = 0 := by
    have : ("" : String).length = 0 := rfl
    omega
  cases binaryPath with
  | mk l =>
    have hl0 : l.length = 0 := h0
    rw [List.length_eq_zero] at hl0
    subst hl0
    exact h rfl

/-- The calls of the body for `catTask` when the engine ends well without a
status line and outputs are stored locally. -/
theorem quiet_success_main (engine : EngineRun) (now : Int)
    (hs : engine.startFailure = none)
    (hev : engine.events = [.stderrLine now "video:12kB audio:156kB"])
    (hout : engine.stdoutLog = "") (hx : engine.exitFailed = false) :
    (bodyPlan false localConfig (probeEnv 10) catTask { engine := engine }).main
      = [ { effect := .executeWithProgress
              (buildCommand false localConfig (probeEnv 10) catTask).args 250 },
          { effect := .broadcastProgress "t1"
              { TaskID := "t1", Status := TaskStatusProcessing, Progress := 100,
                CurrentFrame := 250, TotalFrames := 250, ETA := 0,
                Message := "Processing completed, finalizing..." } },
          { effect := .updateTaskProgress "t1"
              { TaskID := "t1", Status := TaskStatusProcessing, Progress := 100,
                CurrentFrame := 250, TotalFrames := 250, ETA := 0 } },
          { effect := .completeTask "t1"
              { FFmpegCommand := "ffmpeg" ++ " "
                  ++ joinArgs (buildCommand false localConfig (probeEnv 10) catTask).args,
                FilterGraph :=
                  extractFilterGraph (buildCommand false localConfig (probeEnv 10) catTask).args,
                StderrLog := "video:12kB audio:156kB\n",
                OutputFile := "storage/outputs/t1.mp4",
                OutputURL := "/api/outputs/t1.mp4",
                TotalFrames := 250 } },
          { effect := .broadcastProgress "t1"
              { TaskID := "t1", Status := TaskStatusCompleted, Progress := 100,
                CurrentFrame := 250, TotalFrames := 250,
                Message := "Task completed successfully" } } ] := by
  obtain ⟨hb, htf, htmp⟩ := catTask_built
  obtain ⟨q1, q2, q3, q4⟩ := Execute_one_line localConfig.binaryPath
    (buildCommand false localConfig (probeEnv 10) catTask).args 250
    engine now "video:12kB audio:156kB" hs hev hout
  have hp := bodyPlan_of_built false localConfig (probeEnv 10) catTask
    { engine := engine } _ _ _ rfl hb (Prod.mk.eta).symm
  rw [hp]
  simp only [htf]
  generalize (buildCommand false localConfig (probeEnv 10) catTask).args = args at q1 q2 q4 ⊢
  simp only [q1, q2, q4, hx, parsedEvents_quiet, Execute_Command, Execute_FilterGraph,
    Bool.not_false, if_true, List.map_nil, List.flatten_nil, List.append_nil, successSteps]
  rfl

theorem catTask_built_cloud :
    (buildCommand false cloudConfig (probeEnv 10) catTask).err = none
      ∧ (buildCommand false cloudConfig (probeEnv 10) catTask).totalFrames = 250
      ∧ (buildCommand false cloudConfig (probeEnv 10) catTask).tempFiles = [] :=
  catTask_built

theorem catTask_cleanup (run : BodyRun) :
    deferredCleanup (bodyPlan false localConfig (probeEnv 10) catTask run) = [] := by
  obtain ⟨hb, _, htmp⟩ := catTask_built
  rw [bodyPlan_of_built false localConfig (probeEnv 10) catTask run _ _ _ rfl hb
    (Prod.mk.eta).symm]
  simp [deferredCleanup, htmp]

theorem catTask_cleanup_cloud (run : BodyRun) :
    deferredCleanup (bodyPlan false cloudConfig (probeEnv 10) catTask run) = [] := by
  obtain ⟨hb, _, htmp⟩ := catTask_built_cloud
  rw [bodyPlan_of_built false cloudConfig (probeEnv 10) catTask run _ _ _ rfl hb
    (Prod.mk.eta).symm]
  simp [deferredCleanup, htmp]

theorem parsedEvents_statusLine100 (totalFrames now : Int) :
    parsedEvents totalFrames [.stderrLine now statusLine100]
      = [withEstimates (parseFields now statusLine100.toList) totalFrames] := by
  simp only [parsedEvents, statusLine100_parse]

/-- The calls of the body for `catTask` when the engine writes one status line
and outputs are stored locally. -/
theorem one_status_line_main (engine : EngineRun) (now : Int)
    (hs : engine.startFailure = none)
    (hev : engine.events = [.stderrLine now statusLine100])
    (hout : engine.stdoutLog = "") :
    (bodyPlan false localConfig (probeEnv 10) catTask { engine := engine }).main
      = [ ({ effect := .executeWithProgress
              (buildCommand false localConfig (probeEnv 10) catTask).args 250 } : Step) ]
        ++ callbackSteps false "t1" 250
            (withEstimates (parseFields now statusLine100.toList) 250)
        ++ (if engine.exitFailed = true then
              failureSteps catTask
                (Execute "ffmpeg" (buildCommand false localConfig (probeEnv 10) catTask).args
                  250 true engine).1
            else
              successSteps false localConfig catTask "storage/outputs/t1.mp4" 250
                (Execute "ffmpeg" (buildCommand false localConfig (probeEnv 10) catTask).args
                  250 true engine).1 (.error "upload not configured")) := by
  obtain ⟨hb, htf, htmp⟩ := catTask_built
  obtain ⟨q1, q2, q3, q4⟩ := Execute_one_line localConfig.binaryPath
    (buildCommand false localConfig (probeEnv 10) catTask).args 250
    engine now statusLine100 hs hev hout
  have hp := bodyPlan_of_built false localConfig (probeEnv 10) catTask
    { engine := engine } _ _ _ rfl hb (Prod.mk.eta).symm
  rw [hp]
  simp only [htf]
  generalize (buildCommand false localConfig (probeEnv 10) catTask).args = args at q1 q2 q4 ⊢
  simp only [q1, q4, parsedEvents_statusLine100, List.map_cons, List.map_nil,
    List.flatten_cons, List.flatten_nil, List.append_nil]
  cases engine.exitFailed <;> rfl

/-- The calls of the body for `catTask` when the engine ends well without a
status line and the output is uploaded to the cloud. -/
theorem quiet_cloud_main (engine : EngineRun) (now : Int) (url : String)
    (hs : engine.startFailure = none)
    (hev : engine.events = [.stderrLine now "video:12kB audio:156kB"])
    (hout : engine.stdoutLog = "") (hx : engine.exitFailed = false) :
    (bodyPlan false cloudConfig (probeEnv 10) catTask
        { engine := engine, upload := .ok url }).main
      = [ { effect := .executeWithProgress
              (buildCommand false cloudConfig (probeEnv 10) catTask).args 250 },
          { effect := .broadcastProgress "t1"
              { TaskID := "t1", Status := TaskStatusProcessing, Progress := 100,
                CurrentFrame := 250, TotalFrames := 250, ETA := 0,
                Message := "Processing completed, finalizing..." } },
          { effect := .updateTaskProgress "t1"
              { TaskID := "t1", Status := TaskStatusProcessing, Progress := 100,
                CurrentFrame := 250, TotalFrames := 250, ETA := 0 } },
          { effect := .uploadFile "storage/outputs/t1.mp4" "outputs/t1.mp4" },
          { effect := .deleteLocalFile "storage/outputs/t1.mp4" },
          { effect := .completeTask "t1"
              { FFmpegCommand := "ffmpeg" ++ " "
                  ++ joinArgs (buildCommand false cloudConfig (probeEnv 10) catTask).args,
                FilterGraph :=
                  extractFilterGraph (buildCommand false cloudConfig (probeEnv 10) catTask).args,
                StderrLog := "video:12kB audio:156kB\n",
                OutputFile := "storage/outputs/t1.mp4",
                OutputURL := url,
                TotalFrames := 250 } },
          { effect := .broadcastProgress "t1"
              { TaskID := "t1", Status := TaskStatusCompleted, Progress := 100,
                CurrentFrame := 250, TotalFrames := 250,
                Message := "Task completed successfully" } } ] := by
  obtain ⟨hb, htf, htmp⟩ := catTask_built_cloud
  obtain ⟨q1, q2, q3, q4⟩ := Execute_one_line cloudConfig.binaryPath
    (buildCommand false cloudConfig (probeEnv 10) catTask).args 250
    engine now "video:12kB audio:156kB" hs hev hout
  have hp := bodyPlan_of_built false cloudConfig (probeEnv 10) catTask
    { engine := engine, upload := .ok url } _ _ _ rfl hb (Prod.mk.eta).symm
  rw [hp]
  simp only [htf]
  generalize (buildCommand false cloudConfig (probeEnv 10) catTask).args = args at q1 q2 q4 ⊢
  simp only [q1, q2, q4, hx, parsedEvents_quiet, Execute_Command, Execute_FilterGraph,
    Bool.not_false, if_true, List.map_nil, List.flatten_nil, List.append_nil, successSteps]
  rfl

/-- Claim C17 fails as stated for a recovered fault.  The supervisor has
returned a result with a non-empty command and log; `CompleteTask` then
panics; the `recover` handler calls `FailTask` with the empty string for the
command, the filter graph and the log. -/
theorem recover_drops_artifacts :
    ∃ result args,
      (bodyPlan false localConfig (probeEnv 10) catTask { engine := quickEngine }).result
          = some result
        ∧ result.Command ≠ "" ∧ result.StderrLog = "video:12kB audio:156kB\n"
        ∧ (processImageAudioToVideo localConfig (probeEnv 10) catTask { engine := quickEngine }
            (some ⟨.atStep 3, "invalid memory address"⟩)).trace
          = [Effect.executeWithProgress args 250,
             Effect.broadcastProgress "t1"
               { TaskID := "t1", Status := TaskStatusProcessing, Progress := 100,
                 CurrentFrame := 250, TotalFrames := 250, ETA := 0,
                 Message := "Processing completed, finalizing..." },
             Effect.updateTaskProgress "t1"
               { TaskID := "t1", Status := TaskStatusProcessing, Progress := 100,
                 CurrentFrame := 250, TotalFrames := 250, ETA := 0 },
             Effect.failTask "t1" "" "" "" "Task panic: invalid memory address",
             Effect.broadcastProgress "t1"
               { TaskID := "t1", Status := TaskStatusFailed,
                 Message := "Task panic: invalid memory address" }] := by
  obtain ⟨hb, htf, htmp⟩ := catTask_built
  have hp := bodyPlan_of_built false localConfig (probeEnv 10) catTask
    { engine := quickEngine } _ _ _ rfl hb (Prod.mk.eta).symm
  have hm := quiet_success_main quickEngine second rfl rfl rfl rfl
  obtain ⟨_, q2, _, _⟩ := Execute_one_line localConfig.binaryPath
    (buildCommand false localConfig (probeEnv 10) catTask).args
    (buildCommand false localConfig (probeEnv 10) catTask).totalFrames
    quickEngine second "video:12kB audio:156kB" rfl rfl rfl
  have hk : ∃ s, (bodyPlan false localConfig (probeEnv 10) catTask
      { engine := quickEngine }).main.get? 3 = some s ∧ s.onReader = false := by
    rw [hm]
    exact ⟨_, rfl, rfl⟩
  obtain ⟨s, hk, hr⟩ := hk
  obtain ⟨ht, _, _⟩ := fault_on_body_recovered "t1" _ 3 "invalid memory address" s hk hr
  refine ⟨(Execute localConfig.binaryPath
      (buildCommand false localConfig (probeEnv 10) catTask).args
      (buildCommand false localConfig (probeEnv 10) catTask).totalFrames true quickEngine).1,
    (buildCommand false localConfig (probeEnv 10) catTask).args, ?_, ?_, ?_, ?_⟩
  · rw [hp]
  · exact command_ne_empty _ _ _ _ _ (by decide)
  · exact q2
  · show (runPlan "t1" _ _).trace = _
    rw [ht, catTask_cleanup, hm]
    rfl

set_option maxRecDepth 100000 in
theorem extractError_statusLine100 :
    extractError ("" ++ statusLine100 ++ "\n") = statusLine100 ++ "\n" := by
  decide

/-- The calls of the body for `catTask` under `cancelledEngine`: the callback
handles the one status line, then the supervisor reports the failure of the
killed process and the body fails the task with the text extracted from the
log. -/
theorem cancelled_body_trace :
    (perTaskBody false localConfig (probeEnv 10) catTask { engine := cancelledEngine }
        none).trace
      = [Effect.executeWithProgress (buildCommand false localConfig (probeEnv 10) catTask).args
            250]
        ++ (callbackSteps false "t1" 250
              (withEstimates (parseFields (1800 * second) statusLine100.toList) 250)).map
            Step.effect
        ++ [Effect.failTask "t1"
              ("ffmpeg" ++ " "
                ++ joinArgs (buildCommand false localConfig (probeEnv 10) catTask).args)
              (extractFilterGraph (buildCommand false localConfig (probeEnv 10) catTask).args)
              (statusLine100 ++ "\n") (statusLine100 ++ "\n"),
            Effect.broadcastProgress "t1"
              { TaskID := "t1", Status := TaskStatusFailed,
                Message := statusLine100 ++ "\n" }] := by
  have hm := one_status_line_main cancelledEngine (1800 * second) rfl rfl rfl
  obtain ⟨_, q2, q3, _⟩ := Execute_one_line "ffmpeg"
    (buildCommand false localConfig (probeEnv 10) catTask).args 250
    cancelledEngine (1800 * second) statusLine100 rfl rfl rfl
  have hx : cancelledEngine.exitFailed = true := rfl
  rw [hx, if_pos rfl, extractError_statusLine100] at q3
  have q2b : (Execute "ffmpeg" (buildCommand false localConfig (probeEnv 10) catTask).args 250
      true cancelledEngine).1.StderrLog = statusLine100 ++ "\n" := q2
  show (runPlan "t1" _ none).trace = _
  simp only [runPlan]
  rw [catTask_cleanup, hm, hx, if_pos rfl]
  simp only [failureSteps, Execute_Command, Execute_FilterGraph, q2b, q3]
  rfl

/-- Claim C17, amended, at four concrete runs: a slideshow whose second image
cannot be fetched (build failure), an engine killed by the watchdog
(supervisor failure), a panic of `CompleteTask` (recovered fault), and a
deadline that fires after the first call of the body. -/
theorem fail_paths_witness :
    (∃ e, (processImageSlideshow localConfig flakyEnv brokenTask {} none).trace
        = [Effect.cleanupFile "/tmp/dl/ok.example/a.jpg",
           Effect.failTask "t2" "" "" "" ("Failed to build ffmpeg command: " ++ e),
           Effect.broadcastProgress "t2"
             { TaskID := "t2", Status := TaskStatusFailed,
               Message := "Failed to build ffmpeg command: " ++ e }])
      ∧ (∃ result before,
          (bodyPlan false localConfig (probeEnv 10) catTask { engine := silentEngine }).result
              = some result
            ∧ result.Success = false
            ∧ (processImageAudioToVideo localConfig (probeEnv 10) catTask
                { engine := silentEngine } none).trace
              = before
                ++ [Effect.failTask "t1" result.Command result.FilterGraph result.StderrLog
                      result.ErrorMessage,
                    Effect.broadcastProgress "t1"
                      { TaskID := "t1", Status := TaskStatusFailed,
                        Message := result.ErrorMessage }])
      ∧ (∃ before,
          (processImageAudioToVideo localConfig (probeEnv 10) catTask { engine := quickEngine }
              (some ⟨.atStep 3, "invalid memory address"⟩)).trace
            = before
              ++ [Effect.failTask "t1" "" "" "" "Task panic: invalid memory address",
                  Effect.broadcastProgress "t1"
                    { TaskID := "t1", Status := TaskStatusFailed,
                      Message := "Task panic: invalid memory address" }])
      ∧ List.Sublist
          [Effect.failTask "t1" "" "" "" "Task timeout: exceeded 30 minutes",
           Effect.broadcastProgress "t1"
             { TaskID := "t1", Status := TaskStatusFailed,
               Message := "Task timeout: exceeded 30 minutes" }]
          (ProcessTask localConfig (probeEnv 10) (.ok "t1") catStore
            { engine := cancelledEngine } none
            (some { after := 1, schedule := [true, true] })).trace := by
  refine ⟨?_, ?_, ?_, ?_⟩
  · have hne : (buildCommand true localConfig flakyEnv brokenTask).err ≠ none :=
      slideshow_fails_of_unresolved flakyEnv brokenSlideshow
        (GenerateOutputPath localConfig brokenTask.ID brokenTask.InputParams.OutputFormat)
        (Or.inl ⟨"http://down.example/b.jpg", by decide, "http status 503", by rfl⟩)
    obtain ⟨e, he⟩ := Option.ne_none_iff_exists'.mp hne
    have hc : (buildCommand true localConfig flakyEnv brokenTask).cleaned
        = ["/tmp/dl/ok.example/a.jpg"] := by
      have h4 := (slideshow_failure flakyEnv brokenSlideshow
        (GenerateOutputPath localConfig brokenTask.ID brokenTask.InputParams.OutputFormat)
        (by decide) hne).2.2.2
      have h5 : (buildCommand true localConfig flakyEnv brokenTask).cleaned
          = materialized (resolvedPrefix flakyEnv (slideshowRefs brokenSlideshow)) := h4
      rw [h5]
      decide
    have h := ((fail_paths true localConfig flakyEnv brokenTask {}).1 e he).1
    rw [hc] at h
    exact ⟨e, h⟩
  · obtain ⟨hb, _, htmp⟩ := catTask_built
    have hticks : ∀ e ∈ silentEngine.events, ∃ now, e = ExecEvent.tick now := by
      intro e he
      simp only [silentEngine, List.mem_cons, List.mem_singleton, List.not_mem_nil,
        or_false] at he
      rcases he with rfl | rfl | rfl | rfl | rfl | rfl | rfl <;> exact ⟨_, rfl⟩
    obtain ⟨x1, _, _, _⟩ := Execute_silent_kill localConfig.binaryPath
      (buildCommand false localConfig (probeEnv 10) catTask).args
      (buildCommand false localConfig (probeEnv 10) catTask).totalFrames true silentEngine rfl
      hticks rfl (silentEngine_killed _)
    have hp := bodyPlan_of_built false localConfig (probeEnv 10) catTask
      { engine := silentEngine } _ _ _ rfl hb (Prod.mk.eta).symm
    have hres : (bodyPlan false localConfig (probeEnv 10) catTask
        { engine := silentEngine }).result
        = some (Execute localConfig.binaryPath
            (buildCommand false localConfig (probeEnv 10) catTask).args
            (buildCommand false localConfig (probeEnv 10) catTask).totalFrames true
            silentEngine).1 := by rw [hp]
    obtain ⟨before, h⟩ := (fail_paths false localConfig (probeEnv 10) catTask
      { engine := silentEngine }).2.1 _ hres x1
    rw [htmp] at h
    exact ⟨_, before, hres, x1, by simpa using h⟩
  · have hm := quiet_success_main quickEngine second rfl rfl rfl rfl
    have hk : ∃ s, (bodyPlan false localConfig (probeEnv 10) catTask
        { engine := quickEngine }).main.get? 3 = some s ∧ s.onReader = false := by
      rw [hm]
      exact ⟨_, rfl, rfl⟩
    obtain ⟨s, hk, hr⟩ := hk
    exact (fail_paths false localConfig (probeEnv 10) catTask
      { engine := quickEngine }).2.2.2.1 3 "invalid memory address" s hk hr
  · refine (fail_paths false localConfig (probeEnv 10) catTask
      { engine := cancelledEngine }).2.2.2.2 "t1" catStore none
      { after := 1, schedule := [true, true] } catStore_t1 ?_
    rw [dispatchBody_catTask, cancelled_body_trace]
    simp [callbackSteps]

/-- Claim C19, checked on the code.  The progress callback is called by the
stderr reader that `Execute` starts, not by the goroutine of the per-task body
that defers the `recover`.  When `UpdateTaskProgress` panics inside the
callback, the panic is not caught: the body returns no error, `FailTask` is
never called and no `failed` event is published; the calls made are the
invocation of the supervisor and the publish of the callback. -/
theorem callback_panic_escapes :
    ∃ args event,
      (processImageAudioToVideo localConfig (probeEnv 10) catTask { engine := progressEngine }
          (some ⟨.atStep 2, "invalid memory address"⟩)).trace
        = [Effect.executeWithProgress args 250, Effect.broadcastProgress "t1" event]
      ∧ event.Status = TaskStatusProcessing
      ∧ (processImageAudioToVideo localConfig (probeEnv 10) catTask { engine := progressEngine }
          (some ⟨.atStep 2, "invalid memory address"⟩)).err = none
      ∧ (processImageAudioToVideo localConfig (probeEnv 10) catTask { engine := progressEngine }
          (some ⟨.atStep 2, "invalid memory address"⟩)).crashed = true := by
  have hm := one_status_line_main progressEngine second rfl rfl rfl
  have hk : ∃ s, (bodyPlan false localConfig (probeEnv 10) catTask
      { engine := progressEngine }).main.get? 2 = some s ∧ s.onReader = true := by
    rw [hm]
    exact ⟨_, rfl, rfl⟩
  obtain ⟨s, hk, hr⟩ := hk
  obtain ⟨ht, he, hc⟩ := fault_on_reader_crashes "t1" _ 2 "invalid memory address" s hk hr
  refine ⟨(buildCommand false localConfig (probeEnv 10) catTask).args,
    { TaskID := "t1", Status := TaskStatusProcessing,
      Progress := (withEstimates (parseFields second statusLine100.toList) 250).Progress,
      CurrentFrame := (withEstimates (parseFields second statusLine100.toList) 250).Frame,
      TotalFrames := 250,
      ETA := (withEstimates (parseFields second statusLine100.toList) 250).ETA,
      Message := "Processing: "
        ++ fmtFixed1 (withEstimates (parseFields second statusLine100.toList) 250).Progress
        ++ "% (Frame "
        ++ fmtInt (withEstimates (parseFields second statusLine100.toList) 250).Frame ++ "/"
        ++ fmtInt 250 ++ ", Speed: "
        ++ fmtFixed2 (withEstimates (parseFields second statusLine100.toList) 250).Speed
        ++ "x)" }, ?_, rfl, he, hc⟩
  show (runPlan "t1" _ _).trace = _
  rw [ht, hm]
  rfl

/-- Claim C15, checked on the code.  The deadline branch of `ProcessTask`
returns without stopping the goroutine of the per-task body.  With the deadline
firing after the body has invoked the supervisor, and the body then handling
one status line and the failure of the killed process, the statuses written to
persistence are `processing`, `failed`, `processing`, `failed`: a `processing`
write follows a terminal write, and there are two terminal writes. -/
theorem deadline_status_regression :
    ∃ args progress command filterGraph log,
      (ProcessTask localConfig (probeEnv 10) (.ok "t1") catStore
          { engine := cancelledEngine } none
          (some { after := 1, schedule := [true, true] })).trace
        = [Effect.updateTaskProgress "t1" { TaskID := "t1", Status := TaskStatusProcessing },
           Effect.broadcastProgress "t1"
             { TaskID := "t1", Status := TaskStatusProcessing, Progress := 0,
               Message := "Task started processing" },
           Effect.executeWithProgress args 250,
           Effect.failTask "t1" "" "" "" "Task timeout: exceeded 30 minutes",
           Effect.broadcastProgress "t1"
             { TaskID := "t1", Status := TaskStatusFailed,
               Message := "Task timeout: exceeded 30 minutes" }]
          ++ (callbackSteps false "t1" 250 progress).map Step.effect
          ++ [Effect.failTask "t1" command filterGraph log log,
              Effect.broadcastProgress "t1"
                { TaskID := "t1", Status := TaskStatusFailed, Message := log }]
      ∧ statusWrites (ProcessTask localConfig (probeEnv 10) (.ok "t1") catStore
          { engine := cancelledEngine } none
          (some { after := 1, schedule := [true, true] })).trace
        = [TaskStatusProcessing, TaskStatusFailed, TaskStatusProcessing, TaskStatusFailed] := by
  have hb := cancelled_body_trace
  have hlt : ({ after := 1, schedule := [true, true] } : Deadline).after
      < (dispatchBody localConfig (probeEnv 10) catTask { engine := cancelledEngine }
          none).trace.length := by
    rw [dispatchBody_catTask, hb]
    simp [callbackSteps]
  have ht := (ProcessTask_deadline localConfig (probeEnv 10) "t1" catStore catTask
    { engine := cancelledEngine } none { after := 1, schedule := [true, true] }
    catStore_t1 hlt).1
  rw [dispatchBody_catTask, hb] at ht
  generalize (buildCommand false localConfig (probeEnv 10) catTask).args = args at ht
  refine ⟨args, withEstimates (parseFields (1800 * second) statusLine100.toList) 250,
    "ffmpeg" ++ " " ++ joinArgs args, extractFilterGraph args, statusLine100 ++ "\n", ?_, ?_⟩
  · rw [ht]
    rfl
  · rw [ht]
    rfl

/-- Claim C18, checked on the code.  The deadline branch of `ProcessTask`
returns without stopping the goroutine of the per-task body.  (1) With the
engine ended well and the deadline firing while the output is being uploaded,
the body goes on after the deadline's `FailTask`: it deletes the local file and
calls `CompleteTask`, so the task ends `completed` with an output URL, although
`ProcessTask` returns the timeout error.  (2) With the engine killed by the
cancelled context, the body's own `FailTask` comes after the deadline's, so the
task ends `failed` with the text extracted from the log, not the timeout
message. -/
theorem completion_after_deadline :
    (∃ args result,
        (ProcessTask cloudConfig (probeEnv 10) (.ok "t1") catStore
            { engine := lateEngine, upload := .ok "https://cdn.example/outputs/t1.mp4" } none
            (some { after := 4, schedule := [] })).trace
          = [Effect.updateTaskProgress "t1" { TaskID := "t1", Status := TaskStatusProcessing },
             Effect.broadcastProgress "t1"
               { TaskID := "t1", Status := TaskStatusProcessing, Progress := 0,
                 Message := "Task started processing" },
             Effect.executeWithProgress args 250,
             Effect.broadcastProgress "t1"
               { TaskID := "t1", Status := TaskStatusProcessing, Progress := 100,
                 CurrentFrame := 250, TotalFrames := 250, ETA := 0,
                 Message := "Processing completed, finalizing..." },
             Effect.updateTaskProgress "t1"
               { TaskID := "t1", Status := TaskStatusProcessing, Progress := 100,
                 CurrentFrame := 250, TotalFrames := 250, ETA := 0 },
             Effect.uploadFile "storage/outputs/t1.mp4" "outputs/t1.mp4",
             Effect.failTask "t1" "" "" "" "Task timeout: exceeded 30 minutes",
             Effect.broadcastProgress "t1"
               { TaskID := "t1", Status := TaskStatusFailed,
                 Message := "Task timeout: exceeded 30 minutes" },
             Effect.deleteLocalFile "storage/outputs/t1.mp4",
             Effect.completeTask "t1" result,
             Effect.broadcastProgress "t1"
               { TaskID := "t1", Status := TaskStatusCompleted, Progress := 100,
                 CurrentFrame := 250, TotalFrames := 250,
                 Message := "Task completed successfully" }]
        ∧ result.OutputURL = "https://cdn.example/outputs/t1.mp4")
      ∧ (ProcessTask cloudConfig (probeEnv 10) (.ok "t1") catStore
            { engine := lateEngine, upload := .ok "https://cdn.example/outputs/t1.mp4" } none
            (some { after := 4, schedule := [] })).err
          = some "Task timeout: exceeded 30 minutes"
      ∧ (persisted catTask
          (ProcessTask cloudConfig (probeEnv 10) (.ok "t1") catStore
            { engine := lateEngine, upload := .ok "https://cdn.example/outputs/t1.mp4" } none
            (some { after := 4, schedule := [] })).trace).Status = TaskStatusCompleted
      ∧ (persisted catTask
          (ProcessTask cloudConfig (probeEnv 10) (.ok "t1") catStore
            { engine := lateEngine, upload := .ok "https://cdn.example/outputs/t1.mp4" } none
            (some { after := 4, schedule := [] })).trace).OutputUrl
          = "https://cdn.example/outputs/t1.mp4"
      ∧ (persisted catTask
          (ProcessTask localConfig (probeEnv 10) (.ok "t1") catStore
            { engine := cancelledEngine } none
            (some { after := 1, schedule := [true, true] })).trace).Status = TaskStatusFailed
      ∧ (persisted catTask
          (ProcessTask localConfig (probeEnv 10) (.ok "t1") catStore
            { engine := cancelledEngine } none
            (some { after := 1, schedule := [true, true] })).trace).ErrorMessage
          = statusLine100 ++ "\n"
      ∧ statusLine100 ++ "\n" ≠ "Task timeout: exceeded 30 minutes" := by
  have hm := quiet_cloud_main lateEngine (1795 * second) "https://cdn.example/outputs/t1.mp4"
    rfl rfl rfl rfl
  have hbody : (perTaskBody false cloudConfig (probeEnv 10) catTask
      { engine := lateEngine, upload := .ok "https://cdn.example/outputs/t1.mp4" } none).trace
      = (bodyPlan false cloudConfig (probeEnv 10) catTask
          { engine := lateEngine,
            upload := .ok "https://cdn.example/outputs/t1.mp4" }).main.map Step.effect := by
    show (runPlan "t1" _ none).trace = _
    simp only [runPlan]
    rw [catTask_cleanup_cloud, List.append_nil]
  rw [hm] at hbody
  have hlt : ({ after := 4, schedule := [] } : Deadline).after
      < (dispatchBody cloudConfig (probeEnv 10) catTask
          { engine := lateEngine, upload := .ok "https://cdn.example/outputs/t1.mp4" }
          none).trace.length := by
    rw [dispatchBody_catTask, hbody]
    simp
  obtain ⟨ht, he⟩ := ProcessTask_deadline cloudConfig (probeEnv 10) "t1" catStore catTask
    { engine := lateEngine, upload := .ok "https://cdn.example/outputs/t1.mp4" } none
    { after := 4, schedule := [] } catStore_t1 hlt
  rw [dispatchBody_catTask, hbody] at ht
  have hb2 := cancelled_body_trace
  have hlt2 : ({ after := 1, schedule := [true, true] } : Deadline).after
      < (dispatchBody localConfig (probeEnv 10) catTask { engine := cancelledEngine }
          none).trace.length := by
    rw [dispatchBody_catTask, hb2]
    simp [callbackSteps]
  have ht2 := (ProcessTask_deadline localConfig (probeEnv 10) "t1" catStore catTask
    { engine := cancelledEngine } none { after := 1, schedule := [true, true] }
    catStore_t1 hlt2).1
  rw [dispatchBody_catTask, hb2] at ht2
  generalize (buildCommand false cloudConfig (probeEnv 10) catTask).args = args at ht
  generalize (buildCommand false localConfig (probeEnv 10) catTask).args = args2 at ht2
  refine ⟨⟨args,
    { FFmpegCommand := "ffmpeg" ++ " " ++ joinArgs args,
      FilterGraph := extractFilterGraph args,
      StderrLog := "video:12kB audio:156kB\n",
      OutputFile := "storage/outputs/t1.mp4",
      OutputURL := "https://cdn.example/outputs/t1.mp4",
      TotalFrames := 250 }, ?_, ?_⟩, he, ?_, ?_, ?_, ?_, by decide⟩
  · rw [ht]
    rfl
  · rfl
  · rw [ht]
    rfl
  · rw [ht]
    rfl
  · rw [ht2]
    rfl
  · rw [ht2]
    rfl

theorem trySend_spec (h : HubState) (c : Nat) (p : TaskProgress)
    (hp : h.panicked = false) (hopen : (h.chans c).closed = false) :
    (trySend h c p).panicked = false
      ∧ (trySend h c p).chans = Function.update h.chans c
          (if (h.chans c).buf.length < (h.chans c).cap then
            { h.chans c with buf := (h.chans c).buf ++ [p], sent := (h.chans c).sent ++ [p] }
          else { h.chans c with closed := true })
      ∧ (∀ d, d ∈ (trySend h c p).clients
          ↔ d ∈ h.clients ∧ (d = c → (h.chans c).buf.length < (h.chans c).cap)) := by
  unfold trySend
  rw [if_neg (by rw [hopen]; decide)]
  by_cases hroom : (h.chans c).buf.length < (h.chans c).cap
  · rw [if_pos hroom, if_pos hroom]
    refine ⟨hp, rfl, ?_⟩
    intro d
    constructor
    · intro hd
      exact ⟨hd, fun _ => hroom⟩
    · intro hd
      exact hd.1
  · rw [if_neg hroom, if_neg hroom]
    have hcs : h.closeSend c = h.setChan c { h.chans c with closed := true } := by
      unfold HubState.closeSend
      rw [if_neg (by rw [hopen]; decide)]
    rw [hcs]
    refine ⟨hp, rfl, ?_⟩
    intro d
    show d ∈ h.clients.erase c ↔ _
    rw [h.nodup.mem_erase_iff]
    constructor
    · rintro ⟨hne, hd⟩
      exact ⟨hd, fun he => absurd he hne⟩
    · rintro ⟨hd, himp⟩
      exact ⟨fun he => hroom (himp he), hd⟩

theorem broadcastLoop_spec (p : TaskProgress) (l : List Nat) (hl : l.Nodup) (h : HubState)
    (hp : h.panicked = false) (hopen : ∀ c ∈ l, (h.chans c).closed = false) :
    (broadcastLoop p h l).panicked = false
      ∧ (∀ c, (broadcastLoop p h l).chans c
          = if c ∈ l then
              (if (h.chans c).buf.length < (h.chans c).cap then
                { h.chans c with buf := (h.chans c).buf ++ [p],
                                 sent := (h.chans c).sent ++ [p] }
              else { h.chans c with closed := true })
            else h.chans c)
      ∧ (∀ c, c ∈ (broadcastLoop p h l).clients
          ↔ c ∈ h.clients ∧ (c ∈ l → (h.chans c).buf.length < (h.chans c).cap)) := by
  induction l generalizing h with
  | nil =>
    refine ⟨hp, fun c => ?_, fun c => ?_⟩ <;> simp [broadcastLoop]
  | cons a rest ih =>
    obtain ⟨ha, hrest⟩ := List.nodup_cons.mp hl
    obtain ⟨t1, t2, t3⟩ := trySend_spec h a p hp (hopen a (List.mem_cons_self _ _))
    have hother : ∀ d, d ≠ a → (trySend h a p).chans d = h.chans d := by
      intro d hd
      rw [t2, Function.update_noteq hd]
    have hopen1 : ∀ c ∈ rest, ((trySend h a p).chans c).closed = false := by
      intro c hc
      have hne : c ≠ a := fun he => ha (he ▸ hc)
      rw [hother c hne]
      exact hopen c (List.mem_cons_of_mem _ hc)
    obtain ⟨i1, i2, i3⟩ := ih hrest (trySend h a p) t1 hopen1
    have hstep : broadcastLoop p h (a :: rest) = broadcastLoop p (trySend h a p) rest := by
      simp [broadcastLoop, hp]
    rw [hstep]
    refine ⟨i1, fun c => ?_, fun c => ?_⟩
    · rw [i2 c]
      by_cases hca : c = a
      · subst hca
        simp only [ha, if_false, List.mem_cons, true_or, if_true]
        rw [t2, Function.update_same]
      · have hmem : c ∈ a :: rest ↔ c ∈ rest := by simp [hca]
        simp only [hmem, hother c hca]
    · rw [i3 c, t3 c]
      by_cases hca : c = a
      · subst hca
        simp [ha]
      · have hmem : c ∈ a :: rest ↔ c ∈ rest := by simp [hca]
        simp only [hmem, hother c hca, hca, false_imp_iff, and_true]

theorem hubBroadcast_spec (h : HubState) (p : TaskProgress) (hw : h.WellFormed) :
    (hubBroadcast h p).panicked = false
      ∧ (∀ c, (hubBroadcast h p).chans c
          = if c ∈ h.clients then
              (if (h.chans c).buf.length < (h.chans c).cap then
                { h.chans c with buf := (h.chans c).buf ++ [p],
                                 sent := (h.chans c).sent ++ [p] }
              else { h.chans c with closed := true })
            else h.chans c)
      ∧ (∀ c, c ∈ (hubBroadcast h p).clients
          ↔ c ∈ h.clients ∧ (h.chans c).buf.length < (h.chans c).cap) := by
  obtain ⟨b1, b2, b3⟩ := broadcastLoop_spec p h.clients h.nodup h hw.1 hw.2
  refine ⟨b1, b2, fun c => ?_⟩
  show c ∈ (broadcastLoop p h h.clients).clients ↔ _
  rw [b3 c]
  constructor
  · rintro ⟨hc, himp⟩
    exact ⟨hc, himp hc⟩
  · rintro ⟨hc, hroom⟩
    exact ⟨hc, fun _ => hroom⟩

theorem hubUnregister_member (h : HubState) (c : Nat) (hc : c ∈ h.clients)
    (hopen : (h.chans c).closed = false) :
    hubUnregister h c
      = (h.remove c).setChan c { h.chans c with closed := true } := by
  unfold hubUnregister
  rw [if_pos hc]
  unfold HubState.closeSend
  have h1 : ((h.remove c).chans c).closed = false := hopen
  rw [if_neg (by rw [h1]; decide)]
  rfl

theorem hubStep_wellFormed (h : HubState) (hw : h.WellFormed) (op : HubOp)
    (hreg : ∀ c, op = .register c → (h.chans c).closed = false) :
    (hubStep h op).WellFormed := by
  obtain ⟨hp, hopen⟩ := hw
  cases op with
  | register c =>
    simp only [hubStep, hp, Bool.false_eq_true, if_false]
    unfold hubRegister
    by_cases hc : c ∈ h.clients
    · rw [dif_pos hc]
      exact ⟨hp, hopen⟩
    · rw [dif_neg hc]
      refine ⟨hp, ?_⟩
      intro d hd
      have hd2 : d ∈ c :: h.clients := hd
      rcases List.mem_cons.mp hd2 with rfl | hd3
      · exact hreg d rfl
      · exact hopen d hd3
  | unregister c =>
    simp only [hubStep, hp, Bool.false_eq_true, if_false]
    by_cases hc : c ∈ h.clients
    · rw [hubUnregister_member h c hc (hopen c hc)]
      refine ⟨hp, ?_⟩
      intro d hd
      have hd2 : d ∈ h.clients.erase c := hd
      rw [h.nodup.mem_erase_iff] at hd2
      show (Function.update h.chans c _ d).closed = false
      rw [Function.update_noteq hd2.1]
      exact hopen d hd2.2
    · unfold hubUnregister
      rw [if_neg hc]
      exact ⟨hp, hopen⟩
  | broadcast p =>
    simp only [hubStep, hp, Bool.false_eq_true, if_false]
    obtain ⟨b1, b2, b3⟩ := hubBroadcast_spec h p ⟨hp, hopen⟩
    refine ⟨b1, ?_⟩
    intro d hd
    obtain ⟨hd1, hroom⟩ := (b3 d).mp hd
    rw [b2 d, if_pos hd1, if_pos hroom]
    exact hopen d hd1
  | receive c =>
    refine ⟨hp, ?_⟩
    intro d hd
    have hd2 : d ∈ h.clients := hd
    show (Function.update h.chans c _ d).closed = false
    by_cases hdc : d = c
    · subst hdc
      rw [Function.update_same]
      exact hopen d hd2
    · rw [Function.update_noteq hdc]
      exact hopen d hd2

theorem registersOpen_cons (h : HubState) (op : HubOp) (rest : List HubOp)
    (hr : registersOpen h (op :: rest)) :
    (∀ c, op = .register c → (h.chans c).closed = false)
      ∧ registersOpen (hubStep h op) rest := by
  cases op with
  | register c =>
    obtain ⟨h1, h2⟩ := hr
    refine ⟨?_, h2⟩
    intro d hd
    cases hd
    exact h1
  | unregister c => exact ⟨fun d hd => (by cases hd), hr⟩
  | broadcast p => exact ⟨fun d hd => (by cases hd), hr⟩
  | receive c => exact ⟨fun d hd => (by cases hd), hr⟩

/-- A hub stays in working order as long as clients are registered with open
channels. -/
theorem hubRun_wellFormed (ops : List HubOp) (h : HubState) (hw : h.WellFormed)
    (hr : registersOpen h ops) : (hubRun h ops).WellFormed := by
  induction ops generalizing h with
  | nil => exact hw
  | cons op rest ih =>
    obtain ⟨h1, h2⟩ := registersOpen_cons h op rest hr
    exact ih (hubStep h op) (hubStep_wellFormed h hw op h1) h2

/-- One step of the hub, seen from a registered client: while the client stays
in the set its channel has been given exactly the event published by the step,
if any; when the step takes it out of the set its channel has been given
nothing and is closed. -/
theorem hubStep_member (h : HubState) (hw : h.WellFormed) (op : HubOp) (c : Nat)
    (hc : c ∈ h.clients) :
    (c ∈ (hubStep h op).clients →
        ((hubStep h op).chans c).sent = (h.chans c).sent ++ publishedOps [op])
      ∧ (c ∉ (hubStep h op).clients →
        ((hubStep h op).chans c).sent = (h.chans c).sent
          ∧ ((hubStep h op).chans c).closed = true) := by
  obtain ⟨hp, hopen⟩ := hw
  cases op with
  | register d =>
    simp only [hubStep, hp, Bool.false_eq_true, if_false]
    unfold hubRegister
    by_cases hd : d ∈ h.clients
    · rw [dif_pos hd]
      exact ⟨fun _ => by simp [publishedOps], fun hn => absurd hc hn⟩
    · rw [dif_neg hd]
      refine ⟨fun _ => by simp [publishedOps], fun hn => ?_⟩
      exact absurd (List.mem_cons_of_mem d hc) hn
  | unregister d =>
    simp only [hubStep, hp, Bool.false_eq_true, if_false]
    by_cases hd : d ∈ h.clients
    · rw [hubUnregister_member h d hd (hopen d hd)]
      by_cases hcd : c = d
      · subst hcd
        refine ⟨fun hin => ?_, fun _ => ?_⟩
        · have hin2 : c ∈ h.clients.erase c := hin
          rw [h.nodup.mem_erase_iff] at hin2
          exact absurd rfl hin2.1
        · show (Function.update h.chans c _ c).sent = _
            ∧ (Function.update h.chans c _ c).closed = true
          rw [Function.update_same]
          exact ⟨rfl, rfl⟩
      · refine ⟨fun _ => ?_, fun hn => ?_⟩
        · show (Function.update h.chans d _ c).sent = _
          rw [Function.update_noteq hcd]
          simp [publishedOps]
        · have hin : c ∈ h.clients.erase d := by
            rw [h.nodup.mem_erase_iff]
            exact ⟨hcd, hc⟩
          exact absurd hin hn
    · unfold hubUnregister
      rw [if_neg hd]
      exact ⟨fun _ => by simp [publishedOps], fun hn => absurd hc hn⟩
  | broadcast p =>
    simp only [hubStep, hp, Bool.false_eq_true, if_false]
    obtain ⟨b1, b2, b3⟩ := hubBroadcast_spec h p ⟨hp, hopen⟩
    refine ⟨fun hin => ?_, fun hn => ?_⟩
    · obtain ⟨_, hroom⟩ := (b3 c).mp hin
      rw [b2 c, if_pos hc, if_pos hroom]
      rfl
    · have hroom : ¬ (h.chans c).buf.length < (h.chans c).cap :=
        fun hr => hn ((b3 c).mpr ⟨hc, hr⟩)
      rw [b2 c, if_pos hc, if_neg hroom]
      exact ⟨rfl, rfl⟩
  | receive d =>
    refine ⟨fun _ => ?_, fun hn => absurd hc hn⟩
    show (Function.update h.chans d _ c).sent = _
    by_cases hcd : c = d
    · subst hcd
      rw [Function.update_same]
      simp [publishedOps]
    · rw [Function.update_noteq hcd]
      simp [publishedOps]

/-- One step of the hub, seen from a client that has been taken out of the
set: unless the step registers it again, it stays out, and its channel stays
closed and is given nothing. -/
theorem hubStep_nonmember (h : HubState) (hw : h.WellFormed) (op : HubOp) (c : Nat)
    (hc : c ∉ h.clients) (hne : op ≠ .register c) :
    c ∉ (hubStep h op).clients
      ∧ ((hubStep h op).chans c).sent = (h.chans c).sent
      ∧ ((hubStep h op).chans c).closed = (h.chans c).closed := by
  obtain ⟨hp, hopen⟩ := hw
  cases op with
  | register d =>
    have hdc : c ≠ d := fun he => hne (he ▸ rfl)
    simp only [hubStep, hp, Bool.false_eq_true, if_false]
    unfold hubRegister
    by_cases hd : d ∈ h.clients
    · rw [dif_pos hd]
      exact ⟨hc, rfl, rfl⟩
    · rw [dif_neg hd]
      refine ⟨?_, rfl, rfl⟩
      intro hin
      have hin2 : c ∈ d :: h.clients := hin
      rcases List.mem_cons.mp hin2 with he | hin3
      · exact hdc he
      · exact hc hin3
  | unregister d =>
    simp only [hubStep, hp, Bool.false_eq_true, if_false]
    by_cases hd : d ∈ h.clients
    · rw [hubUnregister_member h d hd (hopen d hd)]
      have hcd : c ≠ d := fun he => hc (he ▸ hd)
      refine ⟨?_, ?_, ?_⟩
      · intro hin
        have hin2 : c ∈ h.clients.erase d := hin
        exact hc (List.mem_of_mem_erase hin2)
      · show (Function.update h.chans d _ c).sent = _
        rw [Function.update_noteq hcd]
      · show (Function.update h.chans d _ c).closed = _
        rw [Function.update_noteq hcd]
    · unfold hubUnregister
      rw [if_neg hd]
      exact ⟨hc, rfl, rfl⟩
  | broadcast p =>
    simp only [hubStep, hp, Bool.false_eq_true, if_false]
    obtain ⟨b1, b2, b3⟩ := hubBroadcast_spec h p ⟨hp, hopen⟩
    refine ⟨fun hin => hc ((b3 c).mp hin).1, ?_, ?_⟩
    · rw [b2 c, if_neg hc]
    · rw [b2 c, if_neg hc]
  | receive d =>
    refine ⟨hc, ?_, ?_⟩
    · show (Function.update h.chans d _ c).sent = _
      by_cases hcd : c = d
      · subst hcd
        rw [Function.update_same]
      · rw [Function.update_noteq hcd]
    · show (Function.update h.chans d _ c).closed = _
      by_cases hcd : c = d
      · subst hcd
        rw [Function.update_same]
      · rw [Function.update_noteq hcd]

/-- Claim C12.  In a hub in working order, the broadcast case of `Run` for one
event (1) does not panic; (2) appends the event to the queue of every client in
the set whose queue has room, and keeps that client; (3) closes the queue of
every client in the set whose queue is full, leaving its content alone, and
deletes that client; (4) leaves every other channel alone; (5) gives a client
the same queue, and keeps or deletes it alike, in any two hubs in which that
client has the same queue, whatever the other clients are.  Each client is
handled by a `select` with a `default` branch, so the step never waits. -/
theorem broadcast_step (h : HubState) (p : TaskProgress) (hw : h.WellFormed) :
    (hubBroadcast h p).panicked = false
      ∧ (∀ c ∈ h.clients, (h.chans c).buf.length < (h.chans c).cap →
          c ∈ (hubBroadcast h p).clients
            ∧ (hubBroadcast h p).chans c
              = { h.chans c with buf := (h.chans c).buf ++ [p],
                                 sent := (h.chans c).sent ++ [p] })
      ∧ (∀ c ∈ h.clients, ¬ (h.chans c).buf.length < (h.chans c).cap →
          c ∉ (hubBroadcast h p).clients
            ∧ (hubBroadcast h p).chans c = { h.chans c with closed := true })
      ∧ (∀ c, c ∉ h.clients →
          c ∉ (hubBroadcast h p).clients ∧ (hubBroadcast h p).chans c = h.chans c)
      ∧ (∀ h2 : HubState, h2.WellFormed → ∀ c, c ∈ h.clients → c ∈ h2.clients →
          h2.chans c = h.chans c →
          (hubBroadcast h2 p).chans c = (hubBroadcast h p).chans c
            ∧ (c ∈ (hubBroadcast h2 p).clients ↔ c ∈ (hubBroadcast h p).clients)) := by
  obtain ⟨b1, b2, b3⟩ := hubBroadcast_spec h p hw
  refine ⟨b1, ?_, ?_, ?_, ?_⟩
  · intro c hc hroom
    refine ⟨(b3 c).mpr ⟨hc, hroom⟩, ?_⟩
    rw [b2 c, if_pos hc, if_pos hroom]
  · intro c hc hroom
    refine ⟨fun hin => hroom ((b3 c).mp hin).2, ?_⟩
    rw [b2 c, if_pos hc, if_neg hroom]
  · intro c hc
    refine ⟨fun hin => hc ((b3 c).mp hin).1, ?_⟩
    rw [b2 c, if_neg hc]
  · intro h2 hw2 c hc hc2 heq
    obtain ⟨_, d2, d3⟩ := hubBroadcast_spec h2 p hw2
    refine ⟨?_, ?_⟩
    · rw [b2 c, d2 c, if_pos hc, if_pos hc2, heq]
    · rw [b3 c, d3 c, heq]
      exact ⟨fun hx => ⟨hc, hx.2⟩, fun hx => ⟨hc2, hx.2⟩⟩

theorem twoClients_wellFormed : twoClients.WellFormed := by
  refine ⟨rfl, ?_⟩
  intro c hc
  have hc2 : c ∈ [1, 2] := hc
  simp only [List.mem_cons, List.mem_singleton, List.not_mem_nil, or_false] at hc2
  rcases hc2 with rfl | rfl <;> rfl

/-- Claim C12 at a hub with two clients: the full queue of client 1 is closed
and client 1 deleted, while client 2 is given the event and kept. -/
theorem broadcast_step_witness :
    twoClients.WellFormed
      ∧ 2 ∈ (hubBroadcast twoClients halfwayEvent).clients
      ∧ ((hubBroadcast twoClients halfwayEvent).chans 2).buf = [halfwayEvent]
      ∧ 1 ∉ (hubBroadcast twoClients halfwayEvent).clients
      ∧ ((hubBroadcast twoClients halfwayEvent).chans 1).closed = true
      ∧ ((hubBroadcast twoClients halfwayEvent).chans 1).buf = [startedEvent]
      ∧ (hubBroadcast twoClients halfwayEvent).panicked = false := by
  have h := broadcast_step twoClients halfwayEvent twoClients_wellFormed
  obtain ⟨h2a, h2b⟩ := h.2.1 2 (by decide) (by decide)
  obtain ⟨h1a, h1b⟩ := h.2.2.1 1 (by decide) (by decide)
  refine ⟨twoClients_wellFormed, h2a, ?_, h1a, ?_, ?_, h.1⟩
  · rw [h2b]
    rfl
  · rw [h1b]
  · rw [h1b]
    rfl

/-- Claim C13.  In a hub in working order, the unregister case of `Run` for a
client in the set deletes exactly that client and closes its queue, leaving
the content of that queue, every other client and every other queue alone, and
does not panic; for a client not in the set it leaves the hub as it is. -/
theorem unregister_frame (h : HubState) (hw : h.WellFormed) (c : Nat) :
    (c ∈ h.clients →
        (hubUnregister h c).clients = h.clients.erase c
          ∧ c ∉ (hubUnregister h c).clients
          ∧ (hubUnregister h c).chans c = { h.chans c with closed := true }
          ∧ (∀ d, d ≠ c →
              (d ∈ (hubUnregister h c).clients ↔ d ∈ h.clients)
                ∧ (hubUnregister h c).chans d = h.chans d)
          ∧ (hubUnregister h c).panicked = false)
      ∧ (c ∉ h.clients → hubUnregister h c = h) := by
  refine ⟨?_, ?_⟩
  · intro hc
    rw [hubUnregister_member h c hc (hw.2 c hc)]
    refine ⟨rfl, ?_, ?_, ?_, hw.1⟩
    · intro hin
      have hin2 : c ∈ h.clients.erase c := hin
      rw [h.nodup.mem_erase_iff] at hin2
      exact hin2.1 rfl
    · show Function.update h.chans c _ c = _
      rw [Function.update_same]
    · intro d hd
      refine ⟨?_, ?_⟩
      · show d ∈ h.clients.erase c ↔ _
        rw [h.nodup.mem_erase_iff]
        exact ⟨fun hx => hx.2, fun hx => ⟨hd, hx⟩⟩
      · show Function.update h.chans c _ d = _
        rw [Function.update_noteq hd]
  · intro hc
    unfold hubUnregister
    rw [if_neg hc]

/-- Claim C13 at a hub with two clients: unregistering client 2 leaves client 1
and its queue alone and closes the queue of client 2; unregistering client 3,
which is not in the set, changes nothing. -/
theorem unregister_frame_witness :
    twoClients.WellFormed
      ∧ (hubUnregister twoClients 2).clients = [1]
      ∧ ((hubUnregister twoClients 2).chans 2).closed = true
      ∧ (hubUnregister twoClients 2).chans 1 = twoClients.chans 1
      ∧ hubUnregister twoClients 3 = twoClients := by
  have h2 := (unregister_frame twoClients twoClients_wellFormed 2).1 (by decide)
  have h3 := (unregister_frame twoClients twoClients_wellFormed 3).2 (by decide)
  refine ⟨twoClients_wellFormed, ?_, ?_, (h2.2.2.2.1 1 (by decide)).2, h3⟩
  · rw [h2.1]
    rfl
  · rw [h2.2.2.1]

theorem publishedOps_cons (op : HubOp) (ops : List HubOp) :
    publishedOps (op :: ops) = publishedOps [op] ++ publishedOps ops := by
  cases op <;> simp [publishedOps]

/-- A client that is out of the set with a closed channel stays out, and its
channel is given nothing more. -/
theorem nonmember_run (ops : List HubOp) (s : HubState) (hw : s.WellFormed) (c : Nat)
    (hc : c ∉ s.clients) (hclosed : (s.chans c).closed = true) (hr : registersOpen s ops) :
    ∀ j, c ∉ (hubRun s (ops.take j)).clients
      ∧ ((hubRun s (ops.take j)).chans c).sent = (s.chans c).sent := by
  induction ops generalizing s with
  | nil =>
    intro j
    rw [List.take_nil]
    exact ⟨hc, rfl⟩
  | cons op rest ih =>
    intro j
    cases j with
    | zero => exact ⟨hc, rfl⟩
    | succ j =>
      obtain ⟨h1, h2⟩ := registersOpen_cons s op rest hr
      have hne : op ≠ .register c := by
        intro he
        have := h1 c he
        rw [hclosed] at this
        cases this
      obtain ⟨n1, n2, n3⟩ := hubStep_nonmember s hw op c hc hne
      have hw1 := hubStep_wellFormed s hw op h1
      obtain ⟨i1, i2⟩ := ih (hubStep s op) hw1 n1 (by rw [n3, hclosed]) h2 j
      show c ∉ (hubRun (hubStep s op) (rest.take j)).clients
        ∧ ((hubRun (hubStep s op) (rest.take j)).chans c).sent = _
      exact ⟨i1, by rw [i2, n2]⟩

/-- From a state in which a client is in the set: the client stays in the set
for some number `k` of steps, is out of it after every later step, and what its
channel has been given at the end is what it had been given before followed by
the events published in those `k` steps, in order. -/
theorem member_run (ops : List HubOp) (s : HubState) (hw : s.WellFormed) (c : Nat)
    (hc : c ∈ s.clients) (hr : registersOpen s ops) :
    ∃ k, k ≤ ops.length
      ∧ (∀ j, j ≤ k → c ∈ (hubRun s (ops.take j)).clients)
      ∧ (∀ j, k < j → j ≤ ops.length → c ∉ (hubRun s (ops.take j)).clients)
      ∧ ((hubRun s ops).chans c).sent = (s.chans c).sent ++ publishedOps (ops.take k) := by
  induction ops generalizing s with
  | nil =>
    refine ⟨0, le_refl _, ?_, ?_, ?_⟩
    · intro j _
      rw [List.take_nil]
      exact hc
    · intro j hj hj2
      simp only [List.length_nil] at hj2
      omega
    · simp [hubRun, publishedOps]
  | cons op rest ih =>
    obtain ⟨h1, h2⟩ := registersOpen_cons s op rest hr
    have hw1 := hubStep_wellFormed s hw op h1
    obtain ⟨m1, m2⟩ := hubStep_member s hw op c hc
    by_cases hin : c ∈ (hubStep s op).clients
    · obtain ⟨k, hk, a1, a2, a3⟩ := ih (hubStep s op) hw1 hin h2
      refine ⟨k + 1, by simp only [List.length_cons]; omega, ?_, ?_, ?_⟩
      · intro j hj
        cases j with
        | zero => exact hc
        | succ j => exact a1 j (by omega)
      · intro j hj hj2
        cases j with
        | zero => omega
        | succ j =>
          simp only [List.length_cons] at hj2
          exact a2 j (by omega) (by omega)
      · show ((hubRun (hubStep s op) rest).chans c).sent = _
        rw [a3, m1 hin, List.take_succ_cons, publishedOps_cons op (rest.take k),
          List.append_assoc]
    · obtain ⟨n1, n2⟩ := m2 hin
      have hnm := nonmember_run rest (hubStep s op) hw1 c hin n2 h2
      refine ⟨0, Nat.zero_le _, ?_, ?_, ?_⟩
      · intro j hj
        have hj0 : j = 0 := by omega
        subst hj0
        exact hc
      · intro j hj hj2
        cases j with
        | zero => omega
        | succ j => exact (hnm j).1
      · have hfin := (hnm rest.length).2
        rw [List.take_length] at hfin
        show ((hubRun (hubStep s op) rest).chans c).sent = _
        rw [hfin, n1]
        simp [publishedOps]

/-- Claim C14.  Take a hub in working order, register a client, and let any
steps follow (registrations, unregistrations, published events, receives), each
client being registered with an open channel.  Then the client stays in the set
for some number `k` of the steps and is out of it after every later step; the
events placed in its queue from the registration on are exactly the events
published in those `k` steps, in the order published; and when the client is
still in the set at the end, they are all the events published since its
registration, so the last one published is the last one placed. -/
theorem delivery_in_order (h : HubState) (hw : h.WellFormed) (c : Nat) (ops : List HubOp)
    (hr : registersOpen h (.register c :: ops)) :
    (∃ k, k ≤ ops.length
        ∧ (∀ j, j ≤ k → c ∈ (hubRun (hubStep h (.register c)) (ops.take j)).clients)
        ∧ (∀ j, k < j → j ≤ ops.length →
            c ∉ (hubRun (hubStep h (.register c)) (ops.take j)).clients)
        ∧ ((hubRun h (.register c :: ops)).chans c).sent
            = (h.chans c).sent ++ publishedOps (ops.take k))
      ∧ (c ∈ (hubRun h (.register c :: ops)).clients →
          ((hubRun h (.register c :: ops)).chans c).sent
            = (h.chans c).sent ++ publishedOps ops) := by
  obtain ⟨h1, h2⟩ := registersOpen_cons h (.register c) ops hr
  have hw1 := hubStep_wellFormed h hw (.register c) h1
  have hin : c ∈ (hubStep h (.register c)).clients := by
    simp only [hubStep, hw.1, Bool.false_eq_true, if_false]
    unfold hubRegister
    by_cases hc : c ∈ h.clients
    · rw [dif_pos hc]
      exact hc
    · rw [dif_neg hc]
      exact List.mem_cons_self c h.clients
  have hsent : ((hubStep h (.register c)).chans c).sent = (h.chans c).sent := by
    simp only [hubStep, hw.1, Bool.false_eq_true, if_false]
    unfold hubRegister
    by_cases hc : c ∈ h.clients
    · rw [dif_pos hc]
    · rw [dif_neg hc]
  obtain ⟨k, hk, a1, a2, a3⟩ := member_run ops (hubStep h (.register c)) hw1 c hin h2
  have a3b : ((hubRun h (.register c :: ops)).chans c).sent
      = (h.chans c).sent ++ publishedOps (ops.take k) := by
    show ((hubRun (hubStep h (.register c)) ops).chans c).sent = _
    rw [a3, hsent]
  refine ⟨⟨k, hk, a1, a2, a3b⟩, ?_⟩
  intro hfin
  have hkl : k = ops.length := by
    by_contra hne
    have hlt : k < ops.length := lt_of_le_of_ne hk hne
    have hout := a2 ops.length hlt (le_refl _)
    rw [List.take_length] at hout
    exact hout hfin
  rw [a3b, hkl, List.take_length]

/-- Claim C14 at a fresh hub: client 1 registers, three events are published
with a receive in between, and the queue of client 1 has been given the three
events in the order published, the `completed` event last. -/
theorem delivery_in_order_witness :
    emptyHub.WellFormed
      ∧ registersOpen emptyHub
          [.register 1, .broadcast startedEvent, .broadcast halfwayEvent, .receive 1,
           .broadcast completedEvent]
      ∧ ((hubRun emptyHub
          [.register 1, .broadcast startedEvent, .broadcast halfwayEvent, .receive 1,
           .broadcast completedEvent]).chans 1).sent
        = [startedEvent, halfwayEvent, completedEvent] := by
  have hw : emptyHub.WellFormed := ⟨rfl, fun c hc => by cases hc⟩
  have hr : registersOpen emptyHub
      [.register 1, .broadcast startedEvent, .broadcast halfwayEvent, .receive 1,
       .broadcast completedEvent] := ⟨rfl, trivial⟩
  have h := (delivery_in_order emptyHub hw 1
    [.broadcast startedEvent, .broadcast halfwayEvent, .receive 1,
     .broadcast completedEvent] hr).2 (by decide)
  exact ⟨hw, hr, h⟩

theorem slideshowPieces_other (numImages : Nat) (duration transitionDur : F64)
    (transitionType : String) (width height fps : Int)
    (hn : transitionType ≠ "none") (hf : transitionType ≠ "fade") :
    slideshowPieces numImages duration transitionDur transitionType width height fps
      = slideshowPieces numImages duration transitionDur "fade" width height fps := by
  rw [slideshowPieces, if_neg hn, if_neg hf, slideshowPieces_fade, slideshowPieces_fade]
  have hw : (if (if width = 0 then (1280 : Int) else width) = 0 then (1280 : Int)
      else (if width = 0 then 1280 else width)) = (if width = 0 then 1280 else width) := by
    split_ifs <;> simp_all
  have hh : (if (if height = 0 then (720 : Int) else height) = 0 then (720 : Int)
      else (if height = 0 then 720 else height)) = (if height = 0 then 720 else height) := by
    split_ifs <;> simp_all
  rw [hw, hh]

/-- Claim C22.  For every transition type other than "none" and "fade",
`buildSlideshowFilter` returns the graph it returns for "fade" with the same
images, durations, size and fps.  (The function is total: its one recursive
call is made with "fade", which does not recurse.) -/
theorem unknown_transition_is_fade (imagePaths : List String) (duration transitionDur : F64)
    (transitionType : String) (width height fps : Int)
    (hn : transitionType ≠ "none") (hf : transitionType ≠ "fade") :
    buildSlideshowFilter imagePaths duration transitionDur transitionType width height fps
      = buildSlideshowFilter imagePaths duration transitionDur "fade" width height fps := by
  unfold buildSlideshowFilter
  rw [slideshowPieces_other _ _ _ _ _ _ _ hn hf]

/-- Claim C22 at the transition type "slide" with three images: the graph is
the graph of "fade". -/
theorem unknown_transition_is_fade_witness :
    "slide" ≠ "none" ∧ "slide" ≠ "fade"
      ∧ buildSlideshowFilter ["a.jpg", "b.jpg", "c.jpg"] (.fin 3) (.fin (1 / 2)) "slide" 1280 720 25
        = buildSlideshowFilter ["a.jpg", "b.jpg", "c.jpg"] (.fin 3) (.fin (1 / 2)) "fade" 1280 720 25 :=
  ⟨by decide, by decide,
    unknown_transition_is_fade ["a.jpg", "b.jpg", "c.jpg"] (.fin 3) (.fin (1 / 2)) "slide" 1280 720 25
      (by decide) (by decide)⟩

theorem mem_materialized_resolvedPrefix (env : Env) (refs : List String) (f : String)
    (hf : f ∈ materialized (resolvedPrefix env refs)) :
    ∃ ref ∈ refs, isURL ref = true ∧ DownloadFile env ref = .ok f ∧ f ≠ ref := by
  induction refs with
  | nil => simp [resolvedPrefix, materialized] at hf
  | cons r rest ih =>
    cases hd : DownloadFile env r with
    | error e => simp [resolvedPrefix, hd, materialized] at hf
    | ok l =>
      have hcons : resolvedPrefix env (r :: rest) = (r, l) :: resolvedPrefix env rest := by
        simp [resolvedPrefix, hd]
      rw [hcons] at hf
      have hsplit : materialized ((r, l) :: resolvedPrefix env rest)
          = materialized [(r, l)] ++ materialized (resolvedPrefix env rest) :=
        materialized_append [(r, l)] _
      rw [hsplit, List.mem_append] at hf
      rcases hf with h1 | h2
      · by_cases hl : l = r
        · simp [materialized, hl] at h1
        · have hfl : f = l := by simpa [materialized, hl] using h1
          subst hfl
          have hurl : isURL r = true := by
            by_contra hn
            have hn2 : isURL r = false := by simpa using hn
            rw [DownloadFile_local env r hn2] at hd
            simp only [Except.ok.injEq] at hd
            exact hl hd.symm
          exact ⟨r, List.mem_cons_self _ _, hurl, hd, hl⟩
      · obtain ⟨ref, hr, h3⟩ := ih h2
        exact ⟨ref, List.mem_cons_of_mem _ hr, h3⟩

theorem materialized_of_local (env : Env) (refs : List String)
    (h : ∀ ref ∈ refs, isURL ref = false) :
    materialized (resolvedPrefix env refs) = [] := by
  apply List.eq_nil_iff_forall_not_mem.mpr
  intro f hf
  obtain ⟨ref, hr, hurl, _, _⟩ := mem_materialized_resolvedPrefix env refs f hf
  rw [h ref hr] at hurl
  cases hurl

/-- The temp files of a successful build of the first builder. -/
theorem imageAudio_success_temp (env : Env) (params : TaskInputParams) (outputPath : String)
    (h : (BuildImageAudioToVideoCommand env params outputPath).err = none) :
    (BuildImageAudioToVideoCommand env params outputPath).tempFiles
        = materialized (resolvedPrefix env [params.ImagePath, params.AudioPath])
      ∧ (BuildImageAudioToVideoCommand env params outputPath).cleaned = [] := by
  unfold BuildImageAudioToVideoCommand at h ⊢
  cases hi : DownloadFile env params.ImagePath with
  | error e => rw [hi] at h; simp [BuildResult.fail] at h
  | ok li =>
    rw [hi] at h
    simp only at h ⊢
    cases ha : DownloadFile env params.AudioPath with
    | error e => rw [ha] at h; simp [BuildResult.fail] at h
    | ok la =>
      rw [ha] at h
      simp only at h ⊢
      cases hg : env.getAudioDuration la with
      | error e => rw [hg] at h; simp [BuildResult.fail] at h
      | ok d =>
        by_cases hl : li = params.ImagePath <;> by_cases hl2 : la = params.AudioPath <;>
          simp [resolvedPrefix, hi, ha, materialized, hl, hl2]

/-- The temp files of a successful build of the slideshow builder. -/
theorem slideshow_success_temp (env : Env) (params : TaskInputParams) (outputPath : String)
    (h : (BuildImageSlideshowCommand env params outputPath).err = none) :
    (BuildImageSlideshowCommand env params outputPath).tempFiles
        = materialized (resolvedPrefix env (slideshowRefs params))
      ∧ (BuildImageSlideshowCommand env params outputPath).cleaned = [] := by
  unfold BuildImageSlideshowCommand at h ⊢
  by_cases h0 : params.ImagePaths.length = 0
  · simp [h0, BuildResult.fail] at h
  simp only [h0, if_false] at h ⊢
  rw [slideshowRefs, resolvedPrefix_append]
  cases hd : downloadImages env params.ImagePaths [] [] with
  | error x =>
    obtain ⟨a, b, c⟩ := x
    rw [hd] at h
    simp [BuildResult.fail] at h
  | ok r =>
    obtain ⟨ls, tf⟩ := r
    rw [hd] at h
    obtain ⟨h1, h2⟩ := downloadImages_ok_temp env _ [] [] ls tf hd
    simp only [List.nil_append] at h1
    simp only at h ⊢
    rw [if_pos h2, materialized_append]
    by_cases hb : params.BackgroundAudio = ""
    · simp [hb, resolvedPrefix, materialized, h1]
    · simp only [hb, ne_eq, not_false_eq_true, if_true] at h ⊢
      cases ha : DownloadFile env params.BackgroundAudio with
      | error e => rw [ha] at h; simp [BuildResult.fail] at h
      | ok la =>
        rw [ha] at h
        simp only at h ⊢
        cases hg : env.getAudioDuration la with
        | error e => rw [hg] at h; simp [BuildResult.fail] at h
        | ok d =>
          by_cases hl : la = params.BackgroundAudio <;>
            simp [resolvedPrefix, ha, materialized, hl, h1]

/-- Claim C27.  A reference that begins with neither "http://" nor "https://"
is returned by `DownloadFile` unchanged and without an error, whatever the
collaborators are (the remote part, the only one that touches the file system,
is not reached).  For both builders, every path listed among the temp files,
or handed to `CleanupFile`, is the download of a remote reference; when every
reference is local, nothing is listed and nothing is handed to cleanup. -/
theorem local_passthrough (env : Env) (params : TaskInputParams) (outputPath : String) :
    (∀ ref, isURL ref = false → ∀ env2 : Env, DownloadFile env2 ref = .ok ref)
      ∧ (∀ f, f ∈ (BuildImageAudioToVideoCommand env params outputPath).tempFiles
              ∨ f ∈ (BuildImageAudioToVideoCommand env params outputPath).cleaned →
          ∃ ref ∈ [params.ImagePath, params.AudioPath],
            isURL ref = true ∧ DownloadFile env ref = .ok f)
      ∧ (∀ f, f ∈ (BuildImageSlideshowCommand env params outputPath).tempFiles
              ∨ f ∈ (BuildImageSlideshowCommand env params outputPath).cleaned →
          ∃ ref ∈ slideshowRefs params, isURL ref = true ∧ DownloadFile env ref = .ok f)
      ∧ ((∀ ref ∈ [params.ImagePath, params.AudioPath], isURL ref = false) →
          (BuildImageAudioToVideoCommand env params outputPath).tempFiles = []
            ∧ (BuildImageAudioToVideoCommand env params outputPath).cleaned = [])
      ∧ ((∀ ref ∈ slideshowRefs params, isURL ref = false) →
          (BuildImageSlideshowCommand env params outputPath).tempFiles = []
            ∧ (BuildImageSlideshowCommand env params outputPath).cleaned = []) := by
  have key1 : (BuildImageAudioToVideoCommand env params outputPath).tempFiles
        = materialized (resolvedPrefix env [params.ImagePath, params.AudioPath])
          ∧ (BuildImageAudioToVideoCommand env params outputPath).cleaned = []
      ∨ (BuildImageAudioToVideoCommand env params outputPath).tempFiles = []
          ∧ (BuildImageAudioToVideoCommand env params outputPath).cleaned
            = materialized (resolvedPrefix env [params.ImagePath, params.AudioPath]) := by
    by_cases h : (BuildImageAudioToVideoCommand env params outputPath).err = none
    · exact Or.inl (imageAudio_success_temp env params outputPath h)
    · obtain ⟨_, _, h3, h4⟩ := imageAudio_failure env params outputPath h
      exact Or.inr ⟨h3, h4⟩
  have key2 : (BuildImageSlideshowCommand env params outputPath).tempFiles
        = materialized (resolvedPrefix env (slideshowRefs params))
          ∧ (BuildImageSlideshowCommand env params outputPath).cleaned = []
      ∨ (BuildImageSlideshowCommand env params outputPath).tempFiles = []
          ∧ ((BuildImageSlideshowCommand env params outputPath).cleaned
              = materialized (resolvedPrefix env (slideshowRefs params))
            ∨ (BuildImageSlideshowCommand env params outputPath).cleaned = []) := by
    by_cases h : (BuildImageSlideshowCommand env params outputPath).err = none
    · exact Or.inl (slideshow_success_temp env params outputPath h)
    · by_cases hne : params.ImagePaths = []
      · refine Or.inr ⟨?_, Or.inr ?_⟩ <;>
          simp [BuildImageSlideshowCommand, hne, BuildResult.fail]
      · obtain ⟨_, _, h3, h4⟩ := slideshow_failure env params outputPath hne h
        exact Or.inr ⟨h3, Or.inl h4⟩
  refine ⟨?_, ?_, ?_, ?_, ?_⟩
  · intro ref hl env2
    exact DownloadFile_local env2 ref hl
  · intro f hf
    have hm : f ∈ materialized (resolvedPrefix env [params.ImagePath, params.AudioPath]) := by
      rcases key1 with ⟨k1, k2⟩ | ⟨k1, k2⟩
      · rw [k1, k2] at hf
        simpa using hf
      · rw [k1, k2] at hf
        simpa using hf
    obtain ⟨ref, hr, hu, hd, _⟩ := mem_materialized_resolvedPrefix env _ f hm
    exact ⟨ref, hr, hu, hd⟩
  · intro f hf
    have hm : f ∈ materialized (resolvedPrefix env (slideshowRefs params)) := by
      rcases key2 with ⟨k1, k2⟩ | ⟨k1, k2 | k2⟩
      · rw [k1, k2] at hf
        simpa using hf
      · rw [k1, k2] at hf
        simpa using hf
      · rw [k1, k2] at hf
        simp at hf
    obtain ⟨ref, hr, hu, hd, _⟩ := mem_materialized_resolvedPrefix env _ f hm
    exact ⟨ref, hr, hu, hd⟩
  · intro hl
    have hm := materialized_of_local env _ hl
    rcases key1 with ⟨k1, k2⟩ | ⟨k1, k2⟩
    · exact ⟨by rw [k1, hm], k2⟩
    · exact ⟨k1, by rw [k2, hm]⟩
  · intro hl
    have hm := materialized_of_local env _ hl
    rcases key2 with ⟨k1, k2⟩ | ⟨k1, k2 | k2⟩
    · exact ⟨by rw [k1, hm], k2⟩
    · exact ⟨k1, by rw [k2, hm]⟩
    · exact ⟨k1, k2⟩

/-- Claim C27 at local inputs: "cat.jpg" is returned unchanged even when nothing
can be fetched, and the build over "cat.jpg" and "song.mp3" lists no temp
file. -/
theorem local_passthrough_witness :
    isURL "cat.jpg" = false
      ∧ DownloadFile flakyEnv "cat.jpg" = .ok "cat.jpg"
      ∧ (BuildImageAudioToVideoCommand (probeEnv 10) imageAndAudio "out.mp4").tempFiles = []
      ∧ (BuildImageAudioToVideoCommand (probeEnv 10) imageAndAudio "out.mp4").cleaned = [] := by
  have h := local_passthrough (probeEnv 10) imageAndAudio "out.mp4"
  have hl : ∀ ref ∈ [imageAndAudio.ImagePath, imageAndAudio.AudioPath], isURL ref = false := by
    intro ref hr
    simp only [List.mem_cons, List.mem_singleton, List.not_mem_nil, or_false] at hr
    rcases hr with rfl | rfl <;> decide
  exact ⟨by decide, h.1 "cat.jpg" (by decide) flakyEnv, (h.2.2.2.1 hl).1, (h.2.2.2.1 hl).2⟩

theorem imageAudio_success_args (env : Env) (params : TaskInputParams) (outputPath : String)
    (h : (BuildImageAudioToVideoCommand env params outputPath).err = none) :
    ∃ localImagePath localAudioPath,
      (BuildImageAudioToVideoCommand env params outputPath).args
        = imageAudioArgs params outputPath localImagePath localAudioPath
            (if params.FPS = 0 then 25 else params.FPS) := by
  unfold BuildImageAudioToVideoCommand at h ⊢
  cases hi : DownloadFile env params.ImagePath with
  | error e => rw [hi] at h; simp [BuildResult.fail] at h
  | ok li =>
    rw [hi] at h
    simp only at h ⊢
    cases ha : DownloadFile env params.AudioPath with
    | error e => rw [ha] at h; simp [BuildResult.fail] at h
    | ok la =>
      rw [ha] at h
      simp only at h ⊢
      cases hg : env.getAudioDuration la with
      | error e => rw [hg] at h; simp [BuildResult.fail] at h
      | ok d => exact ⟨li, la, rfl⟩

theorem slideshow_success_args (env : Env) (params : TaskInputParams) (outputPath : String)
    (h : (BuildImageSlideshowCommand env params outputPath).err = none) :
    ∃ localImagePaths localAudioPath audioDuration,
      (BuildImageSlideshowCommand env params outputPath).args
          = slideshowArgs params outputPath localImagePaths localAudioPath
              (slideshowPlan params localImagePaths.length audioDuration)
        ∧ localImagePaths.length = params.ImagePaths.length
        ∧ ((params.BackgroundAudio = "" ∧ localAudioPath = "")
          ∨ (params.BackgroundAudio ≠ ""
              ∧ DownloadFile env params.BackgroundAudio = .ok localAudioPath)) := by
  unfold BuildImageSlideshowCommand at h ⊢
  by_cases h0 : params.ImagePaths.length = 0
  · simp [h0, BuildResult.fail] at h
  simp only [h0, if_false] at h ⊢
  cases hd : downloadImages env params.ImagePaths [] [] with
  | error x =>
    obtain ⟨a, b, c⟩ := x
    rw [hd] at h
    simp [BuildResult.fail] at h
  | ok r =>
    obtain ⟨ls, tf⟩ := r
    have hlen := downloadImages_length env _ _ _ _ _ hd
    simp only [List.length_nil, Nat.zero_add] at hlen
    rw [hd] at h
    simp only at h ⊢
    by_cases hb : params.BackgroundAudio = ""
    · refine ⟨ls, "", 0, ?_, hlen, Or.inl ⟨hb, rfl⟩⟩
      simp [hb]
    · simp only [hb, ne_eq, not_false_eq_true, if_true] at h ⊢
      cases ha : DownloadFile env params.BackgroundAudio with
      | error e => rw [ha] at h; simp [BuildResult.fail] at h
      | ok la =>
        rw [ha] at h
        simp only at h ⊢
        cases hg : env.getAudioDuration la with
        | error e => rw [hg] at h; simp [BuildResult.fail] at h
        | ok d => exact ⟨ls, la, d, rfl, hlen, Or.inr ⟨trivial, rfl⟩⟩

/-- Claim C25, amended.  For every parameter set on which a builder succeeds,
and whatever the collaborators and the output path are: the argument vector of
the image-plus-audio builder carries the video codec, audio codec, video
bitrate and audio bitrate (the supplied value, or libx264, aac, 1M, 128k when
it is empty), the frame rate (the supplied fps, or 25 when it is 0) and the
pixel format yuv420p, and ends with the container (the supplied format, or mp4)
and the output path.  The vector of the slideshow builder carries the video
codec, video bitrate, frame rate, pixel format and container in the same way;
it carries the audio codec and audio bitrate only when the slideshow has an
audio input, and nothing for them when there is no background audio. -/
theorem encoding_arguments (env : Env) (params : TaskInputParams) (outputPath : String) :
    ((BuildImageAudioToVideoCommand env params outputPath).err = none →
        ∃ inputs options,
          (BuildImageAudioToVideoCommand env params outputPath).args
            = inputs
              ++ ["-c:v", if params.VideoCodec = "" then "libx264" else params.VideoCodec,
                  "-preset", "ultrafast",
                  "-c:a", if params.AudioCodec = "" then "aac" else params.AudioCodec,
                  "-b:v", if params.VideoBitrate = "" then "1M" else params.VideoBitrate,
                  "-b:a", if params.AudioBitrate = "" then "128k" else params.AudioBitrate,
                  "-r", fmtInt (if params.FPS = 0 then 25 else params.FPS),
                  "-pix_fmt", "yuv420p"]
              ++ options
              ++ ["-f", if params.OutputFormat = "" then "mp4" else params.OutputFormat,
                  "-y", outputPath])
      ∧ ((BuildImageSlideshowCommand env params outputPath).err = none →
        ∃ inputs audio,
          (BuildImageSlideshowCommand env params outputPath).args
              = inputs
                ++ ["-c:v", if params.VideoCodec = "" then "libx264" else params.VideoCodec,
                    "-preset", "ultrafast",
                    "-b:v", if params.VideoBitrate = "" then "1M" else params.VideoBitrate,
                    "-r", fmtInt (if params.FPS = 0 then 25 else params.FPS),
                    "-pix_fmt", "yuv420p"]
                ++ audio
                ++ ["-f", if params.OutputFormat = "" then "mp4" else params.OutputFormat,
                    "-y", outputPath]
            ∧ (audio = []
              ∨ audio
                = ["-c:a", if params.AudioCodec = "" then "aac" else params.AudioCodec,
                   "-b:a", if params.AudioBitrate = "" then "128k" else params.AudioBitrate,
                   "-shortest"])
            ∧ (params.BackgroundAudio = "" → audio = [])
            ∧ (params.BackgroundAudio ≠ "" → isURL params.BackgroundAudio = false →
                audio
                  = ["-c:a", if params.AudioCodec = "" then "aac" else params.AudioCodec,
                     "-b:a", if params.AudioBitrate = "" then "128k"
                       else params.AudioBitrate,
                     "-shortest"])) := by
  refine ⟨?_, ?_⟩
  · intro h
    obtain ⟨li, la, ha⟩ := imageAudio_success_args env params outputPath h
    refine ⟨["-loglevel", "info", "-stats", "-loop", "1", "-i", li, "-i", la],
      (if 0 < params.Width ∧ 0 < params.Height then
          ["-vf", "scale=" ++ fmtInt params.Width ++ ":" ++ fmtInt params.Height] else [])
        ++ (if params.AudioLoop then ["-stream_loop", "-1"] else ["-shortest"]), ?_⟩
    rw [ha]
    simp [imageAudioArgs, getVideoCodec, getAudioCodec, getVideoBitrate, getAudioBitrate,
      getOutputFormat]
  · intro h
    obtain ⟨ls, la, d, ha, _, hcase⟩ := slideshow_success_args env params outputPath h
    refine ⟨["-loglevel", "info", "-stats"]
        ++ (ls.map fun imgPath =>
              ["-loop", "1", "-t", fmtFixed2 (slideshowPlan params ls.length d).imageDuration,
               "-i", imgPath]).flatten
        ++ (if la ≠ "" then ["-i", la] else [])
        ++ ["-filter_complex",
            buildSlideshowFilter ls (slideshowPlan params ls.length d).imageDuration
              (slideshowPlan params ls.length d).transitionDur
              (slideshowPlan params ls.length d).transitionType params.Width params.Height
              (slideshowPlan params ls.length d).fps,
            "-map", "[v]"]
        ++ (if la ≠ "" then ["-map", toString ls.length ++ ":a"] else []),
      (if la ≠ "" then
          ["-c:a", getAudioCodec params.AudioCodec,
           "-b:a", getAudioBitrate params.AudioBitrate, "-shortest"] else []), ?_, ?_, ?_, ?_⟩
    · rw [ha]
      simp [slideshowArgs, slideshowPlan, getVideoCodec, getVideoBitrate, getOutputFormat]
    · by_cases hla : la = ""
      · left
        simp [hla]
      · right
        simp [hla, getAudioCodec, getAudioBitrate]
    · intro hb
      rcases hcase with ⟨_, hla⟩ | ⟨hne, _⟩
      · simp [hla]
      · exact absurd hb hne
    · intro hb hl
      rcases hcase with ⟨he, _⟩ | ⟨_, hdl⟩
      · exact absurd he hb
      · rw [DownloadFile_local env _ hl] at hdl
        simp only [Except.ok.injEq] at hdl
        have hla : la ≠ "" := by
          rw [← hdl]
          exact hb
        simp [hla, getAudioCodec, getAudioBitrate]

theorem fixed2_has_point (q : ℚ) : '.' ∈ (fixed2 q).data := by
  simp [fixed2, String.data_append]

/-- The text of `%.2f` is none of the option names of the argument vector. -/
theorem fmtFixed2_ne_option (x : F64) (s : String) (hs : '.' ∉ s.data) (h1 : s ≠ "+Inf")
    (h2 : s ≠ "-Inf") (h3 : s ≠ "NaN") : s ≠ fmtFixed2 x := by
  intro h
  cases x with
  | fin q =>
    apply hs
    rw [h]
    exact fixed2_has_point q
  | inf neg =>
    cases neg
    · exact h1 h
    · exact h2 h
  | nan => exact h3 h

theorem render_has_bracket (p : FilterPiece) : '[' ∈ p.render.data := by
  cases p with
  | scale i w h fps => simp [FilterPiece.render, String.data_append]
  | concatInput i => simp [FilterPiece.render, String.data_append]
  | concat n => simp [FilterPiece.render, String.data_append]
  | xfade a b d o c =>
    cases a <;> simp [FilterPiece.render, StreamLabel.render, String.data_append]

/-- A filter text has no character other than those of its pieces. -/
theorem filter_text_ne (imagePaths : List String) (duration transitionDur : F64)
    (transitionType : String) (width height fps : Int) (s : String)
    (hs : '[' ∉ s.data) (hne : s ≠ "") :
    buildSlideshowFilter imagePaths duration transitionDur transitionType width height fps
      ≠ s := by
  unfold buildSlideshowFilter
  rw [String.join_eq]
  generalize slideshowPieces imagePaths.length duration transitionDur transitionType
    width height fps = ps
  intro h
  cases ps with
  | nil =>
    apply hne
    rw [← h]
    rfl
  | cons p rest =>
    apply hs
    rw [← h]
    simp only [List.map_cons, List.flatten_cons, List.mem_append]
    exact Or.inl (render_has_bracket p)

theorem threeImages_args :
    (BuildImageSlideshowCommand (probeEnv 0) threeImages "out.mp4").err = none
      ∧ (BuildImageSlideshowCommand (probeEnv 0) threeImages "out.mp4").args
        = slideshowArgs threeImages "out.mp4" ["a.jpg", "b.jpg", "c.jpg"] ""
            (slideshowPlan threeImages 3 0) := by
  exact ⟨rfl, rfl⟩

/-- Claim C25 fails as stated for the audio fields: the argument vector of a
slideshow without background audio carries no audio codec and no audio
bitrate; after the mapping of the video stream it holds the video codec, the
preset, the video bitrate, the frame rate, the pixel format and the container
only. -/
theorem silent_slideshow_has_no_audio_codec :
    (BuildImageSlideshowCommand (probeEnv 0) threeImages "out.mp4").err = none
      ∧ "-c:a" ∉ (BuildImageSlideshowCommand (probeEnv 0) threeImages "out.mp4").args
      ∧ "-b:a" ∉ (BuildImageSlideshowCommand (probeEnv 0) threeImages "out.mp4").args
      ∧ ∃ inputs,
          (BuildImageSlideshowCommand (probeEnv 0) threeImages "out.mp4").args
            = inputs
              ++ ["-map", "[v]", "-c:v", "libx264", "-preset", "ultrafast", "-b:v", "1M",
                  "-r", "25", "-pix_fmt", "yuv420p", "-f", "mp4", "-y", "out.mp4"] := by
  obtain ⟨he, ha⟩ := threeImages_args
  have hfps : (slideshowPlan threeImages 3 0).fps = 25 := by
    simp [slideshowPlan, threeImages]
  have h1 : ∀ q : F64, ¬ "-c:a" = fmtFixed2 q :=
    fun q => fmtFixed2_ne_option q "-c:a" (by decide) (by decide) (by decide) (by decide)
  have h2 : ∀ q : F64, ¬ "-b:a" = fmtFixed2 q :=
    fun q => fmtFixed2_ne_option q "-b:a" (by decide) (by decide) (by decide) (by decide)
  have h3 : ∀ (l : List String) (d t : F64) (ty : String) (w h f : Int),
      ¬ "-c:a" = buildSlideshowFilter l d t ty w h f :=
    fun l d t ty w h f he => filter_text_ne l d t ty w h f "-c:a" (by decide) (by decide) he.symm
  have h4 : ∀ (l : List String) (d t : F64) (ty : String) (w h f : Int),
      ¬ "-b:a" = buildSlideshowFilter l d t ty w h f :=
    fun l d t ty w h f he => filter_text_ne l d t ty w h f "-b:a" (by decide) (by decide) he.symm
  have hvc : threeImages.VideoCodec = "" := rfl
  have hvb : threeImages.VideoBitrate = "" := rfl
  have hof : threeImages.OutputFormat = "" := rfl
  have hr : fmtInt 25 = "25" := by decide
  refine ⟨he, ?_, ?_, ?_⟩
  · rw [ha]
    simp [slideshowArgs, h1, h3, hfps, getVideoCodec, getVideoBitrate, getOutputFormat,
      hvc, hvb, hof, hr]
  · rw [ha]
    simp [slideshowArgs, h2, h4, hfps, getVideoCodec, getVideoBitrate, getOutputFormat,
      hvc, hvb, hof, hr]
  · refine ⟨["-loglevel", "info", "-stats", "-loop", "1", "-t",
        fmtFixed2 (slideshowPlan threeImages 3 0).imageDuration, "-i", "a.jpg",
        "-loop", "1", "-t", fmtFixed2 (slideshowPlan threeImages 3 0).imageDuration, "-i",
        "b.jpg",
        "-loop", "1", "-t", fmtFixed2 (slideshowPlan threeImages 3 0).imageDuration, "-i",
        "c.jpg",
        "-filter_complex",
        buildSlideshowFilter ["a.jpg", "b.jpg", "c.jpg"]
          (slideshowPlan threeImages 3 0).imageDuration
          (slideshowPlan threeImages 3 0).transitionDur
          (slideshowPlan threeImages 3 0).transitionType threeImages.Width
          threeImages.Height (slideshowPlan threeImages 3 0).fps], ?_⟩
    rw [ha]
    simp [slideshowArgs, hfps, getVideoCodec, getVideoBitrate, getOutputFormat, hvc, hvb,
      hof, hr]

/-- Claim C25, amended, with every encoding field unset.  One image over one
audio track: the vector carries libx264, aac, 1M, 128k, 25, yuv420p and mp4.
Three images without background audio: the vector carries libx264, 1M, 25,
yuv420p and mp4, and nothing for the audio. -/
theorem encoding_arguments_witness :
    (BuildImageAudioToVideoCommand (probeEnv 10) imageAndAudio "out.mp4").err = none
      ∧ (∃ inputs options,
          (BuildImageAudioToVideoCommand (probeEnv 10) imageAndAudio "out.mp4").args
            = inputs
              ++ ["-c:v", "libx264", "-preset", "ultrafast", "-c:a", "aac", "-b:v", "1M",
                  "-b:a", "128k", "-r", "25", "-pix_fmt", "yuv420p"]
              ++ options
              ++ ["-f", "mp4", "-y", "out.mp4"])
      ∧ (BuildImageSlideshowCommand (probeEnv 0) threeImages "out.mp4").err = none
      ∧ ∃ inputs,
          (BuildImageSlideshowCommand (probeEnv 0) threeImages "out.mp4").args
            = inputs
              ++ ["-c:v", "libx264", "-preset", "ultrafast", "-b:v", "1M", "-r", "25",
                  "-pix_fmt", "yuv420p"]
              ++ []
              ++ ["-f", "mp4", "-y", "out.mp4"] := by
  have herr : (BuildImageAudioToVideoCommand (probeEnv 10) imageAndAudio "out.mp4").err
      = none :=
    (imageAudio_local_frames (probeEnv 10) imageAndAudio "out.mp4" 10 (by decide) (by decide)
      rfl).1
  have herr2 : (BuildImageSlideshowCommand (probeEnv 0) threeImages "out.mp4").err = none :=
    threeImages_args.1
  obtain ⟨inputs, audio, h1, _, h3, _⟩ :=
    (encoding_arguments (probeEnv 0) threeImages "out.mp4").2 herr2
  have haudio : audio = [] := h3 rfl
  subst haudio
  exact ⟨herr, (encoding_arguments (probeEnv 10) imageAndAudio "out.mp4").1 herr, herr2,
    inputs, h1⟩

theorem successSteps_url (slideshow : Bool) (cfg : WorkerConfig) (task : Task)
    (outputPath : String) (totalFrames : Int) (result : ExecuteResult)
    (upload : Except String String) :
    ∃ before taskResult,
      (successSteps slideshow cfg task outputPath totalFrames result upload).map Step.effect
        = before
          ++ [Effect.completeTask task.ID taskResult,
              Effect.broadcastProgress task.ID
                { TaskID := task.ID, Status := TaskStatusCompleted, Progress := 100,
                  CurrentFrame := totalFrames, TotalFrames := totalFrames,
                  Message := if slideshow then "Slideshow video completed successfully"
                    else "Task completed successfully" }]
      ∧ (cfg.storageType = "qiniu" ∧ cfg.qiniuEnabled = true →
          ∀ url, upload = .ok url → taskResult.OutputURL = url)
      ∧ (cfg.storageType = "qiniu" ∧ cfg.qiniuEnabled = true →
          ∀ e, upload = .error e →
            taskResult.OutputURL
              = "/api/outputs/" ++ task.ID ++ "."
                ++ (if task.InputParams.OutputFormat = "" then "mp4"
                    else task.InputParams.OutputFormat))
      ∧ (¬ (cfg.storageType = "qiniu" ∧ cfg.qiniuEnabled = true) →
          taskResult.OutputURL
            = "/api/outputs/" ++ task.ID ++ "."
              ++ (if task.InputParams.OutputFormat = "" then "mp4"
                  else task.InputParams.OutputFormat))
      ∧ (∀ e ∈ before, ∀ t a b c d, e ≠ .failTask t a b c d) := by
  unfold successSteps
  by_cases hc : cfg.storageType = "qiniu" ∧ cfg.qiniuEnabled = true
  · have hc2 : (decide (cfg.storageType = "qiniu") && cfg.qiniuEnabled) = true := by
      simp [hc.1, hc.2]
    cases upload with
    | ok url =>
      refine ⟨[Effect.broadcastProgress task.ID
             { TaskID := task.ID, Status := TaskStatusProcessing, Progress := 100,
               CurrentFrame := totalFrames, TotalFrames := totalFrames, ETA := 0,
               Message := "Processing completed, finalizing..." },
           Effect.updateTaskProgress task.ID
             { TaskID := task.ID, Status := TaskStatusProcessing, Progress := 100,
               CurrentFrame := totalFrames, TotalFrames := totalFrames, ETA := 0 },
           .uploadFile outputPath
             ("outputs/" ++ GenerateOutputName task.ID task.InputParams.OutputFormat),
           .deleteLocalFile outputPath],
        { FFmpegCommand := result.Command, FilterGraph := result.FilterGraph,
          StderrLog := result.StderrLog, OutputFile := outputPath, OutputURL := url,
          TotalFrames := totalFrames }, ?_, ?_, ?_, ?_, ?_⟩
      · simp [hc2]
      · intro _ u hu
        cases hu
        rfl
      · intro _ e he
        cases he
      · intro hn
        exact absurd hc hn
      · intro e he
        simp only [List.mem_cons, List.mem_singleton, List.not_mem_nil, or_false] at he
        rcases he with rfl | rfl | rfl | rfl <;> simp
    | error err =>
      refine ⟨[Effect.broadcastProgress task.ID
             { TaskID := task.ID, Status := TaskStatusProcessing, Progress := 100,
               CurrentFrame := totalFrames, TotalFrames := totalFrames, ETA := 0,
               Message := "Processing completed, finalizing..." },
           Effect.updateTaskProgress task.ID
             { TaskID := task.ID, Status := TaskStatusProcessing, Progress := 100,
               CurrentFrame := totalFrames, TotalFrames := totalFrames, ETA := 0 },
           .uploadFile outputPath
             ("outputs/" ++ GenerateOutputName task.ID task.InputParams.OutputFormat)],
        { FFmpegCommand := result.Command, FilterGraph := result.FilterGraph,
          StderrLog := result.StderrLog, OutputFile := outputPath,
          OutputURL := "/api/outputs/" ++ task.ID ++ "."
            ++ (if task.InputParams.OutputFormat = "" then "mp4"
                else task.InputParams.OutputFormat),
          TotalFrames := totalFrames }, ?_, ?_, ?_, ?_, ?_⟩
      · simp [hc2, GenerateOutputName, String.append_assoc]
      · intro _ u hu
        cases hu
      · intro _ e he
        rfl
      · intro hn
        exact absurd hc hn
      · intro e he
        simp only [List.mem_cons, List.mem_singleton, List.not_mem_nil, or_false] at he
        rcases he with rfl | rfl | rfl <;> simp
  · have hc2 : ¬ (decide (cfg.storageType = "qiniu") && cfg.qiniuEnabled) = true := by
      simpa using hc
    refine ⟨[Effect.broadcastProgress task.ID
             { TaskID := task.ID, Status := TaskStatusProcessing, Progress := 100,
               CurrentFrame := totalFrames, TotalFrames := totalFrames, ETA := 0,
               Message := "Processing completed, finalizing..." },
           Effect.updateTaskProgress task.ID
             { TaskID := task.ID, Status := TaskStatusProcessing, Progress := 100,
               CurrentFrame := totalFrames, TotalFrames := totalFrames, ETA := 0 }],
        { FFmpegCommand := result.Command, FilterGraph := result.FilterGraph,
          StderrLog := result.StderrLog, OutputFile := outputPath,
          OutputURL := "/api/outputs/" ++ task.ID ++ "."
            ++ (if task.InputParams.OutputFormat = "" then "mp4"
                else task.InputParams.OutputFormat),
          TotalFrames := totalFrames }, ?_, ?_, ?_, ?_, ?_⟩
    · simp [hc2, GenerateOutputName, String.append_assoc]
    · intro h
      exact absurd h hc
    · intro h
      exact absurd h hc
    · intro _
      rfl
    · intro e he
      simp only [List.mem_cons, List.mem_singleton, List.not_mem_nil, or_false] at he
      rcases he with rfl | rfl <;> simp

/-- Claim C26.  For both bodies, when the supervisor's result is a success and
nothing panics: the body calls `CompleteTask`, publishes the `completed` event
and returns no error; `FailTask` is never called, whatever the upload does; and
the output URL handed to `CompleteTask`, which is the one persisted, is the URL
`UploadFile` returned when cloud storage is on and the upload succeeds, and
"/api/outputs/<taskID>.<format>" (format "mp4" when unset) when cloud storage
is off or the upload fails. -/
theorem upload_outcome (slideshow : Bool) (cfg : WorkerConfig) (env : Env) (task : Task)
    (run : BodyRun) (result : ExecuteResult)
    (hres : (bodyPlan slideshow cfg env task run).result = some result)
    (hs : result.Success = true) :
    ∃ before taskResult,
      (perTaskBody slideshow cfg env task run none).trace
          = before
            ++ [Effect.completeTask task.ID taskResult,
                Effect.broadcastProgress task.ID
                  { TaskID := task.ID, Status := TaskStatusCompleted, Progress := 100,
                    CurrentFrame := (buildCommand slideshow cfg env task).totalFrames,
                    TotalFrames := (buildCommand slideshow cfg env task).totalFrames,
                    Message := if slideshow then "Slideshow video completed successfully"
                      else "Task completed successfully" }]
            ++ (buildCommand slideshow cfg env task).tempFiles.map Effect.cleanupFile
        ∧ (cfg.storageType = "qiniu" → cfg.qiniuEnabled = true →
            ∀ url, run.upload = .ok url → taskResult.OutputURL = url)
        ∧ (cfg.storageType = "qiniu" → cfg.qiniuEnabled = true →
            ∀ e, run.upload = .error e →
              taskResult.OutputURL
                = "/api/outputs/" ++ task.ID ++ "."
                  ++ (if task.InputParams.OutputFormat = "" then "mp4"
                      else task.InputParams.OutputFormat))
        ∧ (¬ (cfg.storageType = "qiniu" ∧ cfg.qiniuEnabled = true) →
            taskResult.OutputURL
              = "/api/outputs/" ++ task.ID ++ "."
                ++ (if task.InputParams.OutputFormat = "" then "mp4"
                    else task.InputParams.OutputFormat))
        ∧ (∀ t a b c d, Effect.failTask t a b c d
            ∉ (perTaskBody slideshow cfg env task run none).trace)
        ∧ (perTaskBody slideshow cfg env task run none).err = none
        ∧ (persisted task (perTaskBody slideshow cfg env task run none).trace).Status
            = TaskStatusCompleted
        ∧ (persisted task (perTaskBody slideshow cfg env task run none).trace).OutputUrl
            = taskResult.OutputURL := by
  obtain ⟨b, hbd⟩ : ∃ b, buildCommand slideshow cfg env task = b := ⟨_, rfl⟩
  simp only [hbd]
  cases hb : b.err with
  | some e =>
    rw [bodyPlan_of_build_error slideshow cfg env task run e (by rw [hbd]; exact hb)] at hres
    simp at hres
  | none =>
    obtain ⟨r, reported, hx⟩ : ∃ r reported,
        Execute cfg.binaryPath b.args b.totalFrames true run.engine = (r, reported) :=
      ⟨_, _, (Prod.mk.eta).symm⟩
    have hp := bodyPlan_of_built slideshow cfg env task run b r reported hbd hb hx
    rw [hp] at hres
    simp only [Option.some.injEq] at hres
    subst hres
    have ht := body_trace_of_success slideshow cfg env task run b r reported hbd hb hx hs
    obtain ⟨pre, taskResult, hst, hu1, hu2, hu3, hpre⟩ := successSteps_url slideshow cfg task
      (GenerateOutputPath cfg task.ID task.InputParams.OutputFormat) b.totalFrames r run.upload
    rw [hst] at ht
    have herr : (perTaskBody slideshow cfg env task run none).err = none := by
      rw [perTaskBody, hp]
      simp [runPlan, hs]
    have ht2 : (perTaskBody slideshow cfg env task run none).trace
        = ([Effect.executeWithProgress b.args b.totalFrames]
            ++ (reported.map (callbackSteps slideshow task.ID b.totalFrames)).flatten.map
                Step.effect
            ++ pre)
          ++ [Effect.completeTask task.ID taskResult,
              Effect.broadcastProgress task.ID
                { TaskID := task.ID, Status := TaskStatusCompleted, Progress := 100,
                  CurrentFrame := b.totalFrames, TotalFrames := b.totalFrames,
                  Message := if slideshow then "Slideshow video completed successfully"
                    else "Task completed successfully" }]
          ++ b.tempFiles.map Effect.cleanupFile := by
      rw [ht]
      simp only [List.append_assoc, List.cons_append, List.nil_append]
    have hnw : ∀ y ∈ [Effect.broadcastProgress task.ID
          { TaskID := task.ID, Status := TaskStatusCompleted, Progress := 100,
            CurrentFrame := b.totalFrames, TotalFrames := b.totalFrames,
            Message := if slideshow then "Slideshow video completed successfully"
              else "Task completed successfully" }]
          ++ b.tempFiles.map Effect.cleanupFile,
        y.status? = none := by
      intro y hy
      rcases List.mem_append.mp hy with h1 | h2
      · rw [List.mem_singleton] at h1
        subst h1
        rfl
      · exact cleanup_no_write _ y h2
    have hper := persisted_completeTask_last task
      ([Effect.executeWithProgress b.args b.totalFrames]
        ++ (reported.map (callbackSteps slideshow task.ID b.totalFrames)).flatten.map
            Step.effect
        ++ pre)
      ([Effect.broadcastProgress task.ID
          { TaskID := task.ID, Status := TaskStatusCompleted, Progress := 100,
            CurrentFrame := b.totalFrames, TotalFrames := b.totalFrames,
            Message := if slideshow then "Slideshow video completed successfully"
              else "Task completed successfully" }]
        ++ b.tempFiles.map Effect.cleanupFile) taskResult hnw
    have ht3 : (perTaskBody slideshow cfg env task run none).trace
        = ([Effect.executeWithProgress b.args b.totalFrames]
            ++ (reported.map (callbackSteps slideshow task.ID b.totalFrames)).flatten.map
                Step.effect
            ++ pre)
          ++ [Effect.completeTask task.ID taskResult]
          ++ ([Effect.broadcastProgress task.ID
                { TaskID := task.ID, Status := TaskStatusCompleted, Progress := 100,
                  CurrentFrame := b.totalFrames, TotalFrames := b.totalFrames,
                  Message := if slideshow then "Slideshow video completed successfully"
                    else "Task completed successfully" }]
              ++ b.tempFiles.map Effect.cleanupFile) := by
      rw [ht2]
      simp only [List.append_assoc, List.cons_append, List.nil_append]
    refine ⟨_, taskResult, ht2, ?_, ?_, ?_, ?_, herr, ?_, ?_⟩
    · intro h1 h2 url hu
      exact hu1 ⟨h1, h2⟩ url hu
    · intro h1 h2 e hu
      exact hu2 ⟨h1, h2⟩ e hu
    · exact hu3
    · intro t a b2 c d hmem
      rw [ht2] at hmem
      rcases List.mem_append.mp hmem with h | h
      · rcases List.mem_append.mp h with h | h
        · rcases List.mem_append.mp h with h | h
          · rcases List.mem_append.mp h with h | h
            · rw [List.mem_singleton] at h
              cases h
            · exact (callback_effects_status slideshow task.ID _ _ _ h).2.2.1 t a b2 c d rfl
          · exact hpre _ h t a b2 c d rfl
        · simp only [List.mem_cons, List.mem_singleton, List.not_mem_nil, or_false] at h
          rcases h with h | h <;> cases h
      · obtain ⟨f, _, hf⟩ := List.mem_map.mp h
        cases hf
    · rw [ht3]
      exact hper.1
    · rw [ht3]
      exact hper.2

/-- Claim C26 with cloud storage on and an upload that fails: the task is
persisted as completed with the local URL "/api/outputs/t1.mp4", and the body
returns no error. -/
theorem upload_outcome_witness :
    ∃ result,
      (bodyPlan false cloudConfig (probeEnv 10) catTask
          { engine := quickEngine, upload := .error "upload timeout" }).result = some result
        ∧ result.Success = true
        ∧ (persisted catTask
            (perTaskBody false cloudConfig (probeEnv 10) catTask
              { engine := quickEngine, upload := .error "upload timeout" } none).trace).Status
          = TaskStatusCompleted
        ∧ (persisted catTask
            (perTaskBody false cloudConfig (probeEnv 10) catTask
              { engine := quickEngine, upload := .error "upload timeout" } none).trace).OutputUrl
          = "/api/outputs/t1.mp4"
        ∧ (perTaskBody false cloudConfig (probeEnv 10) catTask
            { engine := quickEngine, upload := .error "upload timeout" } none).err = none := by
  obtain ⟨hb, _, _⟩ := catTask_built_cloud
  obtain ⟨q1, _⟩ := quickEngine_result cloudConfig.binaryPath
    (buildCommand false cloudConfig (probeEnv 10) catTask).args
    (buildCommand false cloudConfig (probeEnv 10) catTask).totalFrames
  have hp := bodyPlan_of_built false cloudConfig (probeEnv 10) catTask
    { engine := quickEngine, upload := .error "upload timeout" } _ _ _ rfl hb
    (Prod.mk.eta).symm
  have hres : (bodyPlan false cloudConfig (probeEnv 10) catTask
      { engine := quickEngine, upload := .error "upload timeout" }).result
      = some (Execute cloudConfig.binaryPath
          (buildCommand false cloudConfig (probeEnv 10) catTask).args
          (buildCommand false cloudConfig (probeEnv 10) catTask).totalFrames true
          quickEngine).1 := by rw [hp]
  obtain ⟨before, taskResult, _, _, h2, _, _, herr, hst, hurl⟩ :=
    upload_outcome false cloudConfig (probeEnv 10) catTask
      { engine := quickEngine, upload := .error "upload timeout" } _ hres q1
  refine ⟨_, hres, q1, hst, ?_, herr⟩
  rw [hurl, h2 rfl rfl "upload timeout" rfl]
  decide

theorem registersOpen_append (xs ys : List HubOp) (h : HubState) :
    registersOpen h (xs ++ ys) ↔ registersOpen h xs ∧ registersOpen (hubRun h xs) ys := by
  induction xs generalizing h with
  | nil => simp [registersOpen, hubRun]
  | cons op rest ih =>
    have hrun : hubRun h (op :: rest) = hubRun (hubStep h op) rest := rfl
    rw [hrun]
    cases op with
    | register c =>
      show ((h.chans c).closed = false ∧ registersOpen (hubStep h (.register c)) (rest ++ ys))
        ↔ ((h.chans c).closed = false ∧ registersOpen (hubStep h (.register c)) rest) ∧ _
      rw [ih, and_assoc]
    | unregister c =>
      show registersOpen (hubStep h (.unregister c)) (rest ++ ys)
        ↔ registersOpen (hubStep h (.unregister c)) rest ∧ _
      rw [ih]
    | broadcast p =>
      show registersOpen (hubStep h (.broadcast p)) (rest ++ ys)
        ↔ registersOpen (hubStep h (.broadcast p)) rest ∧ _
      rw [ih]
    | receive c =>
      show registersOpen (hubStep h (.receive c)) (rest ++ ys)
        ↔ registersOpen (hubStep h (.receive c)) rest ∧ _
      rw [ih]

theorem hubRun_append (h : HubState) (xs ys : List HubOp) :
    hubRun h (xs ++ ys) = hubRun (hubRun h xs) ys := by
  simp [hubRun, List.foldl_append]

/-- A register step leaves every channel as it is. -/
theorem hubStep_register_chans (h : HubState) (c : Nat) :
    (hubStep h (.register c)).chans = h.chans := by
  simp only [hubStep]
  split_ifs
  · rfl
  · unfold hubRegister
    split_ifs <;> rfl

/-- One step of a hub in working order, seen from one channel: the step closes
the channel exactly when it takes the client out of the set, and a closed
channel stays closed. -/
theorem hubStep_closed (h : HubState) (hw : h.WellFormed) (op : HubOp)
    (hreg : ∀ c, op = .register c → (h.chans c).closed = false) (c : Nat) :
    (((h.chans c).closed = false ∧ ((hubStep h op).chans c).closed = true)
        ↔ (c ∈ h.clients ∧ c ∉ (hubStep h op).clients))
      ∧ ((h.chans c).closed = true → ((hubStep h op).chans c).closed = true) := by
  have hw1 := hubStep_wellFormed h hw op hreg
  by_cases hc : c ∈ h.clients
  · have hopen := hw.2 c hc
    obtain ⟨_, m2⟩ := hubStep_member h hw op c hc
    by_cases hin : c ∈ (hubStep h op).clients
    · have hopen1 := hw1.2 c hin
      refine ⟨⟨fun hx => ?_, fun hx => absurd hin hx.2⟩, fun hx => ?_⟩
      · rw [hopen1] at hx
        cases hx.2
      · rw [hopen] at hx
        cases hx
    · refine ⟨⟨fun _ => ⟨hc, hin⟩, fun _ => ⟨hopen, (m2 hin).2⟩⟩, fun hx => ?_⟩
      rw [hopen] at hx
      cases hx
  · have hsame : ((hubStep h op).chans c).closed = (h.chans c).closed := by
      by_cases hop : op = .register c
      · rw [hop, hubStep_register_chans]
      · exact (hubStep_nonmember h hw op c hc hop).2.2
    refine ⟨⟨fun hx => ?_, fun hx => absurd hx.1 hc⟩, fun hx => ?_⟩
    · rw [hsame, hx.1] at hx
      cases hx.2
    · rw [hsame]
      exact hx

/-- Claim C29.  Take a hub in working order and any steps (registrations,
unregistrations, published events, receives) in which each client is
registered with an open channel, as `WatchProgress` registers the client it has
just made.  Then `Run` never panics, that is, it never sends on a closed
channel and never closes a closed channel; after the steps every client in the
set has an open channel; every step closes a channel exactly when it takes the
client out of the set; and a closed channel stays closed, so no channel is
closed twice. -/
theorem hub_closes_once (h : HubState) (hw : h.WellFormed) (ops : List HubOp)
    (hr : registersOpen h ops) :
    (∀ j, (hubRun h (ops.take j)).panicked = false)
      ∧ (∀ c ∈ (hubRun h ops).clients, ((hubRun h ops).chans c).closed = false)
      ∧ (∀ j, j < ops.length → ∀ c,
          ((((hubRun h (ops.take j)).chans c).closed = false
              ∧ ((hubRun h (ops.take (j + 1))).chans c).closed = true)
            ↔ (c ∈ (hubRun h (ops.take j)).clients
              ∧ c ∉ (hubRun h (ops.take (j + 1))).clients)))
      ∧ (∀ j, j < ops.length → ∀ c,
          ((hubRun h (ops.take j)).chans c).closed = true →
            ((hubRun h (ops.take (j + 1))).chans c).closed = true) := by
  have hsplit : ∀ j, registersOpen h (ops.take j)
      ∧ registersOpen (hubRun h (ops.take j)) (ops.drop j) := by
    intro j
    have := hr
    rw [← List.take_append_drop j ops, registersOpen_append] at this
    exact this
  have hwf : ∀ j, (hubRun h (ops.take j)).WellFormed :=
    fun j => hubRun_wellFormed (ops.take j) h hw (hsplit j).1
  have hstep : ∀ j (hj : j < ops.length),
      hubRun h (ops.take (j + 1)) = hubStep (hubRun h (ops.take j)) (ops.get ⟨j, hj⟩)
        ∧ ∀ c, ops.get ⟨j, hj⟩ = .register c →
            ((hubRun h (ops.take j)).chans c).closed = false := by
    intro j hj
    have hd : ops.drop j = ops.get ⟨j, hj⟩ :: ops.drop (j + 1) :=
      List.drop_eq_getElem_cons hj
    refine ⟨?_, ?_⟩
    · have ht : ops.take (j + 1) = ops.take j ++ [ops.get ⟨j, hj⟩] := by
        rw [List.take_succ, List.getElem?_eq_getElem hj]
        rfl
      rw [ht, hubRun_append]
      rfl
    · have h2 := (hsplit j).2
      rw [hd] at h2
      exact (registersOpen_cons _ _ _ h2).1
  refine ⟨fun j => (hwf j).1, ?_, ?_, ?_⟩
  · have := (hwf ops.length).2
    rw [List.take_length] at this
    exact this
  · intro j hj c
    obtain ⟨e1, e2⟩ := hstep j hj
    rw [e1]
    exact (hubStep_closed _ (hwf j) _ e2 c).1
  · intro j hj c
    obtain ⟨e1, e2⟩ := hstep j hj
    rw [e1]
    exact (hubStep_closed _ (hwf j) _ e2 c).2

/-- Claim C29 at a hub with two clients, client 1 having a full queue: an
event is published, which drops client 1 and closes its queue; client 1 is then
unregistered, and client 2 after it.  `Run` does not panic, the set ends empty
and both queues end closed. -/
theorem hub_closes_once_witness :
    twoClients.WellFormed
      ∧ registersOpen twoClients [.broadcast halfwayEvent, .unregister 1, .unregister 2]
      ∧ (hubRun twoClients
          [.broadcast halfwayEvent, .unregister 1, .unregister 2]).panicked = false
      ∧ (hubRun twoClients [.broadcast halfwayEvent, .unregister 1, .unregister 2]).clients = []
      ∧ ((hubRun twoClients [.broadcast halfwayEvent]).chans 1).closed = true
      ∧ ((hubRun twoClients
          [.broadcast halfwayEvent, .unregister 1, .unregister 2]).chans 2).closed = true := by
  have hr : registersOpen twoClients [.broadcast halfwayEvent, .unregister 1, .unregister 2] :=
    trivial
  have h := hub_closes_once twoClients twoClients_wellFormed
    [.broadcast halfwayEvent, .unregister 1, .unregister 2] hr
  exact ⟨twoClients_wellFormed, hr, h.1 3, by decide, by decide, by decide⟩

/-- Claim C30, checked on the code.  For a task whose type tag is neither
"image_audio_to_video" nor "image_slideshow", `ProcessTask` marks the task
`processing`, publishes the first event, and returns the error "unknown task
type: ..." without calling `FailTask`: the only status written is
`processing`, and the task is left `processing` in persistence. -/
theorem unknown_type_stays_processing :
    (ProcessTask localConfig (probeEnv 10) (.ok "t3") unknownStore {} none none).err
        = some "unknown task type: video_concat"
      ∧ (ProcessTask localConfig (probeEnv 10) (.ok "t3") unknownStore {} none none).trace
        = [Effect.updateTaskProgress "t3" { TaskID := "t3", Status := TaskStatusProcessing },
           Effect.broadcastProgress "t3"
             { TaskID := "t3", Status := TaskStatusProcessing, Progress := 0,
               Message := "Task started processing" }]
      ∧ statusWrites
          (ProcessTask localConfig (probeEnv 10) (.ok "t3") unknownStore {} none none).trace
        = [TaskStatusProcessing]
      ∧ (persisted unknownTask
          (ProcessTask localConfig (probeEnv 10) (.ok "t3") unknownStore {} none none).trace).Status
        = TaskStatusProcessing
      ∧ isTerminal TaskStatusProcessing = false := by
  refine ⟨?_, ?_, ?_, ?_, ?_⟩
  · decide
  · rfl
  · rfl
  · rfl
  · decide

set_option maxRecDepth 100000 in
/-- Claim C21, checked on the code.  With the default temp directory
"./storage/temp", `DownloadFile` builds the local path with `filepath.Join`,
which cleans it to "storage/temp/<uuid>.jpg"; `CleanupFile` then tests
`strings.HasPrefix(path, "./storage/temp")`, which is false, and returns
without removing the file.  The builder lists the download among its temp
files, and `CleanupTempFiles` removes none of them.  With the temp directory
"storage/temp" the same file passes the guard. -/
theorem default_temp_dir_is_never_cleaned :
    (NewDownloader defaultTempDir).DownloadFile (smoothRun "http://ok.example/a.jpg")
        "http://ok.example/a.jpg"
        = .ok "storage/temp/7c9e6679-7425-40de-944b-e07fc1f90ae7.jpg"
      ∧ (NewDownloader defaultTempDir).CleanupFile
          "storage/temp/7c9e6679-7425-40de-944b-e07fc1f90ae7.jpg" = none
      ∧ (BuildImageAudioToVideoCommand
          (downloaderEnv (NewDownloader defaultTempDir) smoothRun (fun _ => .ok 10))
          remoteImageAndAudio "out.mp4").tempFiles
        = ["storage/temp/7c9e6679-7425-40de-944b-e07fc1f90ae7.jpg"]
      ∧ CleanupTempFiles (NewDownloader defaultTempDir)
          (BuildImageAudioToVideoCommand
            (downloaderEnv (NewDownloader defaultTempDir) smoothRun (fun _ => .ok 10))
            remoteImageAndAudio "out.mp4").tempFiles = []
      ∧ (NewDownloader "storage/temp").DownloadFile (smoothRun "http://ok.example/a.jpg")
          "http://ok.example/a.jpg"
        = .ok "storage/temp/7c9e6679-7425-40de-944b-e07fc1f90ae7.jpg"
      ∧ (NewDownloader "storage/temp").CleanupFile
          "storage/temp/7c9e6679-7425-40de-944b-e07fc1f90ae7.jpg"
        = some "storage/temp/7c9e6679-7425-40de-944b-e07fc1f90ae7.jpg" := by
  have h1 : (NewDownloader defaultTempDir).DownloadFile (smoothRun "http://ok.example/a.jpg")
      "http://ok.example/a.jpg"
      = .ok "storage/temp/7c9e6679-7425-40de-944b-e07fc1f90ae7.jpg" := by
    rfl
  have h2 : (NewDownloader defaultTempDir).CleanupFile
      "storage/temp/7c9e6679-7425-40de-944b-e07fc1f90ae7.jpg" = none := by
    decide
  have h3 : (BuildImageAudioToVideoCommand
      (downloaderEnv (NewDownloader defaultTempDir) smoothRun (fun _ => .ok 10))
      remoteImageAndAudio "out.mp4").tempFiles
      = ["storage/temp/7c9e6679-7425-40de-944b-e07fc1f90ae7.jpg"] := by
    rfl
  refine ⟨h1, h2, h3, ?_, ?_, ?_⟩
  · rw [h3]
    decide
  · rfl
  · decide

theorem validateImagePaths_error_iff (probe : String → Except String Unit) (i : Nat)
    (ps : List String) :
    (∃ e, validateImagePaths probe i ps = .error e)
      ↔ ∃ p ∈ ps, p ≠ "" ∧ ∃ e, probe p = .error e := by
  induction ps generalizing i with
  | nil => simp [validateImagePaths]
  | cons p rest ih =>
    by_cases hp : p = ""
    · simp only [validateImagePaths, hp, if_true, ih, List.mem_cons, exists_eq_or_imp,
        ne_eq, not_true_eq_false, false_and, false_or]
    · cases hv : probe p with
      | error e =>
        simp only [validateImagePaths, hp, if_false, ValidateFile, hv]
        constructor
        · intro _
          exact ⟨p, List.mem_cons_self _ _, hp, e, hv⟩
        · intro _
          exact ⟨_, rfl⟩
      | ok u =>
        simp only [validateImagePaths, hp, if_false, ValidateFile, hv, ih, List.mem_cons,
          exists_eq_or_imp]
        constructor
        · intro h
          exact Or.inr h
        · rintro (⟨_, e, he⟩ | h)
          · cases he
          · exact h

theorem validateFile_error_iff (probe : String → Except String Unit) (p : String) :
    (∃ e, ValidateFile probe p = .error e) ↔ ∃ e, probe p = .error e := by
  unfold ValidateFile
  cases probe p with
  | error e => simp
  | ok u => simp

/-- Claim C23, amended.  `ValidateInputs` returns an error exactly when: the
image list is not empty and some non-empty entry of it fails the probe; or the
image list is empty and the single image is non-empty and fails the probe; or
the audio path is non-empty and fails the probe; or the audio path is empty and
the background audio is non-empty and fails the probe.  (A single image next to
a non-empty image list, and a background audio next to a non-empty audio path,
are not probed.)  Whenever `ValidateInputs` returns an error, `CreateTask`
returns the error "validation failed: ..." and makes no call to the database
or to the job queue. -/
theorem validation_gates_creation (probe : String → Except String Unit)
    (params : TaskInputParams) :
    ((∃ e, ValidateInputs probe params = .error e)
        ↔ ((params.ImagePaths ≠ [] ∧ ∃ p ∈ params.ImagePaths, p ≠ "" ∧ ∃ e, probe p = .error e)
          ∨ (params.ImagePaths = [] ∧ params.ImagePath ≠ ""
              ∧ ∃ e, probe params.ImagePath = .error e)
          ∨ (params.AudioPath ≠ "" ∧ ∃ e, probe params.AudioPath = .error e)
          ∨ (params.AudioPath = "" ∧ params.BackgroundAudio ≠ ""
              ∧ ∃ e, probe params.BackgroundAudio = .error e)))
      ∧ (∀ (env : CreateEnv) (taskType e : String), env.probe = probe →
          ValidateInputs probe params = .error e →
          CreateTask env taskType params = (.error ("validation failed: " ++ e), [])) := by
  refine ⟨?_, ?_⟩
  · have himg : (∃ e, validateImages probe params = .error e)
        ↔ ((params.ImagePaths ≠ [] ∧ ∃ p ∈ params.ImagePaths, p ≠ "" ∧ ∃ e, probe p = .error e)
          ∨ (params.ImagePaths = [] ∧ params.ImagePath ≠ ""
              ∧ ∃ e, probe params.ImagePath = .error e)) := by
      unfold validateImages
      by_cases hl : params.ImagePaths = []
      · have h0 : ¬ 0 < params.ImagePaths.length := by simp [hl]
        rw [if_neg h0]
        by_cases hi : params.ImagePath = ""
        · simp [hl, hi]
        · have hv := validateFile_error_iff probe params.ImagePath
          cases hvf : ValidateFile probe params.ImagePath with
          | error e =>
            have := hv.mp ⟨e, hvf⟩
            simp [hl, hi, this]
          | ok u =>
            have hn : ¬ ∃ e, probe params.ImagePath = .error e := by
              intro hx
              obtain ⟨e, he⟩ := hv.mpr hx
              rw [hvf] at he
              cases he
            simp [hl, hi, hn]
      · have h0 : 0 < params.ImagePaths.length := List.length_pos.mpr hl
        rw [if_pos h0, validateImagePaths_error_iff]
        simp [hl]
    have haud : (∃ e, validateAudio probe params = .error e)
        ↔ ((params.AudioPath ≠ "" ∧ ∃ e, probe params.AudioPath = .error e)
          ∨ (params.AudioPath = "" ∧ params.BackgroundAudio ≠ ""
              ∧ ∃ e, probe params.BackgroundAudio = .error e)) := by
      unfold validateAudio
      by_cases ha : params.AudioPath = ""
      · by_cases hb : params.BackgroundAudio = ""
        · simp [ha, hb]
        · have hv := validateFile_error_iff probe params.BackgroundAudio
          cases hvf : ValidateFile probe params.BackgroundAudio with
          | error e =>
            have := hv.mp ⟨e, hvf⟩
            simp [ha, hb, this]
          | ok u =>
            have hn : ¬ ∃ e, probe params.BackgroundAudio = .error e := by
              intro hx
              obtain ⟨e, he⟩ := hv.mpr hx
              rw [hvf] at he
              cases he
            simp [ha, hb, hn]
      · have hv := validateFile_error_iff probe params.AudioPath
        cases hvf : ValidateFile probe params.AudioPath with
        | error e =>
          have := hv.mp ⟨e, hvf⟩
          simp [ha, this]
        | ok u =>
          have hn : ¬ ∃ e, probe params.AudioPath = .error e := by
            intro hx
            obtain ⟨e, he⟩ := hv.mpr hx
            rw [hvf] at he
            cases he
          simp [ha, hn]
    unfold ValidateInputs
    cases hvi : validateImages probe params with
    | error e =>
      have h1 := himg.mp ⟨e, hvi⟩
      constructor
      · intro _
        rcases h1 with h | h
        · exact Or.inl h
        · exact Or.inr (Or.inl h)
      · intro _
        exact ⟨e, rfl⟩
    | ok u =>
      have hn : ¬ ∃ e, validateImages probe params = .error e := by
        rintro ⟨e, he⟩
        rw [hvi] at he
        cases he
      rw [himg] at hn
      simp only
      rw [haud]
      constructor
      · rintro (h | h)
        · exact Or.inr (Or.inr (Or.inl h))
        · exact Or.inr (Or.inr (Or.inr h))
      · rintro (h | h | h | h)
        · exact absurd (Or.inl h) hn
        · exact absurd (Or.inr h) hn
        · exact Or.inl h
        · exact Or.inr h
  · intro env taskType e hp hv
    unfold CreateTask
    rw [hp, hv]

/-- Claim C23 fails as stated.  The parameters carry a non-empty image list
and the single image "broken.jpg", which fails the probe: `ValidateInputs`
probes the list only and returns no error, and `CreateTask` for the type
"image_audio_to_video", whose builder reads the single image, stores the task
and enqueues its job. -/
theorem shadowed_image_is_not_validated :
    mixedParams.ImagePath ≠ ""
      ∧ pickyProbe mixedParams.ImagePath = .error "exit status 1"
      ∧ ValidateInputs pickyProbe mixedParams = .ok ()
      ∧ (CreateTask { probe := pickyProbe, newID := "t4" } "image_audio_to_video"
          mixedParams).2
        = [.dbCreate mixedTask, .enqueue "t4"]
      ∧ "broken.jpg"
          ∈ (BuildImageAudioToVideoCommand (probeEnv 10) mixedParams "out.mp4").args := by
  refine ⟨by decide, rfl, rfl, rfl, ?_⟩
  have h : (BuildImageAudioToVideoCommand (probeEnv 10) mixedParams "out.mp4").args
      = imageAudioArgs mixedParams "out.mp4" "broken.jpg" "song.mp3" 25 := rfl
  rw [h]
  simp [imageAudioArgs]

/-- Claim C23, amended, at a single image that fails the probe: `ValidateInputs`
returns an error and `CreateTask` stores and enqueues nothing. -/
theorem validation_gates_creation_witness :
    (∃ e, ValidateInputs pickyProbe { ImagePath := "broken.jpg", AudioPath := "song.mp3" }
        = .error e)
      ∧ (CreateTask { probe := pickyProbe, newID := "t5" } "image_audio_to_video"
          { ImagePath := "broken.jpg", AudioPath := "song.mp3" }).2 = [] := by
  have h := validation_gates_creation pickyProbe
    { ImagePath := "broken.jpg", AudioPath := "song.mp3" }
  have he : ∃ e, ValidateInputs pickyProbe
      { ImagePath := "broken.jpg", AudioPath := "song.mp3" } = .error e :=
    h.1.mpr (Or.inr (Or.inl ⟨rfl, by decide, "exit status 1", rfl⟩))
  obtain ⟨e, hv⟩ := he
  refine ⟨⟨e, hv⟩, ?_⟩
  rw [h.2 { probe := pickyProbe, newID := "t5" } "image_audio_to_video" e rfl hv]

theorem forwardLoop_returned (run : WatchRun) (k : Nat) (queue : List TaskProgress)
    (h : (forwardLoop run k queue).2 = true) :
    run.send.closed = true ∨ ∃ j, j < queue.length ∧ run.writeOk (k + j) = false := by
  induction queue generalizing k with
  | nil => exact Or.inl h
  | cons p rest ih =>
    by_cases hw : run.writeOk k = true
    · simp only [forwardLoop, hw, if_true] at h
      rcases ih (k + 1) h with hc | ⟨j, hj, hf⟩
      · exact Or.inl hc
      · refine Or.inr ⟨j + 1, by simp only [List.length_cons]; omega, ?_⟩
        rw [← hf]
        congr 1
        omega
    · refine Or.inr ⟨0, by simp, ?_⟩
      simpa using hw

/-- Claim C24, amended.  When the task is found, the upgrade works and the
first write works, the first event the subscriber receives is the stored state
of the task: its status, progress, frame counters and ETA, with the message
"Connected to progress stream".  When nothing is placed in the subscriber's
queue afterwards, that event is the only one it receives.  The handler returns,
which ends the stream, only when the queue has been closed or a write has
failed; with an empty, open queue it does not return. -/
theorem late_subscriber (run : WatchRun) (task : Task)
    (hg : run.getTask = .ok task) (hu : run.upgradeOk = true) (hw : run.writeOk 0 = true) :
    (WatchProgress run).written.head? = some (currentProgress task (run.clock 0))
      ∧ (currentProgress task (run.clock 0)).Status = task.Status
      ∧ (currentProgress task (run.clock 0)).Progress = task.Progress
      ∧ (currentProgress task (run.clock 0)).CurrentFrame = task.CurrentFrame
      ∧ (currentProgress task (run.clock 0)).TotalFrames = task.TotalFrames
      ∧ (run.send.sent = [] →
          (WatchProgress run).written = [currentProgress task (run.clock 0)])
      ∧ (run.send.sent = [] → run.send.closed = false → (WatchProgress run).returned = false)
      ∧ ((WatchProgress run).returned = true →
          run.send.closed = true
            ∨ ∃ j, j < run.send.sent.length ∧ run.writeOk (1 + j) = false) := by
  have hwp : WatchProgress run
      = { registered := true,
          written := currentProgress task (run.clock 0)
            :: (forwardLoop run 1 run.send.sent).1,
          returned := (forwardLoop run 1 run.send.sent).2 } := by
    simp [WatchProgress, hg, hu, hw]
  rw [hwp]
  refine ⟨rfl, rfl, rfl, rfl, rfl, ?_, ?_, ?_⟩
  · intro hs
    simp [hs, forwardLoop]
  · intro hs hc
    simp [hs, forwardLoop, hc]
  · intro hr
    exact forwardLoop_returned run 1 run.send.sent hr

/-- Claim C24 fails as stated.  A subscriber attaches to the completed task
through a fresh hub; nothing is published afterwards and nothing closes its
queue (the handler itself unregisters the client only after it returns).  The
subscriber receives the one event of the current state, `completed` with
progress 100 and frame 250 of 250, and then the handler waits on the open queue
and does not return: the stream does not end. -/
theorem late_stream_stays_open :
    ((hubRun emptyHub [.register 1]).chans 1).sent = []
      ∧ ((hubRun emptyHub [.register 1]).chans 1).closed = false
      ∧ (WatchProgress
          { getTask := .ok completedTask,
            send := (hubRun emptyHub [.register 1]).chans 1 }).written
        = [{ TaskID := "t1", Status := TaskStatusCompleted, Progress := 100,
             CurrentFrame := 250, TotalFrames := 250,
             Message := "Connected to progress stream" }]
      ∧ (WatchProgress
          { getTask := .ok completedTask,
            send := (hubRun emptyHub [.register 1]).chans 1 }).returned = false := by
  exact ⟨rfl, rfl, rfl, rfl⟩

/-- Claim C24, amended, at the completed task with an empty open queue: one
event is received, and the handler does not return. -/
theorem late_subscriber_witness :
    (WatchProgress { getTask := .ok completedTask }).written
        = [currentProgress completedTask 0]
      ∧ (WatchProgress { getTask := .ok completedTask }).returned = false := by
  have h := late_subscriber { getTask := .ok completedTask } completedTask rfl rfl rfl
  exact ⟨h.2.2.2.2.2.1 rfl, h.2.2.2.2.2.2.1 rfl rfl⟩

theorem fadeChain_one (duration transitionDur : F64) :
    fadeChain 1 duration transitionDur
      = [.xfade (.v 0) (.v 1) transitionDur (duration - transitionDur) (.vt 1)] := by
  simp [fadeChain]

/-- Claim C28, checked on the code.  For one image and the transition "fade"
(the default), `buildSlideshowFilter` takes the branch written for three or
more images: the graph is the scale chain of image 0 followed by one cross-fade
that reads `[v0]` and `[v1]` and produces `[vt1]`.  No stage produces `[v1]`,
and no stage produces `[v]`, which the command maps: the graph is not well
formed.  `BuildImageSlideshowCommand` accepts a list of one image and returns
this graph with `-map [v]`. -/
theorem single_image_fade_graph (duration transitionDur : F64) (width height fps : Int) :
    slideshowPieces 1 duration transitionDur "fade" width height fps
        = [.scale 0 (if width = 0 then 1280 else width) (if height = 0 then 720 else height)
            fps,
           .xfade (.v 0) (.v 1) transitionDur (duration - transitionDur) (.vt 1)]
      ∧ wellFormedGraph 1
          (slideshowPieces 1 duration transitionDur "fade" width height fps) = false
      ∧ StreamLabel.v 1
          ∉ (slideshowPieces 1 duration transitionDur "fade" width height fps).filterMap
              FilterPiece.produces?
      ∧ StreamLabel.out
          ∉ (slideshowPieces 1 duration transitionDur "fade" width height fps).filterMap
              FilterPiece.produces?
      ∧ (BuildImageSlideshowCommand (probeEnv 0) oneImage "out.mp4").err = none
      ∧ ∃ inputs options,
          (BuildImageSlideshowCommand (probeEnv 0) oneImage "out.mp4").args
            = inputs
              ++ ["-filter_complex", buildSlideshowFilter ["a.jpg"] (.fin 3) (.fin (1 / 2)) "fade" 0 0 25,
                  "-map", "[v]"]
              ++ options := by
  have hp : slideshowPieces 1 duration transitionDur "fade" width height fps
      = [.scale 0 (if width = 0 then 1280 else width) (if height = 0 then 720 else height)
          fps,
         .xfade (.v 0) (.v 1) transitionDur (duration - transitionDur) (.vt 1)] := by
    rw [slideshowPieces_fade, fadeChain_one]
    rfl
  have hargs : (BuildImageSlideshowCommand (probeEnv 0) oneImage "out.mp4").args
      = slideshowArgs oneImage "out.mp4" ["a.jpg"] "" (slideshowPlan oneImage 1 0) := rfl
  have hplan : (slideshowPlan oneImage 1 0).imageDuration = .fin 3
      ∧ (slideshowPlan oneImage 1 0).transitionDur = .fin (1 / 2)
      ∧ (slideshowPlan oneImage 1 0).transitionType = "fade"
      ∧ (slideshowPlan oneImage 1 0).fps = 25 := by
    have hd : f64Round oneImage.ImageDuration = .fin 0 := f64Round_zero
    have ht : f64Round oneImage.TransitionDur = .fin 0 := f64Round_zero
    have hty : oneImage.TransitionType = "" := rfl
    have hf : oneImage.FPS = 0 := rfl
    simp [slideshowPlan, hd, ht, hty, hf]
  refine ⟨hp, ?_, ?_, ?_, rfl, ?_⟩
  · rw [hp]
    rfl
  · rw [hp]
    simp [FilterPiece.produces?]
  · rw [hp]
    simp [FilterPiece.produces?]
  · refine ⟨["-loglevel", "info", "-stats", "-loop", "1", "-t",
        fmtFixed2 (slideshowPlan oneImage 1 0).imageDuration, "-i", "a.jpg"],
      ["-c:v", "libx264", "-preset", "ultrafast", "-b:v", "1M", "-r", "25",
       "-pix_fmt", "yuv420p", "-f", "mp4", "-y", "out.mp4"], ?_⟩
    rw [hargs]
    have hw : oneImage.Width = 0 := rfl
    have hh : oneImage.Height = 0 := rfl
    have hvc : oneImage.VideoCodec = "" := rfl
    have hvb : oneImage.VideoBitrate = "" := rfl
    have hof : oneImage.OutputFormat = "" := rfl
    have hr : fmtInt 25 = "25" := by decide
    simp [slideshowArgs, hplan.1, hplan.2.1, hplan.2.2.1, hplan.2.2.2, hw, hh, hvc, hvb, hof,
      hr, getVideoCodec, getVideoBitrate, getOutputFormat]

theorem readsResolved_append (produced : List StreamLabel) (xs ys : List FilterPiece) :
    readsResolved produced (xs ++ ys)
      = (readsResolved produced xs
          && readsResolved (produced ++ xs.filterMap FilterPiece.produces?) ys) := by
  induction xs generalizing produced with
  | nil => simp [readsResolved]
  | cons p rest ih =>
    cases hp : p.produces? with
    | none =>
      simp [readsResolved, ih, hp, List.filterMap_cons, Bool.and_assoc]
    | some l =>
      simp [readsResolved, ih, hp, List.filterMap_cons, Bool.and_assoc, List.append_assoc]

theorem readsResolved_mono (produced more : List StreamLabel) (ps : List FilterPiece)
    (hsub : ∀ l ∈ produced, l ∈ more) (h : readsResolved produced ps = true) :
    readsResolved more ps = true := by
  induction ps generalizing produced more with
  | nil => rfl
  | cons p rest ih =>
    simp only [readsResolved, Bool.and_eq_true, List.all_eq_true, decide_eq_true_eq] at h ⊢
    refine ⟨fun l hl => hsub l (h.1 l hl), ih _ _ ?_ h.2⟩
    intro l hl
    rcases List.mem_append.mp hl with h1 | h1
    · exact List.mem_append_left _ (hsub l h1)
    · exact List.mem_append_right _ h1

theorem scalePieces_reads (n : Nat) (w h fps : Int) (produced : List StreamLabel) :
    readsResolved produced (scalePieces n w h fps) = true := by
  unfold scalePieces
  generalize List.range n = l
  induction l generalizing produced with
  | nil => rfl
  | cons i rest ih => simp [readsResolved, FilterPiece.reads, ih]

theorem scalePieces_produces (n : Nat) (w h fps : Int) :
    (scalePieces n w h fps).filterMap FilterPiece.produces?
      = (List.range n).map StreamLabel.v := by
  unfold scalePieces
  generalize List.range n = l
  induction l with
  | nil => rfl
  | cons i rest ih => simp [List.filterMap_cons, FilterPiece.produces?, ih]

theorem scalePieces_inputs (n : Nat) (w h fps : Int) :
    (scalePieces n w h fps).filterMap FilterPiece.input? = List.range n := by
  unfold scalePieces
  generalize List.range n = l
  induction l with
  | nil => rfl
  | cons i rest ih => simp [List.filterMap_cons, FilterPiece.input?, ih]

theorem fadeLoopBody_reads (n : Nat) (d t : F64) (i : Nat) :
    (fadeLoopBody n d t i).reads = [.vt (i - 1), .v i] := by
  unfold fadeLoopBody
  simp only
  split_ifs <;> rfl

theorem fadeLoopBody_produces (n : Nat) (d t : F64) (i : Nat) (_hn : 1 ≤ n) :
    (fadeLoopBody n d t i).produces? = some (if i + 1 = n then .out else .vt i) := by
  unfold fadeLoopBody
  simp only
  have hiff : ((i : Int) = (n : Int) - 1) ↔ i + 1 = n := by omega
  by_cases hi : i + 1 = n
  · rw [if_pos (hiff.mpr hi), if_pos hi]
    rfl
  · rw [if_neg (fun hx => hi (hiff.mp hx)), if_neg hi]
    rfl

theorem fadeLoopBody_input (n : Nat) (d t : F64) (i : Nat) :
    (fadeLoopBody n d t i).input? = none := by
  unfold fadeLoopBody
  simp only
  split_ifs <;> rfl

/-- The loop of the fade branch from index `a` on, `m` rounds ending at the
last image: every round reads what is there, only the last round produces
`[v]`, and it is the last stage. -/
theorem fadeLoop_wellFormed (n : Nat) (d t : F64) (m : Nat) :
    ∀ (a : Nat) (produced : List StreamLabel), a + (m + 1) = n → 1 ≤ a →
      (∀ i, i < n → StreamLabel.v i ∈ produced) → StreamLabel.vt (a - 1) ∈ produced →
      readsResolved produced
          ((List.range (m + 1)).map fun j => fadeLoopBody n d t (j + a)) = true
        ∧ (((List.range (m + 1)).map fun j => fadeLoopBody n d t (j + a)).filterMap
            FilterPiece.produces?).count .out = 1
        ∧ (((List.range (m + 1)).map fun j => fadeLoopBody n d t (j + a)).getLast?).bind
            FilterPiece.produces? = some .out := by
  induction m with
  | zero =>
    intro a produced ha h1 hv hvt
    have hn : 1 ≤ n := by omega
    have hlast : a + 1 = n := by omega
    have hr1 : List.range (0 + 1) = [0] := rfl
    rw [hr1]
    simp only [Nat.zero_add, List.map_cons, List.map_nil, readsResolved,
      fadeLoopBody_reads, List.filterMap_cons, fadeLoopBody_produces n d t a hn, if_pos hlast,
      List.filterMap_nil, List.getLast?_singleton, Option.bind_some]
    refine ⟨?_, by decide, ?_⟩
    · simp [hvt, hv a (by omega)]
    · show (fadeLoopBody n d t a).produces? = some StreamLabel.out
      rw [fadeLoopBody_produces n d t a hn, if_pos hlast]
  | succ m ih =>
    intro a produced ha h1 hv hvt
    have hn : 1 ≤ n := by omega
    have hnot : ¬ a + 1 = n := by omega
    have hsplit : ((List.range (m + 1 + 1)).map fun j => fadeLoopBody n d t (j + a))
        = fadeLoopBody n d t a
          :: ((List.range (m + 1)).map fun j => fadeLoopBody n d t (j + (a + 1))) := by
      rw [List.range_succ_eq_map, List.map_cons, List.map_map]
      simp only [Nat.zero_add, List.cons.injEq, true_and]
      apply List.map_congr_left
      intro j _
      simp only [Function.comp, Nat.succ_eq_add_one]
      congr 1
      omega
    obtain ⟨r1, r2, r3⟩ := ih (a + 1) (produced ++ [.vt a]) (by omega) (by omega)
      (fun i hi => List.mem_append_left _ (hv i hi))
      (by simp)
    rw [hsplit]
    generalize ((List.range (m + 1)).map fun j => fadeLoopBody n d t (j + (a + 1))) = rest
      at r1 r2 r3 ⊢
    refine ⟨?_, ?_, ?_⟩
    · simp only [readsResolved, fadeLoopBody_reads, fadeLoopBody_produces n d t a hn,
        if_neg hnot, Option.toList_some, Bool.and_eq_true, List.all_eq_true,
        decide_eq_true_eq]
      refine ⟨?_, r1⟩
      intro l hl
      simp only [List.mem_cons, List.mem_singleton, List.not_mem_nil, or_false] at hl
      rcases hl with rfl | rfl
      · exact hvt
      · exact hv a (by omega)
    · rw [List.filterMap_cons, fadeLoopBody_produces n d t a hn, if_neg hnot]
      simp only
      rw [List.count_cons, r2]
      simp
    · rw [List.getLast?_cons]
      cases hl : rest.getLast? with
      | none =>
        rw [hl] at r3
        cases r3
      | some z =>
        rw [hl] at r3
        simpa using r3

theorem wellFormed_of_chain (n : Nat) (w h fps : Int) (chain : List FilterPiece)
    (hin : chain.filterMap FilterPiece.input? = [])
    (hrr : readsResolved ((List.range n).map StreamLabel.v) chain = true)
    (hcount : (chain.filterMap FilterPiece.produces?).count .out = 1)
    (hlast : chain.getLast?.bind FilterPiece.produces? = some .out) :
    wellFormedGraph n (scalePieces n w h fps ++ chain) = true := by
  unfold wellFormedGraph
  have h1 : ((scalePieces n w h fps ++ chain).filterMap FilterPiece.input?).all
      (fun i => decide (i < n)) = true := by
    rw [List.filterMap_append, scalePieces_inputs, hin, List.append_nil]
    simp [List.all_eq_true]
  have h2 : readsResolved [] (scalePieces n w h fps ++ chain) = true := by
    rw [readsResolved_append, scalePieces_reads, scalePieces_produces, List.nil_append, hrr]
    rfl
  have h3 : ((scalePieces n w h fps ++ chain).filterMap FilterPiece.produces?).count .out
      = 1 := by
    rw [List.filterMap_append, scalePieces_produces, List.count_append, hcount]
    have h0 : ((List.range n).map StreamLabel.v).count .out = 0 := by
      rw [List.count_eq_zero]
      intro hm
      obtain ⟨i, _, hi⟩ := List.mem_map.mp hm
      cases hi
    rw [h0]
  have h4 : (scalePieces n w h fps ++ chain).getLast?.bind FilterPiece.produces?
      = some .out := by
    rw [List.getLast?_append]
    cases hl : chain.getLast? with
    | none =>
      rw [hl] at hlast
      cases hlast
    | some z =>
      rw [hl] at hlast
      simpa using hlast
  rw [h1, h2, decide_eq_true h3, decide_eq_true h4]
  rfl

theorem concatInputs_reads (produced : List StreamLabel) (l : List Nat)
    (h : ∀ i ∈ l, StreamLabel.v i ∈ produced) :
    readsResolved produced (l.map fun i => FilterPiece.concatInput i) = true := by
  induction l with
  | nil => rfl
  | cons i rest ih =>
    simp only [List.map_cons, readsResolved, FilterPiece.reads, FilterPiece.produces?,
      Option.toList_none, List.append_nil, Bool.and_eq_true, List.all_eq_true,
      decide_eq_true_eq]
    refine ⟨?_, ih (fun j hj => h j (List.mem_cons_of_mem _ hj))⟩
    intro l hl
    rw [List.mem_singleton] at hl
    subst hl
    exact h i (List.mem_cons_self _ _)

theorem concatInputs_produces (l : List Nat) :
    (l.map fun i => FilterPiece.concatInput i).filterMap FilterPiece.produces? = [] := by
  induction l with
  | nil => rfl
  | cons i rest ih => simp [List.filterMap_cons, FilterPiece.produces?, ih]

theorem concatInputs_inputs (l : List Nat) :
    (l.map fun i => FilterPiece.concatInput i).filterMap FilterPiece.input? = [] := by
  induction l with
  | nil => rfl
  | cons i rest ih => simp [List.filterMap_cons, FilterPiece.input?, ih]

theorem fadeLoop_inputs (n : Nat) (d t : F64) (l : List Nat) :
    (l.map fun i => fadeLoopBody n d t i).filterMap FilterPiece.input? = [] := by
  induction l with
  | nil => rfl
  | cons i rest ih => simp [List.filterMap_cons, fadeLoopBody_input, ih]

/-- For the transition "none" and at least one image, and for every other
transition type and at least two images, the graph of `buildSlideshowFilter`
is well formed: every `scale` chain reads one
of the inputs, every label a `concat` or `xfade` stage reads is produced by an
earlier stage, and exactly one stage, the last, produces `[v]`. -/
theorem slideshow_graph_wellFormed (n : Nat) (d t : F64) (ty : String) (w h fps : Int)
    (hn : (ty = "none" ∧ 1 ≤ n) ∨ (ty ≠ "none" ∧ 2 ≤ n)) :
    wellFormedGraph n (slideshowPieces n d t ty w h fps) = true := by
  have hv : ∀ i, i < n → StreamLabel.v i ∈ (List.range n).map StreamLabel.v :=
    fun i hi => List.mem_map.mpr ⟨i, List.mem_range.mpr hi, rfl⟩
  rcases hn with ⟨hty, _⟩ | ⟨hty, h2⟩
  · subst hty
    rw [slideshowPieces, if_pos rfl, List.append_assoc]
    apply wellFormed_of_chain
    · rw [List.filterMap_append, concatInputs_inputs]
      rfl
    · rw [readsResolved_append, concatInputs_reads _ _ (fun i hi => hv i (List.mem_range.mp hi))]
      rfl
    · rw [List.filterMap_append, concatInputs_produces]
      rfl
    · rw [List.getLast?_append]
      rfl
  · have hfade : slideshowPieces n d t ty w h fps = slideshowPieces n d t "fade" w h fps := by
      by_cases hf : ty = "fade"
      · rw [hf]
      · exact slideshowPieces_other n d t ty w h fps hty hf
    rw [hfade, slideshowPieces_fade]
    by_cases h2e : n = 2
    · subst h2e
      apply wellFormed_of_chain
      · rfl
      · simp [fadeChain, readsResolved, FilterPiece.reads, List.range_succ]
      · simp [fadeChain, FilterPiece.produces?]
      · simp [fadeChain, FilterPiece.produces?]
    · have h3 : 3 ≤ n := by omega
      obtain ⟨m, hm⟩ : ∃ m, n - 2 = m + 1 := ⟨n - 3, by omega⟩
      have hchain : fadeChain n d t
          = FilterPiece.xfade (.v 0) (.v 1) t (d - t) (.vt 1)
            :: ((List.range (m + 1)).map fun j => fadeLoopBody n d t (j + 2)) := by
        simp only [fadeChain, if_neg h2e, hm]
      obtain ⟨r1, r2, r3⟩ := fadeLoop_wellFormed n d t m 2
        ((List.range n).map StreamLabel.v ++ [.vt 1]) (by omega) (by omega)
        (fun i hi => List.mem_append_left _ (hv i hi)) (by simp)
      rw [hchain]
      apply wellFormed_of_chain
      · rw [List.filterMap_cons]
        have := fadeLoop_inputs n d t ((List.range (m + 1)).map fun j => j + 2)
        rw [List.map_map] at this
        simpa [FilterPiece.input?] using this
      · simp only [readsResolved, FilterPiece.reads, FilterPiece.produces?, Option.toList_some,
          Bool.and_eq_true, List.all_eq_true, decide_eq_true_eq]
        refine ⟨?_, r1⟩
        intro l hl
        simp only [List.mem_cons, List.mem_singleton, List.not_mem_nil, or_false] at hl
        rcases hl with rfl | rfl
        · exact hv 0 (by omega)
        · exact hv 1 (by omega)
      · rw [List.filterMap_cons]
        simp only [FilterPiece.produces?]
        rw [List.count_cons, r2]
        simp
      · rw [List.getLast?_cons]
        cases hl : ((List.range (m + 1)).map fun j => fadeLoopBody n d t (j + 2)).getLast? with
        | none =>
          rw [hl] at r3
          cases r3
        | some z =>
          rw [hl] at r3
          simpa using r3

theorem statusWrites_append (xs ys : List Effect) :
    statusWrites (xs ++ ys) = statusWrites xs ++ statusWrites ys := by
  simp [statusWrites, List.filterMap_append]

theorem statusWrites_of_no_write (ys : List Effect) (h : ∀ y ∈ ys, y.status? = none) :
    statusWrites ys = [] := by
  unfold statusWrites
  rw [List.filterMap_eq_nil_iff]
  exact h

/-- The statuses written by a per-task body in which nothing panics end with
`completed` when the body returns no error, and with `failed` when it returns
one. -/
theorem body_ends_terminal (slideshow : Bool) (cfg : WorkerConfig) (env : Env) (task : Task)
    (run : BodyRun) :
    ((perTaskBody slideshow cfg env task run none).err = none
        ∧ ∃ xs, statusWrites (perTaskBody slideshow cfg env task run none).trace
            = xs ++ [TaskStatusCompleted])
      ∨ ((perTaskBody slideshow cfg env task run none).err ≠ none
        ∧ ∃ xs, statusWrites (perTaskBody slideshow cfg env task run none).trace
            = xs ++ [TaskStatusFailed]) := by
  obtain ⟨b, hbd⟩ : ∃ b, buildCommand slideshow cfg env task = b := ⟨_, rfl⟩
  cases hb : b.err with
  | some e =>
    right
    have hp := bodyPlan_of_build_error slideshow cfg env task run e (by rw [hbd]; exact hb)
    have ht : (perTaskBody slideshow cfg env task run none).trace
        = b.cleaned.map Effect.cleanupFile
          ++ [Effect.failTask task.ID "" "" "" ("Failed to build ffmpeg command: " ++ e),
              Effect.broadcastProgress task.ID
                { TaskID := task.ID, Status := TaskStatusFailed,
                  Message := "Failed to build ffmpeg command: " ++ e }] := by
      rw [perTaskBody, hp, hbd]
      simp [runPlan, deferredCleanup]
    refine ⟨?_, [], ?_⟩
    · rw [perTaskBody, hp]
      simp [runPlan]
    · rw [ht, statusWrites_append, statusWrites_of_no_write _ (cleanup_no_write b.cleaned)]
      rfl
  | none =>
    obtain ⟨r, reported, hx⟩ : ∃ r reported,
        Execute cfg.binaryPath b.args b.totalFrames true run.engine = (r, reported) :=
      ⟨_, _, (Prod.mk.eta).symm⟩
    have hp := bodyPlan_of_built slideshow cfg env task run b r reported hbd hb hx
    have hclean := statusWrites_of_no_write _ (cleanup_no_write b.tempFiles)
    by_cases hs : r.Success = true
    · left
      have ht := body_trace_of_success slideshow cfg env task run b r reported hbd hb hx hs
      obtain ⟨pre, taskResult, hst, _, _, _, _⟩ := successSteps_url slideshow cfg task
        (GenerateOutputPath cfg task.ID task.InputParams.OutputFormat) b.totalFrames r
        run.upload
      rw [hst] at ht
      refine ⟨?_, statusWrites ([Effect.executeWithProgress b.args b.totalFrames]
          ++ (reported.map (callbackSteps slideshow task.ID b.totalFrames)).flatten.map
              Step.effect
          ++ pre), ?_⟩
      · rw [perTaskBody, hp]
        simp [runPlan, hs]
      · rw [ht]
        simp only [statusWrites_append, hclean, List.append_nil]
        simp [statusWrites, Effect.status?]
    · right
      have hs2 : r.Success = false := by simpa using hs
      have ht := body_trace_of_failure slideshow cfg env task run b r reported hbd hb hx hs2
      refine ⟨?_, statusWrites ([Effect.executeWithProgress b.args b.totalFrames]
          ++ (reported.map (callbackSteps slideshow task.ID b.totalFrames)).flatten.map
              Step.effect), ?_⟩
      · rw [perTaskBody, hp]
        simp [runPlan, hs2]
      · rw [ht]
        simp only [statusWrites_append, hclean, List.append_nil]
        simp [statusWrites, Effect.status?]

/-- For a task of one of the two known types, when the deadline does not fire
and nothing panics, the last status `ProcessTask` writes is `completed` when it
returns no error and `failed` when it returns one. -/
theorem known_type_ends_terminal (cfg : WorkerConfig) (env : Env) (taskID : String)
    (getTask : String → Except String Task) (task : Task) (run : BodyRun)
    (hg : getTask taskID = .ok task)
    (hty : task.TaskType = "image_audio_to_video" ∨ task.TaskType = "image_slideshow") :
    ((ProcessTask cfg env (.ok taskID) getTask run none none).err = none
        ∧ (statusWrites (ProcessTask cfg env (.ok taskID) getTask run none none).trace).getLast?
          = some TaskStatusCompleted)
      ∨ ((ProcessTask cfg env (.ok taskID) getTask run none none).err ≠ none
        ∧ (statusWrites (ProcessTask cfg env (.ok taskID) getTask run none none).trace).getLast?
          = some TaskStatusFailed) := by
  have hd : ∃ slideshow, dispatchBody cfg env task run none
      = perTaskBody slideshow cfg env task run none := by
    rcases hty with h | h
    · exact ⟨false, by simp [dispatchBody, h, processImageAudioToVideo]⟩
    · exact ⟨true, by simp [dispatchBody, h, processImageSlideshow]⟩
  obtain ⟨slideshow, hd⟩ := hd
  have herr : (ProcessTask cfg env (.ok taskID) getTask run none none).err
      = (perTaskBody slideshow cfg env task run none).err := by
    simp only [ProcessTask, hg, hd]
  have htr : ∃ started, (ProcessTask cfg env (.ok taskID) getTask run none none).trace
      = started ++ (perTaskBody slideshow cfg env task run none).trace := by
    exact ⟨[Effect.updateTaskProgress taskID
          { TaskID := taskID, Status := TaskStatusProcessing },
        Effect.broadcastProgress taskID
          { TaskID := taskID, Status := TaskStatusProcessing, Progress := 0,
            Message := "Task started processing" }],
      by simp only [ProcessTask, hg, hd]⟩
  obtain ⟨started, htr⟩ := htr
  rw [herr, htr, statusWrites_append]
  rcases body_ends_terminal slideshow cfg env task run with ⟨h1, xs, h2⟩ | ⟨h1, xs, h2⟩
  · left
    refine ⟨h1, ?_⟩
    rw [h2, ← List.append_assoc, List.getLast?_concat]
  · right
    refine ⟨h1, ?_⟩
    rw [h2, ← List.append_assoc, List.getLast?_concat]

end FFmpegPlatform
